import Mathlib

/-!
# Vulkanisch: frame orchestration and render-pass sequencing

A shallow embedding of `src/common/main.cpp` (class `ApplicationHost`, the renderer
registry and `main`) and of the hosted renderers' `drawFrame` functions, with theorems
about the frame synchronisation protocol, the swapchain lifecycle, the pass graph and
the selection of the renderer.

The Vulkan backend is not part of the repository. Its answers (result codes, the
acquired image index, how far the device has progressed) are inputs of the model
(`FrameBackend`, `RecreateBackend`). Every member function returns a `Result`: how
it ended, the host state it left, and the backend calls it made, in program order,
each with the device state right after the call.

The device is modelled by the queue of submissions it has not finished. It
finishes them oldest first and signals the fence of each one it finishes, so that
a signaled fence implies that every earlier submission is complete. The host
observes the device only when it waits; progress the device makes between two
waits is accounted for at the later wait, which leaves the largest possible set of
unfinished submissions at every other call.
-/

namespace Vulkanisch

/-! ## Backend vocabulary -/

/-- The `VkResult` codes the host distinguishes, and a few other failures. -/
inductive VkResult where
  | VK_SUCCESS
  | VK_NOT_READY
  | VK_TIMEOUT
  | VK_SUBOPTIMAL_KHR
  | VK_ERROR_OUT_OF_DATE_KHR
  | VK_ERROR_OUT_OF_HOST_MEMORY
  | VK_ERROR_OUT_OF_DEVICE_MEMORY
  | VK_ERROR_DEVICE_LOST
  | VK_ERROR_SURFACE_LOST_KHR
  deriving DecidableEq, Repr

/-- `UINT64_MAX`, the timeout the host passes to every wait and acquisition. -/
def UINT64_MAX : Nat := 2 ^ 64 - 1

/-- `UINT_MAX` for the 32-bit `unsigned int` of the image-count computation. -/
def UINT_MAX : Nat := 2 ^ 32 - 1

/-- The two semaphores of a `Frame`, named by the slot that owns them. -/
inductive Semaphore where
  | availableForWriting (slot : Nat)
  | renderFinished_forGPU (slot : Nat)
  deriving DecidableEq, Repr

/-- The `throw std::runtime_error(...)` sites reachable from `drawFrame` and
`recreateSwapChain`, plus an exception leaving the hosted renderer. -/
inductive Failure where
  | acquireImage
  | beginCommandBuffer
  | hostedDrawFrame
  | endCommandBuffer
  | queueSubmit
  | queuePresent
  | createSwapChain
  | createRenderPass
  | createImageView
  | createFramebuffer
  | allocateCommandBuffers
  | createSemaphore
  | createFence
  | hostedAppCreation
  deriving DecidableEq, Repr

/-- The message of each `std::runtime_error` (the hosted renderer's own message is
not fixed by the host). -/
def Failure.what : Failure → String
  | .acquireImage => "failed to acquire swap chain image"
  | .beginCommandBuffer => "failed to begin recording command buffer"
  | .hostedDrawFrame => "hosted renderer"
  | .endCommandBuffer => "failed to record command buffer"
  | .queueSubmit => "failed to submit draw command buffer"
  | .queuePresent => "failed to present swap chain image"
  | .createSwapChain => "failed to create swap chain"
  | .createRenderPass => "failed to create render pass"
  | .createImageView => "failed to create image views!"
  | .createFramebuffer => "failed to create framebuffer"
  | .allocateCommandBuffers => "failed to allocate command buffers"
  | .createSemaphore => "failed to create semaphore for a frame"
  | .createFence => "failed to create synchronization objects for a frame"
  | .hostedAppCreation => "hosted renderer creation"

/-- The backend calls made by the host. Objects are named by their index: image
`i` stands for `swapchainImages[i]` (its view, framebuffer and command buffer),
slot `k` for `frameSync[k]`. -/
inductive Op where
  | vkWaitForFences (slot : Nat) (timeout : Nat)
  | vkAcquireNextImageKHR (timeout : Nat) (semaphore : Semaphore) (result : VkResult)
      (imageIndex : Nat)
  | vkBeginCommandBuffer (image : Nat) (result : VkResult)
  | hostedDrawFrame (image : Nat) (returned : Bool)
  | vkEndCommandBuffer (image : Nat) (result : VkResult)
  | vkResetFences (slot : Nat)
  | vkQueueSubmit (waitSemaphore : Semaphore) (commandBuffer : Nat)
      (signalSemaphore : Semaphore) (fence : Nat) (result : VkResult)
  | vkQueuePresentKHR (waitSemaphore : Semaphore) (imageIndex : Nat) (result : VkResult)
  | vkDeviceWaitIdle
  | hostedAppReset
  | vkDestroyFramebuffer (image : Nat)
  | vkDestroyImageView (image : Nat)
  | vkFreeCommandBuffers (image : Nat)
  | vkDestroyRenderPass
  | vkDestroySwapchainKHR
  | vkDestroySemaphore (semaphore : Semaphore)
  | vkDestroyFence (slot : Nat)
  | vkCreateSwapchainKHR (minImageCount : Nat) (result : VkResult)
  | vkGetSwapchainImagesKHR (imageCount : Nat)
  | vkCreateRenderPass (result : VkResult)
  | vkCreateImageView (image : Nat) (result : VkResult)
  | vkCreateFramebuffer (image : Nat) (result : VkResult)
  | vkAllocateCommandBuffers (image : Nat) (result : VkResult)
  | vkCreateSemaphore (semaphore : Semaphore) (result : VkResult)
  | vkCreateFence (slot : Nat) (result : VkResult)
  | hostedAppCreate (returned : Bool)
  | vkDestroyCommandPool
  | vkDestroyDevice
  | vkDestroySurfaceKHR
  | vkDestroyInstance
  | SDL_DestroyWindow
  | SDL_QuitSubSystem
  deriving DecidableEq, Repr

/-! ## Host state -/

/-- Model of `ApplicationHost::SwapChainImage`: the handles are named by the
position in `swapchainImages`, so only `syncIdx` (index into `frameSync`, `-1` for
none) carries state. -/
structure SwapChainImage where
  syncIdx : Int := -1
  deriving DecidableEq, Repr

/-- Model of `ApplicationHost::Frame`. The semaphores are named by the slot; the
field records whether the fence `renderFinished_forCPU` is signaled. -/
structure Frame where
  renderFinished_forCPU : Bool := false
  deriving DecidableEq, Repr

/-- A command buffer handed to `vkQueueSubmit` that the device has not finished:
the image whose command buffer it is and the slot whose fence it signals. -/
structure Submission where
  commandBuffer : Nat
  fence : Nat
  deriving DecidableEq, Repr

/-- A logged backend call with the device state right after it: the unfinished
submissions and the fences. -/
structure Event where
  op : Op
  queue : List Submission
  frameSync : List Frame
  deriving DecidableEq, Repr

/-- Model of the data members of `ApplicationHost` that the frame loop reads or
writes, with the device-side queue of unfinished submissions (oldest first). -/
structure ApplicationHost where
  swapchainImages : List SwapChainImage := []
  frameSync : List Frame := []
  currFrameSync : Nat := 0
  framebufferResized : Bool := false
  hostedApp : Bool := false
  queue : List Submission := []
  deriving DecidableEq, Repr

/-- How a call ended: it returned, it threw, it never returns (a wait without
timeout on a fence nothing will signal), or it indexed a vector out of range. -/
inductive Status where
  | returned
  | thrown (failure : Failure)
  | blocked
  | undefined
  deriving DecidableEq, Repr

/-- Outcome of a member function: how it ended, the host state it left and the
backend calls it made, in program order. -/
structure Result where
  status : Status
  host : ApplicationHost
  events : List Event := []
  deriving DecidableEq, Repr

/-- Sequencing: continue only after a normal return; the calls accumulate. -/
def Result.andThen (r : Result) (f : ApplicationHost → Result) : Result :=
  match r.status with
  | .returned => ⟨(f r.host).status, (f r.host).host, r.events ++ (f r.host).events⟩
  | _ => r

/-- A normal return without backend call. -/
def ret (s : ApplicationHost) : Result := ⟨.returned, s, []⟩

/-- A `throw std::runtime_error`. -/
def raise (f : Failure) (s : ApplicationHost) : Result := ⟨.thrown f, s, []⟩

/-- A backend call that returns, logged with the device state at that moment. -/
def call (op : Op) (s : ApplicationHost) : Result :=
  ⟨.returned, s, [⟨op, s.queue, s.frameSync⟩]⟩

/-- Run `body i` for each index in order, stopping at the first call that does
not return (a range-based `for` whose body may throw). -/
def forEach (body : Nat → ApplicationHost → Result) : List Nat → ApplicationHost → Result
  | [], s => ret s
  | i :: is, s => (body i s).andThen (forEach body is)

/-! ## Device model -/

/-- Signal the fence of slot `k`. -/
def signalFence (k : Nat) (fs : List Frame) : List Frame :=
  fs.set k ⟨true⟩

/-- The device finishes its oldest unfinished submission and signals its fence. -/
def completeOne (s : ApplicationHost) : ApplicationHost :=
  match s.queue with
  | [] => s
  | q :: qs => { s with queue := qs, frameSync := signalFence q.fence s.frameSync }

/-- The device finishes its `n` oldest unfinished submissions, in order. -/
def advance : Nat → ApplicationHost → ApplicationHost
  | 0, s => s
  | n + 1, s => advance n (completeOne s)

/-- Is the fence of slot `k` signaled? -/
def fenceSignaled (k : Nat) (s : ApplicationHost) : Bool :=
  match s.frameSync[k]? with
  | some f => f.renderFinished_forCPU
  | none => false

/-- The device works through its queue, oldest first, until the fence of slot `k`
is signaled; `none` when the queue runs dry first. -/
def waitLoop (k : Nat) : Nat → ApplicationHost → Option ApplicationHost
  | 0, s => if fenceSignaled k s then some s else none
  | fuel + 1, s => if fenceSignaled k s then some s else waitLoop k fuel (completeOne s)

/-- Model of `vkWaitForFences(device, 1, &frameSync[k].renderFinished_forCPU, VK_TRUE,
UINT64_MAX)`: returns once the fence is signaled; meanwhile the device may have
finished `extra` further submissions. With no timeout, a fence that no unfinished
submission signals blocks the caller for ever. -/
def vkWaitForFences (extra : Nat) (k : Nat) (s : ApplicationHost) : Result :=
  if k < s.frameSync.length then
    match waitLoop k s.queue.length s with
    | some s1 => call (.vkWaitForFences k UINT64_MAX) (advance extra s1)
    | none =>
      { call (.vkWaitForFences k UINT64_MAX) (advance s.queue.length s) with
        status := .blocked }
  else ⟨.undefined, s, []⟩

/-- Model of `vkDeviceWaitIdle`: every unfinished submission completes. -/
def vkDeviceWaitIdle (s : ApplicationHost) : Result :=
  call .vkDeviceWaitIdle (advance s.queue.length s)

/-! ## Swapchain lifecycle -/

/-- What the backend answers during one `recreateSwapChain`. The per-object
answers are indexed by the image, respectively the semaphore or slot, they are
asked for. -/
structure RecreateBackend where
  minImageCount : Nat := 2
  maxImageCount : Nat := 0
  createSwapchainResult : VkResult := .VK_SUCCESS
  imageCount : Nat := 3
  createRenderPassResult : VkResult := .VK_SUCCESS
  createImageViewResult : Nat → VkResult := fun _ => .VK_SUCCESS
  createFramebufferResult : Nat → VkResult := fun _ => .VK_SUCCESS
  allocateCommandBuffersResult : Nat → VkResult := fun _ => .VK_SUCCESS
  createSemaphoreResult : Semaphore → VkResult := fun _ => .VK_SUCCESS
  createFenceResult : Nat → VkResult := fun _ => .VK_SUCCESS
  hostedAppCreated : Bool := true

/-- The image count `createSwapChain` puts in `createInfo.minImageCount`:
`maxImageCount = caps.maxImageCount > 0 ? caps.maxImageCount : UINT_MAX` and
`std::min(caps.minImageCount + 1, maxImageCount)` on `uint32_t`. -/
def requestedImageCount (minImageCount maxImageCount : Nat) : Nat :=
  let maxImageCount := if maxImageCount > 0 then maxImageCount else UINT_MAX
  min ((minImageCount + 1) % 2 ^ 32) maxImageCount

/-- Model of `std::vector<SwapChainImage>::resize(n)`: keeps the first `n` elements
and appends value-initialised ones (`syncIdx = -1`) up to length `n`. -/
def resizeImages (n : Nat) (imgs : List SwapChainImage) : List SwapChainImage :=
  imgs.take n ++ List.replicate (n - imgs.length) ⟨-1⟩

/-- Model of `std::vector<Frame>::resize(n)`; a value-initialised `Frame` has no
fence yet. -/
def resizeFrames (n : Nat) (fs : List Frame) : List Frame :=
  fs.take n ++ List.replicate (n - fs.length) ⟨false⟩

/-- Body of the first loop of `cleanupSwapChain`, for image `i`. -/
def destroyImageTargets (i : Nat) (s : ApplicationHost) : Result :=
  (call (.vkDestroyFramebuffer i) s).andThen fun s =>
  (call (.vkDestroyImageView i) s).andThen fun s =>
  call (.vkFreeCommandBuffers i) s

/-- Body of the second loop of `cleanupSwapChain`, for slot `k`. -/
def destroyFrameSync (k : Nat) (s : ApplicationHost) : Result :=
  (call (.vkDestroySemaphore (.availableForWriting k)) s).andThen fun s =>
  (call (.vkDestroySemaphore (.renderFinished_forGPU k)) s).andThen fun s =>
  call (.vkDestroyFence k) s

/-- Model of `ApplicationHost::cleanupSwapChain`. -/
def cleanupSwapChain (s : ApplicationHost) : Result :=
  (vkDeviceWaitIdle s).andThen fun s =>
  (call .hostedAppReset { s with hostedApp := false }).andThen fun s =>
  (forEach destroyImageTargets (List.range s.swapchainImages.length) s).andThen fun s =>
  (call .vkDestroyRenderPass s).andThen fun s =>
  (call .vkDestroySwapchainKHR s).andThen fun s =>
  forEach destroyFrameSync (List.range s.frameSync.length) s

/-- Model of `ApplicationHost::createSwapChain`. -/
def createSwapChain (b : RecreateBackend) (s : ApplicationHost) : Result :=
  (call (.vkCreateSwapchainKHR (requestedImageCount b.minImageCount b.maxImageCount)
    b.createSwapchainResult) s).andThen fun s =>
  if b.createSwapchainResult ≠ .VK_SUCCESS then raise .createSwapChain s
  else
    (call (.vkGetSwapchainImagesKHR b.imageCount) s).andThen fun s =>
    ret { s with swapchainImages := resizeImages b.imageCount s.swapchainImages }

/-- Model of `createRenderPass` as called by `recreateSwapChain`. -/
def createRenderPass (b : RecreateBackend) (s : ApplicationHost) : Result :=
  (call (.vkCreateRenderPass b.createRenderPassResult) s).andThen fun s =>
  if b.createRenderPassResult ≠ .VK_SUCCESS then raise .createRenderPass s else ret s

/-- Body of the loop of `recreateSwapChain` over `swapchainImages`:
`createImageView` then `createFramebuffer` for image `i`. -/
def createImageTargets (b : RecreateBackend) (i : Nat) (s : ApplicationHost) : Result :=
  (call (.vkCreateImageView i (b.createImageViewResult i)) s).andThen fun s =>
  if b.createImageViewResult i ≠ .VK_SUCCESS then raise .createImageView s
  else
    (call (.vkCreateFramebuffer i (b.createFramebufferResult i)) s).andThen fun s =>
    if b.createFramebufferResult i ≠ .VK_SUCCESS then raise .createFramebuffer s else ret s

/-- Body of the loop of `createCommandBuffers`. -/
def allocateCommandBuffer (b : RecreateBackend) (i : Nat) (s : ApplicationHost) : Result :=
  (call (.vkAllocateCommandBuffers i (b.allocateCommandBuffersResult i)) s).andThen fun s =>
  if b.allocateCommandBuffersResult i ≠ .VK_SUCCESS then raise .allocateCommandBuffers s
  else ret s

/-- Model of `ApplicationHost::createCommandBuffers`. -/
def createCommandBuffers (b : RecreateBackend) (s : ApplicationHost) : Result :=
  forEach (allocateCommandBuffer b) (List.range s.swapchainImages.length) s

/-- Body of the loop of `createSyncObjects`: two semaphores, then the fence, which
is created with `VK_FENCE_CREATE_SIGNALED_BIT`. -/
def createFrameSync (b : RecreateBackend) (k : Nat) (s : ApplicationHost) : Result :=
  (call (.vkCreateSemaphore (.availableForWriting k)
    (b.createSemaphoreResult (.availableForWriting k))) s).andThen fun s =>
  if b.createSemaphoreResult (.availableForWriting k) ≠ .VK_SUCCESS then
    raise .createSemaphore s
  else
    (call (.vkCreateSemaphore (.renderFinished_forGPU k)
      (b.createSemaphoreResult (.renderFinished_forGPU k))) s).andThen fun s =>
    if b.createSemaphoreResult (.renderFinished_forGPU k) ≠ .VK_SUCCESS then
      raise .createSemaphore s
    else if b.createFenceResult k ≠ .VK_SUCCESS then
      (call (.vkCreateFence k (b.createFenceResult k)) s).andThen (raise .createFence)
    else
      call (.vkCreateFence k (b.createFenceResult k))
        { s with frameSync := signalFence k s.frameSync }

/-- Model of `ApplicationHost::createSyncObjects`: `frameSync.resize(2)`, then the
loop over the slots. -/
def createSyncObjects (b : RecreateBackend) (s : ApplicationHost) : Result :=
  forEach (createFrameSync b) (List.range (resizeFrames 2 s.frameSync).length)
    { s with frameSync := resizeFrames 2 s.frameSync }

/-- Model of `hostedApp.reset(hostedAppCreationFunc(ctx))`. -/
def createHostedApp (b : RecreateBackend) (s : ApplicationHost) : Result :=
  (call (.hostedAppCreate b.hostedAppCreated) s).andThen fun s =>
  if b.hostedAppCreated then ret { s with hostedApp := true }
  else raise .hostedAppCreation s

/-- Model of `ApplicationHost::recreateSwapChain`. -/
def recreateSwapChain (b : RecreateBackend) (s : ApplicationHost) : Result :=
  (cleanupSwapChain s).andThen fun s =>
  (createSwapChain b s).andThen fun s =>
  (createRenderPass b s).andThen fun s =>
  (forEach (createImageTargets b) (List.range s.swapchainImages.length) s).andThen fun s =>
  (createCommandBuffers b s).andThen fun s =>
  (createSyncObjects b s).andThen fun s =>
  createHostedApp b s

/-- Model of the part of the constructor that touches the modelled state:
`initVulkan` ends with `recreateSwapChain()` on the value-initialised members. -/
def ApplicationHost.construct (b : RecreateBackend) : Result :=
  recreateSwapChain b {}

/-- Model of `ApplicationHost::~ApplicationHost`. -/
def ApplicationHost.destroy (s : ApplicationHost) : Result :=
  (cleanupSwapChain s).andThen fun s =>
  (call .vkDestroyCommandPool s).andThen fun s =>
  (call .vkDestroyDevice s).andThen fun s =>
  (call .vkDestroySurfaceKHR s).andThen fun s =>
  (call .vkDestroyInstance s).andThen fun s =>
  (call .SDL_DestroyWindow s).andThen fun s =>
  call .SDL_QuitSubSystem s

/-! ## The frame -/

/-- What the backend answers during one `drawFrame`. -/
structure FrameBackend where
  progressAtSlotWait : Nat := 0
  acquireResult : VkResult := .VK_SUCCESS
  imageIndex : Nat := 0
  progressAtImageWait : Nat := 0
  beginResult : VkResult := .VK_SUCCESS
  hostedAppReturns : Bool := true
  endResult : VkResult := .VK_SUCCESS
  submitResult : VkResult := .VK_SUCCESS
  presentResult : VkResult := .VK_SUCCESS
  recreate : RecreateBackend := {}

/-- Model of `ApplicationHost::recordCommandBuffer` for the command buffer and
framebuffer of image `image`. -/
def recordCommandBuffer (b : FrameBackend) (image : Nat) (s : ApplicationHost) : Result :=
  (call (.vkBeginCommandBuffer image b.beginResult) s).andThen fun s =>
  if b.beginResult ≠ .VK_SUCCESS then raise .beginCommandBuffer s
  else if s.hostedApp = false then ⟨.undefined, s, []⟩
  else
    (call (.hostedDrawFrame image b.hostedAppReturns) s).andThen fun s =>
    if b.hostedAppReturns = false then raise .hostedDrawFrame s
    else
      (call (.vkEndCommandBuffer image b.endResult) s).andThen fun s =>
      if b.endResult ≠ .VK_SUCCESS then raise .endCommandBuffer s else ret s

/-- Model of `vkResetFences` on the fence of slot `k`. -/
def vkResetFences (k : Nat) (s : ApplicationHost) : Result :=
  call (.vkResetFences k) { s with frameSync := s.frameSync.set k ⟨false⟩ }

/-- Model of `vkQueueSubmit` of the command buffer of `image` with the semaphores
and the fence of slot `k`: on success the command buffer joins the device queue. -/
def vkQueueSubmit (b : FrameBackend) (image : Nat) (k : Nat) (s : ApplicationHost) : Result :=
  call (.vkQueueSubmit (.availableForWriting k) image (.renderFinished_forGPU k) k
    b.submitResult)
    (if b.submitResult = .VK_SUCCESS then { s with queue := s.queue ++ [⟨image, k⟩] } else s)

/-- The "submit" block of `drawFrame`. -/
def submitFrame (b : FrameBackend) (image : Nat) (s : ApplicationHost) : Result :=
  (vkResetFences s.currFrameSync s).andThen fun s =>
  (vkQueueSubmit b image s.currFrameSync s).andThen fun s =>
  if b.submitResult ≠ .VK_SUCCESS then raise .queueSubmit s else ret s

/-- The "present" block of `drawFrame`. -/
def presentFrame (b : FrameBackend) (s : ApplicationHost) : Result :=
  (call (.vkQueuePresentKHR (.renderFinished_forGPU s.currFrameSync) b.imageIndex
    b.presentResult) s).andThen fun s =>
  if b.presentResult = .VK_ERROR_OUT_OF_DATE_KHR ∨ b.presentResult = .VK_SUBOPTIMAL_KHR
      ∨ s.framebufferResized = true then
    recreateSwapChain b.recreate { s with framebufferResized := false }
  else if b.presentResult ≠ .VK_SUCCESS then raise .queuePresent s
  else ret s

/-- The wait on the fence recorded in the acquired image's `syncIdx`. -/
def waitImage (b : FrameBackend) (syncIdx : Int) (s : ApplicationHost) : Result :=
  if syncIdx ≠ -1 then
    if 0 ≤ syncIdx then vkWaitForFences b.progressAtImageWait syncIdx.toNat s
    else ⟨.undefined, s, []⟩
  else ret s

/-- The part of `drawFrame` after a usable image was acquired. -/
def renderFrame (b : FrameBackend) (s : ApplicationHost) : Result :=
  match s.swapchainImages[b.imageIndex]? with
  | none => ⟨.undefined, s, []⟩
  | some nextImage =>
    (waitImage b nextImage.syncIdx s).andThen fun s =>
    (recordCommandBuffer b b.imageIndex { s with
      swapchainImages := s.swapchainImages.set b.imageIndex ⟨(s.currFrameSync : Int)⟩ }).andThen
    fun s =>
    (submitFrame b b.imageIndex s).andThen fun s =>
    (presentFrame b s).andThen fun s =>
    ret { s with currFrameSync := (s.currFrameSync + 1) % s.frameSync.length }

/-- Model of `ApplicationHost::drawFrame`. -/
def drawFrame (b : FrameBackend) (s : ApplicationHost) : Result :=
  (vkWaitForFences b.progressAtSlotWait s.currFrameSync s).andThen fun s =>
  (call (.vkAcquireNextImageKHR UINT64_MAX (.availableForWriting s.currFrameSync)
    b.acquireResult b.imageIndex) s).andThen fun s =>
  if b.acquireResult = .VK_ERROR_OUT_OF_DATE_KHR then recreateSwapChain b.recreate s
  else if b.acquireResult ≠ .VK_SUCCESS ∧ b.acquireResult ≠ .VK_SUBOPTIMAL_KHR then
    raise .acquireImage s
  else renderFrame b s

/-- The frame loop of `ApplicationHost::run`: one `drawFrame` per backend answer,
until a call does not return. -/
def runFrames : List FrameBackend → ApplicationHost → Result
  | [], s => ret s
  | b :: bs, s => (drawFrame b s).andThen (runFrames bs)

/-- A whole session: construction, then the frame loop. -/
def session (c : RecreateBackend) (bs : List FrameBackend) : Result :=
  (ApplicationHost.construct c).andThen (runFrames bs)

/-! ## Hosted renderers: the recorded passes -/

/-- The images a pass can render into or sample. `hdrBuffer i` is `hdrBuffer[i]` of
`Bloom` and, with `i = 0`, the single `hdrBuffer` of `FullDemo`; `bloomBuffer i` is
`bloomBuffer[i]` of `FullDemo`; `swapchain fb` is the framebuffer handed to
`drawFrame` by the host. -/
inductive RenderTarget where
  | hdrBuffer (i : Nat)
  | bloomBuffer (i : Nat)
  | shadowMap
  | swapchain (framebuffer : Nat)
  deriving DecidableEq, Repr

/-- The render passes of the renderers (`ctxRenderPass` is `ctx.renderPass`, the only
one `Texturing` and `DescriptorSets` use; `shadowRenderPass` is the one of `FullDemo`,
`shadowMapRenderPass` the one of `ShadowMap`). -/
inductive RenderPass where
  | colorRenderPass
  | postprocRenderPass
  | shadowRenderPass
  | shadowMapRenderPass
  | ctxRenderPass
  deriving DecidableEq, Repr

/-- The pipelines of the renderers. -/
inductive Pipeline where
  | colorPipeline
  | thresholdPipeline
  | horzBlurPipeline
  | vertBlurPipeline
  | tonemapPipeline
  | shadowMapPipeline
  | graphicsPipeline
  deriving DecidableEq, Repr

/-- The descriptor sets of the renderers: `descriptorSet i` is `descriptorSet[i]` of
`Bloom` and, with `i = 0`, the single `descriptorSet` of `Texturing` and of
`DescriptorSets`; `material i` is `vulkanMaterials[i].descriptorSet` of `FullDemo`. -/
inductive DescriptorSet where
  | descriptorSet (i : Nat)
  | mainSceneDescriptorSet
  | shadowMapDescriptorSet
  | postprocDescriptorSet_Hdr_And_Bloom0
  | postprocDescriptorSet_Bloom0_And_Bloom1
  | material (i : Int)
  deriving DecidableEq, Repr

/-- The host-visible uniform memories written during `drawFrame`. -/
inductive Memory where
  | uniformBufferMemory
  | shadowMapUniformBufferMemory
  deriving DecidableEq, Repr

/-- What a renderer's `drawFrame` does, in program order: the commands it records
and its writes to uniform memory. `U` is the type of a uniform block; its value is
computed from the time and the camera in floating point, which is left abstract. -/
inductive Cmd (U : Type) where
  | vkCmdBeginRenderPass (renderPass : RenderPass) (framebuffer : RenderTarget)
      (clearValueCount : Nat)
  | vkCmdBindPipeline (pipeline : Pipeline)
  | vkCmdBindVertexBuffers (vertexBuffer : Nat)
  | vkCmdBindDescriptorSets (firstSet : Nat) (set : DescriptorSet)
  | writeToGpuMemory (memory : Memory) (constants : U)
  | vkCmdDraw (vertexCount : Int)
  | vkCmdEndRenderPass
  deriving DecidableEq, Repr

/-- One render pass as recorded: where it renders, and what was bound between its
begin and its end. -/
structure Pass where
  renderPass : RenderPass
  destination : RenderTarget
  pipelines : List Pipeline := []
  boundSets : List DescriptorSet := []
  draws : List Int := []
  deriving DecidableEq, Repr

/-- Read the passes off a command sequence; `current` is the pass begun and not yet
ended. -/
def collectPasses {U : Type} : Option Pass → List (Cmd U) → List Pass
  | _, [] => []
  | _, .vkCmdBeginRenderPass rp fb _ :: cs => collectPasses (some ⟨rp, fb, [], [], []⟩) cs
  | some p, .vkCmdBindPipeline pl :: cs =>
    collectPasses (some { p with pipelines := p.pipelines ++ [pl] }) cs
  | some p, .vkCmdBindDescriptorSets _ ds :: cs =>
    collectPasses (some { p with boundSets := p.boundSets ++ [ds] }) cs
  | some p, .vkCmdDraw n :: cs => collectPasses (some { p with draws := p.draws ++ [n] }) cs
  | some p, .vkCmdEndRenderPass :: cs => p :: collectPasses none cs
  | cur, _ :: cs => collectPasses cur cs

/-- The passes of a command sequence, in recording order. -/
def passes {U : Type} (cs : List (Cmd U)) : List Pass :=
  collectPasses none cs

/-- The render targets whose view and sampler are contained in the descriptor sets
a pass binds, given the content of each set. -/
def Pass.inputs (sampled : DescriptorSet → List RenderTarget) (p : Pass) : List RenderTarget :=
  p.boundSets.flatMap sampled

/-- Destination-never-an-input, read on the bound descriptor sets: no pass renders
into a target that one of its bound sets contains. -/
def DestinationNeverBound {U : Type} (sampled : DescriptorSet → List RenderTarget)
    (cs : List (Cmd U)) : Prop :=
  ∀ p ∈ passes cs, p.destination ∉ p.inputs sampled

/-- For each pass of a command sequence, in recording order: is its destination
contained in one of the descriptor sets it binds? -/
def destinationBound {U : Type} (sampled : DescriptorSet → List RenderTarget)
    (cs : List (Cmd U)) : List Bool :=
  (passes cs).map fun p => decide (p.destination ∈ p.inputs sampled)

namespace Bloom

/-- The handle of the single `vertexBuffer`. -/
def vertexBuffer : Nat := 0

/-- The value of `lengthof(vertices)` in `src/bloom/program.cpp`. -/
def vertexCount : Int := 36

/-- Content of the descriptor sets as written by the constructor:
`setupDescriptorSet(descriptorSet[0], {hdrBuffer[0]})`, `(descriptorSet[1],
{hdrBuffer[1]})`, `(descriptorSet[2], {hdrBuffer[2]})`, `(descriptorSet[3],
{hdrBuffer[0], hdrBuffer[1]})`. -/
def sampled : DescriptorSet → List RenderTarget
  | .descriptorSet 0 => [.hdrBuffer 0]
  | .descriptorSet 1 => [.hdrBuffer 1]
  | .descriptorSet 2 => [.hdrBuffer 2]
  | .descriptorSet 3 => [.hdrBuffer 0, .hdrBuffer 1]
  | _ => []

/-- The color pass of `Bloom::drawFrame`. -/
def colorPass {U : Type} (constants : U) : List (Cmd U) :=
  [.vkCmdBeginRenderPass .colorRenderPass (.hdrBuffer 0) 1,
   .vkCmdBindPipeline .colorPipeline,
   .vkCmdBindVertexBuffers vertexBuffer,
   .vkCmdBindDescriptorSets 0 (.descriptorSet 0),
   .writeToGpuMemory .uniformBufferMemory constants,
   .vkCmdDraw vertexCount,
   .vkCmdEndRenderPass]

/-- The threshold pass of `Bloom::drawFrame`. -/
def thresholdPass {U : Type} : List (Cmd U) :=
  [.vkCmdBeginRenderPass .postprocRenderPass (.hdrBuffer 1) 0,
   .vkCmdBindPipeline .thresholdPipeline,
   .vkCmdBindDescriptorSets 0 (.descriptorSet 0),
   .vkCmdDraw 6,
   .vkCmdEndRenderPass]

/-- One iteration of the blur loop of `Bloom::drawFrame`. -/
def blurIteration {U : Type} : List (Cmd U) :=
  [.vkCmdBeginRenderPass .postprocRenderPass (.hdrBuffer 2) 0,
   .vkCmdBindPipeline .horzBlurPipeline,
   .vkCmdBindDescriptorSets 0 (.descriptorSet 1),
   .vkCmdDraw 6,
   .vkCmdEndRenderPass,
   .vkCmdBeginRenderPass .postprocRenderPass (.hdrBuffer 1) 0,
   .vkCmdBindPipeline .vertBlurPipeline,
   .vkCmdBindDescriptorSets 0 (.descriptorSet 2),
   .vkCmdDraw 6,
   .vkCmdEndRenderPass]

/-- The tone-mapping pass of `Bloom::drawFrame`. -/
def tonemapPass {U : Type} (framebuffer : Nat) : List (Cmd U) :=
  [.vkCmdBeginRenderPass .ctxRenderPass (.swapchain framebuffer) 1,
   .vkCmdBindPipeline .tonemapPipeline,
   .vkCmdBindDescriptorSets 0 (.descriptorSet 3),
   .vkCmdDraw 6,
   .vkCmdEndRenderPass]

/-- Model of `Bloom::drawFrame`; `constants` is the uniform block computed from
`time` and `m_camera`. -/
def drawFrame {U : Type} (constants : U) (framebuffer : Nat) : List (Cmd U) :=
  colorPass constants ++ thresholdPass
    ++ (List.range 4).flatMap (fun _ => blurIteration)
    ++ tonemapPass framebuffer

end Bloom

namespace FullDemo

/-- Model of `VulkanMesh`; the memory handle plays no part in `drawFrame`. -/
structure VulkanMesh where
  material : Int
  vertexCount : Int := 0
  vertexBuffer : Nat := 0
  deriving DecidableEq, Repr

/-- Content of the descriptor sets as written by the constructor:
`setupDescriptorSet_MainScene(.., shadowMap)`, `setupDescriptorSet_ShadowMapScene`
(uniform buffer only), `setupDescriptorSet_InputPicture(.., hdrBuffer,
bloomBuffer[0])`, `setupDescriptorSet_InputPicture(.., bloomBuffer[0],
bloomBuffer[1])`, `setupDescriptorSet_Material` (uniform buffer only). -/
def sampled : DescriptorSet → List RenderTarget
  | .mainSceneDescriptorSet => [.shadowMap]
  | .postprocDescriptorSet_Hdr_And_Bloom0 => [.hdrBuffer 0, .bloomBuffer 0]
  | .postprocDescriptorSet_Bloom0_And_Bloom1 => [.bloomBuffer 0, .bloomBuffer 1]
  | _ => []

/-- Model of `FullDemo::drawShadowMap`. -/
def drawShadowMap {U : Type} (meshes : List VulkanMesh) (target : RenderTarget)
    (constants : U) : List (Cmd U) :=
  [.vkCmdBeginRenderPass .shadowRenderPass target 1,
   .vkCmdBindPipeline .shadowMapPipeline]
  ++ meshes.flatMap (fun mesh =>
      [.vkCmdBindVertexBuffers mesh.vertexBuffer,
       .vkCmdBindDescriptorSets 0 .shadowMapDescriptorSet,
       .writeToGpuMemory .shadowMapUniformBufferMemory constants,
       .vkCmdDraw mesh.vertexCount])
  ++ [.vkCmdEndRenderPass]

/-- Model of `FullDemo::drawMainScene`. -/
def drawMainScene {U : Type} (meshes : List VulkanMesh) (target : RenderTarget)
    (constants : U) : List (Cmd U) :=
  [.vkCmdBeginRenderPass .colorRenderPass target 2,
   .vkCmdBindPipeline .colorPipeline]
  ++ meshes.flatMap (fun mesh =>
      [.vkCmdBindVertexBuffers mesh.vertexBuffer,
       .vkCmdBindDescriptorSets 0 .mainSceneDescriptorSet,
       .vkCmdBindDescriptorSets 1 (.material mesh.material),
       .writeToGpuMemory .uniformBufferMemory constants,
       .vkCmdDraw mesh.vertexCount])
  ++ [.vkCmdEndRenderPass]

/-- The threshold pass of `FullDemo::drawFrame`. -/
def thresholdPass {U : Type} : List (Cmd U) :=
  [.vkCmdBeginRenderPass .postprocRenderPass (.bloomBuffer 0) 0,
   .vkCmdBindPipeline .thresholdPipeline,
   .vkCmdBindDescriptorSets 0 .postprocDescriptorSet_Hdr_And_Bloom0,
   .vkCmdDraw 6,
   .vkCmdEndRenderPass]

/-- One iteration of the blur loop of `FullDemo::drawFrame`. -/
def blurIteration {U : Type} : List (Cmd U) :=
  [.vkCmdBeginRenderPass .postprocRenderPass (.bloomBuffer 1) 0,
   .vkCmdBindPipeline .horzBlurPipeline,
   .vkCmdBindDescriptorSets 0 .postprocDescriptorSet_Bloom0_And_Bloom1,
   .vkCmdDraw 6,
   .vkCmdEndRenderPass,
   .vkCmdBeginRenderPass .postprocRenderPass (.bloomBuffer 0) 0,
   .vkCmdBindPipeline .vertBlurPipeline,
   .vkCmdBindDescriptorSets 0 .postprocDescriptorSet_Bloom0_And_Bloom1,
   .vkCmdDraw 6,
   .vkCmdEndRenderPass]

/-- The tone-mapping pass of `FullDemo::drawFrame`. -/
def tonemapPass {U : Type} (swapchainFramebuffer : Nat) : List (Cmd U) :=
  [.vkCmdBeginRenderPass .ctxRenderPass (.swapchain swapchainFramebuffer) 1,
   .vkCmdBindPipeline .tonemapPipeline,
   .vkCmdBindDescriptorSets 0 .postprocDescriptorSet_Hdr_And_Bloom0,
   .vkCmdDraw 6,
   .vkCmdEndRenderPass]

/-- Model of `FullDemo::drawFrame`; `lightConstants` and `sceneConstants` are the
uniform blocks computed from `time` and `m_camera` for the two scene passes. -/
def drawFrame {U : Type} (meshes : List VulkanMesh) (lightConstants sceneConstants : U)
    (swapchainFramebuffer : Nat) : List (Cmd U) :=
  drawShadowMap meshes .shadowMap lightConstants
    ++ drawMainScene meshes (.hdrBuffer 0) sceneConstants
    ++ thresholdPass
    ++ (List.range 4).flatMap (fun _ => blurIteration)
    ++ tonemapPass swapchainFramebuffer

end FullDemo

namespace ShadowMap

/-- The handle of the single `vertexBuffer`. -/
def vertexBuffer : Nat := 0

/-- The value of `lengthof(vertices)` in `src/shadowmap/program.cpp`. -/
def vertexCount : Int := 42

/-- Content of the descriptor sets as written by the constructor: the main scene set
holds the shadow map's sampler and view, the shadow map set a uniform buffer only. -/
def sampled : DescriptorSet → List RenderTarget
  | .mainSceneDescriptorSet => [.shadowMap]
  | _ => []

/-- Model of `ShadowMap::drawFrame`. -/
def drawFrame {U : Type} (lightConstants sceneConstants : U) (framebuffer : Nat) :
    List (Cmd U) :=
  [.vkCmdBeginRenderPass .shadowMapRenderPass .shadowMap 1,
   .vkCmdBindPipeline .shadowMapPipeline,
   .vkCmdBindVertexBuffers vertexBuffer,
   .vkCmdBindDescriptorSets 0 .shadowMapDescriptorSet,
   .writeToGpuMemory .shadowMapUniformBufferMemory lightConstants,
   .vkCmdDraw vertexCount,
   .vkCmdEndRenderPass,
   .vkCmdBeginRenderPass .ctxRenderPass (.swapchain framebuffer) 1,
   .vkCmdBindPipeline .graphicsPipeline,
   .vkCmdBindVertexBuffers vertexBuffer,
   .vkCmdBindDescriptorSets 0 .mainSceneDescriptorSet,
   .writeToGpuMemory .uniformBufferMemory sceneConstants,
   .vkCmdDraw vertexCount,
   .vkCmdEndRenderPass]

end ShadowMap

namespace Texturing

/-- The handle of the single `vertexBuffer`. -/
def vertexBuffer : Nat := 0

/-- Content of the single `descriptorSet` (here `descriptorSet 0`) as written by the
constructor: the checkerboard `texture`, which no pass renders into, and the uniform
buffer. It holds no render target. -/
def sampled : DescriptorSet → List RenderTarget :=
  fun _ => []

/-- Model of `Texturing::drawFrame`; `constants` is the uniform block computed from
`time`. -/
def drawFrame {U : Type} (constants : U) (framebuffer : Nat) : List (Cmd U) :=
  [.vkCmdBeginRenderPass .ctxRenderPass (.swapchain framebuffer) 1,
   .vkCmdBindPipeline .graphicsPipeline,
   .vkCmdBindVertexBuffers vertexBuffer,
   .vkCmdBindDescriptorSets 0 (.descriptorSet 0),
   .writeToGpuMemory .uniformBufferMemory constants,
   .vkCmdDraw 3,
   .vkCmdEndRenderPass]

end Texturing

namespace DescriptorSets

/-- The handle of the single `vertexBuffer`. -/
def vertexBuffer : Nat := 0

/-- Content of the single `descriptorSet` (here `descriptorSet 0`) as written by the
constructor: the uniform buffer only. -/
def sampled : DescriptorSet → List RenderTarget :=
  fun _ => []

/-- Model of `DescriptorSets::drawFrame`; `constants` is the uniform block computed
from `time`. The uniform write comes before the descriptor set is bound. -/
def drawFrame {U : Type} (constants : U) (framebuffer : Nat) : List (Cmd U) :=
  [.vkCmdBeginRenderPass .ctxRenderPass (.swapchain framebuffer) 1,
   .vkCmdBindPipeline .graphicsPipeline,
   .vkCmdBindVertexBuffers vertexBuffer,
   .writeToGpuMemory .uniformBufferMemory constants,
   .vkCmdBindDescriptorSets 0 (.descriptorSet 0),
   .vkCmdDraw 9,
   .vkCmdEndRenderPass]

end DescriptorSets

/-! ## Specification vocabulary -/

/-- The outcome `r` made only calls satisfying `P` and, if it returned, left a host
satisfying `Q`. -/
def Result.Sat (r : Result) (P : Event → Prop) (Q : ApplicationHost → Prop) : Prop :=
  (∀ e ∈ r.events, P e) ∧ (r.status = .returned → Q r.host)

/-- The calls that record into a command buffer. -/
def Op.isRecording : Op → Bool
  | .vkBeginCommandBuffer _ _ => true
  | .hostedDrawFrame _ _ => true
  | .vkEndCommandBuffer _ _ => true
  | _ => false

/-- The queue submissions. -/
def Op.isSubmit : Op → Bool
  | .vkQueueSubmit _ _ _ _ _ => true
  | _ => false

/-- The presentations. -/
def Op.isPresent : Op → Bool
  | .vkQueuePresentKHR _ _ _ => true
  | _ => false

/-- The calls of the per-frame protocol: wait, acquire, record, reset, submit,
present. All other calls belong to the swapchain lifecycle. -/
def Op.isFrameOp : Op → Bool
  | .vkWaitForFences _ _ => true
  | .vkAcquireNextImageKHR _ _ _ _ => true
  | .vkBeginCommandBuffer _ _ => true
  | .hostedDrawFrame _ _ => true
  | .vkEndCommandBuffer _ _ => true
  | .vkResetFences _ => true
  | .vkQueueSubmit _ _ _ _ _ => true
  | .vkQueuePresentKHR _ _ _ => true
  | _ => false

/-- The destroying calls. -/
def Op.isDestroy : Op → Bool
  | .hostedAppReset => true
  | .vkDestroyFramebuffer _ => true
  | .vkDestroyImageView _ => true
  | .vkFreeCommandBuffers _ => true
  | .vkDestroyRenderPass => true
  | .vkDestroySwapchainKHR => true
  | .vkDestroySemaphore _ => true
  | .vkDestroyFence _ => true
  | .vkDestroyCommandPool => true
  | .vkDestroyDevice => true
  | .vkDestroySurfaceKHR => true
  | .vkDestroyInstance => true
  | .SDL_DestroyWindow => true
  | .SDL_QuitSubSystem => true
  | _ => false

/-- The backend calls of an outcome, without the device snapshots. -/
def Result.ops (r : Result) : List Op :=
  r.events.map (·.op)

/-- Every unfinished submission is followed in the queue, or is itself, the
submission that signals the fence recorded in the `syncIdx` of its image. -/
def Tracked (imgs : List SwapChainImage) : List Submission → Prop
  | [] => True
  | q :: qs =>
    (∃ q' ∈ q :: qs, imgs[q.commandBuffer]? = some ⟨(q'.fence : Int)⟩) ∧ Tracked imgs qs

/-- The state between two frames of a running host: a ring of two slots, a valid
current slot, valid tracking entries, and a device queue in which every unsignaled
fence has exactly one unfinished submission that will signal it. -/
structure Consistent (s : ApplicationHost) : Prop where
  ring : s.frameSync.length = 2
  current : s.currFrameSync < 2
  resized : s.framebufferResized = false
  hosted : s.hostedApp = true
  entries : ∀ im ∈ s.swapchainImages, im.syncIdx = -1 ∨ im.syncIdx = 0 ∨ im.syncIdx = 1
  distinct : (s.queue.map (·.fence)).Nodup
  inRange : ∀ q ∈ s.queue, q.fence < 2
  pending : ∀ k, k < 2 → (fenceSignaled k s = false ↔ k ∈ s.queue.map (·.fence))
  tracked : Tracked s.swapchainImages s.queue

/-- What `recreateSwapChain` needs of the state it starts from. -/
structure Recreatable (s : ApplicationHost) : Prop where
  ring : s.frameSync.length ≤ 2
  current : s.currFrameSync < 2
  resized : s.framebufferResized = false
  entries : ∀ im ∈ s.swapchainImages, im.syncIdx = -1 ∨ im.syncIdx = 0 ∨ im.syncIdx = 1

/-- The safety conditions read on a logged call: at most two unfinished
submissions, at most two slots, and no recording begun on an image whose command
buffer is in an unfinished submission. -/
def EventSafe (e : Event) : Prop :=
  e.queue.length ≤ 2 ∧ e.frameSync.length ≤ 2 ∧
    ∀ image result, e.op = .vkBeginCommandBuffer image result →
      ∀ q ∈ e.queue, q.commandBuffer ≠ image

/-- Every backend answer of a recreation is a success. -/
def RecreateBackend.Succeeds (b : RecreateBackend) : Prop :=
  b.createSwapchainResult = .VK_SUCCESS ∧ b.createRenderPassResult = .VK_SUCCESS ∧
  (∀ i, b.createImageViewResult i = .VK_SUCCESS) ∧
  (∀ i, b.createFramebufferResult i = .VK_SUCCESS) ∧
  (∀ i, b.allocateCommandBuffersResult i = .VK_SUCCESS) ∧
  (∀ x, b.createSemaphoreResult x = .VK_SUCCESS) ∧
  (∀ k, b.createFenceResult k = .VK_SUCCESS) ∧ b.hostedAppCreated = true

/-- Every backend answer of a frame is a plain success (no stale or suboptimal
result) and the hosted renderer returns. -/
def FrameBackend.Nominal (b : FrameBackend) : Prop :=
  b.acquireResult = .VK_SUCCESS ∧ b.beginResult = .VK_SUCCESS ∧ b.hostedAppReturns = true ∧
  b.endResult = .VK_SUCCESS ∧ b.submitResult = .VK_SUCCESS ∧ b.presentResult = .VK_SUCCESS

/-- The host `s2` differs from `s` by device progress only: some of the oldest
submissions finished and their fences were signaled. -/
structure Progress (s s2 : ApplicationHost) : Prop where
  images : s2.swapchainImages = s.swapchainImages
  current : s2.currFrameSync = s.currFrameSync
  resized : s2.framebufferResized = s.framebufferResized
  hosted : s2.hostedApp = s.hostedApp
  ring : s2.frameSync.length = s.frameSync.length
  signaled : ∀ k, fenceSignaled k s = true → fenceSignaled k s2 = true
  queue : ∀ q ∈ s2.queue, q ∈ s.queue
  shorter : s2.queue.length ≤ s.queue.length
  consistent : Consistent s → Consistent s2

/-- The state during a recreation, once the device is idle. -/
structure Idle (s : ApplicationHost) : Prop where
  queue : s.queue = []
  ring : s.frameSync.length ≤ 2
  current : s.currFrameSync < 2
  resized : s.framebufferResized = false
  entries : ∀ im ∈ s.swapchainImages, im.syncIdx = -1 ∨ im.syncIdx = 0 ∨ im.syncIdx = 1

/-- The order of teardown as the specification states it, for `images` presentable
images and `slots` frame slots: wait for the device, release the hosted renderer,
then the per-image render targets, then the render pass and the image chain, then
the frame-slot ring. -/
def teardownOrder (images slots : Nat) : List Op :=
  [.vkDeviceWaitIdle, .hostedAppReset]
  ++ (List.range images).flatMap (fun i =>
      [.vkDestroyFramebuffer i, .vkDestroyImageView i, .vkFreeCommandBuffers i])
  ++ [.vkDestroyRenderPass, .vkDestroySwapchainKHR]
  ++ (List.range slots).flatMap (fun k =>
      [.vkDestroySemaphore (.availableForWriting k),
       .vkDestroySemaphore (.renderFinished_forGPU k), .vkDestroyFence k])

/-- The rebuild that follows a teardown when every creation succeeds: image chain,
render pass, per-image render targets, command buffers, the two frame slots, the
hosted renderer. -/
def rebuildOrder (b : RecreateBackend) : List Op :=
  [.vkCreateSwapchainKHR (requestedImageCount b.minImageCount b.maxImageCount) .VK_SUCCESS,
   .vkGetSwapchainImagesKHR b.imageCount, .vkCreateRenderPass .VK_SUCCESS]
  ++ (List.range b.imageCount).flatMap (fun i =>
      [.vkCreateImageView i .VK_SUCCESS, .vkCreateFramebuffer i .VK_SUCCESS])
  ++ (List.range b.imageCount).flatMap (fun i => [.vkAllocateCommandBuffers i .VK_SUCCESS])
  ++ (List.range 2).flatMap (fun k =>
      [.vkCreateSemaphore (.availableForWriting k) .VK_SUCCESS,
       .vkCreateSemaphore (.renderFinished_forGPU k) .VK_SUCCESS, .vkCreateFence k .VK_SUCCESS])
  ++ [.hostedAppCreate true]

/-- The host state a returning `recreateSwapChain` leaves. -/
def recreated (b : RecreateBackend) (s : ApplicationHost) : ApplicationHost :=
  { swapchainImages := resizeImages b.imageCount s.swapchainImages
    frameSync := [⟨true⟩, ⟨true⟩]
    currFrameSync := s.currFrameSync
    framebufferResized := s.framebufferResized
    hostedApp := true
    queue := [] }

/-- A call belongs to the swapchain lifecycle, not to the per-frame protocol. -/
def Lifecycle (e : Event) : Prop :=
  e.op.isFrameOp = false

/-- The failures raised by `recreateSwapChain`: a creation call failed. -/
def Failure.isCreation : Failure → Bool
  | .createSwapChain => true
  | .createRenderPass => true
  | .createImageView => true
  | .createFramebuffer => true
  | .allocateCommandBuffers => true
  | .createSemaphore => true
  | .createFence => true
  | .hostedAppCreation => true
  | _ => false

/-- The outcome `r` returned, or threw a failure satisfying `T`: it neither blocked
nor ran into undefined behaviour. -/
def Result.Ends (r : Result) (T : Failure → Prop) : Prop :=
  r.status = .returned ∨ ∃ f, r.status = .thrown f ∧ T f

/-- A call is not part of rendering a frame: it neither records, nor submits, nor
presents. -/
def Abandoned (e : Event) : Prop :=
  e.op.isRecording = false ∧ e.op.isSubmit = false ∧ e.op.isPresent = false

/-- The submission pattern of the calls `es` of a frame in slot `c`: either nothing
is submitted, or exactly one submission `x` is made and the call right before it
resets the fence of slot `c`, leaving it unsignaled. -/
def SubmitShape (c : Nat) (x : Op) (es : List Event) : Prop :=
  (∀ e ∈ es, e.op.isSubmit = false) ∨
  ∃ pre post e1 e2, es = pre ++ e1 :: e2 :: post ∧
    (∀ e ∈ pre, e.op.isSubmit = false) ∧ (∀ e ∈ post, e.op.isSubmit = false) ∧
    e1.op = .vkResetFences c ∧ e1.frameSync[c]? = some ⟨false⟩ ∧ e2.op = x

/-- The calls that mark the progress of a frame: acquisition, submission, present. -/
def Op.isMilestone : Op → Bool
  | .vkAcquireNextImageKHR _ _ _ _ => true
  | .vkQueueSubmit _ _ _ _ _ => true
  | .vkQueuePresentKHR _ _ _ => true
  | _ => false

/-- The milestones the specification expects of a run of successful frames, the
first of which is frame number `k`: frame `k` uses slot `k mod 2`, and acquires,
submits and presents the same image, in this order, before the next frame starts. -/
def nominalMilestones : Nat → List FrameBackend → List Op
  | _, [] => []
  | k, b :: bs =>
    [.vkAcquireNextImageKHR UINT64_MAX (.availableForWriting (k % 2)) .VK_SUCCESS b.imageIndex,
     .vkQueueSubmit (.availableForWriting (k % 2)) b.imageIndex (.renderFinished_forGPU (k % 2))
       (k % 2) .VK_SUCCESS,
     .vkQueuePresentKHR (.renderFinished_forGPU (k % 2)) b.imageIndex .VK_SUCCESS]
    ++ nominalMilestones (k + 1) bs

/-- The post-processing chain as the specification declares it, for `K` blur
iterations: one threshold pass, then `K` times the pair (horizontal blur, vertical
blur), then one tone-mapping pass. -/
def postprocChain (K : Nat) : List Pipeline :=
  [.thresholdPipeline]
  ++ (List.range K).flatMap (fun _ => [.horzBlurPipeline, .vertBlurPipeline])
  ++ [.tonemapPipeline]

/-- The passes recorded after the color pass: those that follow the first pass
binding `colorPipeline`. -/
def afterColorPass : List Pass → List Pass
  | [] => []
  | p :: ps => if Pipeline.colorPipeline ∈ p.pipelines then ps else afterColorPass ps

/-- One pass of the representative chain of the specification: the pipeline that
names it, the render targets it reads and the render target it writes. -/
structure ChainPass where
  pipeline : Pipeline
  reads : List RenderTarget
  writes : RenderTarget
  deriving DecidableEq, Repr

/-- The post-processing part of the representative chain as the specification writes
it: `Threshold(reads HDRTarget, writes Bloom0)`, then `K` times
`HorizontalBlur(reads Bloom0, writes Bloom1); VerticalBlur(reads Bloom1, writes Bloom0)`,
then `Tonemap(reads HDRTarget and Bloom0, writes PresentableImage)`. -/
def representativeChain (HDRTarget Bloom0 Bloom1 PresentableImage : RenderTarget) (K : Nat) :
    List ChainPass :=
  [⟨.thresholdPipeline, [HDRTarget], Bloom0⟩]
  ++ (List.range K).flatMap (fun _ =>
      [⟨.horzBlurPipeline, [Bloom0], Bloom1⟩, ⟨.vertBlurPipeline, [Bloom1], Bloom0⟩])
  ++ [⟨.tonemapPipeline, [HDRTarget, Bloom0], PresentableImage⟩]

/-- The data flow of a recorded pass: the pipelines it binds, the render targets held
by the descriptor sets it binds, and the render target it renders into. -/
def Pass.dataFlow (sampled : DescriptorSet → List RenderTarget) (p : Pass) :
    List Pipeline × List RenderTarget × RenderTarget :=
  (p.pipelines, p.inputs sampled, p.destination)

/-- The data flow of a pass of the representative chain, in the same form. -/
def ChainPass.dataFlow (c : ChainPass) : List Pipeline × List RenderTarget × RenderTarget :=
  ([c.pipeline], c.reads, c.writes)

/-- Positions, counted from `i`, of the elements of `l` satisfying `p`. -/
def positionsFrom {α : Type} (p : α → Bool) : Nat → List α → List Nat
  | _, [] => []
  | i, a :: l => if p a then i :: positionsFrom p (i + 1) l else positionsFrom p (i + 1) l

/-- Positions, in recording order from `0`, of the passes that render into `t`. -/
def writers (t : RenderTarget) (ps : List Pass) : List Nat :=
  positionsFrom (fun p => decide (p.destination = t)) 0 ps

/-- Positions, in recording order from `0`, of the passes that bind a descriptor set
holding `t`. -/
def readers (sampled : DescriptorSet → List RenderTarget) (t : RenderTarget)
    (ps : List Pass) : List Nat :=
  positionsFrom (fun p => decide (t ∈ p.inputs sampled)) 0 ps

/-- The offscreen render targets of `Bloom`: `hdrBuffer[0..2]`. -/
def Bloom.offscreenTargets : List RenderTarget :=
  [.hdrBuffer 0, .hdrBuffer 1, .hdrBuffer 2]

/-- The offscreen render targets of `FullDemo`: `shadowMap`, `hdrBuffer`,
`bloomBuffer[0..1]`. -/
def FullDemo.offscreenTargets : List RenderTarget :=
  [.shadowMap, .hdrBuffer 0, .bloomBuffer 0, .bloomBuffer 1]

/-- The offscreen render target of `ShadowMap`: `shadowMap`. -/
def ShadowMap.offscreenTargets : List RenderTarget :=
  [.shadowMap]

/-- The specification's rule for a render target `t` in the passes `ps` of a frame:
`t` is the destination of exactly one pass, and every pass that reads it comes
strictly later than that pass. -/
def WrittenOnceReadLater (sampled : DescriptorSet → List RenderTarget) (t : RenderTarget)
    (ps : List Pass) : Prop :=
  ∃ w, writers t ps = [w] ∧ ∀ r ∈ readers sampled t ps, w < r

/-- The rule the renderers keep: `t` is the destination of at least one pass, and no
pass reads it before the first pass that writes it. -/
def WrittenBeforeRead (sampled : DescriptorSet → List RenderTarget) (t : RenderTarget)
    (ps : List Pass) : Prop :=
  ∃ w ws, writers t ps = w :: ws ∧ ∀ r ∈ readers sampled t ps, w ≤ r

/-- The role of a render target in the pass graph: every framebuffer the host hands
to `drawFrame` plays the role of the presentable image; an offscreen target is its own
role. -/
inductive Role where
  | presentableImage
  | offscreen (target : RenderTarget)
  deriving DecidableEq, Repr

/-- The role of a render target. -/
def RenderTarget.role : RenderTarget → Role
  | .swapchain _ => .presentableImage
  | t => .offscreen t

/-- A pass descriptor of the specification: the render pass and the pipelines to
use, the destination role, the bindings and the input render targets they hold, and
the draws. -/
structure PassDescriptor where
  renderPass : RenderPass
  destination : Role
  pipelines : List Pipeline
  boundSets : List DescriptorSet
  inputs : List Role
  draws : List Int
  deriving DecidableEq, Repr

/-- The pass graph of a recorded frame: its passes, in recording order, as pass
descriptors. -/
def passGraph {U : Type} (sampled : DescriptorSet → List RenderTarget) (cs : List (Cmd U)) :
    List PassDescriptor :=
  (passes cs).map fun p =>
    ⟨p.renderPass, p.destination.role, p.pipelines, p.boundSets,
      (p.inputs sampled).map RenderTarget.role, p.draws⟩

/-- A command without the uniform value it uploads. -/
def Cmd.withoutUniforms {U : Type} : Cmd U → Cmd Unit
  | .vkCmdBeginRenderPass rp fb n => .vkCmdBeginRenderPass rp fb n
  | .vkCmdBindPipeline pl => .vkCmdBindPipeline pl
  | .vkCmdBindVertexBuffers vb => .vkCmdBindVertexBuffers vb
  | .vkCmdBindDescriptorSets i ds => .vkCmdBindDescriptorSets i ds
  | .writeToGpuMemory m _ => .writeToGpuMemory m ()
  | .vkCmdDraw n => .vkCmdDraw n
  | .vkCmdEndRenderPass => .vkCmdEndRenderPass

/-- What a pass does with uniform data, in program order: a host write to a uniform
memory, or a recorded draw. -/
inductive UniformStep where
  | upload (memory : Memory)
  | draw
  deriving DecidableEq, Repr

/-- For each pass of a command sequence, the uniform writes made and the draws
recorded between its begin and its end, in program order; `current` belongs to the
pass begun and not yet ended. -/
def collectUniformSteps {U : Type} :
    Option (List UniformStep) → List (Cmd U) → List (List UniformStep)
  | _, [] => []
  | _, .vkCmdBeginRenderPass _ _ _ :: cs => collectUniformSteps (some []) cs
  | some t, .writeToGpuMemory m _ :: cs => collectUniformSteps (some (t ++ [.upload m])) cs
  | some t, .vkCmdDraw _ :: cs => collectUniformSteps (some (t ++ [.draw])) cs
  | some t, .vkCmdEndRenderPass :: cs => t :: collectUniformSteps none cs
  | cur, _ :: cs => collectUniformSteps cur cs

/-- The uniform memories written while no pass is begun; `inPass` tells whether a
pass is begun and not yet ended. -/
def uploadsOutsidePasses {U : Type} : Bool → List (Cmd U) → List Memory
  | _, [] => []
  | _, .vkCmdBeginRenderPass _ _ _ :: cs => uploadsOutsidePasses true cs
  | _, .vkCmdEndRenderPass :: cs => uploadsOutsidePasses false cs
  | false, .writeToGpuMemory m _ :: cs => m :: uploadsOutsidePasses false cs
  | inPass, _ :: cs => uploadsOutsidePasses inPass cs

/-- Every draw of a pass has its own uniform write right before it: the steps of
the pass are upload, draw, upload, draw, and so on. -/
def UploadBeforeEachDraw : List UniformStep → Prop
  | [] => True
  | .upload _ :: .draw :: t => UploadBeforeEachDraw t
  | _ => False

/-- The ordering rule of the specification for the uniform writes of a frame: no
uniform write is made outside a pass, and in every pass that uploads uniform data each
write is made before the draw that consumes it is recorded. -/
def UniformsWrittenBeforeDraws {U : Type} (cs : List (Cmd U)) : Prop :=
  uploadsOutsidePasses false cs = [] ∧
  ∀ t ∈ collectUniformSteps none cs, (∃ m, UniformStep.upload m ∈ t) → UploadBeforeEachDraw t

/-- The memory properties a buffer memory can be allocated with. -/
inductive MemoryProperty where
  | DEVICE_LOCAL
  | HOST_VISIBLE
  | HOST_COHERENT
  deriving DecidableEq, Repr

/-- The properties `createBufferMemory` asks `findMemoryType` for
(`VK_MEMORY_PROPERTY_HOST_VISIBLE_BIT | VK_MEMORY_PROPERTY_HOST_COHERENT_BIT`, in each
renderer's `program.cpp`); the constructors allocate every uniform memory with it. -/
def Memory.properties : Memory → List MemoryProperty :=
  fun _ => [.HOST_VISIBLE, .HOST_COHERENT]

/-- The fatal answers of the per-frame protocol, as the specification lists them,
each with the failure `drawFrame` raises on it: an acquisition result other than
success, suboptimal or out-of-date; a failure to begin or to end the command buffer; a
failed queue submission; a presentation result other than success, suboptimal or
out-of-date. -/
def Op.raises : Op → Option Failure
  | .vkAcquireNextImageKHR _ _ r _ =>
    if r = .VK_SUCCESS ∨ r = .VK_SUBOPTIMAL_KHR ∨ r = .VK_ERROR_OUT_OF_DATE_KHR then none
    else some .acquireImage
  | .vkBeginCommandBuffer _ r => if r = .VK_SUCCESS then none else some .beginCommandBuffer
  | .vkEndCommandBuffer _ r => if r = .VK_SUCCESS then none else some .endCommandBuffer
  | .vkQueueSubmit _ _ _ _ r => if r = .VK_SUCCESS then none else some .queueSubmit
  | .vkQueuePresentKHR _ _ r =>
    if r = .VK_SUCCESS ∨ r = .VK_SUBOPTIMAL_KHR ∨ r = .VK_ERROR_OUT_OF_DATE_KHR then none
    else some .queuePresent
  | _ => none

/-- The stale-surface answers, on which the host recreates the swapchain: an
out-of-date acquisition, an out-of-date or suboptimal presentation. -/
def Op.isStale : Op → Bool
  | .vkAcquireNextImageKHR _ _ r _ => decide (r = .VK_ERROR_OUT_OF_DATE_KHR)
  | .vkQueuePresentKHR _ _ r =>
    decide (r = .VK_ERROR_OUT_OF_DATE_KHR ∨ r = .VK_SUBOPTIMAL_KHR)
  | _ => false

/-- The calls of `r` raise at most once, at the end: if `r` threw `f`, its last call
is a fatal answer for `f` and no earlier call is fatal or stale; if `r` did not throw,
none of its calls is fatal. -/
def Result.RaisesOnLast (r : Result) : Prop :=
  (∀ f, r.status = .thrown f → ∃ pre e, r.events = pre ++ [e] ∧ e.op.raises = some f ∧
    ∀ x ∈ pre, x.op.raises = none ∧ x.op.isStale = false) ∧
  ((∀ f, r.status ≠ .thrown f) → ∀ e ∈ r.events, e.op.raises = none)

/-- The recording failures, each with the failure `recordCommandBuffer` raises on it:
the command buffer fails to begin, the hosted renderer raises, the command buffer
fails to end. -/
def Op.recordingFailed : Op → Option Failure
  | .vkBeginCommandBuffer _ r => if r = .VK_SUCCESS then none else some .beginCommandBuffer
  | .hostedDrawFrame _ returned => if returned then none else some .hostedDrawFrame
  | .vkEndCommandBuffer _ r => if r = .VK_SUCCESS then none else some .endCommandBuffer
  | _ => none

/-- A call hands nothing to the device queue or the presentation engine: it is no
fence reset, no submission and no present. -/
def NoOutput (e : Event) : Prop :=
  e.op.isSubmit = false ∧ e.op.isPresent = false ∧ ∀ k, e.op ≠ .vkResetFences k

/-- If a recording call of `r` failed, `r` threw the failure of that call and handed
nothing to the device. -/
def Result.RecordingGuards (r : Result) : Prop :=
  ∀ f, ∀ e ∈ r.events, e.op.recordingFailed = some f →
    r.status = .thrown f ∧ ∀ x ∈ r.events, NoOutput x

/-! ## The process: registration and `main` -/

/-- A line printed by the process, on `stdout` (`printf`) or on `stderr`
(`fprintf(stderr, ...)`), without its newline. -/
inductive Output where
  | stdout (line : String)
  | stderr (line : String)
  deriving DecidableEq, Repr

/-- Model of `registerApp` on the registry `std::map<std::string, AppCreationFunc>`,
kept as an association list: it prints `Registered: '<name>'` and assigns
`Registry()[name] = creationFunc`, replacing an earlier factory of that name. The
factories are values of an arbitrary type `F`. -/
def registerApp {F : Type} (name : String) (creationFunc : F) (registry : List (String × F)) :
    List (String × F) × List Output :=
  ((name, creationFunc) :: registry.filter (fun entry => entry.1 != name),
    [.stdout ("Registered: '" ++ name ++ "'")])

/-- The registrations `rest` run, in order, on the registry and after the output
`state`. -/
def staticInitFrom {F : Type} (state : List (String × F) × List Output) :
    List (String × F) → List (String × F) × List Output
  | [] => state
  | (name, creationFunc) :: rest =>
    staticInitFrom ((registerApp name creationFunc state.1).1,
      state.2 ++ (registerApp name creationFunc state.1).2) rest

/-- Model of static initialisation: every `REGISTER_APP(className)` of the linked
renderers calls `registerApp` once, in the order given, on an empty registry, before
`main` runs. -/
def staticInit {F : Type} (registrations : List (String × F)) :
    List (String × F) × List Output :=
  staticInitFrom ([], []) registrations

/-- How `ApplicationHost app(appName, factory); app.run();` ended: `run` returned, or
a `std::exception` with message `what` left the constructor or the frame loop. -/
inductive HostOutcome where
  | ran
  | threw (what : String)
  deriving DecidableEq, Repr

/-- What `main` did: its return value, the lines it printed, and the application
host it constructed, if any, with the name and the factory it was given. The window
and the device are created by the constructor of `ApplicationHost`. -/
structure MainResult (F : Type) where
  exitCode : Int
  output : List Output
  host : Option (String × F)
  deriving DecidableEq, Repr

/-- The name `main` looks up: `argv[1]` when `argc >= 2`, else `"HelloCube"`. -/
def appName (argv : List String) : String :=
  if 2 ≤ argv.length then argv.getD 1 "HelloCube" else "HelloCube"

/-- Model of `main`; `argv` includes the program name, `run` tells how the hosted
session ends for a given name and factory. -/
def main {F : Type} (argv : List String) (registry : List (String × F))
    (run : String → F → HostOutcome) : MainResult F :=
  match registry.lookup (appName argv) with
  | none => ⟨1, [.stderr ("App not found: '" ++ appName argv ++ "'")], none⟩
  | some creationFunc =>
    match run (appName argv) creationFunc with
    | .ran => ⟨0, [], some (appName argv, creationFunc)⟩
    | .threw what => ⟨1, [.stderr ("Fatal: " ++ what)], some (appName argv, creationFunc)⟩

/-- The whole process: static initialisation, then `main` on the registry it built. -/
def runProcess {F : Type} (registrations : List (String × F)) (argv : List String)
    (run : String → F → HostOutcome) : MainResult F :=
  { main argv (staticInit registrations).1 run with
    output := (staticInit registrations).2 ++ (main argv (staticInit registrations).1 run).output }

/-! ## Start-up: choosing the physical device -/

/-- `VK_NULL_HANDLE`. -/
def VK_NULL_HANDLE : Nat := 0

/-- `VK_QUEUE_GRAPHICS_BIT` of `VkQueueFlagBits`. -/
def VK_QUEUE_GRAPHICS_BIT : Nat := 1

/-- `VK_QUEUE_TRANSFER_BIT` of `VkQueueFlagBits`. -/
def VK_QUEUE_TRANSFER_BIT : Nat := 4

/-- The field of `VkQueueFamilyProperties` the program reads. -/
structure VkQueueFamilyProperties where
  queueFlags : Nat
  deriving DecidableEq, Repr

/-- What the Vulkan queries of start-up answer about one `VkPhysicalDevice`:
its handle, `vkGetPhysicalDeviceQueueFamilyProperties`,
`vkGetPhysicalDeviceSurfaceSupportKHR` per family index,
`vkEnumerateDeviceExtensionProperties` and the two counts that
`querySwapChainSupport` reads for the surface. -/
structure PhysicalDevice where
  handle : Nat
  queueFamilies : List VkQueueFamilyProperties
  presentSupport : Nat → Bool
  availableExtensions : List String
  formatCount : Nat
  presentModeCount : Nat

/-- `RequiredDeviceExtensions`: only `VK_KHR_SWAPCHAIN_EXTENSION_NAME`. -/
def RequiredDeviceExtensions : List String := ["VK_KHR_swapchain"]

/-- `QueueFamilyIndices`; the two indices mean nothing until their flag is set. -/
structure QueueFamilyIndices where
  graphicsFamily : Nat := 0
  presentFamily : Nat := 0
  hasGraphicsFamily : Bool := false
  hasPresentFamily : Bool := false
  deriving DecidableEq, Repr

/-- `QueueFamilyIndices::isComplete`. -/
def QueueFamilyIndices.isComplete (indices : QueueFamilyIndices) : Bool :=
  indices.hasGraphicsFamily && indices.hasPresentFamily

/-- The loop of `findQueueFamilies`, from family index `i` on: it records the
family when it has the graphics bit, records it when it can present, and
breaks as soon as both are known. -/
def findQueueFamiliesFrom (device : PhysicalDevice) :
    Nat → QueueFamilyIndices → List VkQueueFamilyProperties → QueueFamilyIndices
  | _, indices, [] => indices
  | i, indices, queueFamily :: rest =>
    let indices1 : QueueFamilyIndices :=
      if queueFamily.queueFlags &&& VK_QUEUE_GRAPHICS_BIT ≠ 0 then
        { indices with graphicsFamily := i, hasGraphicsFamily := true }
      else indices
    let indices2 : QueueFamilyIndices :=
      if device.presentSupport i then
        { indices1 with presentFamily := i, hasPresentFamily := true }
      else indices1
    if indices2.isComplete then indices2
    else findQueueFamiliesFrom device (i + 1) indices2 rest

/-- `findQueueFamilies(device, surface)`. -/
def findQueueFamilies (device : PhysicalDevice) : QueueFamilyIndices :=
  findQueueFamiliesFrom device 0 {} device.queueFamilies

/-- `checkDeviceExtensionSupport(device)`: every required extension is among
the available ones. -/
def checkDeviceExtensionSupport (device : PhysicalDevice) : Bool :=
  RequiredDeviceExtensions.all fun name =>
    device.availableExtensions.any fun candidateExtension => name == candidateExtension

/-- `isDeviceSuitable(device, surface)`. -/
def isDeviceSuitable (device : PhysicalDevice) : Bool :=
  if !(findQueueFamilies device).isComplete then false
  else if !checkDeviceExtensionSupport device then false
  else if device.formatCount = 0 || device.presentModeCount = 0 then false
  else true

/-- `pickPhysicalDevice(instance, surface)` over the enumerated devices. The
local `physicalDevice` is declared without an initialiser, so the value it
holds when the loop assigns nothing is not fixed by the program; it is the
parameter `indeterminate`. -/
def pickPhysicalDevice (indeterminate : Nat) (devices : List PhysicalDevice) :
    Except String Nat :=
  if devices.length = 0 then .error "failed to find a GPU with Vulkan support"
  else
    let physicalDevice : Nat :=
      match devices.find? isDeviceSuitable with
      | some device => device.handle
      | none => indeterminate
    if physicalDevice = VK_NULL_HANDLE then .error "failed to find a suitable GPU"
    else .ok physicalDevice


/-! ## The one-shot upload helper -/

/-- `static_cast<uint32_t>` of an `int`, also the conversion of an `int` argument
to a `uint32_t` parameter or field. -/
def toUint32 (value : Int) : Nat := (value % 2 ^ 32).toNat

namespace OneShot

/-- The backend calls of `executeOneShotCommandBufferOnQueue`, with the arguments
and results that matter, and the call of the user function. -/
inductive Op where
  | vkCreateCommandPool (queueFamilyIndex : Nat) (result : VkResult)
  | vkAllocateCommandBuffers (result : VkResult)
  | vkCreateFence (flags : Nat) (result : VkResult)
  | vkBeginCommandBuffer (result : VkResult)
  | func
  | vkEndCommandBuffer (result : VkResult)
  | vkGetDeviceQueue (queueFamilyIndex : Nat) (queueIndex : Nat)
  | vkQueueSubmit (result : VkResult)
  | vkWaitForFences (timeout : Nat) (result : VkResult)
  | vkDestroyFence
  | vkFreeCommandBuffers
  | vkDestroyCommandPool
  deriving DecidableEq, Repr

/-- The temporary objects of one call and what the device has done with them:
which of them exist, whether the command buffer is being recorded, whether the
fence is signaled, whether the submitted command buffer is still unfinished on
the queue, and whether the device has executed it. -/
structure Device where
  commandPool : Bool := false
  commandBuffer : Bool := false
  fence : Bool := false
  recording : Bool := false
  fenceSignaled : Bool := false
  pending : Bool := false
  completed : Bool := false
  deriving DecidableEq, Repr

/-- What the backend and the user function answer during one call. For
`waitResult`, `VK_SUCCESS` stands for a wait that does not fail; any other code
is a wait that returns that code without the fence being signaled, as on a
lost device. -/
structure Backend where
  createCommandPoolResult : VkResult
  allocateResult : VkResult
  createFenceResult : VkResult
  beginResult : VkResult
  funcThrows : Option String
  endResult : VkResult
  submitResult : VkResult
  waitResult : VkResult

/-- How the call ended: it returned, it threw, or it never returns. -/
inductive Outcome where
  | returned
  | thrown (what : String)
  | blocked
  deriving DecidableEq, Repr

/-- A call of the helper so far: how it ended, the device state it left, and the
calls it made in program order, each with the device state right after it. -/
structure Run where
  outcome : Outcome
  device : Device
  trace : List (Op × Device)

/-- Sequencing: the continuation runs only if the first part returned. -/
def Run.andThen (r : Run) (f : Device → Run) : Run :=
  match r.outcome with
  | .returned => ⟨(f r.device).outcome, (f r.device).device, r.trace ++ (f r.device).trace⟩
  | _ => r

/-- One backend call leaving the device in state `d`. -/
def call (op : Op) (d : Device) : Run := ⟨.returned, d, [(op, d)]⟩

/-- A `throw std::runtime_error(what)`. -/
def raise (what : String) (d : Device) : Run := ⟨.thrown what, d, []⟩

/-- Normal completion. -/
def ret (d : Device) : Run := ⟨.returned, d, []⟩

/-- Model of `vkQueueSubmit(queue, 1, &submitInfo, fence)`: on success the command
buffer joins the queue, to signal the fence when the device has executed it. -/
def vkQueueSubmit (b : Backend) (d : Device) : Run :=
  call (.vkQueueSubmit b.submitResult)
    (if b.submitResult = .VK_SUCCESS then { d with pending := true } else d)

/-- Model of `vkWaitForFences(device, 1, &fence, VK_TRUE, -1)`; the timeout `-1`
is `UINT64_MAX`. A wait that fails returns its error code and has waited for
nothing: the submission is as it was. A wait that does not fail returns
`VK_SUCCESS` once the fence is signaled, which the device does on finishing the
command buffer submitted with it; on a fence that no unfinished submission
signals it blocks the caller for ever. -/
def vkWaitForFences (b : Backend) (d : Device) : Run :=
  if b.waitResult ≠ .VK_SUCCESS then call (.vkWaitForFences UINT64_MAX b.waitResult) d
  else if d.fenceSignaled then call (.vkWaitForFences UINT64_MAX .VK_SUCCESS) d
  else if d.pending then
    call (.vkWaitForFences UINT64_MAX .VK_SUCCESS)
      { d with pending := false, completed := true, fenceSignaled := true }
  else { call (.vkWaitForFences UINT64_MAX .VK_SUCCESS) d with outcome := .blocked }

/-- `executeOneShotCommandBufferOnQueue(device, func, queueIndex)`. The `int`
`queueIndex` is converted to `uint32_t` where it is stored in
`poolInfo.queueFamilyIndex` and passed to `vkGetDeviceQueue`. The results of
`vkQueueSubmit` and `vkWaitForFences` are not looked at. -/
def executeOneShotCommandBufferOnQueue (b : Backend) (queueIndex : Int) (d : Device) : Run :=
  (call (.vkCreateCommandPool (toUint32 queueIndex) b.createCommandPoolResult)
    { d with commandPool := b.createCommandPoolResult = .VK_SUCCESS }).andThen fun d =>
  if b.createCommandPoolResult ≠ .VK_SUCCESS then raise "failed to create command pool" d
  else
  (call (.vkAllocateCommandBuffers b.allocateResult)
    { d with commandBuffer := b.allocateResult = .VK_SUCCESS }).andThen fun d =>
  if b.allocateResult ≠ .VK_SUCCESS then raise "failed to allocate command buffers" d
  else
  (call (.vkCreateFence 0 b.createFenceResult)
    { d with fence := b.createFenceResult = .VK_SUCCESS, fenceSignaled := false }).andThen
  fun d =>
  if b.createFenceResult ≠ .VK_SUCCESS then
    raise "failed to create synchronization objects for a frame" d
  else
  (call (.vkBeginCommandBuffer b.beginResult)
    { d with recording := b.beginResult = .VK_SUCCESS }).andThen fun d =>
  if b.beginResult ≠ .VK_SUCCESS then raise "failed to begin recording command buffer" d
  else
  (call .func d).andThen fun d =>
  match b.funcThrows with
  | some what => raise what d
  | none =>
  (call (.vkEndCommandBuffer b.endResult) { d with recording := false }).andThen fun d =>
  if b.endResult ≠ .VK_SUCCESS then raise "failed to record command buffer" d
  else
  (call (.vkGetDeviceQueue (toUint32 queueIndex) 0) d).andThen fun d =>
  (vkQueueSubmit b d).andThen fun d =>
  (vkWaitForFences b d).andThen fun d =>
  (call .vkDestroyFence { d with fence := false }).andThen fun d =>
  (call .vkFreeCommandBuffers { d with commandBuffer := false }).andThen fun d =>
  call .vkDestroyCommandPool { d with commandPool := false }

/-- The calls that destroy a temporary object. -/
def Op.isDestroy : Op → Bool
  | .vkDestroyFence => true
  | .vkFreeCommandBuffers => true
  | .vkDestroyCommandPool => true
  | _ => false

/-- The calls of a run, in program order. -/
def Run.ops (r : Run) : List Op := r.trace.map Prod.fst

/-- The calls the helper makes when nothing stops it early, in program order,
with the results the backend gives. -/
def programOrder (b : Backend) (queueIndex : Int) : List Op :=
  [.vkCreateCommandPool (toUint32 queueIndex) b.createCommandPoolResult,
   .vkAllocateCommandBuffers b.allocateResult,
   .vkCreateFence 0 b.createFenceResult, .vkBeginCommandBuffer b.beginResult, .func,
   .vkEndCommandBuffer b.endResult, .vkGetDeviceQueue (toUint32 queueIndex) 0,
   .vkQueueSubmit b.submitResult, .vkWaitForFences UINT64_MAX b.waitResult, .vkDestroyFence,
   .vkFreeCommandBuffers, .vkDestroyCommandPool]

/-- Every call the helper checks succeeds and the user function returns: the
helper gets as far as the submission. -/
def Backend.ReachesSubmit (b : Backend) : Prop :=
  b.createCommandPoolResult = .VK_SUCCESS ∧ b.allocateResult = .VK_SUCCESS ∧
    b.createFenceResult = .VK_SUCCESS ∧ b.beginResult = .VK_SUCCESS ∧
    b.funcThrows = none ∧ b.endResult = .VK_SUCCESS

end OneShot


/-! ## Start-up helpers: memory types, swap extent, transfer queue -/

/-- The loop of `findMemoryType` from index `i` on, over the `propertyFlags` of
`memoryTypes[i], memoryTypes[i + 1], ...` below `memoryTypeCount`. The mask
`1 << i` is a 32-bit value. -/
def findMemoryTypeFrom (typeFilter properties : Nat) : Nat → List Nat → Except String Nat
  | _, [] => .error "failed to find suitable memory type"
  | i, propertyFlags :: rest =>
    if typeFilter &&& ((1 <<< i) % 2 ^ 32) ≠ 0 ∧ propertyFlags &&& properties = properties then
      .ok i
    else findMemoryTypeFrom typeFilter properties (i + 1) rest

/-- `findMemoryType(physicalDevice, typeFilter, properties)`, over the property
flags of the `memoryTypeCount` memory types the device reports. -/
def findMemoryType (memoryTypes : List Nat) (typeFilter properties : Nat) : Except String Nat :=
  findMemoryTypeFrom typeFilter properties 0 memoryTypes

/-- The flags `flags` include every flag of `required`. -/
def IncludesFlags (flags required : Nat) : Prop :=
  ∀ k, required.testBit k = true → flags.testBit k = true

/-- Index `i` is below `memoryTypeCount`, bit `i` of the type filter is set, and
the property flags of memory type `i` include all required flags. -/
def SuitableMemoryType (memoryTypes : List Nat) (typeFilter properties : Nat) (i : Nat) : Prop :=
  ∃ propertyFlags, memoryTypes[i]? = some propertyFlags ∧ typeFilter.testBit i = true ∧
    IncludesFlags propertyFlags properties

/-- `UINT32_MAX`. -/
def UINT32_MAX : Nat := 2 ^ 32 - 1

/-- `clamp(val, min, max)` of vec3.h. -/
def clamp {T : Type} [LinearOrder T] (val min max : T) : T :=
  if val < min then min
  else if val > max then max
  else val

/-- `VkExtent2D`. -/
structure VkExtent2D where
  width : Nat
  height : Nat
  deriving DecidableEq, Repr

/-- The fields of `VkSurfaceCapabilitiesKHR` that `chooseSwapExtent` reads. -/
structure VkSurfaceCapabilitiesKHR where
  currentExtent : VkExtent2D
  minImageExtent : VkExtent2D
  maxImageExtent : VkExtent2D
  deriving DecidableEq, Repr

/-- `chooseSwapExtent(window, capabilities)`; `width` and `height` are what
`SDL_Vulkan_GetDrawableSize` answers for the window. -/
def chooseSwapExtent (width height : Int) (capabilities : VkSurfaceCapabilitiesKHR) :
    VkExtent2D :=
  if capabilities.currentExtent.width ≠ UINT32_MAX then capabilities.currentExtent
  else
    let actualExtent : VkExtent2D := ⟨toUint32 width, toUint32 height⟩
    let actualExtent : VkExtent2D :=
      { actualExtent with
        height := clamp actualExtent.height capabilities.minImageExtent.height
          capabilities.maxImageExtent.height }
    let actualExtent : VkExtent2D :=
      { actualExtent with
        width := clamp actualExtent.width capabilities.minImageExtent.width
          capabilities.maxImageExtent.width }
    actualExtent

/-- The loop of `findTransferQueue` in the texturing renderer: it returns the local
`i` at the first family with the transfer bit, and no statement of the loop
changes `i`. -/
def findTransferQueueFrom (i : Int) : List VkQueueFamilyProperties → Int
  | [] => 0
  | queueFamily :: rest =>
    if queueFamily.queueFlags &&& VK_QUEUE_TRANSFER_BIT ≠ 0 then i
    else findTransferQueueFrom i rest

/-- `findTransferQueue(device)` over the queue families the device reports. -/
def findTransferQueue (queueFamilies : List VkQueueFamilyProperties) : Int :=
  findTransferQueueFrom 0 queueFamilies

/-- The index of the first queue family whose flags include the transfer
capability, if any. -/
def firstTransferFamily (queueFamilies : List VkQueueFamilyProperties) : Option Nat :=
  (positionsFrom (fun queueFamily : VkQueueFamilyProperties =>
    queueFamily.queueFlags &&& VK_QUEUE_TRANSFER_BIT != 0) 0 queueFamilies).head?


/-! ## Linear algebra, in exact arithmetic -/

/-- `Vec3f`, with coordinates in `R` instead of `float`. -/
structure Vec3f (R : Type) where
  x : R
  y : R
  z : R

/-- `Vec4f`. -/
structure Vec4f (R : Type) where
  x : R
  y : R
  z : R
  w : R

/-- `Matrix4f`: `data[row][col]`. -/
structure Matrix4f (R : Type) where
  data : Fin 4 → Fin 4 → R

/-- `Matrix4f::Matrix4f(init)`: every element is `init`. -/
def Matrix4f.init {R : Type} (init : R) : Matrix4f R := ⟨fun _ _ => init⟩

/-- The assignment `m[i][j] = value`. -/
def Matrix4f.set {R : Type} (m : Matrix4f R) (i j : Fin 4) (value : R) : Matrix4f R :=
  ⟨fun row col => if row = i ∧ col = j then value else m.data row col⟩

/-- `operator-(Vec3f, Vec3f)`. -/
def Vec3f.sub {R : Type} [Sub R] (a b : Vec3f R) : Vec3f R :=
  ⟨a.x - b.x, a.y - b.y, a.z - b.z⟩

/-- `operator*(Vec3f, F)`. -/
def Vec3f.mulScalar {R : Type} [Mul R] (a : Vec3f R) (val : R) : Vec3f R :=
  ⟨a.x * val, a.y * val, a.z * val⟩

/-- `dotProduct(a, b)`. -/
def dotProduct {R : Type} [Add R] [Mul R] (a b : Vec3f R) : R :=
  a.x * b.x + a.y * b.y + a.z * b.z

/-- `magnitude(v)`; `sqrt` stands for `std::sqrt`. -/
def magnitude {R : Type} [Add R] [Mul R] (sqrt : R → R) (v : Vec3f R) : R :=
  sqrt (dotProduct v v)

/-- `normalize(v)`. -/
def normalize {R : Type} [Field R] (sqrt : R → R) (v : Vec3f R) : Vec3f R :=
  v.mulScalar (1 / magnitude sqrt v)

/-- `crossProduct(a, b)`. -/
def crossProduct {R : Type} [Sub R] [Mul R] (a b : Vec3f R) : Vec3f R :=
  ⟨a.y * b.z - a.z * b.y, a.z * b.x - b.z * a.x, a.x * b.y - a.y * b.x⟩

/-- `operator*(Matrix4f, Matrix4f)`, the loop over `k` written out:
`sum = 0; sum += A[row][k] * B[k][col]` for `k = 0..3`. -/
def Matrix4f.mul {R : Type} [Zero R] [Add R] [Mul R] (A B : Matrix4f R) : Matrix4f R :=
  ⟨fun row col =>
    0 + A.data row 0 * B.data 0 col + A.data row 1 * B.data 1 col
      + A.data row 2 * B.data 2 col + A.data row 3 * B.data 3 col⟩

/-- `operator*(Matrix4f, Vec4f)`. -/
def Matrix4f.mulVec {R : Type} [Add R] [Mul R] (A : Matrix4f R) (v : Vec4f R) : Vec4f R :=
  ⟨A.data 0 0 * v.x + A.data 0 1 * v.y + A.data 0 2 * v.z + A.data 0 3 * v.w,
   A.data 1 0 * v.x + A.data 1 1 * v.y + A.data 1 2 * v.z + A.data 1 3 * v.w,
   A.data 2 0 * v.x + A.data 2 1 * v.y + A.data 2 2 * v.z + A.data 2 3 * v.w,
   A.data 3 0 * v.x + A.data 3 1 * v.y + A.data 3 2 * v.z + A.data 3 3 * v.w⟩

/-- `translate(v)`. -/
def translate {R : Type} [Zero R] [One R] (v : Vec3f R) : Matrix4f R :=
  ((((((Matrix4f.init 0).set 0 0 1).set 1 1 1).set 2 2 1).set 3 3 1).set 0 3 v.x).set 1 3 v.y
    |>.set 2 3 v.z

/-- `scale(v)`. -/
def scale {R : Type} [Zero R] [One R] (v : Vec3f R) : Matrix4f R :=
  ((((Matrix4f.init 0).set 0 0 v.x).set 1 1 v.y).set 2 2 v.z).set 3 3 1

/-- `rotateZ(angle)`; `c` and `s` are `cos(angle)` and `sin(angle)`. -/
def rotateZ {R : Type} [Zero R] [One R] [Neg R] (c s : R) : Matrix4f R :=
  ((((((Matrix4f.init 0).set 2 2 1).set 0 0 c).set 0 1 (-s)).set 1 0 s).set 1 1 c).set 3 3 1

/-- `invertStandardMatrix(m)`. -/
def invertStandardMatrix {R : Type} [Zero R] [One R] [Add R] [Mul R] [Neg R]
    (m : Matrix4f R) : Matrix4f R :=
  let u : Vec3f R := ⟨m.data 0 0, m.data 1 0, m.data 2 0⟩
  let v : Vec3f R := ⟨m.data 0 1, m.data 1 1, m.data 2 1⟩
  let w : Vec3f R := ⟨m.data 0 2, m.data 1 2, m.data 2 2⟩
  let t : Vec3f R := ⟨m.data 0 3, m.data 1 3, m.data 2 3⟩
  (Matrix4f.init 0)
    |>.set 0 0 u.x |>.set 0 1 u.y |>.set 0 2 u.z
    |>.set 1 0 v.x |>.set 1 1 v.y |>.set 1 2 v.z
    |>.set 2 0 w.x |>.set 2 1 w.y |>.set 2 2 w.z
    |>.set 0 3 (-dotProduct u t)
    |>.set 1 3 (-dotProduct v t)
    |>.set 2 3 (-dotProduct w t)
    |>.set 3 3 1

/-- `lookAt(eye, center, up)`; `sqrt` stands for `std::sqrt`. -/
def lookAt {R : Type} [Field R] (sqrt : R → R) (eye center up : Vec3f R) : Matrix4f R :=
  let f := normalize sqrt (center.sub eye)
  let s := normalize sqrt (crossProduct f up)
  let u := crossProduct s f
  (Matrix4f.init 0)
    |>.set 0 0 s.x |>.set 0 1 s.y |>.set 0 2 s.z
    |>.set 1 0 u.x |>.set 1 1 u.y |>.set 1 2 u.z
    |>.set 2 0 (-f.x) |>.set 2 1 (-f.y) |>.set 2 2 (-f.z)
    |>.set 0 3 (-dotProduct s eye)
    |>.set 1 3 (-dotProduct u eye)
    |>.set 2 3 (dotProduct f eye)
    |>.set 3 3 1

/-- The identity matrix. -/
def Matrix4f.identity {R : Type} [Zero R] [One R] : Matrix4f R :=
  ⟨fun row col => if row = col then 1 else 0⟩

/-- The columns `u`, `v`, `w` of the upper-left 3x3 block of `m`. -/
def Matrix4f.column {R : Type} (m : Matrix4f R) (col : Fin 4) : Vec3f R :=
  ⟨m.data 0 col, m.data 1 col, m.data 2 col⟩

/-- The bottom row of `m` is `(0, 0, 0, 1)`. -/
def Matrix4f.HasStandardBottomRow {R : Type} [Zero R] [One R] (m : Matrix4f R) : Prop :=
  m.data 3 0 = 0 ∧ m.data 3 1 = 0 ∧ m.data 3 2 = 0 ∧ m.data 3 3 = 1


/-! ## The OBJ loader of the full demo -/

namespace ObjLoader

/-- `Stream`: a position in the file buffer and the number of characters left. -/
structure Stream where
  ptr : Nat
  len : Int
  deriving DecidableEq, Repr

/-- `Stream::operator+=(n)`. -/
def Stream.advance (s : Stream) (n : Nat) : Stream := ⟨s.ptr + n, s.len - n⟩

/-- `Stream::operator std::string()`: the `len` characters of the buffer from `ptr`. -/
def Stream.text (contents : List Char) (s : Stream) : List Char :=
  (contents.drop s.ptr).take s.len.toNat

/-- The loop `while(input.len > 0 && cond(input.ptr[0])) input += 1;`. Every
iteration takes one from `input.len`, so the loop is entered with as many
iterations allowed as `input.len` says. -/
def skipWhile (contents : List Char) (cond : Option Char → Bool) : Nat → Stream → Stream
  | 0, input => input
  | fuel + 1, input =>
    if 0 < input.len ∧ cond contents[input.ptr]? = true then
      skipWhile contents cond fuel (input.advance 1)
    else input

/-- `parseLine(input)`: the returned line and the stream as the call leaves it. -/
def parseLine (contents : List Char) (input : Stream) : Stream × Stream :=
  let start := input.ptr
  let input := skipWhile contents (fun c => c != some '\n') input.len.toNat input
  let r : Stream := ⟨start, (input.ptr : Int) - (start : Int)⟩
  (r, input.advance 1)

/-- `parseWord(input)`: the returned word and the stream as the call leaves it. -/
def parseWord (contents : List Char) (input : Stream) : Stream × Stream :=
  let input := skipWhile contents (fun c => c == some ' ') input.len.toNat input
  let start := input.ptr
  let input := skipWhile contents (fun c => c != some ' ') input.len.toNat input
  let r : Stream := ⟨start, (input.ptr : Int) - (start : Int)⟩
  (r, input.advance 1)

/-- Why a call of the loader does not return a scene. -/
inductive LoadFailure where
  | assertion
  | outOfRange
  | notTerminated
  deriving DecidableEq, Repr

/-- The loop `while(s.len > 0) { body }` over a stream: `body` gives the stream
and the state it leaves and tells whether it left the loop by `break`. The
result is `notTerminated` when the iterations allowed are used up while the
loop condition still holds. -/
def whileRemaining {σ : Type} (body : Stream → σ → Except LoadFailure (Stream × σ × Bool)) :
    Nat → Stream → σ → Except LoadFailure (Stream × σ)
  | 0, s, state => if 0 < s.len then .error .notTerminated else .ok (s, state)
  | fuel + 1, s, state =>
    if 0 < s.len then
      match body s state with
      | .error failure => .error failure
      | .ok (s1, state1, true) => .ok (s1, state1)
      | .ok (s1, state1, false) => whileRemaining body fuel s1 state1
    else .ok (s, state)

/-- `Color`. -/
structure Color (F : Type) where
  r : F
  g : F
  b : F
  deriving DecidableEq, Repr

/-- `Material`. -/
structure Material (F : Type) where
  ambient : Color F
  diffuse : Color F
  emissive : Color F
  deriving DecidableEq, Repr

/-- `Vertex`. -/
structure Vertex (F : Type) where
  x : F
  y : F
  z : F
  nx : F
  ny : F
  nz : F
  deriving DecidableEq, Repr

/-- `PlainMesh`: "a mesh with only one material". -/
structure PlainMesh (F : Type) where
  material : Nat
  vertices : List (Vertex F)
  deriving DecidableEq, Repr

/-- `Scene`. -/
structure Scene (F : Type) where
  materials : List (Material F)
  plainMeshes : List (PlainMesh F)
  deriving DecidableEq, Repr

/-- `float3` of `loadObj`. -/
structure float3 (F : Type) where
  x : F
  y : F
  z : F
  deriving DecidableEq, Repr

/-- The C library calls of the loader, by what they answer for the characters
from the pointer they are given: `strtof`, `sscanf` with `"%f %f %f"` into a
zeroed `float3`, `sscanf` with `"%d//%d %d//%d %d//%d"` (its return value, then
the six integers), and the contents `loadFile` reads for the library named on
a `mtllib` line. -/
structure Libc (F : Type) where
  strtof : List Char → F
  sscanfFloat3 : List Char → float3 F
  sscanfFace : List Char → Int × (Int × Int) × (Int × Int) × (Int × Int)
  loadLibrary : List Char → List Char

/-- `parseFloat(line)`. -/
def parseFloat {F : Type} (libc : Libc F) (contents : List Char) (line : Stream) :
    F × Stream :=
  let (word, line) := parseWord contents line
  (libc.strtof (contents.drop word.ptr), line)

/-- `parseColor(line)`. -/
def parseColor {F : Type} (libc : Libc F) (contents : List Char) (line : Stream) :
    Color F × Stream :=
  let (r, line) := parseFloat libc contents line
  let (g, line) := parseFloat libc contents line
  let (b, line) := parseFloat libc contents line
  (⟨r, g, b⟩, line)

/-- The body of the loop of `parseMaterial`. -/
def parseMaterialLine {F : Type} (libc : Libc F) (contents : List Char) (s : Stream)
    (result : Material F) : Except LoadFailure (Stream × Material F × Bool) :=
  let (line, s) := parseLine contents s
  if line.len = 0 then .ok (s, result, true)
  else
    let (word, line) := parseWord contents line
    let cmd := String.mk (word.text contents)
    if cmd = "Kd" then .ok (s, { result with diffuse := (parseColor libc contents line).1 }, false)
    else if cmd = "Ka" then
      .ok (s, { result with ambient := (parseColor libc contents line).1 }, false)
    else if cmd = "Ke" then
      .ok (s, { result with emissive := (parseColor libc contents line).1 }, false)
    else .ok (s, result, false)

/-- `parseMaterial(s)`: the stream it leaves and the material read. -/
def parseMaterial {F : Type} [Zero F] (libc : Libc F) (contents : List Char) (s : Stream) :
    Except LoadFailure (Stream × Material F) :=
  whileRemaining (parseMaterialLine libc contents) s.len.toNat s
    ⟨⟨0, 0, 0⟩, ⟨0, 0, 0⟩, ⟨0, 0, 0⟩⟩

/-- The assignment `map[key] = value` on a `std::map` kept in key order. -/
def mapAssign {V : Type} (key : String) (value : V) : List (String × V) → List (String × V)
  | [] => [(key, value)]
  | (k, v) :: rest =>
    if key < k then (key, value) :: (k, v) :: rest
    else if key = k then (key, value) :: rest
    else (k, v) :: mapAssign key value rest

/-- The body of the loop of `loadMaterialLib`. -/
def loadMaterialLibLine {F : Type} [Zero F] (libc : Libc F) (contents : List Char) (s : Stream)
    (result : List (String × Material F)) :
    Except LoadFailure (Stream × List (String × Material F) × Bool) :=
  let (line, s) := parseLine contents s
  let (word, line) := parseWord contents line
  let cmd := String.mk (word.text contents)
  if cmd = "newmtl" then
    let name := String.mk ((parseWord contents line).1.text contents)
    match parseMaterial libc contents s with
    | .error failure => .error failure
    | .ok (s, material) => .ok (s, mapAssign name material result, false)
  else .ok (s, result, false)

/-- `loadMaterialLib(path)` on the contents of the library file: the map it
returns, in key order. -/
def loadMaterialLib {F : Type} [Zero F] (libc : Libc F) (contents : List Char) :
    Except LoadFailure (List (String × Material F)) :=
  (whileRemaining (loadMaterialLibLine libc contents) contents.length
    ⟨0, contents.length⟩ []).map fun r => r.2

end ObjLoader


namespace ObjLoader

/-- The locals of `loadObj` that its loop reads and writes. `materialNameToId`
is only ever read with `operator[]` and assigned to, so it is kept as the list
of assignments, newest first; a name never assigned reads as 0. The last two
fields are not in the program, they record what it did: `flushed` holds, for
every call of `flushFaces` that found faces pending, the material id that was
current and the vertices the call moved, in the order of the calls; `pushed`
holds every vertex a face line pushed, in file order. -/
structure LoadState (F : Type) where
  coords : List (float3 F)
  normals : List (float3 F)
  currMaterial : String
  result : Scene F
  faces : List (Vertex F)
  materialNameToId : List (String × Nat)
  flushed : List (Nat × List (Vertex F))
  pushed : List (Vertex F)

/-- `plainMeshes.resize(n)` where `n` is above the size: new meshes are
value-initialised. -/
def resizeMeshes {F : Type} (n : Nat) (plainMeshes : List (PlainMesh F)) : List (PlainMesh F) :=
  plainMeshes ++ List.replicate (n - plainMeshes.length) ⟨0, []⟩

/-- The lambda `flushFaces` of `loadObj`. -/
def flushFaces {F : Type} (state : LoadState F) : LoadState F :=
  if state.faces.isEmpty then state
  else
    let material : Nat := (state.materialNameToId.lookup state.currMaterial).getD 0
    let plainMeshes :=
      if material ≥ state.result.plainMeshes.length then
        resizeMeshes (material + 1) state.result.plainMeshes
      else state.result.plainMeshes
    let plainMeshes :=
      match plainMeshes[material]? with
      | some plainMesh =>
        plainMeshes.set material ⟨material, plainMesh.vertices ++ state.faces⟩
      | none => plainMeshes
    { state with
      result := { state.result with plainMeshes := plainMeshes }, faces := [],
      flushed := state.flushed ++ [(material, state.faces)] }

/-- The element `v[i]` of a vector for a signed index, if it is in range. -/
def elementAt? {α : Type} (v : List α) (i : Int) : Option α :=
  if 0 ≤ i then v[i.toNat]? else none

/-- The vertex pushed for one corner of a face: `coords[c]` and `normals[n]`. -/
def corner {F : Type} (state : LoadState F) (c n : Int) : Option (Vertex F) :=
  match elementAt? state.coords c, elementAt? state.normals n with
  | some coord, some normal => some ⟨coord.x, coord.y, coord.z, normal.x, normal.y, normal.z⟩
  | _, _ => none

/-- The materials of a library join the scene in the order of the map, each
under the next free id. -/
def addMaterials {F : Type} (state : LoadState F) : List (String × Material F) → LoadState F
  | [] => state
  | (name, material) :: rest =>
    addMaterials
      { state with
        materialNameToId := (name, state.result.materials.length) :: state.materialNameToId,
        result := { state.result with materials := state.result.materials ++ [material] } }
      rest

/-- The body of the loop of `loadObj`, after `parseLine`: what one line does to
the locals. -/
def loadObjLine {F : Type} [Zero F] (libc : Libc F) (contents : List Char) (line : Stream)
    (state : LoadState F) : Except LoadFailure (LoadState F) :=
  if line.len = 0 ∨ contents[line.ptr]? = some '#' then .ok state
  else
    let (word, line) := parseWord contents line
    let cmd := String.mk (word.text contents)
    if cmd = "v" then
      let state := flushFaces state
      .ok { state with coords := state.coords ++ [libc.sscanfFloat3 (contents.drop line.ptr)] }
    else if cmd = "vn" then
      .ok { state with normals := state.normals ++ [libc.sscanfFloat3 (contents.drop line.ptr)] }
    else if cmd = "f" then
      match libc.sscanfFace (contents.drop line.ptr) with
      | (r, (c0, n0), (c1, n1), (c2, n2)) =>
        if r ≠ 6 then .error .assertion
        else
          match corner state (c0 - 1) (n0 - 1), corner state (c1 - 1) (n1 - 1),
            corner state (c2 - 1) (n2 - 1) with
          | some v0, some v1, some v2 =>
            .ok { state with
              faces := state.faces ++ [v0, v1, v2], pushed := state.pushed ++ [v0, v1, v2] }
          | _, _, _ => .error .outOfRange
    else if cmd = "usemtl" then
      let material := String.mk ((parseWord contents line).1.text contents)
      let state := if state.currMaterial ≠ material then flushFaces state else state
      .ok { state with currMaterial := material }
    else if cmd = "mtllib" then
      if line.len < 0 then .error .outOfRange
      else
        match loadMaterialLib libc (libc.loadLibrary (line.text contents)) with
        | .error failure => .error failure
        | .ok library => .ok (addMaterials state library)
    else .ok state

/-- The loop of `loadObj`: `parseLine`, then the rest of the body. -/
def loadObjLoop {F : Type} [Zero F] (libc : Libc F) (contents : List Char) :
    Nat → Stream → LoadState F → Except LoadFailure (Stream × LoadState F) :=
  whileRemaining fun s state =>
    match loadObjLine libc contents (parseLine contents s).1 state with
    | .error failure => .error failure
    | .ok state1 => .ok ((parseLine contents s).2, state1, false)

/-- The locals of `loadObj(path)` when its loop over the contents of the file
has ended. -/
def loadObjRun {F : Type} [Zero F] (libc : Libc F) (contents : List Char) :
    Except LoadFailure (LoadState F) :=
  (loadObjLoop libc contents contents.length ⟨0, contents.length⟩
    ⟨[], [], "", ⟨[], []⟩, [], [], [], []⟩).map fun r => r.2

/-- `loadObj(path)` on the contents of the file: the scene returned. The locals
left behind at `return result`, among them `faces`, are dropped. -/
def loadObj {F : Type} [Zero F] (libc : Libc F) (contents : List Char) :
    Except LoadFailure (Scene F) :=
  (loadObjRun libc contents).map fun state => state.result

/-- The vertices of a scene, over all its plain meshes. -/
def Scene.vertexCount {F : Type} (scene : Scene F) : Nat :=
  (scene.plainMeshes.map fun plainMesh => plainMesh.vertices.length).sum

/-- The lines of a file, as `parseLine` cuts them. -/
def linesOf (contents : List Char) : Nat → Stream → List Stream
  | 0, _ => []
  | fuel + 1, s =>
    if 0 < s.len then (parseLine contents s).1 :: linesOf contents fuel (parseLine contents s).2
    else []

/-- The number of face lines of a file: lines whose first word is `f`. -/
def faceLines (contents : List Char) : Nat :=
  ((linesOf contents contents.length ⟨0, contents.length⟩).filter fun line =>
    String.mk ((parseWord contents line).1.text contents) = "f").length

end ObjLoader


namespace ObjLoader

/-- The vertices of plain mesh `i`; none when there is no such mesh. -/
def verticesOf {F : Type} (plainMeshes : List (PlainMesh F)) (i : Nat) : List (Vertex F) :=
  match plainMeshes[i]? with
  | some plainMesh => plainMesh.vertices
  | none => []

/-- Every plain mesh that holds a vertex carries its own index as material. -/
def MergedByMaterial {F : Type} (plainMeshes : List (PlainMesh F)) : Prop :=
  ∀ (i : Nat) (plainMesh : PlainMesh F), plainMeshes[i]? = some plainMesh →
    plainMesh.vertices ≠ [] →
    plainMesh.material = i

/-- The material id that is current in `flushFaces`: `materialNameToId[currMaterial]`. -/
def currentMaterialId {F : Type} (state : LoadState F) : Nat :=
  (state.materialNameToId.lookup state.currMaterial).getD 0

/-- The vertices that the recorded flushes moved while material id `i` was
current, in the order of the flushes. -/
def flushedUnder {F : Type} (flushed : List (Nat × List (Vertex F))) (i : Nat) :
    List (Vertex F) :=
  (flushed.filter fun flush => flush.1 = i).flatMap Prod.snd

/-- The plain meshes hold exactly what was flushed: every mesh that holds a
vertex carries its own index as material, the vertices of mesh `i` are those
flushed while material id `i` was current, in order, and the flushed vertices
followed by the pending ones are the vertices of the face lines in file
order. -/
def FlushedIntoMeshes {F : Type} (state : LoadState F) : Prop :=
  MergedByMaterial state.result.plainMeshes ∧
  (∀ i, verticesOf state.result.plainMeshes i = flushedUnder state.flushed i) ∧
  state.flushed.flatMap Prod.snd ++ state.faces = state.pushed

end ObjLoader


/-! ## Concrete inputs -/

/-- A frame in which every backend call succeeds and image `i` is acquired. -/
def nominalFrame (i : Nat) : FrameBackend := { imageIndex := i }

/-- The host after construction on three images and two successful frames, on the
images 0 and 1. -/
def hostAfterTwoFrames : ApplicationHost :=
  (session {} [nominalFrame 0, nominalFrame 1]).host

/-- A frame whose acquisition reports a stale surface, and whose recreation finds
the surface lost when it creates the new image chain. -/
def staleFrameLosingSurface : FrameBackend :=
  { acquireResult := .VK_ERROR_OUT_OF_DATE_KHR
    recreate := { createSwapchainResult := .VK_ERROR_SURFACE_LOST_KHR } }

/-- A frame whose acquisition reports a stale surface; the recreation succeeds. -/
def staleFrame : FrameBackend :=
  { acquireResult := .VK_ERROR_OUT_OF_DATE_KHR }

/-- One hundred successful frames on three images, acquired in rotation. -/
def hundredFrames : List FrameBackend :=
  (List.range 100).map fun k => nominalFrame (k % 3)

/-- A frame whose command buffer fails to begin, on image `i`. -/
def frameFailingToBegin (i : Nat) : FrameBackend :=
  { imageIndex := i, beginResult := .VK_ERROR_OUT_OF_DEVICE_MEMORY }

/-- A frame in which the hosted renderer raises while recording, on image `i`. -/
def frameFailingInRenderer (i : Nat) : FrameBackend :=
  { imageIndex := i, hostedAppReturns := false }

/-- A frame whose presentation reports a stale surface, on image `i`; the recreation
succeeds. -/
def stalePresentFrame (i : Nat) : FrameBackend :=
  { imageIndex := i, presentResult := .VK_ERROR_OUT_OF_DATE_KHR }

/-- A frame whose presentation reports a stale surface, on image `i`, and whose
recreation finds the surface lost when it creates the new image chain. -/
def stalePresentLosingSurface (i : Nat) : FrameBackend :=
  { imageIndex := i, presentResult := .VK_ERROR_OUT_OF_DATE_KHR
    recreate := { createSwapchainResult := .VK_ERROR_SURFACE_LOST_KHR } }

/-- A device with one queue family that renders and presents, the swapchain
extension, and a surface format and present mode. -/
def suitableGpu (handle : Nat) : PhysicalDevice :=
  ⟨handle, [⟨VK_QUEUE_GRAPHICS_BIT⟩], fun _ => true, ["VK_KHR_swapchain"], 1, 1⟩

/-- A device whose only queue family cannot present to the surface. -/
def computeOnlyGpu (handle : Nat) : PhysicalDevice :=
  ⟨handle, [⟨2⟩], fun _ => false, ["VK_KHR_swapchain"], 1, 1⟩


/-- A square root on the rationals, exact on squares of rationals. -/
def rationalSqrt (q : ℚ) : ℚ := (Nat.sqrt q.num.toNat : ℚ) / (Nat.sqrt q.den : ℚ)


/-- A C library for files whose coordinates are all `0 0 0`, whose normals are
all `0 0 1` and whose faces are all `1//1 1//1 1//1`. -/
def ObjLoader.plainLibc : ObjLoader.Libc ℚ where
  strtof := fun _ => 0
  sscanfFloat3 := fun text => if text.take 5 = "0 0 1".toList then ⟨0, 0, 1⟩ else ⟨0, 0, 0⟩
  sscanfFace := fun text =>
    if text.take 14 = "1//1 1//1 1//1".toList then (6, (1, 1), (1, 1), (1, 1))
    else (0, (0, 0), (0, 0), (0, 0))
  loadLibrary := fun _ => []

/-- An OBJ file with one vertex, one normal and one face, the face last. -/
def ObjLoader.oneTriangle : List Char := "v 0 0 0\nvn 0 0 1\nf 1//1 1//1 1//1\n".toList

/-- The same file followed by one more vertex line. -/
def ObjLoader.oneTriangleThenVertex : List Char :=
  "v 0 0 0\nvn 0 0 1\nf 1//1 1//1 1//1\nv 0 0 0\n".toList


/-- Every call succeeds, the user function returns and the wait does not fail. -/
def OneShot.nominalBackend : OneShot.Backend :=
  ⟨.VK_SUCCESS, .VK_SUCCESS, .VK_SUCCESS, .VK_SUCCESS, none, .VK_SUCCESS, .VK_SUCCESS,
    .VK_SUCCESS⟩

/-- The submission is accepted, then the device is lost: the wait reports
`VK_ERROR_DEVICE_LOST`. -/
def OneShot.lostWhileWaiting : OneShot.Backend :=
  ⟨.VK_SUCCESS, .VK_SUCCESS, .VK_SUCCESS, .VK_SUCCESS, none, .VK_SUCCESS, .VK_SUCCESS,
    .VK_ERROR_DEVICE_LOST⟩

/-- The queue rejects the submission; the wait itself does not fail. -/
def OneShot.rejectedSubmit : OneShot.Backend :=
  ⟨.VK_SUCCESS, .VK_SUCCESS, .VK_SUCCESS, .VK_SUCCESS, none, .VK_SUCCESS,
    .VK_ERROR_OUT_OF_HOST_MEMORY, .VK_SUCCESS⟩

/-- The queue rejects the submission on a lost device, and the wait reports the
loss too. -/
def OneShot.rejectedOnLostDevice : OneShot.Backend :=
  ⟨.VK_SUCCESS, .VK_SUCCESS, .VK_SUCCESS, .VK_SUCCESS, none, .VK_SUCCESS,
    .VK_ERROR_DEVICE_LOST, .VK_ERROR_DEVICE_LOST⟩

/-- The locals of `loadObj` at the end of `oneTriangleThenVertex`: the face was
flushed by the last `v` line into plain mesh 0. -/
def ObjLoader.oneTriangleThenVertexRun : ObjLoader.LoadState ℚ where
  coords := [⟨0, 0, 0⟩, ⟨0, 0, 0⟩]
  normals := [⟨0, 0, 1⟩]
  currMaterial := ""
  result := ⟨[], [⟨0, [⟨0, 0, 0, 0, 0, 1⟩, ⟨0, 0, 0, 0, 0, 1⟩, ⟨0, 0, 0, 0, 0, 1⟩]⟩]⟩
  faces := []
  materialNameToId := []
  flushed := [(0, [⟨0, 0, 0, 0, 0, 1⟩, ⟨0, 0, 0, 0, 0, 1⟩, ⟨0, 0, 0, 0, 0, 1⟩])]
  pushed := [⟨0, 0, 0, 0, 0, 1⟩, ⟨0, 0, 0, 0, 0, 1⟩, ⟨0, 0, 0, 0, 0, 1⟩]

/-! ## Sequencing lemmas -/

theorem Result.andThen_of_returned {r : Result} (f : ApplicationHost → Result)
    (h : r.status = .returned) :
    r.andThen f = ⟨(f r.host).status, (f r.host).host, r.events ++ (f r.host).events⟩ := by
  unfold Result.andThen; rw [h]

theorem Result.andThen_of_not_returned {r : Result} (f : ApplicationHost → Result)
    (h : r.status ≠ .returned) : r.andThen f = r := by
  unfold Result.andThen
  cases hs : r.status <;> simp_all

theorem Result.andThen_status_returned {r : Result} {f : ApplicationHost → Result}
    (h : (r.andThen f).status = .returned) :
    r.status = .returned ∧ (f r.host).status = .returned := by
  by_cases hr : r.status = .returned
  · rw [Result.andThen_of_returned f hr] at h; exact ⟨hr, h⟩
  · rw [Result.andThen_of_not_returned f hr] at h; exact absurd h hr

theorem Result.andThen_events_prefix (r : Result) (f : ApplicationHost → Result) :
    ∃ rest, (r.andThen f).events = r.events ++ rest ∧
      (r.status ≠ .returned → rest = []) ∧
      (r.status = .returned → rest = (f r.host).events) := by
  by_cases hr : r.status = .returned
  · rw [Result.andThen_of_returned f hr]; exact ⟨_, rfl, fun h => absurd hr h, fun _ => rfl⟩
  · rw [Result.andThen_of_not_returned f hr]
    exact ⟨[], by simp, fun _ => rfl, fun h => absurd h hr⟩

theorem Result.Sat.andThen {r : Result} {f : ApplicationHost → Result} {P : Event → Prop}
    {R Q : ApplicationHost → Prop} (hr : r.Sat P R) (hf : ∀ s, R s → (f s).Sat P Q) :
    (r.andThen f).Sat P Q := by
  by_cases h : r.status = .returned
  · rw [Result.andThen_of_returned f h]
    have hq := hf r.host (hr.2 h)
    refine ⟨?_, hq.2⟩
    intro e he
    rcases List.mem_append.mp he with he | he
    · exact hr.1 e he
    · exact hq.1 e he
  · rw [Result.andThen_of_not_returned f h]
    exact ⟨hr.1, fun h2 => absurd h2 h⟩

theorem Result.Sat.mono {r : Result} {P P2 : Event → Prop} {Q Q2 : ApplicationHost → Prop}
    (h : r.Sat P Q) (hP : ∀ e, P e → P2 e) (hQ : ∀ s, Q s → Q2 s) : r.Sat P2 Q2 :=
  ⟨fun e he => hP e (h.1 e he), fun hs => hQ _ (h.2 hs)⟩

theorem sat_ret {P : Event → Prop} {Q : ApplicationHost → Prop} {s : ApplicationHost}
    (h : Q s) : (ret s).Sat P Q :=
  ⟨by simp [ret], fun _ => h⟩

theorem sat_raise {P : Event → Prop} {Q : ApplicationHost → Prop} {s : ApplicationHost}
    (f : Failure) : (raise f s).Sat P Q :=
  ⟨by simp [raise], by simp [raise]⟩

theorem sat_call {P : Event → Prop} {Q : ApplicationHost → Prop} {s : ApplicationHost}
    (op : Op) (hP : P ⟨op, s.queue, s.frameSync⟩) (h : Q s) : (call op s).Sat P Q :=
  ⟨by simp [call, hP], fun _ => h⟩

theorem sat_forEach {P : Event → Prop} {I : ApplicationHost → Prop}
    {body : Nat → ApplicationHost → Result} (hbody : ∀ i s, I s → (body i s).Sat P I)
    (l : List Nat) (s : ApplicationHost) (hs : I s) : (forEach body l s).Sat P I := by
  induction l generalizing s with
  | nil => exact sat_ret hs
  | cons i is ih => exact (hbody i s hs).andThen ih

/-! ## Device lemmas -/

theorem fenceSignaled_eq (k : Nat) (s : ApplicationHost) :
    fenceSignaled k s = ((s.frameSync[k]?).map (·.renderFinished_forCPU)).getD false := by
  unfold fenceSignaled
  cases s.frameSync[k]? <;> rfl

theorem fenceSignaled_lt {k : Nat} {s : ApplicationHost} (h : fenceSignaled k s = true) :
    k < s.frameSync.length := by
  rw [fenceSignaled_eq] at h
  by_contra hk
  rw [List.getElem?_eq_none (by omega)] at h
  simp at h

theorem fenceSignaled_signalFence (j k : Nat) (s : ApplicationHost) (qs : List Submission) :
    fenceSignaled k { s with queue := qs, frameSync := signalFence j s.frameSync } =
      (fenceSignaled k s || (decide (j = k) && decide (k < s.frameSync.length))) := by
  simp only [fenceSignaled_eq, signalFence, List.getElem?_set]
  by_cases hjk : j = k
  · subst hjk
    by_cases hl : j < s.frameSync.length
    · simp [hl]
    · simp [hl, List.getElem?_eq_none (Nat.le_of_not_lt hl)]
  · simp [hjk]

theorem tracked_tail {imgs : List SwapChainImage} {q : Submission} {qs : List Submission}
    (h : Tracked imgs (q :: qs)) : Tracked imgs qs := h.2

theorem consistent_completeOne {s : ApplicationHost} (h : Consistent s) :
    Consistent (completeOne s) := by
  unfold completeOne
  cases hq : s.queue with
  | nil => simpa using h
  | cons q qs =>
    have hd := h.distinct
    have hp := h.pending
    have ht := h.tracked
    have hr := h.inRange
    rw [hq] at hd hp ht hr
    simp only [List.map_cons, List.nodup_cons] at hd
    refine ⟨by simp [signalFence, h.ring], h.current, h.resized, h.hosted, h.entries, hd.2,
      fun x hx => hr x (List.mem_cons_of_mem _ hx), ?_, tracked_tail ht⟩
    intro k hk
    simp only []
    rw [fenceSignaled_signalFence]
    have hpk := hp k hk
    by_cases hjk : q.fence = k
    · subst hjk
      have : q.fence < s.frameSync.length := by rw [h.ring]; exact hk
      simp [this, hd.1]
    · simp only [hjk, decide_False, Bool.false_and, Bool.or_false]
      rw [hpk]
      simp [Ne.symm hjk]

theorem Progress.refl (s : ApplicationHost) : Progress s s :=
  ⟨rfl, rfl, rfl, rfl, rfl, fun _ h => h, fun _ h => h, le_refl _, fun h => h⟩

theorem Progress.trans {s s2 s3 : ApplicationHost} (h : Progress s s2) (h2 : Progress s2 s3) :
    Progress s s3 :=
  ⟨h2.images.trans h.images, h2.current.trans h.current, h2.resized.trans h.resized,
    h2.hosted.trans h.hosted, h2.ring.trans h.ring,
    fun k hk => h2.signaled k (h.signaled k hk),
    fun q hq => h.queue q (h2.queue q hq), le_trans h2.shorter h.shorter,
    fun hc => h2.consistent (h.consistent hc)⟩

theorem progress_completeOne (s : ApplicationHost) : Progress s (completeOne s) := by
  refine ⟨?_, ?_, ?_, ?_, ?_, ?_, ?_, ?_, consistent_completeOne⟩
  all_goals unfold completeOne
  all_goals cases hq : s.queue with
    | nil => simp [hq]
    | cons q qs => ?_
  · rfl
  · rfl
  · rfl
  · rfl
  · simp [signalFence]
  · intro k hk
    simp only []
    rw [fenceSignaled_signalFence, hk]
    rfl
  · intro x hx
    exact List.mem_cons_of_mem _ hx
  · simp

theorem progress_advance (n : Nat) (s : ApplicationHost) : Progress s (advance n s) := by
  induction n generalizing s with
  | zero => exact Progress.refl s
  | succ n ih => exact (progress_completeOne s).trans (ih (completeOne s))

theorem completeOne_queue_length (s : ApplicationHost) :
    (completeOne s).queue.length = s.queue.length - 1 := by
  unfold completeOne
  cases hq : s.queue <;> simp [hq]

theorem advance_queue_length (n : Nat) (s : ApplicationHost) :
    (advance n s).queue.length = s.queue.length - n := by
  induction n generalizing s with
  | zero => rfl
  | succ n ih =>
    show (advance n (completeOne s)).queue.length = _
    rw [ih, completeOne_queue_length]
    omega

theorem advance_all_queue (s : ApplicationHost) : (advance s.queue.length s).queue = [] := by
  have h := advance_queue_length s.queue.length s
  simp at h
  exact h

theorem waitLoop_progress (k fuel : Nat) : ∀ s s2 : ApplicationHost,
    waitLoop k fuel s = some s2 → Progress s s2 ∧ fenceSignaled k s2 = true := by
  induction fuel with
  | zero =>
    intro s s2 h
    unfold waitLoop at h
    split at h
    · cases h; exact ⟨Progress.refl s, by assumption⟩
    · cases h
  | succ n ih =>
    intro s s2 h
    unfold waitLoop at h
    split at h
    · cases h; exact ⟨Progress.refl s, by assumption⟩
    · have := ih _ _ h
      exact ⟨(progress_completeOne s).trans this.1, this.2⟩

theorem waitLoop_isSome {k fuel : Nat} {s : ApplicationHost} (hc : Consistent s) (hk : k < 2)
    (hf : s.queue.length ≤ fuel) : ∃ s2, waitLoop k fuel s = some s2 := by
  induction fuel generalizing s with
  | zero =>
    unfold waitLoop
    by_cases hs : fenceSignaled k s = true
    · exact ⟨s, by simp [hs]⟩
    · have := (hc.pending k hk).mp (by simpa using hs)
      have hq : s.queue = [] := List.length_eq_zero.mp (Nat.le_zero.mp hf)
      simp [hq] at this
  | succ n ih =>
    unfold waitLoop
    by_cases hs : fenceSignaled k s = true
    · exact ⟨s, by simp [hs]⟩
    · simp only [hs]
      apply ih (consistent_completeOne hc)
      rw [completeOne_queue_length]
      omega

/-! ## Recreation keeps the host consistent -/

theorem eventSafe_of_idle {s : ApplicationHost} (h : Idle s) (op : Op) :
    EventSafe ⟨op, s.queue, s.frameSync⟩ := by
  refine ⟨by simp [h.queue], h.ring, ?_⟩
  intro image result _ q hq
  simp [h.queue] at hq

theorem sat_call_idle {s : ApplicationHost} (h : Idle s) (op : Op) :
    (call op s).Sat EventSafe Idle :=
  sat_call op (eventSafe_of_idle h op) h

theorem idle_of_recreatable {s : ApplicationHost} (h : Recreatable s) :
    Idle (advance s.queue.length s) := by
  have hp := progress_advance s.queue.length s
  refine ⟨advance_all_queue s, by rw [hp.ring]; exact h.ring, by rw [hp.current]; exact h.current,
    by rw [hp.resized]; exact h.resized, by rw [hp.images]; exact h.entries⟩

theorem sat_destroyImageTargets (i : Nat) (s : ApplicationHost) (h : Idle s) :
    (destroyImageTargets i s).Sat EventSafe Idle := by
  unfold destroyImageTargets
  exact (sat_call_idle h _).andThen fun s hs =>
    (sat_call_idle hs _).andThen fun s hs => sat_call_idle hs _

theorem sat_destroyFrameSync (k : Nat) (s : ApplicationHost) (h : Idle s) :
    (destroyFrameSync k s).Sat EventSafe Idle := by
  unfold destroyFrameSync
  exact (sat_call_idle h _).andThen fun s hs =>
    (sat_call_idle hs _).andThen fun s hs => sat_call_idle hs _

theorem sat_cleanupSwapChain {s : ApplicationHost} (h : Recreatable s) :
    (cleanupSwapChain s).Sat EventSafe Idle := by
  unfold cleanupSwapChain vkDeviceWaitIdle
  refine (sat_call_idle (idle_of_recreatable h) _).andThen fun s hs => ?_
  have hs2 : Idle { s with hostedApp := false } :=
    ⟨hs.queue, hs.ring, hs.current, hs.resized, hs.entries⟩
  refine (sat_call_idle hs2 _).andThen fun s hs => ?_
  refine (sat_forEach sat_destroyImageTargets _ s hs).andThen fun s hs => ?_
  refine (sat_call_idle hs _).andThen fun s hs => ?_
  refine (sat_call_idle hs _).andThen fun s hs => ?_
  exact sat_forEach sat_destroyFrameSync _ s hs

theorem resizeImages_entries {n : Nat} {imgs : List SwapChainImage}
    (h : ∀ im ∈ imgs, im.syncIdx = -1 ∨ im.syncIdx = 0 ∨ im.syncIdx = 1) :
    ∀ im ∈ resizeImages n imgs, im.syncIdx = -1 ∨ im.syncIdx = 0 ∨ im.syncIdx = 1 := by
  intro im him
  unfold resizeImages at him
  rcases List.mem_append.mp him with hm | hm
  · exact h im (List.mem_of_mem_take hm)
  · rw [List.mem_replicate] at hm
    rw [hm.2]
    exact Or.inl rfl

theorem sat_createSwapChain (b : RecreateBackend) {s : ApplicationHost} (h : Idle s) :
    (createSwapChain b s).Sat EventSafe Idle := by
  unfold createSwapChain
  refine (sat_call_idle h _).andThen fun s hs => ?_
  split
  · exact sat_raise _
  · refine (sat_call_idle hs _).andThen fun s hs => sat_ret ?_
    exact ⟨hs.queue, hs.ring, hs.current, hs.resized, resizeImages_entries hs.entries⟩

theorem sat_createRenderPass (b : RecreateBackend) {s : ApplicationHost} (h : Idle s) :
    (createRenderPass b s).Sat EventSafe Idle := by
  unfold createRenderPass
  refine (sat_call_idle h _).andThen fun s hs => ?_
  split
  · exact sat_raise _
  · exact sat_ret hs

theorem sat_createImageTargets (b : RecreateBackend) (i : Nat) (s : ApplicationHost)
    (h : Idle s) : (createImageTargets b i s).Sat EventSafe Idle := by
  unfold createImageTargets
  refine (sat_call_idle h _).andThen fun s hs => ?_
  split
  · exact sat_raise _
  · refine (sat_call_idle hs _).andThen fun s hs => ?_
    split
    · exact sat_raise _
    · exact sat_ret hs

theorem sat_allocateCommandBuffer (b : RecreateBackend) (i : Nat) (s : ApplicationHost)
    (h : Idle s) : (allocateCommandBuffer b i s).Sat EventSafe Idle := by
  unfold allocateCommandBuffer
  refine (sat_call_idle h _).andThen fun s hs => ?_
  split
  · exact sat_raise _
  · exact sat_ret hs

theorem resizeFrames_length (fs : List Frame) : (resizeFrames 2 fs).length = 2 := by
  unfold resizeFrames
  simp
  omega

theorem sat_call_same {P : Event → Prop} {s : ApplicationHost} (op : Op)
    (hP : P ⟨op, s.queue, s.frameSync⟩) : (call op s).Sat P fun s2 => s2 = s :=
  sat_call op hP rfl

theorem sat_createFrameSync (b : RecreateBackend) (k : Nat) (s : ApplicationHost)
    (h : Idle s) (hl : s.frameSync.length = 2) (hk : k < 2) :
    (createFrameSync b k s).Sat EventSafe fun s2 =>
      Idle s2 ∧ s2.frameSync.length = 2 ∧ s2.hostedApp = s.hostedApp ∧
      fenceSignaled k s2 = true ∧ ∀ j, fenceSignaled j s = true → fenceSignaled j s2 = true := by
  unfold createFrameSync
  refine (sat_call_same _ (eventSafe_of_idle h _)).andThen fun s1 hs1 => ?_
  subst hs1
  split
  · exact sat_raise _
  · refine (sat_call_same _ (eventSafe_of_idle h _)).andThen fun s2 hs2 => ?_
    subst hs2
    split
    · exact sat_raise _
    · split
      · exact (sat_call_idle h _).andThen fun s3 _ => sat_raise _
      · have hi : Idle { s2 with frameSync := signalFence k s2.frameSync } :=
          ⟨h.queue, by simp [signalFence, hl], h.current, h.resized, h.entries⟩
        refine sat_call _ (eventSafe_of_idle hi _) ⟨hi, by simp [signalFence, hl], rfl, ?_, ?_⟩
        · have := fenceSignaled_signalFence k k s2 s2.queue
          simp only [] at this
          rw [this]
          simp [hl, hk]
        · intro j hj
          have := fenceSignaled_signalFence k j s2 s2.queue
          simp only [] at this
          rw [this, hj]
          rfl

theorem sat_createSyncObjects (b : RecreateBackend) {s : ApplicationHost} (h : Idle s) :
    (createSyncObjects b s).Sat EventSafe fun s2 =>
      Idle s2 ∧ s2.frameSync.length = 2 ∧ s2.hostedApp = s.hostedApp ∧
      fenceSignaled 0 s2 = true ∧ fenceSignaled 1 s2 = true := by
  unfold createSyncObjects
  rw [resizeFrames_length]
  have hi : Idle { s with frameSync := resizeFrames 2 s.frameSync } :=
    ⟨h.queue, by simp [resizeFrames_length], h.current, h.resized, h.entries⟩
  show (forEach (createFrameSync b) [0, 1] _).Sat _ _
  unfold forEach
  refine (sat_createFrameSync b 0 _ hi (resizeFrames_length _) (by omega)).andThen ?_
  intro s1 ⟨hi1, hl1, hh1, h0, _⟩
  unfold forEach
  refine (sat_createFrameSync b 1 _ hi1 hl1 (by omega)).andThen ?_
  intro s2 ⟨hi2, hl2, hh2, h1, hm⟩
  unfold forEach
  exact sat_ret ⟨hi2, hl2, hh2.trans hh1, hm 0 h0, h1⟩

theorem sat_createHostedApp (b : RecreateBackend) {s : ApplicationHost} (h : Idle s)
    (hl : s.frameSync.length = 2) (h0 : fenceSignaled 0 s = true)
    (h1 : fenceSignaled 1 s = true) : (createHostedApp b s).Sat EventSafe Consistent := by
  unfold createHostedApp
  refine (sat_call_same _ (eventSafe_of_idle h _)).andThen fun s1 hs1 => ?_
  subst hs1
  split
  · refine sat_ret ⟨hl, h.current, h.resized, rfl, h.entries, by simp [h.queue],
      by simp [h.queue], ?_, by simp [h.queue, Tracked]⟩
    intro k hk
    have hs : fenceSignaled k { s1 with hostedApp := true } = true := by
      have : k = 0 ∨ k = 1 := by omega
      rcases this with rfl | rfl
      · exact h0
      · exact h1
    rw [hs]
    simp [h.queue]
  · exact sat_raise _

theorem sat_recreateSwapChain (b : RecreateBackend) {s : ApplicationHost}
    (h : Recreatable s) : (recreateSwapChain b s).Sat EventSafe Consistent := by
  unfold recreateSwapChain
  refine (sat_cleanupSwapChain h).andThen fun s hs => ?_
  refine (sat_createSwapChain b hs).andThen fun s hs => ?_
  refine (sat_createRenderPass b hs).andThen fun s hs => ?_
  refine (sat_forEach (sat_createImageTargets b) _ s hs).andThen fun s hs => ?_
  refine (sat_forEach (sat_allocateCommandBuffer b) _ s hs).andThen ?_
  intro s hs
  refine (sat_createSyncObjects b hs).andThen ?_
  intro s2 ⟨hi, hl, _, h0, h1⟩
  exact sat_createHostedApp b hi hl h0 h1

theorem recreatable_of_consistent {s : ApplicationHost} (h : Consistent s) : Recreatable s :=
  ⟨by rw [h.ring], h.current, h.resized, h.entries⟩

theorem recreatable_initial : Recreatable {} :=
  ⟨by simp, by simp, rfl, by simp⟩

/-! ## A frame keeps the host consistent -/

theorem length_le_two_of_nodup {l : List Nat} (hn : l.Nodup) (hl : ∀ x ∈ l, x < 2) :
    l.length ≤ 2 := by
  have hsub : l ⊆ List.range 2 := fun x hx => List.mem_range.mpr (hl x hx)
  have := (hn.subperm hsub).length_le
  simpa using this

theorem consistent_queue_le {s : ApplicationHost} (h : Consistent s) : s.queue.length ≤ 2 := by
  have := length_le_two_of_nodup h.distinct (by
    intro x hx
    rcases List.mem_map.mp hx with ⟨q, hq, rfl⟩
    exact h.inRange q hq)
  simpa using this

theorem eventSafe_of_consistent {s : ApplicationHost} (h : Consistent s) (op : Op)
    (hop : ∀ image result, op = .vkBeginCommandBuffer image result →
      ∀ q ∈ s.queue, q.commandBuffer ≠ image) : EventSafe ⟨op, s.queue, s.frameSync⟩ :=
  ⟨consistent_queue_le h, by simp [h.ring], hop⟩

theorem sat_vkWaitForFences (extra k : Nat) {s : ApplicationHost} (hc : Consistent s)
    (hk : k < 2) :
    (vkWaitForFences extra k s).status = .returned ∧
    (vkWaitForFences extra k s).Sat EventSafe fun s2 =>
      Progress s s2 ∧ Consistent s2 ∧ fenceSignaled k s2 = true := by
  unfold vkWaitForFences
  have hlen : k < s.frameSync.length := by rw [hc.ring]; exact hk
  obtain ⟨s1, h1⟩ := waitLoop_isSome hc hk (le_refl s.queue.length)
  obtain ⟨hp1, hs1⟩ := waitLoop_progress _ _ _ _ h1
  have hp2 := hp1.trans (progress_advance extra s1)
  have hc2 := hp2.consistent hc
  simp only [hlen, if_true, h1]
  refine ⟨rfl, sat_call _ (eventSafe_of_consistent hc2 _ (by intro _ _ h; cases h)) ⟨hp2, hc2, ?_⟩⟩
  exact (progress_advance extra s1).signaled k hs1

theorem tracked_mem {imgs : List SwapChainImage} {qs : List Submission} (h : Tracked imgs qs) :
    ∀ q ∈ qs, ∃ q2 ∈ qs, imgs[q.commandBuffer]? = some ⟨(q2.fence : Int)⟩ := by
  induction qs with
  | nil => intro q hq; cases hq
  | cons a as ih =>
    intro q hq
    rcases List.mem_cons.mp hq with rfl | hq
    · exact h.1
    · obtain ⟨q2, hq2, he⟩ := ih h.2 q hq
      exact ⟨q2, List.mem_cons_of_mem _ hq2, he⟩

theorem tracked_set {imgs : List SwapChainImage} {qs : List Submission} (i : Nat)
    (v : SwapChainImage) (h : Tracked imgs qs) (hn : ∀ q ∈ qs, q.commandBuffer ≠ i) :
    Tracked (imgs.set i v) qs := by
  induction qs with
  | nil => trivial
  | cons a as ih =>
    refine ⟨?_, ih h.2 fun q hq => hn q (List.mem_cons_of_mem _ hq)⟩
    obtain ⟨q2, hq2, he⟩ := h.1
    refine ⟨q2, hq2, ?_⟩
    rw [List.getElem?_set_ne (Ne.symm (hn a (List.mem_cons_self _ _)))]
    exact he

theorem tracked_append {imgs : List SwapChainImage} {qs : List Submission} (i c : Nat)
    (h : Tracked imgs qs) (hi : imgs[i]? = some ⟨(c : Int)⟩) :
    Tracked imgs (qs ++ [⟨i, c⟩]) := by
  induction qs with
  | nil => exact ⟨⟨⟨i, c⟩, by simp, hi⟩, trivial⟩
  | cons a as ih =>
    refine ⟨?_, ih h.2⟩
    obtain ⟨q2, hq2, he⟩ := h.1
    exact ⟨q2, by
      rcases List.mem_cons.mp hq2 with rfl | hq2
      · simp
      · simp [hq2], he⟩

theorem noPending_of_signaled {s : ApplicationHost} (hc : Consistent s) (i K : Nat)
    (hi : s.swapchainImages[i]? = some ⟨(K : Int)⟩) (hs : fenceSignaled K s = true)
    (hK : K < 2) : ∀ q ∈ s.queue, q.commandBuffer ≠ i := by
  intro q hq hqi
  obtain ⟨q2, hq2, he⟩ := tracked_mem hc.tracked q hq
  rw [hqi, hi] at he
  have hf : (K : Int) = (q2.fence : Int) := by
    have := Option.some.inj he
    exact congrArg SwapChainImage.syncIdx this
  have hf2 : K = q2.fence := by exact_mod_cast hf
  have hmem : K ∈ s.queue.map (·.fence) := List.mem_map.mpr ⟨q2, hq2, hf2.symm⟩
  have := (hc.pending K hK).mpr hmem
  rw [hs] at this
  cases this

theorem noPending_of_none {s : ApplicationHost} (hc : Consistent s) (i : Nat)
    (hi : s.swapchainImages[i]? = some ⟨-1⟩) : ∀ q ∈ s.queue, q.commandBuffer ≠ i := by
  intro q hq hqi
  obtain ⟨q2, hq2, he⟩ := tracked_mem hc.tracked q hq
  rw [hqi, hi] at he
  have hf : (-1 : Int) = (q2.fence : Int) := by
    have := Option.some.inj he
    exact congrArg SwapChainImage.syncIdx this
  omega

theorem sat_waitImage (b : FrameBackend) {s : ApplicationHost} (hc : Consistent s) (i : Nat)
    (im : SwapChainImage) (hi : s.swapchainImages[i]? = some im)
    (hcur : fenceSignaled s.currFrameSync s = true) :
    (waitImage b im.syncIdx s).Sat EventSafe fun s2 =>
      Consistent s2 ∧ fenceSignaled s.currFrameSync s2 = true ∧
      s2.swapchainImages = s.swapchainImages ∧ s2.currFrameSync = s.currFrameSync ∧
      ∀ q ∈ s2.queue, q.commandBuffer ≠ i := by
  have hmem : im ∈ s.swapchainImages := List.getElem?_mem hi
  unfold waitImage
  rcases hc.entries im hmem with h | h | h
  · have him : im = ⟨-1⟩ := by cases im; simp_all
    simp only [h, ne_eq, not_true_eq_false, if_false]
    exact sat_ret ⟨hc, hcur, rfl, rfl, noPending_of_none hc i (him ▸ hi)⟩
  all_goals
    have him : im = ⟨((im.syncIdx.toNat : Nat) : Int)⟩ := by cases im; simp_all
    have hK : im.syncIdx.toNat < 2 := by omega
    have hne : im.syncIdx ≠ -1 := by omega
    have hge : 0 ≤ im.syncIdx := by omega
    simp only [hne, ne_eq, not_false_eq_true, if_true, hge]
    refine (sat_vkWaitForFences b.progressAtImageWait im.syncIdx.toNat hc hK).2.mono
      (fun _ he => he) ?_
    intro s2 ⟨hp, hc2, hs2⟩
    refine ⟨hc2, hp.signaled _ hcur, hp.images, hp.current, ?_⟩
    refine noPending_of_signaled hc2 i im.syncIdx.toNat ?_ hs2 hK
    rw [hp.images, hi, ← him]

theorem sat_recordCommandBuffer (b : FrameBackend) (i : Nat) {s : ApplicationHost}
    (hc : Consistent s) (hn : ∀ q ∈ s.queue, q.commandBuffer ≠ i) :
    (recordCommandBuffer b i s).Sat EventSafe fun s2 => s2 = s := by
  unfold recordCommandBuffer
  refine (sat_call_same _ (eventSafe_of_consistent hc _ ?_)).andThen fun s1 hs1 => ?_
  · intro image result h
    cases h
    exact hn
  subst hs1
  split
  · exact sat_raise _
  · split
    · exact ⟨by simp, by simp⟩
    · refine (sat_call_same _ (eventSafe_of_consistent hc _ ?_)).andThen fun s2 hs2 => ?_
      · intro _ _ h; cases h
      subst hs2
      split
      · exact sat_raise _
      · refine (sat_call_same _ (eventSafe_of_consistent hc _ ?_)).andThen fun s3 hs3 => ?_
        · intro _ _ h; cases h
        subst hs3
        split
        · exact sat_raise _
        · exact sat_ret rfl

theorem fenceSignaled_reset (c k : Nat) (s : ApplicationHost) (qs : List Submission) :
    fenceSignaled k { s with frameSync := s.frameSync.set c ⟨false⟩, queue := qs } =
      (fenceSignaled k s && !decide (c = k)) := by
  simp only [fenceSignaled_eq, List.getElem?_set]
  by_cases hck : c = k
  · subst hck
    by_cases hl : c < s.frameSync.length
    · simp [hl]
    · simp [hl, List.getElem?_eq_none (Nat.le_of_not_lt hl)]
  · simp [hck]

theorem consistent_submit {s : ApplicationHost} (hc : Consistent s) (i c : Nat) (hc2 : c < 2)
    (hs : fenceSignaled c s = true) (hi : s.swapchainImages[i]? = some ⟨(c : Int)⟩) :
    Consistent { s with frameSync := s.frameSync.set c ⟨false⟩,
                        queue := s.queue ++ [⟨i, c⟩] } := by
  have hnot : c ∉ s.queue.map (·.fence) := by
    intro hm
    have := (hc.pending c hc2).mpr hm
    rw [hs] at this
    cases this
  refine ⟨by simp [hc.ring], hc.current, hc.resized, hc.hosted, hc.entries, ?_, ?_, ?_,
    tracked_append i c hc.tracked hi⟩
  · simp only [List.map_append, List.map_cons, List.map_nil]
    exact List.Nodup.append hc.distinct (List.nodup_singleton c)
      (by simpa [List.Disjoint] using hnot)
  · intro q hq
    rcases List.mem_append.mp hq with hq | hq
    · exact hc.inRange q hq
    · simp at hq
      rw [hq]
      exact hc2
  · intro k hk
    simp only []
    rw [fenceSignaled_reset]
    by_cases hck : c = k
    · subst hck
      simp
    · have := hc.pending k hk
      simp only [hck, decide_False, Bool.not_false, Bool.and_true, List.map_append, List.map_cons,
        List.map_nil, List.mem_append, List.mem_singleton]
      rw [this]
      constructor
      · exact fun h => Or.inl h
      · rintro (h | h)
        · exact h
        · exact absurd h.symm hck

theorem sat_submitFrame (b : FrameBackend) (i : Nat) {s : ApplicationHost} (hc : Consistent s)
    (hs : fenceSignaled s.currFrameSync s = true)
    (hi : s.swapchainImages[i]? = some ⟨(s.currFrameSync : Int)⟩) :
    (submitFrame b i s).Sat EventSafe Consistent := by
  unfold submitFrame vkResetFences vkQueueSubmit
  have hlen := consistent_queue_le hc
  have he1 : EventSafe ⟨.vkResetFences s.currFrameSync, s.queue,
      s.frameSync.set s.currFrameSync ⟨false⟩⟩ :=
    ⟨hlen, by simp [hc.ring], by intro _ _ h; cases h⟩
  refine (sat_call_same _ he1).andThen ?_
  intro s1 hs1
  subst hs1
  by_cases hb : b.submitResult = .VK_SUCCESS
  · have hc3 := consistent_submit hc i s.currFrameSync hc.current hs hi
    simp only [hb, if_true]
    have he2 := eventSafe_of_consistent hc3 (.vkQueueSubmit
      (.availableForWriting s.currFrameSync) i (.renderFinished_forGPU s.currFrameSync)
      s.currFrameSync .VK_SUCCESS) (by intro _ _ h; cases h)
    refine (sat_call_same _ he2).andThen ?_
    intro s2 hs2
    subst hs2
    simp only [ne_eq, not_true_eq_false, if_false]
    exact sat_ret hc3
  · simp only [hb, if_false]
    have he2 : EventSafe ⟨.vkQueueSubmit (.availableForWriting s.currFrameSync) i
        (.renderFinished_forGPU s.currFrameSync) s.currFrameSync b.submitResult, s.queue,
        s.frameSync.set s.currFrameSync ⟨false⟩⟩ :=
      ⟨hlen, by simp [hc.ring], by intro _ _ h; cases h⟩
    refine (sat_call_same _ he2).andThen ?_
    intro s2 hs2
    subst hs2
    simp only [ne_eq, hb, not_false_eq_true, if_true]
    exact sat_raise _

theorem sat_presentFrame (b : FrameBackend) {s : ApplicationHost} (hc : Consistent s) :
    (presentFrame b s).Sat EventSafe Consistent := by
  unfold presentFrame
  refine (sat_call_same _ (eventSafe_of_consistent hc _ ?_)).andThen fun s1 hs1 => ?_
  · intro _ _ h; cases h
  subst hs1
  split
  · exact sat_recreateSwapChain _ ⟨by simp [hc.ring], hc.current, rfl, hc.entries⟩
  · split
    · exact sat_raise _
    · exact sat_ret hc

theorem sat_renderFrame (b : FrameBackend) {s : ApplicationHost} (hc : Consistent s)
    (hs : fenceSignaled s.currFrameSync s = true) :
    (renderFrame b s).Sat EventSafe Consistent := by
  unfold renderFrame
  cases hi : s.swapchainImages[b.imageIndex]? with
  | none => exact ⟨by simp, by simp⟩
  | some im =>
    simp only []
    refine (sat_waitImage b hc b.imageIndex im hi hs).andThen ?_
    intro s1 ⟨hc1, hs1, himg, hcur, hn⟩
    have hlt : b.imageIndex < s1.swapchainImages.length := by
      rw [himg]
      exact (List.getElem?_eq_some.mp hi).1
    have hc2 : Consistent { s1 with
        swapchainImages := (s1.swapchainImages.set b.imageIndex ⟨(s1.currFrameSync : Int)⟩) } := by
      refine ⟨hc1.ring, hc1.current, hc1.resized, hc1.hosted, ?_, hc1.distinct, hc1.inRange,
        hc1.pending, tracked_set _ _ hc1.tracked hn⟩
      intro x hx
      rcases List.mem_or_eq_of_mem_set hx with hx | hx
      · exact hc1.entries x hx
      · rw [hx]
        have := hc1.current
        simp only []
        omega
    refine (sat_recordCommandBuffer b b.imageIndex hc2 hn).andThen ?_
    intro s2 hs2
    subst hs2
    refine (sat_submitFrame b b.imageIndex hc2 (by rw [hcur]; exact hs1) ?_).andThen ?_
    · simp only []
      rw [List.getElem?_set_self hlt]
    intro s3 hc3
    refine (sat_presentFrame b hc3).andThen ?_
    intro s4 hc4
    refine sat_ret ⟨hc4.ring, ?_, hc4.resized, hc4.hosted, hc4.entries, hc4.distinct,
      hc4.inRange, hc4.pending, hc4.tracked⟩
    simp only [hc4.ring]
    omega

theorem sat_drawFrame (b : FrameBackend) {s : ApplicationHost} (hc : Consistent s) :
    (drawFrame b s).Sat EventSafe Consistent := by
  unfold drawFrame
  refine (sat_vkWaitForFences b.progressAtSlotWait s.currFrameSync hc hc.current).2.andThen ?_
  intro s1 ⟨hp, hc1, hs1⟩
  refine (sat_call_same _ (eventSafe_of_consistent hc1 _ ?_)).andThen ?_
  · intro _ _ h; cases h
  intro s2 hs2
  subst hs2
  split
  · exact sat_recreateSwapChain _ (recreatable_of_consistent hc1)
  · split
    · exact sat_raise _
    · exact sat_renderFrame b hc1 (by rw [hp.current]; exact hs1)

theorem sat_runFrames (bs : List FrameBackend) {s : ApplicationHost} (hc : Consistent s) :
    (runFrames bs s).Sat EventSafe Consistent := by
  induction bs generalizing s with
  | nil => exact sat_ret hc
  | cons b bs ih => exact (sat_drawFrame b hc).andThen fun s2 hs2 => ih hs2

theorem sat_session (c : RecreateBackend) (bs : List FrameBackend) :
    (session c bs).Sat EventSafe Consistent :=
  (sat_recreateSwapChain c recreatable_initial).andThen fun _ hs => sat_runFrames bs hs

/-! ## What a recreation does -/

theorem forEach_calls {body : Nat → ApplicationHost → Result} {ev : Nat → List Event}
    {s : ApplicationHost} (h : ∀ i, body i s = ⟨.returned, s, ev i⟩) (l : List Nat) :
    forEach body l s = ⟨.returned, s, l.flatMap ev⟩ := by
  induction l with
  | nil => rfl
  | cons i is ih =>
    unfold forEach
    rw [h i, Result.andThen_of_returned _ rfl]
    simp only [ih, List.flatMap_cons]

@[simp] theorem andThen_mk_returned (s : ApplicationHost) (ev : List Event)
    (f : ApplicationHost → Result) :
    (⟨.returned, s, ev⟩ : Result).andThen f = ⟨(f s).status, (f s).host, ev ++ (f s).events⟩ :=
  rfl

@[simp] theorem andThen_mk_thrown (x : Failure) (s : ApplicationHost) (ev : List Event)
    (f : ApplicationHost → Result) :
    (⟨.thrown x, s, ev⟩ : Result).andThen f = ⟨.thrown x, s, ev⟩ :=
  rfl

theorem destroyImageTargets_eq (i : Nat) (s : ApplicationHost) :
    destroyImageTargets i s = ⟨.returned, s,
      [⟨.vkDestroyFramebuffer i, s.queue, s.frameSync⟩,
       ⟨.vkDestroyImageView i, s.queue, s.frameSync⟩,
       ⟨.vkFreeCommandBuffers i, s.queue, s.frameSync⟩]⟩ := rfl

theorem destroyFrameSync_eq (k : Nat) (s : ApplicationHost) :
    destroyFrameSync k s = ⟨.returned, s,
      [⟨.vkDestroySemaphore (.availableForWriting k), s.queue, s.frameSync⟩,
       ⟨.vkDestroySemaphore (.renderFinished_forGPU k), s.queue, s.frameSync⟩,
       ⟨.vkDestroyFence k, s.queue, s.frameSync⟩]⟩ := rfl

theorem cleanupSwapChain_eq (s : ApplicationHost) :
    cleanupSwapChain s =
      ⟨.returned, { advance s.queue.length s with hostedApp := false },
        (teardownOrder s.swapchainImages.length s.frameSync.length).map fun op =>
          ⟨op, [], (advance s.queue.length s).frameSync⟩⟩ := by
  have hp := progress_advance s.queue.length s
  have hq := advance_all_queue s
  unfold cleanupSwapChain vkDeviceWaitIdle
  simp only [call, andThen_mk_returned]
  rw [forEach_calls (fun i => destroyImageTargets_eq i _)]
  simp only [andThen_mk_returned]
  rw [forEach_calls (fun k => destroyFrameSync_eq k _)]
  simp [teardownOrder, hq, hp.images, hp.ring, List.map_flatMap, List.flatMap_map]

theorem teardownOrder_lifecycle (n m : Nat) : ∀ op ∈ teardownOrder n m, op.isFrameOp = false := by
  intro op hop
  simp only [teardownOrder, List.mem_append, List.mem_flatMap, List.mem_cons,
    List.mem_singleton, List.mem_range, List.not_mem_nil, or_false] at hop
  rcases hop with ((((rfl | rfl) | ⟨i, _, rfl | rfl | rfl⟩) | (rfl | rfl)) | ⟨k, _, rfl | rfl | rfl⟩)
    <;> rfl

theorem lifecycle_cleanupSwapChain (s : ApplicationHost) :
    (cleanupSwapChain s).Sat Lifecycle fun s2 =>
      s2 = { advance s.queue.length s with hostedApp := false } := by
  rw [cleanupSwapChain_eq]
  refine ⟨?_, fun _ => rfl⟩
  intro e he
  simp only [List.mem_map] at he
  obtain ⟨op, hop, rfl⟩ := he
  exact teardownOrder_lifecycle _ _ op hop

theorem lifecycle_call (op : Op) (s : ApplicationHost) (h : op.isFrameOp = false) :
    (call op s).Sat Lifecycle fun s2 => s2 = s :=
  sat_call_same op h

theorem lifecycle_createSwapChain (b : RecreateBackend) (s : ApplicationHost) :
    (createSwapChain b s).Sat Lifecycle fun s2 =>
      s2 = { s with swapchainImages := resizeImages b.imageCount s.swapchainImages } := by
  unfold createSwapChain
  refine (lifecycle_call _ s (by rfl)).andThen fun s1 hs1 => ?_
  subst hs1
  split
  · exact sat_raise _
  · refine (lifecycle_call _ s1 (by rfl)).andThen fun s2 hs2 => ?_
    subst hs2
    exact sat_ret rfl

theorem lifecycle_createRenderPass (b : RecreateBackend) (s : ApplicationHost) :
    (createRenderPass b s).Sat Lifecycle fun s2 => s2 = s := by
  unfold createRenderPass
  refine (lifecycle_call _ s (by rfl)).andThen fun s1 hs1 => ?_
  subst hs1
  split
  · exact sat_raise _
  · exact sat_ret rfl

theorem lifecycle_createImageTargets (b : RecreateBackend) (s0 : ApplicationHost) (i : Nat)
    (s : ApplicationHost) (h : s = s0) :
    (createImageTargets b i s).Sat Lifecycle fun s2 => s2 = s0 := by
  subst h
  unfold createImageTargets
  refine (lifecycle_call _ s (by rfl)).andThen fun s1 hs1 => ?_
  subst hs1
  split
  · exact sat_raise _
  · refine (lifecycle_call _ s1 (by rfl)).andThen fun s2 hs2 => ?_
    subst hs2
    split
    · exact sat_raise _
    · exact sat_ret rfl

theorem lifecycle_allocateCommandBuffer (b : RecreateBackend) (s0 : ApplicationHost) (i : Nat)
    (s : ApplicationHost) (h : s = s0) :
    (allocateCommandBuffer b i s).Sat Lifecycle fun s2 => s2 = s0 := by
  subst h
  unfold allocateCommandBuffer
  refine (lifecycle_call _ s (by rfl)).andThen fun s1 hs1 => ?_
  subst hs1
  split
  · exact sat_raise _
  · exact sat_ret rfl

theorem lifecycle_createFrameSync (b : RecreateBackend) (k : Nat) (s : ApplicationHost) :
    (createFrameSync b k s).Sat Lifecycle fun s2 =>
      s2 = { s with frameSync := signalFence k s.frameSync } := by
  unfold createFrameSync
  refine (lifecycle_call _ s (by rfl)).andThen fun s1 hs1 => ?_
  subst hs1
  split
  · exact sat_raise _
  · refine (lifecycle_call _ s1 (by rfl)).andThen fun s2 hs2 => ?_
    subst hs2
    split
    · exact sat_raise _
    · split
      · exact (lifecycle_call _ s2 (by rfl)).andThen fun s3 _ => sat_raise _
      · exact sat_call _ (by rfl) rfl

theorem signal_resized_frames (fs : List Frame) :
    signalFence 1 (signalFence 0 (resizeFrames 2 fs)) = [⟨true⟩, ⟨true⟩] := by
  have hl := resizeFrames_length fs
  match h : resizeFrames 2 fs with
  | [] => rw [h] at hl; cases hl
  | [_] => rw [h] at hl; cases hl
  | [_, _] => rfl
  | _ :: _ :: _ :: _ => rw [h] at hl; simp at hl

theorem lifecycle_createSyncObjects (b : RecreateBackend) (s : ApplicationHost) :
    (createSyncObjects b s).Sat Lifecycle fun s2 =>
      s2 = { s with frameSync := [⟨true⟩, ⟨true⟩] } := by
  unfold createSyncObjects
  rw [resizeFrames_length]
  show (forEach (createFrameSync b) [0, 1] _).Sat _ _
  unfold forEach
  refine (lifecycle_createFrameSync b 0 _).andThen ?_
  intro s1 hs1
  unfold forEach
  refine (lifecycle_createFrameSync b 1 _).andThen ?_
  intro s2 hs2
  unfold forEach
  refine sat_ret ?_
  rw [hs2, hs1]
  simp only [signal_resized_frames]

theorem lifecycle_createHostedApp (b : RecreateBackend) (s : ApplicationHost) :
    (createHostedApp b s).Sat Lifecycle fun s2 => s2 = { s with hostedApp := true } := by
  unfold createHostedApp
  refine (lifecycle_call _ s (by rfl)).andThen fun s1 hs1 => ?_
  subst hs1
  split
  · exact sat_ret rfl
  · exact sat_raise _

theorem lifecycle_recreateSwapChain (b : RecreateBackend) (s : ApplicationHost) :
    (recreateSwapChain b s).Sat Lifecycle fun s2 => s2 = recreated b s := by
  have hp := progress_advance s.queue.length s
  have hq := advance_all_queue s
  unfold recreateSwapChain
  refine (lifecycle_cleanupSwapChain s).andThen fun s1 hs1 => ?_
  refine (lifecycle_createSwapChain b s1).andThen fun s2 hs2 => ?_
  refine (lifecycle_createRenderPass b s2).andThen fun s3 hs3 => ?_
  refine (sat_forEach (lifecycle_createImageTargets b s3) _ s3 rfl).andThen fun s4 hs4 => ?_
  unfold createCommandBuffers
  refine (sat_forEach (lifecycle_allocateCommandBuffer b s4) _ s4 rfl).andThen fun s5 hs5 => ?_
  refine (lifecycle_createSyncObjects b s5).andThen fun s6 hs6 => ?_
  refine (lifecycle_createHostedApp b s6).mono (fun _ h => h) ?_
  intro s7 hs7
  rw [hs7, hs6, hs5, hs4, hs3, hs2, hs1]
  simp [recreated, hp.images, hp.current, hp.resized, hq]

theorem createSwapChain_eq {b : RecreateBackend} (h : b.Succeeds) (s : ApplicationHost) :
    createSwapChain b s = ⟨.returned,
      { s with swapchainImages := resizeImages b.imageCount s.swapchainImages },
      [⟨.vkCreateSwapchainKHR (requestedImageCount b.minImageCount b.maxImageCount) .VK_SUCCESS,
          s.queue, s.frameSync⟩,
       ⟨.vkGetSwapchainImagesKHR b.imageCount, s.queue, s.frameSync⟩]⟩ := by
  simp [createSwapChain, call, ret, h.1]

theorem createRenderPass_eq {b : RecreateBackend} (h : b.Succeeds) (s : ApplicationHost) :
    createRenderPass b s = ⟨.returned, s,
      [⟨.vkCreateRenderPass .VK_SUCCESS, s.queue, s.frameSync⟩]⟩ := by
  simp [createRenderPass, call, ret, h.2.1]

theorem createImageTargets_eq {b : RecreateBackend} (h : b.Succeeds) (i : Nat)
    (s : ApplicationHost) :
    createImageTargets b i s = ⟨.returned, s,
      [⟨.vkCreateImageView i .VK_SUCCESS, s.queue, s.frameSync⟩,
       ⟨.vkCreateFramebuffer i .VK_SUCCESS, s.queue, s.frameSync⟩]⟩ := by
  simp [createImageTargets, call, ret, h.2.2.1 i, h.2.2.2.1 i]

theorem allocateCommandBuffer_eq {b : RecreateBackend} (h : b.Succeeds) (i : Nat)
    (s : ApplicationHost) :
    allocateCommandBuffer b i s = ⟨.returned, s,
      [⟨.vkAllocateCommandBuffers i .VK_SUCCESS, s.queue, s.frameSync⟩]⟩ := by
  simp [allocateCommandBuffer, call, ret, h.2.2.2.2.1 i]

theorem createFrameSync_eq {b : RecreateBackend} (h : b.Succeeds) (k : Nat)
    (s : ApplicationHost) :
    createFrameSync b k s = ⟨.returned, { s with frameSync := signalFence k s.frameSync },
      [⟨.vkCreateSemaphore (.availableForWriting k) .VK_SUCCESS, s.queue, s.frameSync⟩,
       ⟨.vkCreateSemaphore (.renderFinished_forGPU k) .VK_SUCCESS, s.queue, s.frameSync⟩,
       ⟨.vkCreateFence k .VK_SUCCESS, s.queue, signalFence k s.frameSync⟩]⟩ := by
  simp [createFrameSync, call, h.2.2.2.2.2.1 _, h.2.2.2.2.2.2.1 k]

theorem createHostedApp_eq {b : RecreateBackend} (h : b.Succeeds) (s : ApplicationHost) :
    createHostedApp b s = ⟨.returned, { s with hostedApp := true },
      [⟨.hostedAppCreate true, s.queue, s.frameSync⟩]⟩ := by
  simp [createHostedApp, call, ret, h.2.2.2.2.2.2.2]

theorem resizeImages_length (n : Nat) (imgs : List SwapChainImage) :
    (resizeImages n imgs).length = n := by
  unfold resizeImages
  simp
  omega

theorem recreateSwapChain_succeeds {b : RecreateBackend} (h : b.Succeeds)
    (s : ApplicationHost) :
    (recreateSwapChain b s).status = .returned ∧
    (recreateSwapChain b s).host = recreated b s ∧
    (recreateSwapChain b s).ops =
      teardownOrder s.swapchainImages.length s.frameSync.length ++ rebuildOrder b := by
  have hst : (recreateSwapChain b s).status = .returned ∧ (recreateSwapChain b s).ops =
      teardownOrder s.swapchainImages.length s.frameSync.length ++ rebuildOrder b := by
    unfold recreateSwapChain createCommandBuffers createSyncObjects
    rw [cleanupSwapChain_eq]
    simp only [andThen_mk_returned, createSwapChain_eq h, createRenderPass_eq h,
      resizeImages_length, resizeFrames_length]
    rw [forEach_calls (fun i => createImageTargets_eq h i _)]
    simp only [andThen_mk_returned, resizeImages_length]
    rw [forEach_calls (fun i => allocateCommandBuffer_eq h i _)]
    simp only [andThen_mk_returned]
    show (Result.mk (forEach (createFrameSync b) [0, 1] _ |>.andThen _).status _ _).status = _ ∧ _
    simp only [forEach, createFrameSync_eq h, andThen_mk_returned, ret, createHostedApp_eq h]
    simp [Result.ops, rebuildOrder, List.map_flatMap, List.flatMap_map, List.range_succ,
      Function.comp_def]
  exact ⟨hst.1, (lifecycle_recreateSwapChain b s).2 hst.1, hst.2⟩

/-! ## Waits, for any host state -/

theorem fenceSignaled_iff (k : Nat) (s : ApplicationHost) :
    fenceSignaled k s = true ↔ s.frameSync[k]? = some ⟨true⟩ := by
  rw [fenceSignaled_eq]
  cases h : s.frameSync[k]? with
  | none => simp
  | some f => cases f; simp

theorem vkWaitForFences_cases (extra k : Nat) (s : ApplicationHost)
    (hk : k < s.frameSync.length) :
    ∃ s2, Progress s s2 ∧
      ((vkWaitForFences extra k s =
          ⟨.returned, s2, [⟨.vkWaitForFences k UINT64_MAX, s2.queue, s2.frameSync⟩]⟩ ∧
        fenceSignaled k s2 = true) ∨
       vkWaitForFences extra k s =
          ⟨.blocked, s2, [⟨.vkWaitForFences k UINT64_MAX, s2.queue, s2.frameSync⟩]⟩) := by
  unfold vkWaitForFences
  simp only [hk, if_true]
  cases hw : waitLoop k s.queue.length s with
  | none => exact ⟨_, progress_advance _ s, Or.inr rfl⟩
  | some s1 =>
    obtain ⟨hp, hs⟩ := waitLoop_progress _ _ _ _ hw
    exact ⟨_, hp.trans (progress_advance extra s1),
      Or.inl ⟨rfl, (progress_advance extra s1).signaled k hs⟩⟩

theorem vkWaitForFences_undefined (extra k : Nat) (s : ApplicationHost)
    (hk : ¬ k < s.frameSync.length) : vkWaitForFences extra k s = ⟨.undefined, s, []⟩ := by
  unfold vkWaitForFences
  simp only [hk, if_false]

theorem vkWaitForFences_returned {extra k : Nat} {s : ApplicationHost}
    (h : (vkWaitForFences extra k s).status = .returned) :
    ∃ s2, Progress s s2 ∧ fenceSignaled k s2 = true ∧ vkWaitForFences extra k s =
      ⟨.returned, s2, [⟨.vkWaitForFences k UINT64_MAX, s2.queue, s2.frameSync⟩]⟩ := by
  by_cases hk : k < s.frameSync.length
  · obtain ⟨s2, hp, ⟨he, hs⟩ | he⟩ := vkWaitForFences_cases extra k s hk
    · exact ⟨s2, hp, hs, he⟩
    · rw [he] at h; cases h
  · rw [vkWaitForFences_undefined extra k s hk] at h; cases h

theorem sat_wait_any (extra k : Nat) (s : ApplicationHost) :
    (vkWaitForFences extra k s).Sat (fun e => e.op = .vkWaitForFences k UINT64_MAX)
      fun s2 => Progress s s2 ∧ fenceSignaled k s2 = true := by
  by_cases hk : k < s.frameSync.length
  · obtain ⟨s2, hp, ⟨he, hs⟩ | he⟩ := vkWaitForFences_cases extra k s hk
    · rw [he]; exact ⟨by simp, fun _ => ⟨hp, hs⟩⟩
    · rw [he]; exact ⟨by simp, by simp⟩
  · rw [vkWaitForFences_undefined extra k s hk]; exact ⟨by simp, by simp⟩

theorem sat_waitImage_any (b : FrameBackend) (x : Int) (s : ApplicationHost) :
    (waitImage b x s).Sat (fun e => ∃ k, e.op = .vkWaitForFences k UINT64_MAX)
      fun s2 => Progress s s2 := by
  unfold waitImage
  split
  · split
    · exact (sat_wait_any _ _ s).mono (fun e he => ⟨_, he⟩) fun s2 h => h.1
    · exact ⟨by simp, by simp⟩
  · exact sat_ret (Progress.refl s)

/-! ## C2: the frame starts by waiting for the current slot -/

/-- C2. For every call of `drawFrame` on a host whose current slot index is valid, the
first backend call is `vkWaitForFences` on the fence of `frameSync[currFrameSync]`
with timeout `UINT64_MAX`; any further call of the frame (acquisition, recording,
submission) is made only if that wait returned, and then the fence was signaled when
it returned. -/
theorem drawFrame_first_waits_for_current_slot (b : FrameBackend) (s : ApplicationHost)
    (h : s.currFrameSync < s.frameSync.length) :
    ∃ e rest, (drawFrame b s).events = e :: rest ∧
      e.op = .vkWaitForFences s.currFrameSync UINT64_MAX ∧
      (rest ≠ [] →
        (vkWaitForFences b.progressAtSlotWait s.currFrameSync s).status = .returned ∧
        e.frameSync[s.currFrameSync]? = some ⟨true⟩) := by
  obtain ⟨s2, _, ⟨he, hs⟩ | he⟩ := vkWaitForFences_cases b.progressAtSlotWait _ s h
  · unfold drawFrame
    rw [he]
    simp only [andThen_mk_returned, List.singleton_append]
    exact ⟨_, _, rfl, rfl, fun _ => ⟨trivial, (fenceSignaled_iff _ _).mp hs⟩⟩
  · unfold drawFrame
    rw [he]
    refine ⟨_, [], rfl, rfl, fun hne => absurd rfl hne⟩

/-- Witness for C2: the first frame after construction, on three images. -/
theorem drawFrame_first_waits_for_current_slot_witness :
    (ApplicationHost.construct {}).host.currFrameSync
        < (ApplicationHost.construct {}).host.frameSync.length ∧
    ∃ e rest, (drawFrame {} (ApplicationHost.construct {}).host).events = e :: rest ∧
      e.op = .vkWaitForFences (ApplicationHost.construct {}).host.currFrameSync UINT64_MAX ∧
      (rest ≠ [] →
        (vkWaitForFences ({} : FrameBackend).progressAtSlotWait
          (ApplicationHost.construct {}).host.currFrameSync
          (ApplicationHost.construct {}).host).status = .returned ∧
        e.frameSync[(ApplicationHost.construct {}).host.currFrameSync]? = some ⟨true⟩) :=
  ⟨by decide, drawFrame_first_waits_for_current_slot {} (ApplicationHost.construct {}).host
    (by decide)⟩

/-! ## C1: the wait on the slot recorded for the acquired image -/

theorem Result.Ends.seq {r : Result} {f : ApplicationHost → Result} {T : Failure → Prop}
    (hr : r.Ends T) (hf : ∀ s, (f s).Ends T) : (r.andThen f).Ends T := by
  by_cases h : r.status = .returned
  · rw [Result.andThen_of_returned f h]
    exact hf r.host
  · rw [Result.andThen_of_not_returned f h]
    exact hr

theorem ends_call (op : Op) (s : ApplicationHost) (T : Failure → Prop) : (call op s).Ends T :=
  Or.inl rfl

theorem ends_ret (s : ApplicationHost) (T : Failure → Prop) : (ret s).Ends T :=
  Or.inl rfl

theorem ends_raise (f : Failure) (s : ApplicationHost) {T : Failure → Prop} (h : T f) :
    (raise f s).Ends T :=
  Or.inr ⟨f, rfl, h⟩

theorem ends_forEach {body : Nat → ApplicationHost → Result} {T : Failure → Prop}
    (h : ∀ i s, (body i s).Ends T) (l : List Nat) (s : ApplicationHost) :
    (forEach body l s).Ends T := by
  induction l generalizing s with
  | nil => exact ends_ret s T
  | cons i is ih => exact (h i s).seq ih

theorem ends_recreateSwapChain (b : RecreateBackend) (s : ApplicationHost) :
    (recreateSwapChain b s).Ends fun f => f.isCreation = true := by
  unfold recreateSwapChain
  refine Result.Ends.seq (by rw [cleanupSwapChain_eq]; exact Or.inl rfl) fun s => ?_
  refine Result.Ends.seq ?_ fun s => ?_
  · unfold createSwapChain
    refine (ends_call _ _ _).seq fun s => ?_
    split
    · exact ends_raise _ _ rfl
    · exact (ends_call _ _ _).seq fun s => ends_ret _ _
  refine Result.Ends.seq ?_ fun s => ?_
  · unfold createRenderPass
    refine (ends_call _ _ _).seq fun s => ?_
    split
    · exact ends_raise _ _ rfl
    · exact ends_ret _ _
  refine Result.Ends.seq (ends_forEach ?_ _ _) fun s => ?_
  · intro i s
    unfold createImageTargets
    refine (ends_call _ _ _).seq fun s => ?_
    split
    · exact ends_raise _ _ rfl
    · refine (ends_call _ _ _).seq fun s => ?_
      split
      · exact ends_raise _ _ rfl
      · exact ends_ret _ _
  refine Result.Ends.seq (ends_forEach ?_ _ _) fun s => ?_
  · intro i s
    unfold allocateCommandBuffer
    refine (ends_call _ _ _).seq fun s => ?_
    split
    · exact ends_raise _ _ rfl
    · exact ends_ret _ _
  refine Result.Ends.seq (ends_forEach ?_ _ _) fun s => ?_
  · intro k s
    unfold createFrameSync
    refine (ends_call _ _ _).seq fun s => ?_
    split
    · exact ends_raise _ _ rfl
    · refine (ends_call _ _ _).seq fun s => ?_
      split
      · exact ends_raise _ _ rfl
      · split
        · exact (ends_call _ _ _).seq fun s => ends_raise _ _ rfl
        · exact ends_call _ _ _
  unfold createHostedApp
  refine (ends_call _ _ _).seq fun s => ?_
  split
  · exact ends_ret _ _
  · exact ends_raise _ _ rfl

theorem abandoned_of_lifecycle {e : Event} (h : Lifecycle e) : Abandoned e := by
  unfold Lifecycle at h
  unfold Abandoned
  cases hop : e.op <;> rw [hop] at h <;> first | exact ⟨rfl, rfl, rfl⟩ | cases h

/-! ## C5: a stale acquisition -/

theorem drawFrame_stale_eq {b : FrameBackend} {s : ApplicationHost}
    (ha : b.acquireResult = .VK_ERROR_OUT_OF_DATE_KHR)
    (hw : (vkWaitForFences b.progressAtSlotWait s.currFrameSync s).status = .returned) :
    ∃ s1, Progress s s1 ∧ fenceSignaled s.currFrameSync s1 = true ∧
      drawFrame b s =
        ⟨(recreateSwapChain b.recreate s1).status, (recreateSwapChain b.recreate s1).host,
          ⟨.vkWaitForFences s.currFrameSync UINT64_MAX, s1.queue, s1.frameSync⟩ ::
          ⟨.vkAcquireNextImageKHR UINT64_MAX (.availableForWriting s.currFrameSync)
            .VK_ERROR_OUT_OF_DATE_KHR b.imageIndex, s1.queue, s1.frameSync⟩ ::
          (recreateSwapChain b.recreate s1).events⟩ := by
  obtain ⟨s1, hp1, hs1, he1⟩ := vkWaitForFences_returned hw
  refine ⟨s1, hp1, hs1, ?_⟩
  unfold drawFrame
  rw [he1]
  simp only [andThen_mk_returned, call, ha, if_true, List.singleton_append, hp1.current]

theorem drawFrame_stale_abandoned {b : FrameBackend} {s : ApplicationHost}
    (ha : b.acquireResult = .VK_ERROR_OUT_OF_DATE_KHR) :
    ∀ e ∈ (drawFrame b s).events, Abandoned e := by
  by_cases hw : (vkWaitForFences b.progressAtSlotWait s.currFrameSync s).status = .returned
  · obtain ⟨s1, _, _, heq⟩ := drawFrame_stale_eq ha hw
    rw [heq]
    intro e he
    simp only [List.mem_cons] at he
    rcases he with rfl | rfl | he
    · exact ⟨rfl, rfl, rfl⟩
    · exact ⟨rfl, rfl, rfl⟩
    · exact abandoned_of_lifecycle ((lifecycle_recreateSwapChain b.recreate s1).1 e he)
  · unfold drawFrame
    rw [Result.andThen_of_not_returned _ hw]
    intro e he
    have := (sat_wait_any b.progressAtSlotWait s.currFrameSync s).1 e he
    unfold Abandoned
    rw [this]
    exact ⟨rfl, rfl, rfl⟩

theorem recreateSwapChain_ops (b : RecreateBackend) (s : ApplicationHost) :
    ∃ rest, (recreateSwapChain b s).ops =
        teardownOrder s.swapchainImages.length s.frameSync.length ++ rest ∧
      (b.Succeeds → rest = rebuildOrder b) := by
  have hpre : ∃ rest, (recreateSwapChain b s).ops =
      teardownOrder s.swapchainImages.length s.frameSync.length ++ rest := by
    unfold recreateSwapChain
    obtain ⟨rest, hr, _, _⟩ := Result.andThen_events_prefix (cleanupSwapChain s) fun s =>
      (createSwapChain b s).andThen fun s =>
      (createRenderPass b s).andThen fun s =>
      (forEach (createImageTargets b) (List.range s.swapchainImages.length) s).andThen fun s =>
      (createCommandBuffers b s).andThen fun s =>
      (createSyncObjects b s).andThen fun s =>
      createHostedApp b s
    refine ⟨rest.map (·.op), ?_⟩
    unfold Result.ops
    rw [hr, cleanupSwapChain_eq]
    simp [Function.comp_def]
  obtain ⟨rest, hr⟩ := hpre
  refine ⟨rest, hr, fun hs => ?_⟩
  have := (recreateSwapChain_succeeds hs s).2.2
  rw [hr] at this
  exact List.append_cancel_left this

theorem stale_runFrames (bs : List FrameBackend) :
    ∀ s : ApplicationHost, Consistent s →
    (∀ x ∈ bs, x.acquireResult = .VK_ERROR_OUT_OF_DATE_KHR ∧ x.recreate.Succeeds) →
    (runFrames bs s).status = .returned ∧ (∀ e ∈ (runFrames bs s).events, Abandoned e) ∧
      (runFrames bs s).host.currFrameSync = s.currFrameSync := by
  induction bs with
  | nil => intro s _ _; exact ⟨rfl, by simp [runFrames, ret], rfl⟩
  | cons b bs ih =>
    intro s hc hbs
    have hb := hbs b (List.mem_cons_self _ _)
    have hw := (sat_vkWaitForFences b.progressAtSlotWait s.currFrameSync hc hc.current).1
    obtain ⟨s1, hp1, _, heq⟩ := drawFrame_stale_eq hb.1 hw
    obtain ⟨hst, hhost, _⟩ := recreateSwapChain_succeeds hb.2 s1
    have hret : (drawFrame b s).status = .returned := by rw [heq]; exact hst
    have hc2 : Consistent (drawFrame b s).host := (sat_drawFrame b hc).2 hret
    have hcur : (drawFrame b s).host.currFrameSync = s.currFrameSync := by
      rw [heq]
      simp only [hhost, recreated, hp1.current]
    obtain ⟨h1, h2, h3⟩ := ih (drawFrame b s).host hc2
      fun x hx => hbs x (List.mem_cons_of_mem _ hx)
    unfold runFrames
    rw [Result.andThen_of_returned _ hret]
    refine ⟨h1, ?_, by rw [← hcur]; exact h3⟩
    intro e he
    rcases List.mem_append.mp he with he | he
    · exact drawFrame_stale_abandoned hb.1 e he
    · exact h2 e he

/-- C5, as amended. When acquisition reports `VK_ERROR_OUT_OF_DATE_KHR`, `drawFrame`
abandons the frame: none of its calls records, submits or presents. After the wait
and the acquisition it runs `recreateSwapChain` (the full teardown, then the rebuild)
and ends as the recreation ends: it returns or raises a creation failure, and raises
no error of its own. When every creation call succeeds it returns, with the current
slot unchanged. A session of any number of consecutive stale acquisitions whose
recreations succeed returns without a single recording, submission or present. -/
theorem drawFrame_stale_acquire (b : FrameBackend) (s : ApplicationHost)
    (ha : b.acquireResult = .VK_ERROR_OUT_OF_DATE_KHR)
    (hw : (vkWaitForFences b.progressAtSlotWait s.currFrameSync s).status = .returned)
    (c : RecreateBackend) (bs : List FrameBackend) (hc : c.Succeeds)
    (hbs : ∀ x ∈ bs, x.acquireResult = .VK_ERROR_OUT_OF_DATE_KHR ∧ x.recreate.Succeeds) :
    (∀ e ∈ (drawFrame b s).events, Abandoned e) ∧
    (∃ rest, (drawFrame b s).ops =
        .vkWaitForFences s.currFrameSync UINT64_MAX ::
        .vkAcquireNextImageKHR UINT64_MAX (.availableForWriting s.currFrameSync)
          .VK_ERROR_OUT_OF_DATE_KHR b.imageIndex ::
        teardownOrder s.swapchainImages.length s.frameSync.length ++ rest ∧
      (b.recreate.Succeeds → rest = rebuildOrder b.recreate)) ∧
    (drawFrame b s).Ends (fun f => f.isCreation = true) ∧
    (b.recreate.Succeeds → (drawFrame b s).status = .returned ∧
      (drawFrame b s).host.currFrameSync = s.currFrameSync) ∧
    ((session c bs).status = .returned ∧ (∀ e ∈ (session c bs).events, Abandoned e) ∧
      (session c bs).host.currFrameSync = 0) := by
  obtain ⟨s1, hp1, _, heq⟩ := drawFrame_stale_eq ha hw
  refine ⟨drawFrame_stale_abandoned ha, ?_, ?_, ?_, ?_⟩
  · obtain ⟨rest, hr, hs⟩ := recreateSwapChain_ops b.recreate s1
    refine ⟨rest, ?_, hs⟩
    unfold Result.ops at hr ⊢
    rw [heq]
    simp only [List.map_cons, hr, hp1.images, hp1.ring, List.cons_append]
  · rw [heq]
    exact ends_recreateSwapChain b.recreate s1
  · intro hs
    obtain ⟨hst, hhost, _⟩ := recreateSwapChain_succeeds hs s1
    rw [heq]
    exact ⟨hst, by simp only [hhost, recreated, hp1.current]⟩
  · obtain ⟨hst, hhost, _⟩ := recreateSwapChain_succeeds hc {}
    have hst2 : (ApplicationHost.construct c).status = .returned := hst
    have hcons : Consistent (ApplicationHost.construct c).host :=
      (sat_recreateSwapChain c recreatable_initial).2 hst
    obtain ⟨h1, h2, h3⟩ := stale_runFrames bs _ hcons hbs
    unfold session
    rw [Result.andThen_of_returned _ hst2]
    refine ⟨h1, ?_, ?_⟩
    · intro e he
      rcases List.mem_append.mp he with he | he
      · exact abandoned_of_lifecycle ((lifecycle_recreateSwapChain c {}).1 e he)
      · exact h2 e he
    · simp only [h3]
      show (recreateSwapChain c {}).host.currFrameSync = 0
      rw [hhost]
      rfl

/-- Counterexample to C5 as stated: the first frame after construction acquires a
stale surface and the recreation fails to create the image chain, so `drawFrame`
raises "failed to create swap chain". -/
theorem drawFrame_stale_acquire_can_raise :
    staleFrameLosingSurface.acquireResult = .VK_ERROR_OUT_OF_DATE_KHR ∧
    (drawFrame staleFrameLosingSurface (ApplicationHost.construct {}).host).status
      = .thrown .createSwapChain ∧
    Failure.what .createSwapChain = "failed to create swap chain" := by
  decide

/-- Witness for C5 (amended): a stale first frame, and a session of three stale
frames. -/
theorem drawFrame_stale_acquire_witness :
    staleFrame.acquireResult = .VK_ERROR_OUT_OF_DATE_KHR ∧
    (vkWaitForFences staleFrame.progressAtSlotWait
      (ApplicationHost.construct {}).host.currFrameSync
      (ApplicationHost.construct {}).host).status = .returned ∧
    (drawFrame staleFrame (ApplicationHost.construct {}).host).Ends
      (fun f => f.isCreation = true) ∧
    (session {} [staleFrame, staleFrame, staleFrame]).status = .returned :=
  have hs : ({} : RecreateBackend).Succeeds :=
    ⟨rfl, rfl, fun _ => rfl, fun _ => rfl, fun _ => rfl, fun _ => rfl, fun _ => rfl, rfl⟩
  have h := drawFrame_stale_acquire staleFrame (ApplicationHost.construct {}).host rfl
    (by decide) {} [staleFrame, staleFrame, staleFrame] hs (by
      intro x hx
      simp only [List.mem_cons, List.mem_singleton, List.not_mem_nil, or_false, or_self] at hx
      rw [hx]
      exact ⟨rfl, hs⟩)
  ⟨rfl, by decide, h.2.2.1, h.2.2.2.2.1⟩

/-! ## The stages of a frame, for any host state -/

theorem sat_record_any (b : FrameBackend) (i : Nat) (s : ApplicationHost) :
    (recordCommandBuffer b i s).Sat (fun e => e.op.isRecording = true) fun s2 => s2 = s := by
  unfold recordCommandBuffer
  refine (sat_call_same _ (by rfl)).andThen fun s1 hs1 => ?_
  subst hs1
  split
  · exact sat_raise _
  · split
    · exact ⟨by simp, by simp⟩
    · refine (sat_call_same _ (by rfl)).andThen fun s2 hs2 => ?_
      subst hs2
      split
      · exact sat_raise _
      · refine (sat_call_same _ (by rfl)).andThen fun s3 hs3 => ?_
        subst hs3
        split
        · exact sat_raise _
        · exact sat_ret rfl

theorem submitFrame_eq (b : FrameBackend) (i : Nat) (s : ApplicationHost) :
    submitFrame b i s =
      ⟨if b.submitResult = .VK_SUCCESS then .returned else .thrown .queueSubmit,
        { s with
          frameSync := s.frameSync.set s.currFrameSync ⟨false⟩
          queue := if b.submitResult = .VK_SUCCESS then s.queue ++ [⟨i, s.currFrameSync⟩]
            else s.queue },
        [⟨.vkResetFences s.currFrameSync, s.queue, s.frameSync.set s.currFrameSync ⟨false⟩⟩,
         ⟨.vkQueueSubmit (.availableForWriting s.currFrameSync) i
            (.renderFinished_forGPU s.currFrameSync) s.currFrameSync b.submitResult,
          if b.submitResult = .VK_SUCCESS then s.queue ++ [⟨i, s.currFrameSync⟩] else s.queue,
          s.frameSync.set s.currFrameSync ⟨false⟩⟩]⟩ := by
  unfold submitFrame vkResetFences vkQueueSubmit
  by_cases hb : b.submitResult = .VK_SUCCESS
  · simp [call, ret, hb]
  · simp [call, raise, hb]

theorem sat_present_any (b : FrameBackend) (s : ApplicationHost) :
    (presentFrame b s).Sat
      (fun e => e.op = .vkQueuePresentKHR (.renderFinished_forGPU s.currFrameSync) b.imageIndex
        b.presentResult ∨ Lifecycle e)
      fun s2 => s2 = s ∨ s2 = recreated b.recreate { s with framebufferResized := false } := by
  unfold presentFrame
  refine (sat_call_same _ (Or.inl rfl)).andThen fun s1 hs1 => ?_
  subst hs1
  split
  · exact (lifecycle_recreateSwapChain _ _).mono (fun _ h => Or.inr h) fun _ h => Or.inr h
  · split
    · exact sat_raise _
    · exact sat_ret (Or.inl rfl)

/-! ## C4: the slot index advances round-robin -/

theorem sat_renderFrame_slot (b : FrameBackend) (s : ApplicationHost) :
    (renderFrame b s).Sat (fun _ => True) fun s2 =>
      s2.currFrameSync = (s.currFrameSync + 1) % s2.frameSync.length ∧
      (s2.frameSync.length = s.frameSync.length ∨ s2.frameSync.length = 2) := by
  unfold renderFrame
  cases hi : s.swapchainImages[b.imageIndex]? with
  | none => exact ⟨by simp, by simp⟩
  | some im =>
    simp only []
    refine ((sat_waitImage_any b im.syncIdx s).mono (fun _ _ => trivial) fun _ h => h).andThen ?_
    intro s1 hp1
    refine ((sat_record_any b b.imageIndex _).mono (fun _ _ => trivial) fun _ h => h).andThen ?_
    intro s2 hs2
    subst hs2
    rw [submitFrame_eq]
    by_cases hb : b.submitResult = .VK_SUCCESS
    · simp only [hb, if_true, andThen_mk_returned]
      refine ⟨fun _ _ => trivial, ?_⟩
      intro hret
      have hpres := (sat_present_any b _).2 (Result.andThen_status_returned hret).1
      simp only [Result.andThen_of_returned _ (Result.andThen_status_returned hret).1, ret]
      rcases hpres with h | h
      · rw [h]
        simp only [List.length_set]
        exact ⟨by rw [hp1.current, hp1.ring], Or.inl hp1.ring⟩
      · rw [h]
        simp only [recreated, List.length_cons, List.length_nil]
        exact ⟨by rw [hp1.current], Or.inr trivial⟩
    · simp only [hb, if_false, andThen_mk_thrown]
      exact ⟨fun _ _ => trivial, by simp⟩

/-- C4. Every call of `drawFrame` that returns and has presented leaves the current
slot index at `(index before + 1) mod N`, `N` being the number of slots of the ring
(the ring keeps its size, or was rebuilt with two slots); the index is a valid
position in the ring, so exactly one slot is current. After every session that
returns, the ring has two slots and the current index is below two. -/
theorem drawFrame_advances_slot (b : FrameBackend) (s : ApplicationHost)
    (hret : (drawFrame b s).status = .returned)
    (hp : ∃ e ∈ (drawFrame b s).events, e.op.isPresent = true)
    (c : RecreateBackend) (bs : List FrameBackend) :
    (drawFrame b s).host.currFrameSync
      = (s.currFrameSync + 1) % (drawFrame b s).host.frameSync.length ∧
    ((drawFrame b s).host.frameSync.length = s.frameSync.length ∨
      (drawFrame b s).host.frameSync.length = 2) ∧
    (drawFrame b s).host.currFrameSync < (drawFrame b s).host.frameSync.length ∧
    ((session c bs).status = .returned →
      (session c bs).host.frameSync.length = 2 ∧ (session c bs).host.currFrameSync < 2) := by
  have hw : (vkWaitForFences b.progressAtSlotWait s.currFrameSync s).status = .returned := by
    unfold drawFrame at hret
    exact (Result.andThen_status_returned hret).1
  have hns : b.acquireResult ≠ .VK_ERROR_OUT_OF_DATE_KHR := by
    intro ha
    obtain ⟨e, he, hpres⟩ := hp
    have := (drawFrame_stale_abandoned ha e he).2.2
    rw [this] at hpres
    cases hpres
  obtain ⟨s1, hp1, hs1, he1⟩ := vkWaitForFences_returned hw
  have hpos : s.currFrameSync < s.frameSync.length := by
    rw [← hp1.ring]
    exact fenceSignaled_lt hs1
  have hdf : drawFrame b s = ⟨(renderFrame b s1).status, (renderFrame b s1).host,
      (drawFrame b s).events⟩ := by
    unfold drawFrame at hret ⊢
    rw [he1] at hret ⊢
    simp only [andThen_mk_returned, call, hns, if_false] at hret ⊢
    split at hret
    · cases hret
    · rename_i hok
      simp only [hok, if_false]
  have hret2 : (renderFrame b s1).status = .returned := by
    rw [hdf] at hret
    exact hret
  obtain ⟨h1, h2⟩ := (sat_renderFrame_slot b s1).2 hret2
  rw [hp1.current] at h1
  rw [hp1.ring] at h2
  have hhost : (drawFrame b s).host = (renderFrame b s1).host := by rw [hdf]
  rw [hhost]
  refine ⟨h1, h2, ?_, ?_⟩
  · rw [h1]
    apply Nat.mod_lt
    rcases h2 with h | h <;> omega
  · intro hsess
    have hcons := (sat_session c bs).2 hsess
    exact ⟨hcons.ring, hcons.current⟩

/-- Witness for C4: the third frame of a session on three images. -/
theorem drawFrame_advances_slot_witness :
    (drawFrame (nominalFrame 0) hostAfterTwoFrames).status = .returned ∧
    (∃ e ∈ (drawFrame (nominalFrame 0) hostAfterTwoFrames).events, e.op.isPresent = true) ∧
    (drawFrame (nominalFrame 0) hostAfterTwoFrames).host.currFrameSync
      = (hostAfterTwoFrames.currFrameSync + 1)
        % (drawFrame (nominalFrame 0) hostAfterTwoFrames).host.frameSync.length ∧
    (drawFrame (nominalFrame 0) hostAfterTwoFrames).host.currFrameSync = 1 :=
  ⟨by decide, by decide,
    (drawFrame_advances_slot (nominalFrame 0) hostAfterTwoFrames (by decide) (by decide)
      {} []).1, by decide⟩

/-! ## C3: reset, then submit -/

theorem shape_prepend {c : Nat} {x : Op} {pre es : List Event}
    (hpre : ∀ e ∈ pre, e.op.isSubmit = false) (h : SubmitShape c x es) :
    SubmitShape c x (pre ++ es) := by
  rcases h with h | ⟨p, q, e1, e2, hes, hp, hq, h1, h2, h3⟩
  · left
    intro e he
    rcases List.mem_append.mp he with he | he
    · exact hpre e he
    · exact h e he
  · right
    refine ⟨pre ++ p, q, e1, e2, by rw [hes, List.append_assoc], ?_, hq, h1, h2, h3⟩
    intro e he
    rcases List.mem_append.mp he with he | he
    · exact hpre e he
    · exact hp e he

theorem shape_andThen {c : Nat} {x : Op} {r : Result} {f : ApplicationHost → Result}
    {R : ApplicationHost → Prop} (hr : r.Sat (fun e => e.op.isSubmit = false) R)
    (hf : ∀ s, R s → SubmitShape c x (f s).events) : SubmitShape c x (r.andThen f).events := by
  by_cases h : r.status = .returned
  · rw [Result.andThen_of_returned f h]
    exact shape_prepend hr.1 (hf r.host (hr.2 h))
  · rw [Result.andThen_of_not_returned f h]
    exact Or.inl hr.1

theorem noSubmit_of_lifecycle {e : Event} (h : Lifecycle e) : e.op.isSubmit = false :=
  (abandoned_of_lifecycle h).2.1

theorem noSubmit_of_recording {e : Event} (h : e.op.isRecording = true) :
    e.op.isSubmit = false := by
  cases hop : e.op <;> rw [hop] at h <;> first | rfl | cases h

theorem noSubmit_presentFrame (b : FrameBackend) (s : ApplicationHost) :
    (presentFrame b s).Sat (fun e => e.op.isSubmit = false) fun _ => True :=
  (sat_present_any b s).mono (fun e he => by
    rcases he with he | he
    · rw [he]; rfl
    · exact noSubmit_of_lifecycle he) fun _ _ => trivial

theorem renderFrame_shape (b : FrameBackend) (s : ApplicationHost)
    (hc : s.currFrameSync < s.frameSync.length) :
    SubmitShape s.currFrameSync
      (.vkQueueSubmit (.availableForWriting s.currFrameSync) b.imageIndex
        (.renderFinished_forGPU s.currFrameSync) s.currFrameSync b.submitResult)
      (renderFrame b s).events := by
  unfold renderFrame
  cases hi : s.swapchainImages[b.imageIndex]? with
  | none => exact Or.inl (by simp)
  | some im =>
    simp only []
    refine shape_andThen ((sat_waitImage_any b im.syncIdx s).mono
      (fun e he => by obtain ⟨k, hk⟩ := he; rw [hk]; rfl) fun _ h => h) ?_
    intro s1 hp1
    refine shape_andThen ((sat_record_any b b.imageIndex _).mono
      (fun e he => noSubmit_of_recording he) fun _ h => h) ?_
    intro s2 hs2
    subst hs2
    rw [submitFrame_eq]
    have hset : (s1.frameSync.set s1.currFrameSync ⟨false⟩)[s.currFrameSync]? = some ⟨false⟩ := by
      rw [hp1.current]
      exact List.getElem?_set_self (by rw [hp1.ring]; exact hc)
    by_cases hb : b.submitResult = .VK_SUCCESS
    · simp only [hb, if_true, andThen_mk_returned]
      right
      refine ⟨[], _, _, _, rfl, by simp, ?_, by rw [hp1.current], hset, by rw [hp1.current]⟩
      exact ((noSubmit_presentFrame b _).andThen (Q := fun _ => True)
        fun s3 _ => sat_ret trivial).1
    · simp only [hb, if_false, andThen_mk_thrown]
      right
      exact ⟨[], [], _, _, rfl, by simp, by simp, by rw [hp1.current], hset,
        by rw [hp1.current]⟩

theorem drawFrame_shape (b : FrameBackend) (s : ApplicationHost) :
    SubmitShape s.currFrameSync
      (.vkQueueSubmit (.availableForWriting s.currFrameSync) b.imageIndex
        (.renderFinished_forGPU s.currFrameSync) s.currFrameSync b.submitResult)
      (drawFrame b s).events := by
  unfold drawFrame
  have hwait : (vkWaitForFences b.progressAtSlotWait s.currFrameSync s).Sat
      (fun e => e.op.isSubmit = false)
      (fun s2 => Progress s s2 ∧ fenceSignaled s.currFrameSync s2 = true) :=
    (sat_wait_any b.progressAtSlotWait s.currFrameSync s).mono
      (fun e he => by show e.op.isSubmit = false; rw [he]; rfl) fun _ h => h
  refine shape_andThen hwait ?_
  intro s1 ⟨hp1, hs1⟩
  have hc1 : s1.currFrameSync < s1.frameSync.length := by
    rw [hp1.current]
    exact fenceSignaled_lt hs1
  refine shape_andThen (sat_call_same _ (by rfl)) ?_
  intro s2 hs2
  subst hs2
  split
  · exact Or.inl fun e he =>
      noSubmit_of_lifecycle ((lifecycle_recreateSwapChain b.recreate s2).1 e he)
  · split
    · exact Or.inl (by simp [raise])
    · have := renderFrame_shape b s2 hc1
      rw [hp1.current] at this
      exact this

theorem submit_position {pre post : List Event} {e1 e2 e : Event} {i : Nat}
    (hpre : ∀ x ∈ pre, x.op.isSubmit = false) (hpost : ∀ x ∈ post, x.op.isSubmit = false)
    (h1 : e1.op.isSubmit = false) (hie : (pre ++ e1 :: e2 :: post)[i]? = some e)
    (hsub : e.op.isSubmit = true) : i = pre.length + 1 ∧ e = e2 := by
  rw [List.getElem?_append] at hie
  split at hie
  · have := hpre e (List.getElem?_mem hie)
    rw [this] at hsub
    cases hsub
  · rename_i hlt
    obtain ⟨d, hd⟩ : ∃ d, i = pre.length + d := ⟨i - pre.length, by omega⟩
    subst hd
    simp only [Nat.add_sub_cancel_left] at hie
    match d, hie with
    | 0, hie =>
      simp only [List.getElem?_cons_zero, Option.some.injEq] at hie
      rw [← hie, h1] at hsub
      cases hsub
    | 1, hie =>
      simp only [List.getElem?_cons_succ, List.getElem?_cons_zero, Option.some.injEq] at hie
      exact ⟨rfl, hie.symm⟩
    | n + 2, hie =>
      simp only [List.getElem?_cons_succ] at hie
      have := hpost e (List.getElem?_mem hie)
      rw [this] at hsub
      cases hsub

/-- C3. Whenever a call of `drawFrame` submits (its `i`-th call is a queue
submission), that submission waits on the current slot's `availableForWriting`
semaphore, executes the acquired image's command buffer, signals the slot's
`renderFinished_forGPU` semaphore and is given the slot's fence; the call right
before it (so that nothing comes between the two) is the `vkResetFences` of that same
fence, after which the fence is unsignaled; and the frame makes no other submission. -/
theorem drawFrame_resets_fence_then_submits (b : FrameBackend) (s : ApplicationHost)
    (i : Nat) (e : Event) (hie : (drawFrame b s).events[i]? = some e)
    (hsub : e.op.isSubmit = true) :
    e.op = .vkQueueSubmit (.availableForWriting s.currFrameSync) b.imageIndex
      (.renderFinished_forGPU s.currFrameSync) s.currFrameSync b.submitResult ∧
    (∃ j r, i = j + 1 ∧ (drawFrame b s).events[j]? = some r ∧
      r.op = .vkResetFences s.currFrameSync ∧ r.frameSync[s.currFrameSync]? = some ⟨false⟩) ∧
    (∀ k x, (drawFrame b s).events[k]? = some x → x.op.isSubmit = true → k = i) := by
  rcases drawFrame_shape b s with h | ⟨pre, post, e1, e2, hes, hpre, hpost, h1, h2, h3⟩
  · have := h e (List.getElem?_mem hie)
    rw [this] at hsub
    cases hsub
  · have h1s : e1.op.isSubmit = false := by rw [h1]; rfl
    rw [hes] at hie ⊢
    obtain ⟨hi, he⟩ := submit_position hpre hpost h1s hie hsub
    refine ⟨by rw [he, h3], ⟨pre.length, e1, hi, ?_, h1, h2⟩, ?_⟩
    · rw [List.getElem?_append_right (le_refl _)]
      simp
    · intro k x hkx hx
      rw [(submit_position hpre hpost h1s hkx hx).1, hi]

/-- Witness for C3: the third frame of a session submits as its seventh call. -/
theorem drawFrame_resets_fence_then_submits_witness :
    ∃ e, (drawFrame (nominalFrame 0) hostAfterTwoFrames).events[7]? = some e ∧
      e.op.isSubmit = true ∧
      e.op = .vkQueueSubmit (.availableForWriting 0) 0 (.renderFinished_forGPU 0) 0
        .VK_SUCCESS ∧
      (∃ j r, 7 = j + 1 ∧ (drawFrame (nominalFrame 0) hostAfterTwoFrames).events[j]? = some r ∧
        r.op = .vkResetFences 0 ∧ r.frameSync[0]? = some ⟨false⟩) :=
  ⟨_, rfl, rfl,
    (drawFrame_resets_fence_then_submits (nominalFrame 0) hostAfterTwoFrames 7 _ rfl rfl).1,
    (drawFrame_resets_fence_then_submits (nominalFrame 0) hostAfterTwoFrames 7 _ rfl rfl).2.1⟩

/-! ## C6: at most two frames in flight -/

theorem waitImage_returned (b : FrameBackend) {s : ApplicationHost} (hc : Consistent s)
    {i : Nat} {im : SwapChainImage} (hi : s.swapchainImages[i]? = some im) :
    (waitImage b im.syncIdx s).status = .returned := by
  have hmem : im ∈ s.swapchainImages := List.getElem?_mem hi
  unfold waitImage
  rcases hc.entries im hmem with h | h | h
  · simp only [h, ne_eq, not_true_eq_false, if_false]
    rfl
  all_goals
    have hK : im.syncIdx.toNat < 2 := by omega
    have hne : im.syncIdx ≠ -1 := by omega
    have hge : 0 ≤ im.syncIdx := by omega
    simp only [hne, ne_eq, not_false_eq_true, if_true, hge]
    exact (sat_vkWaitForFences b.progressAtImageWait im.syncIdx.toNat hc hK).1

theorem recordCommandBuffer_nominal {b : FrameBackend} (hn : b.Nominal) (i : Nat)
    {s : ApplicationHost} (hh : s.hostedApp = true) :
    recordCommandBuffer b i s = ⟨.returned, s,
      [⟨.vkBeginCommandBuffer i .VK_SUCCESS, s.queue, s.frameSync⟩,
       ⟨.hostedDrawFrame i true, s.queue, s.frameSync⟩,
       ⟨.vkEndCommandBuffer i .VK_SUCCESS, s.queue, s.frameSync⟩]⟩ := by
  obtain ⟨_, h2, h3, h4, _, _⟩ := hn
  simp [recordCommandBuffer, call, ret, h2, h3, h4, hh]

theorem presentFrame_nominal {b : FrameBackend} (hn : b.Nominal) {s : ApplicationHost}
    (hr : s.framebufferResized = false) :
    presentFrame b s = ⟨.returned, s,
      [⟨.vkQueuePresentKHR (.renderFinished_forGPU s.currFrameSync) b.imageIndex .VK_SUCCESS,
        s.queue, s.frameSync⟩]⟩ := by
  obtain ⟨_, _, _, _, _, h6⟩ := hn
  simp [presentFrame, call, ret, h6, hr]

theorem milestones_of_waits {es : List Event}
    (h : ∀ e ∈ es, ∃ k, e.op = .vkWaitForFences k UINT64_MAX) :
    (es.map (·.op)).filter Op.isMilestone = [] := by
  rw [List.filter_eq_nil_iff]
  intro op hop
  obtain ⟨e, he, rfl⟩ := List.mem_map.mp hop
  obtain ⟨k, hk⟩ := h e he
  rw [hk]
  simp [Op.isMilestone]

theorem drawFrame_nominal {b : FrameBackend} {s : ApplicationHost} (hc : Consistent s)
    (hn : b.Nominal) (hi : b.imageIndex < s.swapchainImages.length) :
    (drawFrame b s).status = .returned ∧
    (drawFrame b s).host.currFrameSync = (s.currFrameSync + 1) % 2 ∧
    (drawFrame b s).host.swapchainImages.length = s.swapchainImages.length ∧
    (drawFrame b s).ops.filter Op.isMilestone =
      [.vkAcquireNextImageKHR UINT64_MAX (.availableForWriting s.currFrameSync) .VK_SUCCESS
         b.imageIndex,
       .vkQueueSubmit (.availableForWriting s.currFrameSync) b.imageIndex
         (.renderFinished_forGPU s.currFrameSync) s.currFrameSync .VK_SUCCESS,
       .vkQueuePresentKHR (.renderFinished_forGPU s.currFrameSync) b.imageIndex
         .VK_SUCCESS] := by
  have hw := (sat_vkWaitForFences b.progressAtSlotWait s.currFrameSync hc hc.current).1
  obtain ⟨s1, hp1, hs1, he1⟩ := vkWaitForFences_returned hw
  have hc1 := hp1.consistent hc
  obtain ⟨im, him⟩ : ∃ im, s1.swapchainImages[b.imageIndex]? = some im := by
    rw [hp1.images]
    exact ⟨_, List.getElem?_eq_getElem hi⟩
  have hwi := waitImage_returned b hc1 him
  have hsat := sat_waitImage b hc1 b.imageIndex im him (by rw [hp1.current]; exact hs1)
  obtain ⟨hc2, _, himg2, hcur2, _⟩ := hsat.2 hwi
  have hwaits := (sat_waitImage_any b im.syncIdx s1).1
  have ha := hn.1
  have hsub := hn.2.2.2.2.1
  unfold drawFrame
  rw [he1]
  simp only [andThen_mk_returned, call, ha, if_false, ne_eq, not_true_eq_false, false_and,
    reduceCtorEq]
  unfold renderFrame
  rw [him]
  simp only [Result.andThen_of_returned _ hwi]
  rw [recordCommandBuffer_nominal hn _ (by exact hc2.hosted)]
  simp only [andThen_mk_returned, submitFrame_eq, hsub, if_true]
  rw [presentFrame_nominal hn (by exact hc2.resized)]
  simp only [andThen_mk_returned, ret, Result.ops, List.map_cons, List.map_append,
    List.filter_cons, List.filter_append, milestones_of_waits hwaits, List.map_nil,
    List.filter_nil, List.append_nil, List.nil_append, Op.isMilestone, List.length_set,
    hc2.ring, hcur2, hp1.current, himg2, hp1.images, List.singleton_append]
  simp

theorem Result.andThen_ops {r : Result} (f : ApplicationHost → Result)
    (h : r.status = .returned) : (r.andThen f).ops = r.ops ++ (f r.host).ops := by
  rw [Result.andThen_of_returned f h]
  simp [Result.ops]

theorem runFrames_nominal (bs : List FrameBackend) :
    ∀ (k : Nat) (s : ApplicationHost), Consistent s → s.currFrameSync = k % 2 →
    (∀ b ∈ bs, b.Nominal ∧ b.imageIndex < s.swapchainImages.length) →
    (runFrames bs s).status = .returned ∧
    (runFrames bs s).ops.filter Op.isMilestone = nominalMilestones k bs := by
  induction bs with
  | nil => intro k s _ _ _; exact ⟨rfl, rfl⟩
  | cons b bs ih =>
    intro k s hc hk hbs
    obtain ⟨hn, hi⟩ := hbs b (List.mem_cons_self _ _)
    obtain ⟨hret, hcur, hlen, hops⟩ := drawFrame_nominal hc hn hi
    have hc2 := (sat_drawFrame b hc).2 hret
    obtain ⟨h1, h2⟩ := ih (k + 1) (drawFrame b s).host hc2 (by rw [hcur, hk]; omega)
      (fun x hx => by rw [hlen]; exact hbs x (List.mem_cons_of_mem _ hx))
    unfold runFrames
    refine ⟨by rw [Result.andThen_of_returned _ hret]; exact h1, ?_⟩
    rw [Result.andThen_ops _ hret, List.filter_append, hops, h2, hk]
    rfl

theorem nominalMilestones_submits (bs : List FrameBackend) :
    ∀ k, ((nominalMilestones k bs).filter Op.isSubmit).length = bs.length ∧
      ((nominalMilestones k bs).filter Op.isPresent).length = bs.length := by
  induction bs with
  | nil => intro k; exact ⟨rfl, rfl⟩
  | cons b bs ih =>
    intro k
    obtain ⟨h1, h2⟩ := ih (k + 1)
    simp only [nominalMilestones, List.filter_append, List.length_append, h1, h2]
    simp [Op.isSubmit, Op.isPresent, List.filter_cons]
    omega

theorem filter_milestone_submit (l : List Op) :
    (l.filter Op.isMilestone).filter Op.isSubmit = l.filter Op.isSubmit := by
  rw [List.filter_filter]
  congr 1
  funext op
  cases op <;> rfl

theorem filter_milestone_present (l : List Op) :
    (l.filter Op.isMilestone).filter Op.isPresent = l.filter Op.isPresent := by
  rw [List.filter_filter]
  congr 1
  funext op
  cases op <;> rfl

theorem notMilestone_of_lifecycle {e : Event} (h : Lifecycle e) : e.op.isMilestone = false := by
  unfold Lifecycle at h
  cases hop : e.op <;> rw [hop] at h <;> first | rfl | cases h

/-- C7. Starting from a freshly created surface (construction with every creation
succeeding), a run of `n` frames in which every backend call succeeds returns; its
acquisitions, submissions and presents are exactly, in order, those of frames
`0 .. n-1`, frame `k` using slot `k mod 2` and acquiring, submitting and presenting
the same image before frame `k+1` starts; so there are exactly `n` submissions and
exactly `n` presents, in submission order. -/
theorem successful_frames_present_in_order (c : RecreateBackend) (bs : List FrameBackend)
    (hc : c.Succeeds) (hbs : ∀ b ∈ bs, b.Nominal ∧ b.imageIndex < c.imageCount) :
    (session c bs).status = .returned ∧
    (session c bs).ops.filter Op.isMilestone = nominalMilestones 0 bs ∧
    ((session c bs).ops.filter Op.isSubmit).length = bs.length ∧
    ((session c bs).ops.filter Op.isPresent).length = bs.length := by
  obtain ⟨hst, hhost, hops⟩ := recreateSwapChain_succeeds hc {}
  have hst2 : (ApplicationHost.construct c).status = .returned := hst
  have hhost2 : (ApplicationHost.construct c).host = recreated c {} := hhost
  have hcons : Consistent (ApplicationHost.construct c).host :=
    (sat_recreateSwapChain c recreatable_initial).2 hst
  have hlen : (ApplicationHost.construct c).host.swapchainImages.length = c.imageCount := by
    rw [hhost2]
    exact resizeImages_length _ _
  obtain ⟨h1, h2⟩ := runFrames_nominal bs 0 (ApplicationHost.construct c).host hcons
    (by rw [hhost2]; rfl) (fun b hb => by rw [hlen]; exact hbs b hb)
  have hpre : (ApplicationHost.construct c).ops.filter Op.isMilestone = [] := by
    rw [List.filter_eq_nil_iff]
    intro op hop
    obtain ⟨e, he, rfl⟩ := List.mem_map.mp hop
    have hl := notMilestone_of_lifecycle ((lifecycle_recreateSwapChain c {}).1 e he)
    simp [hl]
  have hm : (session c bs).ops.filter Op.isMilestone = nominalMilestones 0 bs := by
    unfold session
    rw [Result.andThen_ops _ hst2, List.filter_append, hpre, h2]
    rfl
  refine ⟨?_, hm, ?_, ?_⟩
  · unfold session
    rw [Result.andThen_of_returned _ hst2]
    exact h1
  · rw [← filter_milestone_submit, hm]
    exact (nominalMilestones_submits bs 0).1
  · rw [← filter_milestone_present, hm]
    exact (nominalMilestones_submits bs 0).2

/-- Witness for C7: one hundred frames on two slots and three images. -/
theorem successful_frames_present_in_order_witness :
    hundredFrames.length = 100 ∧
    (session {} hundredFrames).status = .returned ∧
    (session {} hundredFrames).ops.filter Op.isMilestone = nominalMilestones 0 hundredFrames ∧
    ((session {} hundredFrames).ops.filter Op.isSubmit).length = 100 ∧
    ((session {} hundredFrames).ops.filter Op.isPresent).length = 100 :=
  have hs : ({} : RecreateBackend).Succeeds :=
    ⟨rfl, rfl, fun _ => rfl, fun _ => rfl, fun _ => rfl, fun _ => rfl, fun _ => rfl, rfl⟩
  have h := successful_frames_present_in_order {} hundredFrames hs (by
    intro b hb
    obtain ⟨k, _, rfl⟩ := List.mem_map.mp hb
    exact ⟨⟨rfl, rfl, rfl, rfl, rfl, rfl⟩, Nat.mod_lt k (by decide)⟩)
  ⟨by decide, h.1, h.2.1, h.2.2.1, h.2.2.2⟩

/-! ## C8: the order of teardown and rebuild -/

theorem destroy_ops (s : ApplicationHost) :
    (ApplicationHost.destroy s).ops =
      teardownOrder s.swapchainImages.length s.frameSync.length ++
        [.vkDestroyCommandPool, .vkDestroyDevice, .vkDestroySurfaceKHR, .vkDestroyInstance,
         .SDL_DestroyWindow, .SDL_QuitSubSystem] := by
  unfold ApplicationHost.destroy
  rw [cleanupSwapChain_eq]
  simp [call, Result.ops, Function.comp_def]

theorem teardownOrder_idle_first (n m : Nat) :
    (teardownOrder n m)[0]? = some .vkDeviceWaitIdle ∧
    ∀ i op, (teardownOrder n m)[i]? = some op → op.isDestroy = true → 0 < i := by
  refine ⟨rfl, ?_⟩
  intro i op hi hd
  match i, hi with
  | 0, hi =>
    simp only [teardownOrder, List.cons_append, List.getElem?_cons_zero, Option.some.injEq] at hi
    rw [← hi] at hd
    cases hd
  | n + 1, _ => omega

/-- C8. `cleanupSwapChain`, which opens every `recreateSwapChain` and the destructor,
makes exactly these calls, in this order: `vkDeviceWaitIdle` first (after which, and
at every later call of the teardown, the device holds no unfinished submission), the
release of the hosted renderer, then for each image its framebuffer, view and command
buffer, then the render pass and the swapchain, then for each slot its two semaphores
and its fence. `recreateSwapChain` continues, when every creation succeeds, with the
rebuild of all of them and returns; the destructor continues with the command pool,
device, surface, instance and window. -/
theorem recreation_tears_down_in_order (b : RecreateBackend) (s : ApplicationHost) :
    (cleanupSwapChain s).status = .returned ∧
    (cleanupSwapChain s).ops = teardownOrder s.swapchainImages.length s.frameSync.length ∧
    ((teardownOrder s.swapchainImages.length s.frameSync.length)[0]? = some .vkDeviceWaitIdle ∧
      ∀ i op, (teardownOrder s.swapchainImages.length s.frameSync.length)[i]? = some op →
        op.isDestroy = true → 0 < i) ∧
    (∀ e ∈ (cleanupSwapChain s).events, e.queue = []) ∧
    (∃ rest, (recreateSwapChain b s).ops =
        teardownOrder s.swapchainImages.length s.frameSync.length ++ rest ∧
      (b.Succeeds → rest = rebuildOrder b ∧ (recreateSwapChain b s).status = .returned)) ∧
    (ApplicationHost.destroy s).ops =
      teardownOrder s.swapchainImages.length s.frameSync.length ++
        [.vkDestroyCommandPool, .vkDestroyDevice, .vkDestroySurfaceKHR, .vkDestroyInstance,
         .SDL_DestroyWindow, .SDL_QuitSubSystem] := by
  refine ⟨by rw [cleanupSwapChain_eq], ?_, teardownOrder_idle_first _ _, ?_, ?_, destroy_ops s⟩
  · rw [cleanupSwapChain_eq]
    simp [Result.ops, Function.comp_def]
  · rw [cleanupSwapChain_eq]
    intro e he
    obtain ⟨op, _, rfl⟩ := List.mem_map.mp he
    rfl
  · obtain ⟨rest, hr, hs⟩ := recreateSwapChain_ops b s
    exact ⟨rest, hr, fun h => ⟨hs h, (recreateSwapChain_succeeds h s).1⟩⟩

/-- Witness for C8: recreating the host left by two frames, with two submissions
unfinished. -/
theorem recreation_tears_down_in_order_witness :
    hostAfterTwoFrames.queue.length = 2 ∧
    (recreateSwapChain {} hostAfterTwoFrames).ops = teardownOrder 3 2 ++ rebuildOrder {} ∧
    (recreateSwapChain {} hostAfterTwoFrames).status = .returned ∧
    (teardownOrder 3 2).take 5 = [.vkDeviceWaitIdle, .hostedAppReset, .vkDestroyFramebuffer 0,
      .vkDestroyImageView 0, .vkFreeCommandBuffers 0] :=
  have hs : ({} : RecreateBackend).Succeeds :=
    ⟨rfl, rfl, fun _ => rfl, fun _ => rfl, fun _ => rfl, fun _ => rfl, fun _ => rfl, rfl⟩
  have h := (recreation_tears_down_in_order {} hostAfterTwoFrames).2.2.2.2.1
  ⟨by decide, by
    obtain ⟨rest, hr, hrest⟩ := h
    rw [hr, (hrest hs).1]
    rfl, by
    obtain ⟨rest, _, hrest⟩ := h
    exact (hrest hs).2, by decide⟩

/-! ## C9: the requested image count -/

theorem requestedImageCount_le_max (minImageCount maxImageCount : Nat)
    (h : 0 < maxImageCount) : requestedImageCount minImageCount maxImageCount ≤ maxImageCount := by
  unfold requestedImageCount
  simp only [h, if_true]
  exact Nat.min_le_right _ _

/-- C9, as amended. `createSwapChain` passes `requestedImageCount` to the backend, and
this count never exceeds a reported maximum (`maxImageCount > 0`). When moreover
`minImageCount` is below `UINT_MAX` (so that the 32-bit increment does not wrap) and
the capabilities are coherent (no maximum, or `minImageCount ≤ maxImageCount`, both
32-bit values), the count is `min(minImageCount + 1, maximum)`, with `UINT_MAX` for
the maximum when none is reported, and is at least `minImageCount`: it lies within
`[minImages, maxImages]`. -/
theorem requestedImageCount_in_range (b : RecreateBackend) (s : ApplicationHost) :
    (createSwapChain b s).ops.head? = some (.vkCreateSwapchainKHR
      (requestedImageCount b.minImageCount b.maxImageCount) b.createSwapchainResult) ∧
    (0 < b.maxImageCount →
      requestedImageCount b.minImageCount b.maxImageCount ≤ b.maxImageCount) ∧
    (b.maxImageCount < 2 ^ 32 → b.minImageCount < UINT_MAX →
      (b.maxImageCount = 0 ∨ b.minImageCount ≤ b.maxImageCount) →
      requestedImageCount b.minImageCount b.maxImageCount =
        min (b.minImageCount + 1)
          (if b.maxImageCount > 0 then b.maxImageCount else UINT_MAX) ∧
      b.minImageCount ≤ requestedImageCount b.minImageCount b.maxImageCount ∧
      requestedImageCount b.minImageCount b.maxImageCount < 2 ^ 32) := by
  refine ⟨?_, requestedImageCount_le_max _ _, ?_⟩
  · unfold createSwapChain
    simp only [call, andThen_mk_returned, Result.ops, List.singleton_append, List.map_cons,
      List.head?_cons]
  · intro hmax hmin hcoh
    have hu : UINT_MAX = 4294967295 := by decide
    have hmod : (b.minImageCount + 1) % 2 ^ 32 = b.minImageCount + 1 := by
      apply Nat.mod_eq_of_lt
      omega
    refine ⟨?_, ?_, ?_⟩
    · unfold requestedImageCount
      simp only [hmod]
    all_goals
      unfold requestedImageCount
      simp only [hmod]
      split <;> omega

/-- Counterexample to C9 as stated: with `minImageCount = UINT_MAX` and no maximum the
32-bit increment wraps and 0 images are requested; with a reported maximum below the
minimum (3 and 2) the request is 2. In both cases it is below `minImageCount`. -/
theorem requestedImageCount_below_min :
    requestedImageCount UINT_MAX 0 = 0 ∧ ¬ (UINT_MAX ≤ requestedImageCount UINT_MAX 0) ∧
    requestedImageCount 3 2 = 2 ∧ ¬ (3 ≤ requestedImageCount 3 2) := by
  decide

/-- Witness for C9 (amended): at least 2 images, at most 3; 3 are requested. -/
theorem requestedImageCount_in_range_witness :
    (3 : Nat) < 2 ^ 32 ∧ (2 : Nat) < UINT_MAX ∧ ((3 : Nat) = 0 ∨ (2 : Nat) ≤ 3) ∧
    requestedImageCount 2 3 = 3 ∧ 2 ≤ requestedImageCount 2 3 ∧
    requestedImageCount 2 3 ≤ 3 :=
  have h := requestedImageCount_in_range { minImageCount := 2, maxImageCount := 3 } {}
  ⟨by decide, by decide, Or.inr (by decide), by decide,
    (h.2.2 (by decide) (by decide) (Or.inr (by decide))).2.1, h.2.1 (by decide)⟩

/-! ## C10: destinations and bound descriptor sets -/

theorem collectPasses_shadowMeshes {U : Type} (constants : U)
    (meshes : List FullDemo.VulkanMesh) :
    ∀ (p : Pass) (rest : List (Cmd U)),
    collectPasses (some p) (meshes.flatMap (fun mesh =>
      [.vkCmdBindVertexBuffers mesh.vertexBuffer,
       .vkCmdBindDescriptorSets 0 .shadowMapDescriptorSet,
       .writeToGpuMemory .shadowMapUniformBufferMemory constants,
       .vkCmdDraw mesh.vertexCount]) ++ rest) =
    collectPasses (some { p with
      boundSets := p.boundSets ++ meshes.map (fun _ => .shadowMapDescriptorSet)
      draws := p.draws ++ meshes.map (·.vertexCount) }) rest := by
  induction meshes with
  | nil => intro p rest; simp
  | cons m ms ih =>
    intro p rest
    rw [List.flatMap_cons]
    simp only [List.cons_append, List.nil_append, List.append_assoc]
    rw [collectPasses, collectPasses, collectPasses, collectPasses, ih]
    simp
    all_goals simp

theorem collectPasses_sceneMeshes {U : Type} (constants : U)
    (meshes : List FullDemo.VulkanMesh) :
    ∀ (p : Pass) (rest : List (Cmd U)),
    collectPasses (some p) (meshes.flatMap (fun mesh =>
      [.vkCmdBindVertexBuffers mesh.vertexBuffer,
       .vkCmdBindDescriptorSets 0 .mainSceneDescriptorSet,
       .vkCmdBindDescriptorSets 1 (.material mesh.material),
       .writeToGpuMemory .uniformBufferMemory constants,
       .vkCmdDraw mesh.vertexCount]) ++ rest) =
    collectPasses (some { p with
      boundSets := p.boundSets ++ meshes.flatMap (fun mesh =>
        [.mainSceneDescriptorSet, .material mesh.material])
      draws := p.draws ++ meshes.map (·.vertexCount) }) rest := by
  induction meshes with
  | nil => intro p rest; simp
  | cons m ms ih =>
    intro p rest
    rw [List.flatMap_cons]
    simp only [List.cons_append, List.nil_append, List.append_assoc]
    rw [collectPasses, collectPasses, collectPasses, collectPasses, collectPasses, ih]
    simp
    all_goals simp

theorem fullDemo_passes {U : Type} (meshes : List FullDemo.VulkanMesh)
    (lightConstants sceneConstants : U) (fb : Nat) :
    passes (FullDemo.drawFrame meshes lightConstants sceneConstants fb) =
      [⟨.shadowRenderPass, .shadowMap, [.shadowMapPipeline],
          meshes.map (fun _ => .shadowMapDescriptorSet), meshes.map (·.vertexCount)⟩,
       ⟨.colorRenderPass, .hdrBuffer 0, [.colorPipeline],
          meshes.flatMap (fun mesh => [.mainSceneDescriptorSet, .material mesh.material]),
          meshes.map (·.vertexCount)⟩]
      ++ passes (FullDemo.thresholdPass ++ (List.range 4).flatMap (fun _ => FullDemo.blurIteration)
          ++ FullDemo.tonemapPass fb : List (Cmd U)) := by
  unfold passes FullDemo.drawFrame FullDemo.drawShadowMap FullDemo.drawMainScene
  simp only [List.cons_append, List.nil_append, List.append_assoc]
  rw [collectPasses, collectPasses, collectPasses_shadowMeshes, collectPasses]
  rw [collectPasses, collectPasses, collectPasses_sceneMeshes, collectPasses]
  simp

theorem shadowMap_not_sampled_by_shadow_sets (meshes : List FullDemo.VulkanMesh)
    (t : RenderTarget) :
    t ∉ (meshes.map (fun _ => DescriptorSet.shadowMapDescriptorSet)).flatMap FullDemo.sampled := by
  simp [List.mem_flatMap, FullDemo.sampled]

theorem scene_sets_sample_shadowMap_only (meshes : List FullDemo.VulkanMesh)
    (t : RenderTarget)
    (h : t ∈ (meshes.flatMap (fun mesh =>
      [DescriptorSet.mainSceneDescriptorSet, .material mesh.material])).flatMap
      FullDemo.sampled) : t = .shadowMap := by
  simp only [List.mem_flatMap, List.mem_cons, List.mem_singleton, List.not_mem_nil,
    or_false] at h
  obtain ⟨ds, ⟨m, _, hds⟩, ht⟩ := h
  rcases hds with rfl | rfl
  · simpa [FullDemo.sampled] using ht
  · simp [FullDemo.sampled] at ht

/-- C10, as amended. For each pass, in recording order, whether its destination is
contained in a descriptor set it binds. `ShadowMap`: in no pass. `Bloom`: in the
color pass only, which renders into `hdrBuffer[0]` and binds `descriptorSet[0]`; in
none of the threshold, blur and tone-mapping passes. `FullDemo`: not in the shadow
pass nor the main scene pass (whatever the meshes), in the threshold pass and the
eight blur passes, which bind a two-picture set holding their destination, and not
in the tone-mapping pass. The presentable framebuffer is contained in no descriptor
set of any renderer. -/
theorem destination_bound_passes {U : Type} (constants lightConstants sceneConstants : U)
    (framebuffer : Nat) (meshes : List FullDemo.VulkanMesh) :
    destinationBound ShadowMap.sampled
      (ShadowMap.drawFrame lightConstants sceneConstants framebuffer) = [false, false] ∧
    DestinationNeverBound ShadowMap.sampled
      (ShadowMap.drawFrame lightConstants sceneConstants framebuffer) ∧
    destinationBound Bloom.sampled (Bloom.drawFrame constants framebuffer) =
      [true, false, false, false, false, false, false, false, false, false, false] ∧
    destinationBound FullDemo.sampled
      (FullDemo.drawFrame meshes lightConstants sceneConstants framebuffer) =
      [false, false, true, true, true, true, true, true, true, true, true, false] ∧
    (∀ ds, RenderTarget.swapchain framebuffer ∉ Bloom.sampled ds ∧
      RenderTarget.swapchain framebuffer ∉ FullDemo.sampled ds ∧
      RenderTarget.swapchain framebuffer ∉ ShadowMap.sampled ds) := by
  refine ⟨rfl, ?_, rfl, ?_, ?_⟩
  · intro p hp
    have hp2 : p ∈ [(⟨.shadowMapRenderPass, .shadowMap, [.shadowMapPipeline],
        [.shadowMapDescriptorSet], [42]⟩ : Pass),
        ⟨.ctxRenderPass, .swapchain framebuffer, [.graphicsPipeline],
        [.mainSceneDescriptorSet], [42]⟩] := hp
    simp only [List.mem_cons, List.mem_singleton, List.not_mem_nil, or_false] at hp2
    rcases hp2 with rfl | rfl <;> simp [Pass.inputs, ShadowMap.sampled]
  · unfold destinationBound
    rw [fullDemo_passes]
    simp only [List.map_cons, List.cons_append, List.nil_append, Pass.inputs]
    have h1 : decide (RenderTarget.shadowMap ∈
        (meshes.map (fun _ => DescriptorSet.shadowMapDescriptorSet)).flatMap
          FullDemo.sampled) = false :=
      decide_eq_false (shadowMap_not_sampled_by_shadow_sets meshes _)
    have h2 : decide (RenderTarget.hdrBuffer 0 ∈
        (meshes.flatMap (fun mesh =>
          [DescriptorSet.mainSceneDescriptorSet, .material mesh.material])).flatMap
          FullDemo.sampled) = false :=
      decide_eq_false fun h => by
        have := scene_sets_sample_shadowMap_only meshes _ h
        cases this
    rw [h1, h2]
    rfl
  · intro ds
    refine ⟨?_, ?_, ?_⟩
    · unfold Bloom.sampled
      split <;> simp
    · unfold FullDemo.sampled
      split <;> simp
    · unfold ShadowMap.sampled
      split <;> simp

/-- Counterexample to C10 as stated: the color pass of `Bloom::drawFrame` renders into
`hdrBuffer[0]` and binds `descriptorSet[0]`, which the constructor filled with the
view and sampler of `hdrBuffer[0]`; the threshold pass of `FullDemo::drawFrame` renders
into `bloomBuffer[0]` and binds `postprocDescriptorSet_Hdr_And_Bloom0`. -/
theorem destination_bound_in_color_pass :
    (passes (Bloom.drawFrame () 0)).head? =
      some ⟨.colorRenderPass, .hdrBuffer 0, [.colorPipeline], [.descriptorSet 0], [36]⟩ ∧
    Bloom.sampled (.descriptorSet 0) = [.hdrBuffer 0] ∧
    ¬ DestinationNeverBound Bloom.sampled (Bloom.drawFrame () 0) ∧
    (passes (FullDemo.drawFrame [] () () 0))[2]? =
      some ⟨.postprocRenderPass, .bloomBuffer 0, [.thresholdPipeline],
        [.postprocDescriptorSet_Hdr_And_Bloom0], [6]⟩ ∧
    FullDemo.sampled .postprocDescriptorSet_Hdr_And_Bloom0 = [.hdrBuffer 0, .bloomBuffer 0] ∧
    ¬ DestinationNeverBound FullDemo.sampled (FullDemo.drawFrame [] () () 0) := by
  unfold DestinationNeverBound
  decide

/-! ## C11: the post-processing chain after the color pass -/

theorem fullDemo_afterColorPass {U : Type} (meshes : List FullDemo.VulkanMesh)
    (lightConstants sceneConstants : U) (fb : Nat) :
    afterColorPass (passes (FullDemo.drawFrame meshes lightConstants sceneConstants fb)) =
      passes (FullDemo.thresholdPass ++ (List.range 4).flatMap (fun _ => FullDemo.blurIteration)
        ++ FullDemo.tonemapPass fb : List (Cmd U)) := by
  rw [fullDemo_passes]
  simp [afterColorPass]

/-- C11. Whatever the uniform values computed from the time and the camera (and, for
`FullDemo`, whatever the meshes of the scene), `Bloom::drawFrame` and
`FullDemo::drawFrame` record after the color pass exactly `2 * 4 + 2 = 10` render
passes, each binding one pipeline and issuing one draw of six vertices: the threshold
pass, then four times the pair (horizontal blur, vertical blur), then the tone-mapping
pass, in the order the specification declares. `Bloom` records eleven passes in all,
`FullDemo` twelve. -/
theorem postproc_chain_after_color_pass {U : Type}
    (constants lightConstants sceneConstants : U) (framebuffer : Nat)
    (meshes : List FullDemo.VulkanMesh) :
    (afterColorPass (passes (Bloom.drawFrame constants framebuffer))).map (·.pipelines)
      = (postprocChain 4).map (fun p => [p]) ∧
    (afterColorPass (passes (FullDemo.drawFrame meshes lightConstants sceneConstants
      framebuffer))).map (·.pipelines) = (postprocChain 4).map (fun p => [p]) ∧
    (postprocChain 4).length = 2 * 4 + 2 ∧
    postprocChain 4 = [.thresholdPipeline, .horzBlurPipeline, .vertBlurPipeline,
      .horzBlurPipeline, .vertBlurPipeline, .horzBlurPipeline, .vertBlurPipeline,
      .horzBlurPipeline, .vertBlurPipeline, .tonemapPipeline] ∧
    (afterColorPass (passes (Bloom.drawFrame constants framebuffer))).map (·.draws)
      = List.replicate 10 [6] ∧
    (afterColorPass (passes (FullDemo.drawFrame meshes lightConstants sceneConstants
      framebuffer))).map (·.draws) = List.replicate 10 [6] ∧
    (passes (Bloom.drawFrame constants framebuffer)).length = 11 ∧
    (passes (FullDemo.drawFrame meshes lightConstants sceneConstants framebuffer)).length
      = 12 := by
  refine ⟨rfl, ?_, rfl, rfl, rfl, ?_, rfl, ?_⟩
  · rw [fullDemo_afterColorPass]; rfl
  · rw [fullDemo_afterColorPass]; rfl
  · rw [fullDemo_passes]; rfl

/-! ## C12: the data flow of the post-processing passes of `Bloom` -/

/-- C12. With `HDRTarget = hdrBuffer[0]`, `Bloom0 = hdrBuffer[1]` and
`Bloom1 = hdrBuffer[2]`, three distinct render targets, the ten post-processing passes
of `Bloom::drawFrame` have, pass by pass, the pipeline, the sampled render targets and
the destination of the representative chain with `K = 4`: the threshold pass reads
only `HDRTarget` and writes `Bloom0`, each horizontal blur reads only `Bloom0` and
writes `Bloom1`, each vertical blur reads only `Bloom1` and writes `Bloom0`, the
tone-mapping pass reads `HDRTarget` and `Bloom0` and writes the presentable
framebuffer. Of the eleven passes of the frame only the last one (position 10) renders
into the presentable framebuffer. -/
theorem bloom_postproc_data_flow {U : Type} (constants : U) (framebuffer : Nat) :
    (afterColorPass (passes (Bloom.drawFrame constants framebuffer))).map
        (Pass.dataFlow Bloom.sampled)
      = (representativeChain (.hdrBuffer 0) (.hdrBuffer 1) (.hdrBuffer 2)
          (.swapchain framebuffer) 4).map ChainPass.dataFlow ∧
    [RenderTarget.hdrBuffer 0, .hdrBuffer 1, .hdrBuffer 2].Nodup ∧
    writers (.swapchain framebuffer) (passes (Bloom.drawFrame constants framebuffer)) = [10] ∧
    (passes (Bloom.drawFrame constants framebuffer)).length = 11 := by
  refine ⟨rfl, by decide, ?_, rfl⟩
  simp [writers, positionsFrom, passes, Bloom.drawFrame, Bloom.colorPass, Bloom.thresholdPass,
    Bloom.blurIteration, Bloom.tonemapPass, collectPasses, List.range_succ]

/-! ## C13: which passes write and which read an offscreen target -/

theorem fullDemo_writers {U : Type} (meshes : List FullDemo.VulkanMesh)
    (lightConstants sceneConstants : U) (fb : Nat) :
    FullDemo.offscreenTargets.map (fun t =>
      writers t (passes (FullDemo.drawFrame meshes lightConstants sceneConstants fb)))
    = [[0], [1], [2, 4, 6, 8, 10], [3, 5, 7, 9]] := by
  unfold writers
  rw [fullDemo_passes]
  rfl

theorem fullDemo_readers {U : Type} (meshes : List FullDemo.VulkanMesh)
    (lightConstants sceneConstants : U) (fb : Nat) :
    FullDemo.offscreenTargets.map (fun t => readers FullDemo.sampled t
      (passes (FullDemo.drawFrame meshes lightConstants sceneConstants fb)))
    = [if meshes = [] then [] else [1], [2, 11], [2, 3, 4, 5, 6, 7, 8, 9, 10, 11],
        [3, 4, 5, 6, 7, 8, 9, 10]] := by
  have h0 : ∀ t : RenderTarget, decide (t ∈
      (meshes.map (fun _ => DescriptorSet.shadowMapDescriptorSet)).flatMap
        FullDemo.sampled) = false :=
    fun t => decide_eq_false (shadowMap_not_sampled_by_shadow_sets meshes t)
  have h1 : ∀ t : RenderTarget, t ≠ .shadowMap → decide (t ∈
      (meshes.flatMap (fun mesh =>
        [DescriptorSet.mainSceneDescriptorSet, .material mesh.material])).flatMap
        FullDemo.sampled) = false :=
    fun t ht => decide_eq_false fun h => ht (scene_sets_sample_shadowMap_only meshes t h)
  have h2 : decide (RenderTarget.shadowMap ∈
      (meshes.flatMap (fun mesh =>
        [DescriptorSet.mainSceneDescriptorSet, .material mesh.material])).flatMap
        FullDemo.sampled) = decide (meshes ≠ []) := by
    cases meshes with
    | nil => rfl
    | cons m ms => simp [FullDemo.sampled]
  unfold readers FullDemo.offscreenTargets
  rw [fullDemo_passes]
  simp only [List.map_cons, List.map_nil, List.cons_append, List.nil_append, positionsFrom,
    Pass.inputs, h0, h2, h1 (.hdrBuffer 0) (by decide), h1 (.bloomBuffer 0) (by decide),
    h1 (.bloomBuffer 1) (by decide)]
  by_cases hm : meshes = []
  · simp only [hm, ne_eq, not_true_eq_false, decide_False, if_true]
    rfl
  · simp only [hm, ne_eq, not_false_eq_true, decide_True, if_false]
    rfl

/-- C13, as amended. In every frame recorded by `Bloom`, `FullDemo` or `ShadowMap`,
every offscreen render target is the destination of at least one pass, and no pass
that binds it as an input comes before the first pass that writes it. The shadow map
and the HDR target are written by exactly one pass. The ping-pong targets are written
by several: `Bloom0` by the threshold pass and the four vertical blurs, `Bloom1` by the
four horizontal blurs. A pass may bind a set holding its own destination (the color
pass of `Bloom`, the threshold and blur passes of `FullDemo`), so a reader is not
always strictly later than the first writer. The lists give, per target and in
recording order, the positions of the passes that write it and of those that bind
it. -/
theorem offscreen_targets_written_before_read {U : Type}
    (constants lightConstants sceneConstants : U) (framebuffer : Nat)
    (meshes : List FullDemo.VulkanMesh) :
    (∀ t ∈ Bloom.offscreenTargets,
      WrittenBeforeRead Bloom.sampled t (passes (Bloom.drawFrame constants framebuffer))) ∧
    (∀ t ∈ FullDemo.offscreenTargets, WrittenBeforeRead FullDemo.sampled t
      (passes (FullDemo.drawFrame meshes lightConstants sceneConstants framebuffer))) ∧
    (∀ t ∈ ShadowMap.offscreenTargets, WrittenBeforeRead ShadowMap.sampled t
      (passes (ShadowMap.drawFrame lightConstants sceneConstants framebuffer))) ∧
    Bloom.offscreenTargets.map (fun t =>
      writers t (passes (Bloom.drawFrame constants framebuffer)))
      = [[0], [1, 3, 5, 7, 9], [2, 4, 6, 8]] ∧
    Bloom.offscreenTargets.map (fun t =>
      readers Bloom.sampled t (passes (Bloom.drawFrame constants framebuffer)))
      = [[0, 1, 10], [2, 4, 6, 8, 10], [3, 5, 7, 9]] ∧
    FullDemo.offscreenTargets.map (fun t =>
      writers t (passes (FullDemo.drawFrame meshes lightConstants sceneConstants framebuffer)))
      = [[0], [1], [2, 4, 6, 8, 10], [3, 5, 7, 9]] ∧
    FullDemo.offscreenTargets.map (fun t => readers FullDemo.sampled t
      (passes (FullDemo.drawFrame meshes lightConstants sceneConstants framebuffer)))
      = [if meshes = [] then [] else [1], [2, 11], [2, 3, 4, 5, 6, 7, 8, 9, 10, 11],
          [3, 4, 5, 6, 7, 8, 9, 10]] ∧
    ShadowMap.offscreenTargets.map (fun t =>
      writers t (passes (ShadowMap.drawFrame lightConstants sceneConstants framebuffer)))
      = [[0]] ∧
    ShadowMap.offscreenTargets.map (fun t => readers ShadowMap.sampled t
      (passes (ShadowMap.drawFrame lightConstants sceneConstants framebuffer))) = [[1]] := by
  have hw := fullDemo_writers meshes lightConstants sceneConstants framebuffer
  have hr := fullDemo_readers meshes lightConstants sceneConstants framebuffer
  refine ⟨?_, ?_, ?_, rfl, rfl, hw, hr, rfl, rfl⟩
  · intro t ht
    simp only [Bloom.offscreenTargets, List.mem_cons, List.mem_singleton, List.not_mem_nil,
      or_false] at ht
    rcases ht with rfl | rfl | rfl
    · exact ⟨0, [], rfl, show ∀ r ∈ [0, 1, 10], 0 ≤ r by decide⟩
    · exact ⟨1, [3, 5, 7, 9], rfl, show ∀ r ∈ [2, 4, 6, 8, 10], 1 ≤ r by decide⟩
    · exact ⟨2, [4, 6, 8], rfl, show ∀ r ∈ [3, 5, 7, 9], 2 ≤ r by decide⟩
  · simp only [FullDemo.offscreenTargets, List.map_cons, List.map_nil, List.cons.injEq,
      and_true] at hw hr
    obtain ⟨hw0, hw1, hw2, hw3⟩ := hw
    obtain ⟨hr0, hr1, hr2, hr3⟩ := hr
    intro t ht
    simp only [FullDemo.offscreenTargets, List.mem_cons, List.mem_singleton, List.not_mem_nil,
      or_false] at ht
    rcases ht with rfl | rfl | rfl | rfl
    · refine ⟨0, [], hw0, ?_⟩
      rw [hr0]
      intro r _
      exact Nat.zero_le r
    · refine ⟨1, [], hw1, ?_⟩
      rw [hr1]
      decide
    · refine ⟨2, [4, 6, 8, 10], hw2, ?_⟩
      rw [hr2]
      decide
    · refine ⟨3, [5, 7, 9], hw3, ?_⟩
      rw [hr3]
      decide
  · intro t ht
    simp only [ShadowMap.offscreenTargets, List.mem_singleton] at ht
    subst ht
    exact ⟨0, [], rfl, show ∀ r ∈ [1], 0 ≤ r by decide⟩

/-- Counterexample to C13 as stated: in a frame of `Bloom`, `hdrBuffer[1]` is the
destination of five passes, the threshold pass and the four vertical blurs, and
`hdrBuffer[2]` of four; `hdrBuffer[0]` is written by the color pass only, which itself
binds `descriptorSet[0]`, the set holding `hdrBuffer[0]`. None of the three targets is
written exactly once and read only by strictly later passes. -/
theorem ping_pong_target_written_repeatedly :
    writers (.hdrBuffer 1) (passes (Bloom.drawFrame () 0)) = [1, 3, 5, 7, 9] ∧
    writers (.hdrBuffer 2) (passes (Bloom.drawFrame () 0)) = [2, 4, 6, 8] ∧
    writers (.hdrBuffer 0) (passes (Bloom.drawFrame () 0)) = [0] ∧
    readers Bloom.sampled (.hdrBuffer 0) (passes (Bloom.drawFrame () 0)) = [0, 1, 10] ∧
    ¬ WrittenOnceReadLater Bloom.sampled (.hdrBuffer 1) (passes (Bloom.drawFrame () 0)) ∧
    ¬ WrittenOnceReadLater Bloom.sampled (.hdrBuffer 2) (passes (Bloom.drawFrame () 0)) ∧
    ¬ WrittenOnceReadLater Bloom.sampled (.hdrBuffer 0) (passes (Bloom.drawFrame () 0)) := by
  refine ⟨rfl, rfl, rfl, rfl, ?_, ?_, ?_⟩
  · rintro ⟨w, hw, _⟩
    have h : writers (.hdrBuffer 1) (passes (Bloom.drawFrame () 0)) = [1, 3, 5, 7, 9] := rfl
    rw [h] at hw
    simp at hw
  · rintro ⟨w, hw, _⟩
    have h : writers (.hdrBuffer 2) (passes (Bloom.drawFrame () 0)) = [2, 4, 6, 8] := rfl
    rw [h] at hw
    simp at hw
  · rintro ⟨w, hw, hr⟩
    have h : writers (.hdrBuffer 0) (passes (Bloom.drawFrame () 0)) = [0] := rfl
    have h2 : readers Bloom.sampled (.hdrBuffer 0) (passes (Bloom.drawFrame () 0))
        = [0, 1, 10] := rfl
    rw [h] at hw
    rw [h2] at hr
    have hw0 : w = 0 := by simpa using hw.symm
    have := hr 0 (by simp)
    omega

/-! ## C14: the pass graph is static -/

/-- C14. For each of the five registered renderers, two invocations of `drawFrame`
record the same pass graph, whatever the uniform values (computed from the time and
the camera) and whichever presentable framebuffer the host hands over: the same number
of passes and, pass by pass, the same render pass, pipelines, destination role, bound
descriptor sets, input render targets and draws. The descriptor set contents are the
ones the constructor writes, which depend on no argument of the constructor, so this
also holds across a destruction and re-creation of the renderer; for `FullDemo` the
meshes are those of the scene file loaded by the constructor. With the same
framebuffer the two command sequences are equal once the uploaded uniform values are
left out. For `FullDemo`, the number of passes and each pass's render pass,
destination role and pipelines do not depend on the meshes either. -/
theorem pass_graph_is_static {U : Type} (c1 c2 l1 l2 s1 s2 : U) (fb1 fb2 : Nat)
    (meshes meshes2 : List FullDemo.VulkanMesh) :
    passGraph Bloom.sampled (Bloom.drawFrame c1 fb1)
      = passGraph Bloom.sampled (Bloom.drawFrame c2 fb2) ∧
    passGraph FullDemo.sampled (FullDemo.drawFrame meshes l1 s1 fb1)
      = passGraph FullDemo.sampled (FullDemo.drawFrame meshes l2 s2 fb2) ∧
    passGraph ShadowMap.sampled (ShadowMap.drawFrame l1 s1 fb1)
      = passGraph ShadowMap.sampled (ShadowMap.drawFrame l2 s2 fb2) ∧
    passGraph Texturing.sampled (Texturing.drawFrame c1 fb1)
      = passGraph Texturing.sampled (Texturing.drawFrame c2 fb2) ∧
    passGraph DescriptorSets.sampled (DescriptorSets.drawFrame c1 fb1)
      = passGraph DescriptorSets.sampled (DescriptorSets.drawFrame c2 fb2) ∧
    (Bloom.drawFrame c1 fb1).map Cmd.withoutUniforms
      = (Bloom.drawFrame c2 fb1).map Cmd.withoutUniforms ∧
    (FullDemo.drawFrame meshes l1 s1 fb1).map Cmd.withoutUniforms
      = (FullDemo.drawFrame meshes l2 s2 fb1).map Cmd.withoutUniforms ∧
    (ShadowMap.drawFrame l1 s1 fb1).map Cmd.withoutUniforms
      = (ShadowMap.drawFrame l2 s2 fb1).map Cmd.withoutUniforms ∧
    (Texturing.drawFrame c1 fb1).map Cmd.withoutUniforms
      = (Texturing.drawFrame c2 fb1).map Cmd.withoutUniforms ∧
    (DescriptorSets.drawFrame c1 fb1).map Cmd.withoutUniforms
      = (DescriptorSets.drawFrame c2 fb1).map Cmd.withoutUniforms ∧
    (passGraph FullDemo.sampled (FullDemo.drawFrame meshes l1 s1 fb1)).map
        (fun d => (d.renderPass, d.destination, d.pipelines))
      = (passGraph FullDemo.sampled (FullDemo.drawFrame meshes2 l2 s2 fb2)).map
        (fun d => (d.renderPass, d.destination, d.pipelines)) := by
  refine ⟨rfl, ?_, rfl, rfl, rfl, rfl, ?_, rfl, rfl, rfl, ?_⟩
  · unfold passGraph
    rw [fullDemo_passes, fullDemo_passes]
    rfl
  · simp [FullDemo.drawFrame, FullDemo.drawShadowMap, FullDemo.drawMainScene,
      FullDemo.thresholdPass, FullDemo.blurIteration, FullDemo.tonemapPass,
      List.map_flatMap, Cmd.withoutUniforms]
  · unfold passGraph
    rw [fullDemo_passes, fullDemo_passes]
    rfl

/-! ## C19: uniform writes come before the draws that consume them -/

theorem collectUniformSteps_shadowMeshes {U : Type} (constants : U)
    (meshes : List FullDemo.VulkanMesh) :
    ∀ (t : List UniformStep) (rest : List (Cmd U)),
    collectUniformSteps (some t) (meshes.flatMap (fun mesh =>
      [.vkCmdBindVertexBuffers mesh.vertexBuffer,
       .vkCmdBindDescriptorSets 0 .shadowMapDescriptorSet,
       .writeToGpuMemory .shadowMapUniformBufferMemory constants,
       .vkCmdDraw mesh.vertexCount]) ++ rest) =
    collectUniformSteps (some (t ++ meshes.flatMap (fun _ =>
      [.upload .shadowMapUniformBufferMemory, .draw]))) rest := by
  induction meshes with
  | nil => intro t rest; simp
  | cons m ms ih =>
    intro t rest
    rw [List.flatMap_cons, List.flatMap_cons]
    simp only [List.cons_append, List.nil_append, List.append_assoc]
    rw [collectUniformSteps, collectUniformSteps, collectUniformSteps, collectUniformSteps, ih]
    simp
    all_goals simp

theorem collectUniformSteps_sceneMeshes {U : Type} (constants : U)
    (meshes : List FullDemo.VulkanMesh) :
    ∀ (t : List UniformStep) (rest : List (Cmd U)),
    collectUniformSteps (some t) (meshes.flatMap (fun mesh =>
      [.vkCmdBindVertexBuffers mesh.vertexBuffer,
       .vkCmdBindDescriptorSets 0 .mainSceneDescriptorSet,
       .vkCmdBindDescriptorSets 1 (.material mesh.material),
       .writeToGpuMemory .uniformBufferMemory constants,
       .vkCmdDraw mesh.vertexCount]) ++ rest) =
    collectUniformSteps (some (t ++ meshes.flatMap (fun _ =>
      [.upload .uniformBufferMemory, .draw]))) rest := by
  induction meshes with
  | nil => intro t rest; simp
  | cons m ms ih =>
    intro t rest
    rw [List.flatMap_cons, List.flatMap_cons]
    simp only [List.cons_append, List.nil_append, List.append_assoc]
    rw [collectUniformSteps, collectUniformSteps, collectUniformSteps, collectUniformSteps,
      collectUniformSteps, ih]
    simp
    all_goals simp

theorem uploadsOutsidePasses_shadowMeshes {U : Type} (constants : U)
    (meshes : List FullDemo.VulkanMesh) (rest : List (Cmd U)) :
    uploadsOutsidePasses true (meshes.flatMap (fun mesh =>
      [.vkCmdBindVertexBuffers mesh.vertexBuffer,
       .vkCmdBindDescriptorSets 0 .shadowMapDescriptorSet,
       .writeToGpuMemory .shadowMapUniformBufferMemory constants,
       .vkCmdDraw mesh.vertexCount]) ++ rest) = uploadsOutsidePasses true rest := by
  induction meshes with
  | nil => simp
  | cons m ms ih =>
    rw [List.flatMap_cons]
    simp only [List.cons_append, List.nil_append, List.append_assoc]
    rw [uploadsOutsidePasses, uploadsOutsidePasses, uploadsOutsidePasses,
      uploadsOutsidePasses, ih]
    all_goals simp

theorem uploadsOutsidePasses_sceneMeshes {U : Type} (constants : U)
    (meshes : List FullDemo.VulkanMesh) (rest : List (Cmd U)) :
    uploadsOutsidePasses true (meshes.flatMap (fun mesh =>
      [.vkCmdBindVertexBuffers mesh.vertexBuffer,
       .vkCmdBindDescriptorSets 0 .mainSceneDescriptorSet,
       .vkCmdBindDescriptorSets 1 (.material mesh.material),
       .writeToGpuMemory .uniformBufferMemory constants,
       .vkCmdDraw mesh.vertexCount]) ++ rest) = uploadsOutsidePasses true rest := by
  induction meshes with
  | nil => simp
  | cons m ms ih =>
    rw [List.flatMap_cons]
    simp only [List.cons_append, List.nil_append, List.append_assoc]
    rw [uploadsOutsidePasses, uploadsOutsidePasses, uploadsOutsidePasses,
      uploadsOutsidePasses, uploadsOutsidePasses, ih]
    all_goals simp

theorem uploadBeforeEachDraw_meshes (memory : Memory) (meshes : List FullDemo.VulkanMesh) :
    UploadBeforeEachDraw (meshes.flatMap (fun _ => [.upload memory, .draw])) := by
  induction meshes with
  | nil => exact trivial
  | cons m ms ih =>
    rw [List.flatMap_cons]
    exact ih

theorem fullDemo_uniformSteps {U : Type} (meshes : List FullDemo.VulkanMesh)
    (lightConstants sceneConstants : U) (fb : Nat) :
    collectUniformSteps none (FullDemo.drawFrame meshes lightConstants sceneConstants fb) =
      [meshes.flatMap (fun _ => [.upload .shadowMapUniformBufferMemory, .draw]),
       meshes.flatMap (fun _ => [.upload .uniformBufferMemory, .draw]),
       [.draw], [.draw], [.draw], [.draw], [.draw], [.draw], [.draw], [.draw], [.draw],
       [.draw]] ∧
    uploadsOutsidePasses false (FullDemo.drawFrame meshes lightConstants sceneConstants fb)
      = [] := by
  unfold FullDemo.drawFrame FullDemo.drawShadowMap FullDemo.drawMainScene
  simp only [List.cons_append, List.nil_append, List.append_assoc]
  constructor
  · rw [collectUniformSteps, collectUniformSteps, collectUniformSteps_shadowMeshes,
      collectUniformSteps]
    rw [collectUniformSteps, collectUniformSteps, collectUniformSteps_sceneMeshes,
      collectUniformSteps]
    simp
    all_goals first | rfl | simp
  · rw [uploadsOutsidePasses, uploadsOutsidePasses, uploadsOutsidePasses_shadowMeshes,
      uploadsOutsidePasses]
    rw [uploadsOutsidePasses, uploadsOutsidePasses, uploadsOutsidePasses_sceneMeshes,
      uploadsOutsidePasses]
    all_goals first | rfl | simp

/-- C19. In every frame recorded by each of the five registered renderers, whatever
the uniform values, the framebuffer and (for `FullDemo`) the meshes: no uniform write
is made outside a render pass, and in every pass that uploads uniform data the steps
are upload, draw, upload, draw, and so on, so each `writeToGpuMemory` is made after
the pass has begun and before the draw that consumes it is recorded. In `FullDemo` the
shadow pass and the main scene pass upload once per mesh, right before that mesh's
draw. The ten post-processing passes of `Bloom` and `FullDemo` upload nothing. Every
uniform memory is allocated host-visible and host-coherent. -/
theorem uniform_write_precedes_draw {U : Type} (constants lightConstants sceneConstants : U)
    (framebuffer : Nat) (meshes : List FullDemo.VulkanMesh) :
    UniformsWrittenBeforeDraws (Bloom.drawFrame constants framebuffer) ∧
    UniformsWrittenBeforeDraws
      (FullDemo.drawFrame meshes lightConstants sceneConstants framebuffer) ∧
    UniformsWrittenBeforeDraws (ShadowMap.drawFrame lightConstants sceneConstants framebuffer) ∧
    UniformsWrittenBeforeDraws (Texturing.drawFrame constants framebuffer) ∧
    UniformsWrittenBeforeDraws (DescriptorSets.drawFrame constants framebuffer) ∧
    collectUniformSteps none (Bloom.drawFrame constants framebuffer) =
      [[.upload .uniformBufferMemory, .draw],
       [.draw], [.draw], [.draw], [.draw], [.draw], [.draw], [.draw], [.draw], [.draw],
       [.draw]] ∧
    collectUniformSteps none
        (FullDemo.drawFrame meshes lightConstants sceneConstants framebuffer) =
      [meshes.flatMap (fun _ => [.upload .shadowMapUniformBufferMemory, .draw]),
       meshes.flatMap (fun _ => [.upload .uniformBufferMemory, .draw]),
       [.draw], [.draw], [.draw], [.draw], [.draw], [.draw], [.draw], [.draw], [.draw],
       [.draw]] ∧
    collectUniformSteps none (ShadowMap.drawFrame lightConstants sceneConstants framebuffer) =
      [[.upload .shadowMapUniformBufferMemory, .draw], [.upload .uniformBufferMemory, .draw]] ∧
    collectUniformSteps none (Texturing.drawFrame constants framebuffer) =
      [[.upload .uniformBufferMemory, .draw]] ∧
    collectUniformSteps none (DescriptorSets.drawFrame constants framebuffer) =
      [[.upload .uniformBufferMemory, .draw]] ∧
    (∀ memory : Memory, MemoryProperty.HOST_VISIBLE ∈ memory.properties ∧
      MemoryProperty.HOST_COHERENT ∈ memory.properties) := by
  have hdraw : ∀ m : Memory, UniformStep.upload m ∉ [UniformStep.draw] := by
    intro m h
    simp at h
  have hone : ∀ m : Memory, UploadBeforeEachDraw [.upload m, .draw] := fun _ => trivial
  obtain ⟨hf, hfo⟩ := fullDemo_uniformSteps meshes lightConstants sceneConstants framebuffer
  refine ⟨⟨rfl, ?_⟩, ⟨hfo, ?_⟩, ⟨rfl, ?_⟩, ⟨rfl, ?_⟩, ⟨rfl, ?_⟩, rfl, hf, rfl, rfl, rfl, ?_⟩
  · intro t ht
    have ht2 : t ∈ [[UniformStep.upload .uniformBufferMemory, .draw],
       [.draw], [.draw], [.draw], [.draw], [.draw], [.draw], [.draw], [.draw], [.draw],
       [.draw]] := ht
    simp only [List.mem_cons, List.not_mem_nil, or_false, or_self] at ht2
    rcases ht2 with rfl | rfl
    · exact fun _ => hone _
    · exact fun ⟨m, hm⟩ => absurd hm (hdraw m)
  · intro t ht
    rw [hf] at ht
    simp only [List.mem_cons, List.not_mem_nil, or_false, or_self] at ht
    rcases ht with rfl | rfl | rfl
    · exact fun _ => uploadBeforeEachDraw_meshes _ meshes
    · exact fun _ => uploadBeforeEachDraw_meshes _ meshes
    · exact fun ⟨m, hm⟩ => absurd hm (hdraw m)
  · intro t ht
    have ht2 : t ∈ [[UniformStep.upload .shadowMapUniformBufferMemory, .draw],
       [.upload .uniformBufferMemory, .draw]] := ht
    simp only [List.mem_cons, List.not_mem_nil, or_false] at ht2
    rcases ht2 with rfl | rfl <;> exact fun _ => hone _
  · intro t ht
    have ht2 : t ∈ [[UniformStep.upload .uniformBufferMemory, .draw]] := ht
    simp only [List.mem_singleton] at ht2
    subst ht2
    exact fun _ => hone _
  · intro t ht
    have ht2 : t ∈ [[UniformStep.upload .uniformBufferMemory, .draw]] := ht
    simp only [List.mem_singleton] at ht2
    subst ht2
    exact fun _ => hone _
  · intro memory
    simp [Memory.properties]

/-! ## Normal forms of the recording and the present step -/

theorem recordCommandBuffer_eq (b : FrameBackend) (i : Nat) (s : ApplicationHost) :
    recordCommandBuffer b i s =
      if b.beginResult ≠ .VK_SUCCESS then
        ⟨.thrown .beginCommandBuffer, s,
          [⟨.vkBeginCommandBuffer i b.beginResult, s.queue, s.frameSync⟩]⟩
      else if s.hostedApp = false then
        ⟨.undefined, s, [⟨.vkBeginCommandBuffer i b.beginResult, s.queue, s.frameSync⟩]⟩
      else if b.hostedAppReturns = false then
        ⟨.thrown .hostedDrawFrame, s,
          [⟨.vkBeginCommandBuffer i b.beginResult, s.queue, s.frameSync⟩,
           ⟨.hostedDrawFrame i b.hostedAppReturns, s.queue, s.frameSync⟩]⟩
      else
        ⟨if b.endResult ≠ .VK_SUCCESS then .thrown .endCommandBuffer else .returned, s,
          [⟨.vkBeginCommandBuffer i b.beginResult, s.queue, s.frameSync⟩,
           ⟨.hostedDrawFrame i b.hostedAppReturns, s.queue, s.frameSync⟩,
           ⟨.vkEndCommandBuffer i b.endResult, s.queue, s.frameSync⟩]⟩ := by
  unfold recordCommandBuffer
  simp only [call, andThen_mk_returned]
  by_cases h1 : b.beginResult = .VK_SUCCESS
  · by_cases h2 : s.hostedApp = false
    · simp [h1, h2]
    · by_cases h3 : b.hostedAppReturns = false
      · simp [h1, h2, h3, raise]
      · by_cases h4 : b.endResult = .VK_SUCCESS
        · simp [h1, h2, h3, h4, ret]
        · simp [h1, h2, h3, h4, raise]
  · simp [h1, raise]

theorem presentFrame_eq (b : FrameBackend) (s : ApplicationHost) :
    presentFrame b s =
      if b.presentResult = .VK_ERROR_OUT_OF_DATE_KHR ∨ b.presentResult = .VK_SUBOPTIMAL_KHR
          ∨ s.framebufferResized = true then
        ⟨(recreateSwapChain b.recreate { s with framebufferResized := false }).status,
          (recreateSwapChain b.recreate { s with framebufferResized := false }).host,
          ⟨.vkQueuePresentKHR (.renderFinished_forGPU s.currFrameSync) b.imageIndex
            b.presentResult, s.queue, s.frameSync⟩ ::
          (recreateSwapChain b.recreate { s with framebufferResized := false }).events⟩
      else
        ⟨if b.presentResult ≠ .VK_SUCCESS then .thrown .queuePresent else .returned, s,
          [⟨.vkQueuePresentKHR (.renderFinished_forGPU s.currFrameSync) b.imageIndex
            b.presentResult, s.queue, s.frameSync⟩]⟩ := by
  unfold presentFrame
  simp only [call, andThen_mk_returned]
  split
  · simp
  · by_cases h : b.presentResult = .VK_SUCCESS
    · simp [h, ret]
    · simp [h, raise]

theorem wait_not_thrown (extra k : Nat) (s : ApplicationHost) (f : Failure) :
    (vkWaitForFences extra k s).status ≠ .thrown f := by
  by_cases hk : k < s.frameSync.length
  · obtain ⟨s2, _, ⟨he, _⟩ | he⟩ := vkWaitForFences_cases extra k s hk <;> rw [he] <;> simp
  · rw [vkWaitForFences_undefined extra k s hk]; simp

theorem waitImage_not_thrown (b : FrameBackend) (x : Int) (s : ApplicationHost) (f : Failure) :
    (waitImage b x s).status ≠ .thrown f := by
  unfold waitImage
  split
  · split
    · exact wait_not_thrown _ _ _ f
    · simp
  · simp [ret]

theorem andThen_ret_status (r : Result) (g : ApplicationHost → ApplicationHost) :
    (r.andThen fun s => ret (g s)).status = r.status ∧
    (r.andThen fun s => ret (g s)).events = r.events := by
  by_cases h : r.status = .returned
  · rw [Result.andThen_of_returned _ h]
    simp [ret, h]
  · rw [Result.andThen_of_not_returned _ h]
    exact ⟨rfl, rfl⟩

/-! ## C15: when a frame raises -/

theorem calm_of_lifecycle {e : Event} (h : Lifecycle e) :
    e.op.raises = none ∧ e.op.isStale = false := by
  unfold Lifecycle at h
  cases hop : e.op <;> rw [hop] at h <;> first | exact ⟨rfl, rfl⟩ | cases h

theorem not_stale_of_raises {op : Op} {f : Failure} (h : op.raises = some f) :
    op.isStale = false := by
  cases op <;> simp only [Op.raises, Op.isStale] at h ⊢
  all_goals
    split at h
    · cases h
    · rename_i hn
      simp only [not_or] at hn
      simp [hn.2.1, hn.2.2]

theorem raisesOnLast_of_calm {r : Result} (hs : ∀ f, r.status ≠ .thrown f)
    (he : ∀ e ∈ r.events, e.op.raises = none) : r.RaisesOnLast :=
  ⟨fun f h => absurd h (hs f), fun _ => he⟩

theorem raisesOnLast_thrown (f : Failure) (s : ApplicationHost) (pre : List Event) (e : Event)
    (he : e.op.raises = some f)
    (hpre : ∀ x ∈ pre, x.op.raises = none ∧ x.op.isStale = false) :
    (⟨.thrown f, s, pre ++ [e]⟩ : Result).RaisesOnLast := by
  refine ⟨?_, fun h => absurd rfl (h f)⟩
  intro f2 h2
  have hf : f = f2 := by simpa using h2
  subst hf
  exact ⟨pre, e, rfl, he, hpre⟩

theorem raisesOnLast_prepend {r : Result} (h : r.RaisesOnLast) (ev : List Event)
    (hev : ∀ x ∈ ev, x.op.raises = none ∧ x.op.isStale = false) :
    (⟨r.status, r.host, ev ++ r.events⟩ : Result).RaisesOnLast := by
  refine ⟨?_, ?_⟩
  · intro f hf
    obtain ⟨pre, e, hpe, he, hpre⟩ := h.1 f hf
    refine ⟨ev ++ pre, e, ?_, he, ?_⟩
    · show ev ++ r.events = ev ++ pre ++ [e]
      rw [hpe, List.append_assoc]
    · intro x hx
      rcases List.mem_append.mp hx with hx | hx
      · exact hev x hx
      · exact hpre x hx
  · intro hn e he
    rcases List.mem_append.mp he with he | he
    · exact (hev e he).1
    · exact h.2 hn e he

theorem raisesOnLast_andThen {r : Result} {f : ApplicationHost → Result}
    {R : ApplicationHost → Prop} (hr : r.RaisesOnLast)
    (hc : r.status = .returned → (∀ x ∈ r.events, x.op.isStale = false) ∧ R r.host)
    (hf : ∀ s, R s → (f s).RaisesOnLast) : (r.andThen f).RaisesOnLast := by
  by_cases h : r.status = .returned
  · rw [Result.andThen_of_returned f h]
    refine raisesOnLast_prepend (hf r.host (hc h).2) r.events fun x hx => ⟨?_, (hc h).1 x hx⟩
    exact hr.2 (fun f2 h2 => by rw [h] at h2; cases h2) x hx
  · rw [Result.andThen_of_not_returned f h]
    exact hr

theorem raisesOnLast_wait (extra k : Nat) (s : ApplicationHost) :
    (vkWaitForFences extra k s).RaisesOnLast ∧
    ∀ x ∈ (vkWaitForFences extra k s).events, x.op.isStale = false := by
  have h := (sat_wait_any extra k s).1
  refine ⟨raisesOnLast_of_calm (wait_not_thrown extra k s) fun e he => ?_, fun e he => ?_⟩
  · rw [h e he]; rfl
  · rw [h e he]; rfl

theorem raisesOnLast_waitImage (b : FrameBackend) (x : Int) (s : ApplicationHost) :
    (waitImage b x s).RaisesOnLast ∧
    ∀ e ∈ (waitImage b x s).events, e.op.isStale = false := by
  have h := (sat_waitImage_any b x s).1
  refine ⟨raisesOnLast_of_calm (waitImage_not_thrown b x s) fun e he => ?_, fun e he => ?_⟩
  · obtain ⟨k, hk⟩ := h e he
    rw [hk]; rfl
  · obtain ⟨k, hk⟩ := h e he
    rw [hk]; rfl

theorem raisesOnLast_record (b : FrameBackend) (i : Nat) (s : ApplicationHost)
    (hh : b.hostedAppReturns = true) :
    (recordCommandBuffer b i s).RaisesOnLast ∧
    ∀ e ∈ (recordCommandBuffer b i s).events, e.op.isStale = false := by
  constructor
  · rw [recordCommandBuffer_eq]
    by_cases h1 : b.beginResult = .VK_SUCCESS
    · by_cases h2 : s.hostedApp = false
      · simp only [h1, h2, ne_eq, not_true_eq_false, if_false, if_true]
        exact raisesOnLast_of_calm (by simp) (by simp [Op.raises])
      · by_cases h4 : b.endResult = .VK_SUCCESS
        · simp only [h1, h2, hh, h4, ne_eq, not_true_eq_false, if_false, Bool.true_eq_false]
          exact raisesOnLast_of_calm (by simp) (by simp [Op.raises])
        · simp only [h1, h2, hh, h4, ne_eq, not_true_eq_false, not_false_eq_true, if_false,
            if_true, Bool.true_eq_false]
          exact raisesOnLast_thrown .endCommandBuffer s
            [⟨.vkBeginCommandBuffer i .VK_SUCCESS, s.queue, s.frameSync⟩,
             ⟨.hostedDrawFrame i true, s.queue, s.frameSync⟩]
            ⟨.vkEndCommandBuffer i b.endResult, s.queue, s.frameSync⟩
            (by simp [Op.raises, h4]) (by simp [Op.raises, Op.isStale])
    · simp only [h1, ne_eq, not_false_eq_true, if_true]
      exact raisesOnLast_thrown .beginCommandBuffer s []
        ⟨.vkBeginCommandBuffer i b.beginResult, s.queue, s.frameSync⟩
        (by simp [Op.raises, h1]) (by simp)
  · intro e he
    have hrec : e.op.isRecording = true := (sat_record_any b i s).1 e he
    cases hop : e.op <;> rw [hop] at hrec <;> first | rfl | cases hrec

theorem raisesOnLast_submit (b : FrameBackend) (i : Nat) (s : ApplicationHost) :
    (submitFrame b i s).RaisesOnLast ∧
    (∀ e ∈ (submitFrame b i s).events, e.op.isStale = false) ∧
    (submitFrame b i s).host.framebufferResized = s.framebufferResized := by
  rw [submitFrame_eq]
  refine ⟨?_, by simp [Op.isStale], rfl⟩
  by_cases hb : b.submitResult = .VK_SUCCESS
  · simp only [hb, if_true]
    exact raisesOnLast_of_calm (by simp) (by simp [Op.raises])
  · simp only [hb, if_false]
    exact raisesOnLast_thrown .queueSubmit _
      [⟨.vkResetFences s.currFrameSync, s.queue, s.frameSync.set s.currFrameSync ⟨false⟩⟩]
      ⟨.vkQueueSubmit (.availableForWriting s.currFrameSync) i
        (.renderFinished_forGPU s.currFrameSync) s.currFrameSync b.submitResult, s.queue,
        s.frameSync.set s.currFrameSync ⟨false⟩⟩
      (by simp [Op.raises, hb]) (by simp [Op.raises, Op.isStale])

theorem raisesOnLast_present (b : FrameBackend) (s : ApplicationHost)
    (hr : b.recreate.Succeeds) (hf : s.framebufferResized = false) :
    (presentFrame b s).RaisesOnLast := by
  rw [presentFrame_eq]
  by_cases hs : b.presentResult = .VK_ERROR_OUT_OF_DATE_KHR ∨
      b.presentResult = .VK_SUBOPTIMAL_KHR
  · have hc : b.presentResult = .VK_ERROR_OUT_OF_DATE_KHR ∨
        b.presentResult = .VK_SUBOPTIMAL_KHR ∨ s.framebufferResized = true := by
      rcases hs with h | h
      · exact Or.inl h
      · exact Or.inr (Or.inl h)
    rw [if_pos hc]
    obtain ⟨hst, _, _⟩ := recreateSwapChain_succeeds hr { s with framebufferResized := false }
    refine raisesOnLast_of_calm (fun f h => ?_) ?_
    · rw [hst] at h; cases h
    · intro e he
      rcases List.mem_cons.mp he with rfl | he
      · simp only [Op.raises]
        rcases hs with h | h <;> simp [h]
      · exact (calm_of_lifecycle ((lifecycle_recreateSwapChain _ _).1 e he)).1
  · have hc : ¬ (b.presentResult = .VK_ERROR_OUT_OF_DATE_KHR ∨
        b.presentResult = .VK_SUBOPTIMAL_KHR ∨ s.framebufferResized = true) := by
      rintro (h | h | h)
      · exact hs (Or.inl h)
      · exact hs (Or.inr h)
      · rw [hf] at h; cases h
    rw [if_neg hc]
    simp only [not_or] at hs
    by_cases hp : b.presentResult = .VK_SUCCESS
    · simp only [hp, ne_eq, not_true_eq_false, if_false]
      exact raisesOnLast_of_calm (by simp) (by simp [Op.raises])
    · simp only [hp, ne_eq, not_false_eq_true, if_true]
      exact raisesOnLast_thrown .queuePresent s []
        ⟨.vkQueuePresentKHR (.renderFinished_forGPU s.currFrameSync) b.imageIndex
          b.presentResult, s.queue, s.frameSync⟩
        (by simp [Op.raises, hp, hs.1, hs.2]) (by simp)

theorem raisesOnLast_ret (r : Result) (g : ApplicationHost → ApplicationHost)
    (h : r.RaisesOnLast) : (r.andThen fun s => ret (g s)).RaisesOnLast := by
  by_cases hret : r.status = .returned
  · rw [Result.andThen_of_returned _ hret]
    refine raisesOnLast_of_calm (by simp [ret]) ?_
    intro e he
    simp only [ret, List.append_nil] at he
    exact h.2 (fun f hf => by rw [hret] at hf; cases hf) e he
  · rw [Result.andThen_of_not_returned _ hret]
    exact h

theorem raisesOnLast_renderFrame (b : FrameBackend) (s : ApplicationHost)
    (hr : b.recreate.Succeeds) (hh : b.hostedAppReturns = true)
    (hf : s.framebufferResized = false) : (renderFrame b s).RaisesOnLast := by
  unfold renderFrame
  cases hi : s.swapchainImages[b.imageIndex]? with
  | none => exact raisesOnLast_of_calm (by simp) (by simp)
  | some im =>
    simp only []
    have hwait := sat_waitImage_any b im.syncIdx s
    refine raisesOnLast_andThen (R := fun s1 => s1.framebufferResized = false)
      (raisesOnLast_waitImage b im.syncIdx s).1
      (fun h => ⟨(raisesOnLast_waitImage b im.syncIdx s).2, ?_⟩) fun s1 hs1 => ?_
    · beta_reduce
      rw [(hwait.2 h).resized]
      exact hf
    have hrec := sat_record_any b b.imageIndex { s1 with
      swapchainImages := s1.swapchainImages.set b.imageIndex ⟨(s1.currFrameSync : Int)⟩ }
    refine raisesOnLast_andThen (R := fun s2 => s2.framebufferResized = false)
      (raisesOnLast_record b b.imageIndex _ hh).1
      (fun h => ⟨(raisesOnLast_record b b.imageIndex _ hh).2, ?_⟩) fun s2 hs2 => ?_
    · rw [hrec.2 h]; exact hs1
    refine raisesOnLast_andThen (R := fun s3 => s3.framebufferResized = false)
      (raisesOnLast_submit b b.imageIndex s2).1
      (fun _ => ⟨(raisesOnLast_submit b b.imageIndex s2).2.1, ?_⟩) fun s3 hs3 => ?_
    · beta_reduce
      rw [(raisesOnLast_submit b b.imageIndex s2).2.2]
      exact hs2
    exact raisesOnLast_ret _ _ (raisesOnLast_present b s3 hr hs3)

theorem raisesOnLast_drawFrame (b : FrameBackend) (s : ApplicationHost)
    (hr : b.recreate.Succeeds) (hh : b.hostedAppReturns = true)
    (hf : s.framebufferResized = false) : (drawFrame b s).RaisesOnLast := by
  unfold drawFrame
  have hwait := sat_wait_any b.progressAtSlotWait s.currFrameSync s
  refine raisesOnLast_andThen (R := fun s1 => s1.framebufferResized = false)
    (raisesOnLast_wait _ _ s).1 (fun h => ⟨(raisesOnLast_wait _ _ s).2, ?_⟩) fun s1 hs1 => ?_
  · beta_reduce
    rw [(hwait.2 h).1.resized]
    exact hf
  simp only [call, andThen_mk_returned]
  by_cases ha : b.acquireResult = .VK_ERROR_OUT_OF_DATE_KHR
  · simp only [ha, if_true]
    obtain ⟨hst, _, _⟩ := recreateSwapChain_succeeds hr s1
    refine raisesOnLast_of_calm (fun f h => ?_) ?_
    · rw [hst] at h; cases h
    · intro e he
      rcases List.mem_append.mp he with he | he
      · simp only [List.mem_singleton] at he
        rw [he]
        simp [Op.raises]
      · exact (calm_of_lifecycle ((lifecycle_recreateSwapChain _ _).1 e he)).1
  · simp only [ha, if_false]
    by_cases hb : b.acquireResult ≠ .VK_SUCCESS ∧ b.acquireResult ≠ .VK_SUBOPTIMAL_KHR
    · simp only [hb, ne_eq, not_false_eq_true, and_self, if_true, raise, List.append_nil]
      exact raisesOnLast_thrown .acquireImage s1 []
        ⟨.vkAcquireNextImageKHR UINT64_MAX (.availableForWriting s1.currFrameSync)
          b.acquireResult b.imageIndex, s1.queue, s1.frameSync⟩
        (by simp [Op.raises, hb.1, hb.2, ha]) (by simp)
    · rw [if_neg hb]
      refine raisesOnLast_prepend (raisesOnLast_renderFrame b s1 hr hh hs1) _ ?_
      intro x hx
      simp only [List.mem_singleton] at hx
      rw [hx]
      have hok : b.acquireResult = .VK_SUCCESS ∨ b.acquireResult = .VK_SUBOPTIMAL_KHR := by
        by_cases h1 : b.acquireResult = .VK_SUCCESS
        · exact Or.inl h1
        · by_cases h2 : b.acquireResult = .VK_SUBOPTIMAL_KHR
          · exact Or.inr h2
          · exact absurd ⟨h1, h2⟩ hb
      rcases hok with h | h <;> simp [Op.raises, Op.isStale, h]

/-- C15. Assume the recreation's creation calls succeed and the hosted renderer
returns, on a host whose `framebufferResized` flag is clear (it is never set: every
session leaves it clear). Then `drawFrame` raises failure `f` exactly when one of its
calls got a fatal answer for `f`: an acquisition result other than success, suboptimal
or out-of-date ("failed to acquire swap chain image"), a failure to begin or to end
the command buffer, a failed queue submission, or a presentation result other than
success, suboptimal or out-of-date. A frame in which an acquisition was out of date,
or a presentation out of date or suboptimal, raises nothing. -/
theorem drawFrame_raises_iff_fatal_answer (b : FrameBackend) (s : ApplicationHost)
    (hr : b.recreate.Succeeds) (hh : b.hostedAppReturns = true)
    (hf : s.framebufferResized = false) (c : RecreateBackend) (bs : List FrameBackend) :
    (∀ f, (drawFrame b s).status = .thrown f ↔
      ∃ e ∈ (drawFrame b s).events, e.op.raises = some f) ∧
    ((∃ f, (drawFrame b s).status = .thrown f) ↔
      ∃ e ∈ (drawFrame b s).events, e.op.raises ≠ none) ∧
    (∀ e ∈ (drawFrame b s).events, e.op.isStale = true →
      ∀ f, (drawFrame b s).status ≠ .thrown f) ∧
    ((session c bs).status = .returned → (session c bs).host.framebufferResized = false) := by
  have H := raisesOnLast_drawFrame b s hr hh hf
  have h1 : ∀ f, (drawFrame b s).status = .thrown f ↔
      ∃ e ∈ (drawFrame b s).events, e.op.raises = some f := by
    intro f
    constructor
    · intro h
      obtain ⟨pre, e, hpe, he, _⟩ := H.1 f h
      exact ⟨e, by rw [hpe]; simp, he⟩
    · rintro ⟨e, hmem, he⟩
      by_cases hth : ∃ f2, (drawFrame b s).status = .thrown f2
      · obtain ⟨f2, h2⟩ := hth
        obtain ⟨pre, e2, hpe, he2, hpre⟩ := H.1 f2 h2
        rw [hpe] at hmem
        rcases List.mem_append.mp hmem with hm | hm
        · rw [(hpre e hm).1] at he; cases he
        · simp only [List.mem_singleton] at hm
          rw [hm, he2] at he
          cases he
          exact h2
      · have := H.2 (fun f2 h2 => hth ⟨f2, h2⟩) e hmem
        rw [this] at he; cases he
  refine ⟨h1, ?_, ?_, fun h => ((sat_session c bs).2 h).resized⟩
  · constructor
    · rintro ⟨f, hf2⟩
      obtain ⟨e, hm, he⟩ := (h1 f).mp hf2
      exact ⟨e, hm, by rw [he]; simp⟩
    · rintro ⟨e, hm, he⟩
      cases hop : e.op.raises with
      | none => exact absurd hop he
      | some f => exact ⟨f, (h1 f).mpr ⟨e, hm, hop⟩⟩
  · intro e hmem hstale f hthrown
    obtain ⟨pre, e2, hpe, he2, hpre⟩ := H.1 f hthrown
    rw [hpe] at hmem
    rcases List.mem_append.mp hmem with hm | hm
    · rw [(hpre e hm).2] at hstale; cases hstale
    · simp only [List.mem_singleton] at hm
      rw [hm, not_stale_of_raises he2] at hstale
      cases hstale

/-- Witness for C15: on the host after two frames, a frame whose command buffer fails
to begin raises "failed to begin recording command buffer", and a frame whose
presentation is out of date raises nothing. -/
theorem drawFrame_raises_iff_fatal_answer_witness :
    hostAfterTwoFrames.framebufferResized = false ∧
    (frameFailingToBegin 2).hostedAppReturns = true ∧
    (drawFrame (frameFailingToBegin 2) hostAfterTwoFrames).status
      = .thrown .beginCommandBuffer ∧
    (∃ e ∈ (drawFrame (frameFailingToBegin 2) hostAfterTwoFrames).events,
      e.op.raises = some .beginCommandBuffer) ∧
    (drawFrame (stalePresentFrame 2) hostAfterTwoFrames).status = .returned :=
  have hs : ({} : RecreateBackend).Succeeds :=
    ⟨rfl, rfl, fun _ => rfl, fun _ => rfl, fun _ => rfl, fun _ => rfl, fun _ => rfl, rfl⟩
  have h := drawFrame_raises_iff_fatal_answer (frameFailingToBegin 2) hostAfterTwoFrames hs rfl
    (by decide) {} []
  ⟨by decide, rfl, by decide, (h.1 .beginCommandBuffer).mp (by decide), by decide⟩

/-! ## C16: a frame that fails to record is not submitted -/

theorem recordingGuards_of_none {r : Result}
    (h : ∀ e ∈ r.events, e.op.recordingFailed = none) : r.RecordingGuards := by
  intro f e he hf
  rw [h e he] at hf
  cases hf

theorem recordingGuards_andThen {r : Result} {f : ApplicationHost → Result}
    (hr : r.RecordingGuards)
    (hc : r.status = .returned → ∀ e ∈ r.events, e.op.recordingFailed = none ∧ NoOutput e)
    (hf : ∀ s, (f s).RecordingGuards) : (r.andThen f).RecordingGuards := by
  by_cases h : r.status = .returned
  · rw [Result.andThen_of_returned f h]
    intro f2 e he hfail
    rcases List.mem_append.mp he with he | he
    · rw [(hc h e he).1] at hfail; cases hfail
    · obtain ⟨hst, hno⟩ := hf r.host f2 e he hfail
      refine ⟨hst, fun x hx => ?_⟩
      rcases List.mem_append.mp hx with hx | hx
      · exact (hc h x hx).2
      · exact hno x hx
  · rw [Result.andThen_of_not_returned f h]
    exact hr

theorem quiet_of_wait {e : Event} (h : ∃ k, e.op = .vkWaitForFences k UINT64_MAX) :
    e.op.recordingFailed = none ∧ NoOutput e := by
  obtain ⟨k, hk⟩ := h
  unfold NoOutput
  rw [hk]
  exact ⟨rfl, rfl, rfl, fun _ h => by cases h⟩

theorem recordingFailed_none_of_lifecycle {e : Event} (h : Lifecycle e) :
    e.op.recordingFailed = none := by
  unfold Lifecycle at h
  cases hop : e.op <;> rw [hop] at h <;> first | rfl | cases h

theorem recordingFailed_range {op : Op} {f : Failure} (h : op.recordingFailed = some f) :
    f = .beginCommandBuffer ∨ f = .hostedDrawFrame ∨ f = .endCommandBuffer := by
  cases op <;> simp only [Op.recordingFailed] at h
  all_goals first | cases h | (split at h <;> simp_all)

theorem recordingGuards_record (b : FrameBackend) (i : Nat) (s : ApplicationHost) :
    (recordCommandBuffer b i s).RecordingGuards ∧
    ((recordCommandBuffer b i s).status = .returned →
      ∀ e ∈ (recordCommandBuffer b i s).events, e.op.recordingFailed = none ∧ NoOutput e) := by
  rw [recordCommandBuffer_eq]
  by_cases h1 : b.beginResult = .VK_SUCCESS
  · by_cases h2 : s.hostedApp = false
    · simp [h1, h2, Result.RecordingGuards, Op.recordingFailed]
    · by_cases h3 : b.hostedAppReturns = false
      · simp [h1, h2, h3, Result.RecordingGuards, Op.recordingFailed, NoOutput, Op.isSubmit,
          Op.isPresent]
      · by_cases h4 : b.endResult = .VK_SUCCESS
        · simp [h1, h2, h3, h4, Result.RecordingGuards, Op.recordingFailed, NoOutput,
            Op.isSubmit, Op.isPresent]
        · simp [h1, h2, h3, h4, Result.RecordingGuards, Op.recordingFailed, NoOutput,
            Op.isSubmit, Op.isPresent]
  · simp [h1, Result.RecordingGuards, Op.recordingFailed, NoOutput, Op.isSubmit, Op.isPresent]

theorem recordingGuards_renderFrame (b : FrameBackend) (s : ApplicationHost) :
    (renderFrame b s).RecordingGuards := by
  unfold renderFrame
  cases hi : s.swapchainImages[b.imageIndex]? with
  | none => exact recordingGuards_of_none (by simp)
  | some im =>
    simp only []
    have hwait := (sat_waitImage_any b im.syncIdx s).1
    refine recordingGuards_andThen
      (recordingGuards_of_none fun e he => (quiet_of_wait (hwait e he)).1)
      (fun _ e he => quiet_of_wait (hwait e he)) fun s1 => ?_
    refine recordingGuards_andThen (recordingGuards_record b b.imageIndex _).1
      (recordingGuards_record b b.imageIndex _).2 fun s2 => ?_
    refine recordingGuards_of_none ?_
    have hsub : (submitFrame b b.imageIndex s2).Sat (fun e => e.op.recordingFailed = none)
        fun _ => True := by
      rw [submitFrame_eq]
      exact ⟨by simp [Op.recordingFailed], fun _ => trivial⟩
    refine (hsub.andThen (Q := fun _ => True) fun s3 _ => ?_).1
    have hpres : (presentFrame b s3).Sat (fun e => e.op.recordingFailed = none)
        fun _ => True := by
      refine (sat_present_any b s3).mono (fun e he => ?_) fun _ _ => trivial
      rcases he with he | he
      · rw [he]; rfl
      · exact recordingFailed_none_of_lifecycle he
    exact hpres.andThen fun s4 _ => sat_ret trivial

theorem recordingGuards_drawFrame (b : FrameBackend) (s : ApplicationHost) :
    (drawFrame b s).RecordingGuards := by
  unfold drawFrame
  have hwait := (sat_wait_any b.progressAtSlotWait s.currFrameSync s).1
  refine recordingGuards_andThen
    (recordingGuards_of_none fun e he => (quiet_of_wait ⟨_, hwait e he⟩).1)
    (fun _ e he => quiet_of_wait ⟨_, hwait e he⟩) fun s1 => ?_
  refine recordingGuards_andThen (recordingGuards_of_none (by simp [call, Op.recordingFailed]))
    (fun _ => by simp [call, Op.recordingFailed, NoOutput, Op.isSubmit, Op.isPresent])
    fun s2 => ?_
  split
  · exact recordingGuards_of_none fun e he =>
      recordingFailed_none_of_lifecycle ((lifecycle_recreateSwapChain _ _).1 e he)
  · split
    · exact recordingGuards_of_none (by simp [raise])
    · exact recordingGuards_renderFrame b s2

/-- C16. Whenever one of the recording calls of a `drawFrame` fails (the command
buffer fails to begin, the hosted renderer raises, or the command buffer fails to
end), `drawFrame` raises the failure of that call, and none of the calls it made is a
fence reset, a queue submission or a present: the error leaves `drawFrame` before the
submit step. This holds for every host state and all backend answers. -/
theorem failed_recording_is_never_submitted (b : FrameBackend) (s : ApplicationHost)
    (f : Failure) (hfail : ∃ e ∈ (drawFrame b s).events, e.op.recordingFailed = some f) :
    (drawFrame b s).status = .thrown f ∧
    (f = .beginCommandBuffer ∨ f = .hostedDrawFrame ∨ f = .endCommandBuffer) ∧
    (∀ x ∈ (drawFrame b s).events,
      x.op.isSubmit = false ∧ x.op.isPresent = false ∧ ∀ k, x.op ≠ .vkResetFences k) := by
  obtain ⟨e, he, hf⟩ := hfail
  obtain ⟨hst, hno⟩ := recordingGuards_drawFrame b s f e he hf
  exact ⟨hst, recordingFailed_range hf, hno⟩

/-- Witness for C16: on the host after two frames, a frame in which the hosted
renderer raises, and one whose command buffer fails to begin. -/
theorem failed_recording_is_never_submitted_witness :
    (∃ e ∈ (drawFrame (frameFailingInRenderer 2) hostAfterTwoFrames).events,
      e.op.recordingFailed = some .hostedDrawFrame) ∧
    (drawFrame (frameFailingInRenderer 2) hostAfterTwoFrames).status
      = .thrown .hostedDrawFrame ∧
    (∀ x ∈ (drawFrame (frameFailingInRenderer 2) hostAfterTwoFrames).events,
      x.op.isSubmit = false ∧ x.op.isPresent = false ∧ ∀ k, x.op ≠ .vkResetFences k) ∧
    (drawFrame (frameFailingInRenderer 2) hostAfterTwoFrames).ops =
      [.vkWaitForFences 0 UINT64_MAX,
       .vkAcquireNextImageKHR UINT64_MAX (.availableForWriting 0) .VK_SUCCESS 2,
       .vkBeginCommandBuffer 2 .VK_SUCCESS, .hostedDrawFrame 2 false] :=
  have h := failed_recording_is_never_submitted (frameFailingInRenderer 2) hostAfterTwoFrames
    .hostedDrawFrame (by decide)
  ⟨by decide, h.1, h.2.2, by decide⟩

/-! ## The calls of a frame up to its present -/

theorem andThen_reaches_present {r : Result} {f : ApplicationHost → Result}
    (hr : ∀ e ∈ r.events, e.op.isFrameOp = true ∧ e.op.isPresent = false)
    (h : ∃ e ∈ (r.andThen f).events, e.op.isPresent = true) :
    r.status = .returned ∧ (∃ e ∈ (f r.host).events, e.op.isPresent = true) ∧
    r.andThen f = ⟨(f r.host).status, (f r.host).host, r.events ++ (f r.host).events⟩ := by
  by_cases hret : r.status = .returned
  · refine ⟨hret, ?_, Result.andThen_of_returned f hret⟩
    rw [Result.andThen_of_returned f hret] at h
    obtain ⟨e, he, hp⟩ := h
    rcases List.mem_append.mp he with he | he
    · rw [(hr e he).2] at hp; cases hp
    · exact ⟨e, he, hp⟩
  · rw [Result.andThen_of_not_returned f hret] at h
    obtain ⟨e, he, hp⟩ := h
    rw [(hr e he).2] at hp
    cases hp

theorem frameOp_of_wait {e : Event} (h : ∃ k, e.op = .vkWaitForFences k UINT64_MAX) :
    e.op.isFrameOp = true ∧ e.op.isPresent = false := by
  obtain ⟨k, hk⟩ := h
  rw [hk]
  exact ⟨rfl, rfl⟩

theorem frameOp_of_recording {e : Event} (h : e.op.isRecording = true) :
    e.op.isFrameOp = true ∧ e.op.isPresent = false := by
  cases hop : e.op <;> rw [hop] at h <;> first | exact ⟨rfl, rfl⟩ | cases h

theorem renderFrame_reaches_present {b : FrameBackend} {s : ApplicationHost}
    (hpres : ∃ e ∈ (renderFrame b s).events, e.op.isPresent = true) :
    ∃ pre s2, (∀ e ∈ pre, e.op.isFrameOp = true ∧ e.op.isPresent = false) ∧
      s2.currFrameSync = s.currFrameSync ∧ s2.frameSync.length = s.frameSync.length ∧
      s2.swapchainImages.length = s.swapchainImages.length ∧
      s2.framebufferResized = s.framebufferResized ∧
      renderFrame b s =
        ⟨((presentFrame b s2).andThen fun s =>
            ret { s with currFrameSync := (s.currFrameSync + 1) % s.frameSync.length }).status,
          ((presentFrame b s2).andThen fun s =>
            ret { s with currFrameSync := (s.currFrameSync + 1) % s.frameSync.length }).host,
          pre ++ ((presentFrame b s2).andThen fun s =>
            ret { s with currFrameSync := (s.currFrameSync + 1) % s.frameSync.length }).events⟩ := by
  revert hpres
  unfold renderFrame
  cases hi : s.swapchainImages[b.imageIndex]? with
  | none => simp
  | some im =>
    simp only []
    intro hpres
    have hwait := sat_waitImage_any b im.syncIdx s
    obtain ⟨hw, hpres1, heq1⟩ := andThen_reaches_present
      (fun e he => frameOp_of_wait (hwait.1 e he)) hpres
    have hp1 := hwait.2 hw
    rw [heq1]
    have hrec := sat_record_any b b.imageIndex { (waitImage b im.syncIdx s).host with
      swapchainImages := (waitImage b im.syncIdx s).host.swapchainImages.set b.imageIndex
        ⟨((waitImage b im.syncIdx s).host.currFrameSync : Int)⟩ }
    obtain ⟨hr, hpres2, heq2⟩ := andThen_reaches_present
      (fun e he => frameOp_of_recording (hrec.1 e he)) hpres1
    have hs2 := hrec.2 hr
    rw [heq2, hs2]
    rw [hs2] at hpres2
    have hsub : ∀ e ∈ (submitFrame b b.imageIndex { (waitImage b im.syncIdx s).host with
        swapchainImages := (waitImage b im.syncIdx s).host.swapchainImages.set b.imageIndex
          ⟨((waitImage b im.syncIdx s).host.currFrameSync : Int)⟩ }).events,
        e.op.isFrameOp = true ∧ e.op.isPresent = false := by
      rw [submitFrame_eq]
      simp [Op.isFrameOp, Op.isPresent]
    obtain ⟨_, _, heq3⟩ := andThen_reaches_present hsub hpres2
    rw [heq3]
    refine ⟨_ ++ (_ ++ _), _, ?_, ?_, ?_, ?_, ?_, by simp only [List.append_assoc]; rfl⟩
    · intro e he
      rcases List.mem_append.mp he with he | he
      · exact frameOp_of_wait (hwait.1 e he)
      · rcases List.mem_append.mp he with he | he
        · exact frameOp_of_recording (hrec.1 e he)
        · exact hsub e he
    · rw [submitFrame_eq]; exact hp1.current
    · rw [submitFrame_eq]; simp only [List.length_set]; exact hp1.ring
    · rw [submitFrame_eq]; simp only [List.length_set]; rw [hp1.images]
    · rw [submitFrame_eq]; exact hp1.resized

theorem drawFrame_reaches_present {b : FrameBackend} {s : ApplicationHost}
    (hpres : ∃ e ∈ (drawFrame b s).events, e.op.isPresent = true) :
    ∃ pre s2, (∀ e ∈ pre, e.op.isFrameOp = true ∧ e.op.isPresent = false) ∧
      s2.currFrameSync = s.currFrameSync ∧ s2.frameSync.length = s.frameSync.length ∧
      s2.swapchainImages.length = s.swapchainImages.length ∧
      s2.framebufferResized = s.framebufferResized ∧
      drawFrame b s =
        ⟨((presentFrame b s2).andThen fun s =>
            ret { s with currFrameSync := (s.currFrameSync + 1) % s.frameSync.length }).status,
          ((presentFrame b s2).andThen fun s =>
            ret { s with currFrameSync := (s.currFrameSync + 1) % s.frameSync.length }).host,
          pre ++ ((presentFrame b s2).andThen fun s =>
            ret { s with currFrameSync := (s.currFrameSync + 1) % s.frameSync.length }).events⟩ := by
  have hns : b.acquireResult ≠ .VK_ERROR_OUT_OF_DATE_KHR := by
    intro ha
    obtain ⟨e, he, hp⟩ := hpres
    rw [(drawFrame_stale_abandoned ha e he).2.2] at hp
    cases hp
  revert hpres
  unfold drawFrame
  intro hpres
  have hwait := sat_wait_any b.progressAtSlotWait s.currFrameSync s
  obtain ⟨hw, hpres1, heq1⟩ := andThen_reaches_present
    (fun e he => frameOp_of_wait ⟨_, hwait.1 e he⟩) hpres
  have hp1 := (hwait.2 hw).1
  rw [heq1]
  have hacq : ∀ e ∈ (call (.vkAcquireNextImageKHR UINT64_MAX
      (.availableForWriting (vkWaitForFences b.progressAtSlotWait s.currFrameSync s).host.currFrameSync)
      b.acquireResult b.imageIndex)
      (vkWaitForFences b.progressAtSlotWait s.currFrameSync s).host).events,
      e.op.isFrameOp = true ∧ e.op.isPresent = false := by
    simp [call, Op.isFrameOp, Op.isPresent]
  obtain ⟨_, hpres2, heq2⟩ := andThen_reaches_present hacq hpres1
  rw [heq2]
  simp only [call] at hpres2 ⊢
  rw [if_neg hns] at hpres2 ⊢
  by_cases hb : b.acquireResult ≠ .VK_SUCCESS ∧ b.acquireResult ≠ .VK_SUBOPTIMAL_KHR
  · rw [if_pos hb] at hpres2
    simp [raise] at hpres2
  · rw [if_neg hb] at hpres2 ⊢
    obtain ⟨pre, s2, h1, h2, h3, h4, h5, heq⟩ := renderFrame_reaches_present hpres2
    rw [heq]
    refine ⟨(vkWaitForFences b.progressAtSlotWait s.currFrameSync s).events ++
      ([⟨.vkAcquireNextImageKHR UINT64_MAX (.availableForWriting
          (vkWaitForFences b.progressAtSlotWait s.currFrameSync s).host.currFrameSync)
          b.acquireResult b.imageIndex,
        (vkWaitForFences b.progressAtSlotWait s.currFrameSync s).host.queue,
        (vkWaitForFences b.progressAtSlotWait s.currFrameSync s).host.frameSync⟩] ++ pre),
      s2, ?_, ?_, ?_, ?_, ?_, by rw [List.append_assoc, List.append_assoc]⟩
    · intro e he
      rcases List.mem_append.mp he with he | he
      · exact frameOp_of_wait ⟨_, hwait.1 e he⟩
      · rcases List.mem_append.mp he with he | he
        · simp only [List.mem_singleton] at he
          rw [he]
          exact ⟨rfl, rfl⟩
        · exact h1 e he
    · rw [h2, hp1.current]
    · rw [h3, hp1.ring]
    · rw [h4, hp1.images]
    · rw [h5, hp1.resized]

theorem sat_frameOps (b : FrameBackend) (s : ApplicationHost)
    (ha : b.acquireResult ≠ .VK_ERROR_OUT_OF_DATE_KHR)
    (hp : b.presentResult ≠ .VK_ERROR_OUT_OF_DATE_KHR ∧ b.presentResult ≠ .VK_SUBOPTIMAL_KHR)
    (hf : s.framebufferResized = false) :
    (drawFrame b s).Sat (fun e => e.op.isFrameOp = true) fun _ => True := by
  unfold drawFrame
  have hw : (vkWaitForFences b.progressAtSlotWait s.currFrameSync s).Sat
      (fun e => e.op.isFrameOp = true) fun s1 => s1.framebufferResized = false :=
    (sat_wait_any _ _ s).mono (fun e he => by rw [he]; rfl) fun s1 h => by
      show s1.framebufferResized = false
      rw [h.1.resized]
      exact hf
  refine hw.andThen ?_
  intro s1 hs1
  refine (sat_call_same _ (by rfl)).andThen fun s2 hs2 => ?_
  subst hs2
  rw [if_neg ha]
  split
  · exact sat_raise _
  unfold renderFrame
  cases hi : s2.swapchainImages[b.imageIndex]? with
  | none => exact ⟨by simp, by simp⟩
  | some im =>
    simp only []
    have hwi : (waitImage b im.syncIdx s2).Sat (fun e => e.op.isFrameOp = true)
        fun s3 => s3.framebufferResized = false :=
      (sat_waitImage_any b im.syncIdx s2).mono (fun e he => (frameOp_of_wait he).1)
        fun s3 h => by
          show s3.framebufferResized = false
          rw [h.resized]
          exact hs1
    refine hwi.andThen ?_
    intro s3 hs3
    have hrc : (recordCommandBuffer b b.imageIndex { s3 with
        swapchainImages := s3.swapchainImages.set b.imageIndex ⟨(s3.currFrameSync : Int)⟩ }).Sat
        (fun e => e.op.isFrameOp = true) fun s4 => s4.framebufferResized = false :=
      (sat_record_any b b.imageIndex _).mono (fun e he => (frameOp_of_recording he).1)
        fun s4 h => by
          show s4.framebufferResized = false
          rw [h]
          exact hs3
    refine hrc.andThen ?_
    intro s4 hs4
    have hsub : (submitFrame b b.imageIndex s4).Sat (fun e => e.op.isFrameOp = true)
        fun s5 => s5.framebufferResized = false := by
      rw [submitFrame_eq]
      exact ⟨by simp [Op.isFrameOp], fun _ => hs4⟩
    refine hsub.andThen fun s5 hs5 => ?_
    have hpres : (presentFrame b s5).Sat (fun e => e.op.isFrameOp = true) fun _ => True := by
      rw [presentFrame_eq, if_neg (by rw [hs5]; simp [hp.1, hp.2])]
      exact ⟨by simp [Op.isFrameOp], fun _ => trivial⟩
    exact hpres.andThen fun s6 _ => sat_ret trivial

/-! ## C17: a stale presentation -/

/-- C17, as amended. When the presentation of a `drawFrame` reports staleness (out of
date or suboptimal), that same call performs the recreation, right after the present:
its calls are frame calls up to the present, then the full teardown and the rebuild of
`recreateSwapChain`. The call raises no error of its own: it returns, or raises the
creation failure of the recreation. When every creation call succeeds it returns, the
slot index advanced over a fresh ring of two signaled slots and an idle device.
Nothing is left for the next frame to do: a frame on a host whose `framebufferResized`
flag is clear, whose own acquisition is not out of date and whose own presentation is
neither out of date nor suboptimal, makes frame calls only and no recreation. -/
theorem stale_present_recreates_in_same_call (b : FrameBackend) (s : ApplicationHost)
    (hp : b.presentResult = .VK_ERROR_OUT_OF_DATE_KHR ∨ b.presentResult = .VK_SUBOPTIMAL_KHR)
    (hpres : ∃ e ∈ (drawFrame b s).events, e.op.isPresent = true)
    (b2 : FrameBackend) (s2 : ApplicationHost) (hf2 : s2.framebufferResized = false)
    (ha2 : b2.acquireResult ≠ .VK_ERROR_OUT_OF_DATE_KHR)
    (hp2 : b2.presentResult ≠ .VK_ERROR_OUT_OF_DATE_KHR ∧
      b2.presentResult ≠ .VK_SUBOPTIMAL_KHR) :
    (∃ pre rest, (∀ op ∈ pre, op.isFrameOp = true ∧ op.isPresent = false) ∧
      (drawFrame b s).ops = pre ++
        .vkQueuePresentKHR (.renderFinished_forGPU s.currFrameSync) b.imageIndex
          b.presentResult ::
        (teardownOrder s.swapchainImages.length s.frameSync.length ++ rest) ∧
      (b.recreate.Succeeds → rest = rebuildOrder b.recreate)) ∧
    (drawFrame b s).Ends (fun f => f.isCreation = true) ∧
    (b.recreate.Succeeds → (drawFrame b s).status = .returned ∧
      (drawFrame b s).host.currFrameSync = (s.currFrameSync + 1) % 2 ∧
      (drawFrame b s).host.frameSync = [⟨true⟩, ⟨true⟩] ∧ (drawFrame b s).host.queue = []) ∧
    (∀ e ∈ (drawFrame b2 s2).events, e.op.isFrameOp = true) := by
  obtain ⟨pre, s1, hpre, hcur, hring, himg, _, heq⟩ := drawFrame_reaches_present hpres
  have hc : b.presentResult = .VK_ERROR_OUT_OF_DATE_KHR ∨
      b.presentResult = .VK_SUBOPTIMAL_KHR ∨ s1.framebufferResized = true := by
    rcases hp with h | h
    · exact Or.inl h
    · exact Or.inr (Or.inl h)
  rw [presentFrame_eq, if_pos hc] at heq
  obtain ⟨hst, hev⟩ := andThen_ret_status
    ⟨(recreateSwapChain b.recreate { s1 with framebufferResized := false }).status,
      (recreateSwapChain b.recreate { s1 with framebufferResized := false }).host,
      ⟨.vkQueuePresentKHR (.renderFinished_forGPU s1.currFrameSync) b.imageIndex
        b.presentResult, s1.queue, s1.frameSync⟩ ::
      (recreateSwapChain b.recreate { s1 with framebufferResized := false }).events⟩
    fun s => { s with currFrameSync := (s.currFrameSync + 1) % s.frameSync.length }
  have hstatus : (drawFrame b s).status =
      (recreateSwapChain b.recreate { s1 with framebufferResized := false }).status := by
    rw [heq]; exact hst
  refine ⟨?_, ?_, ?_, (sat_frameOps b2 s2 ha2 hp2 hf2).1⟩
  · obtain ⟨rest, hr, hs⟩ := recreateSwapChain_ops b.recreate
      { s1 with framebufferResized := false }
    refine ⟨pre.map (·.op), rest, ?_, ?_, hs⟩
    · intro op hop
      obtain ⟨e, he, rfl⟩ := List.mem_map.mp hop
      exact hpre e he
    · unfold Result.ops at hr ⊢
      rw [heq]
      simp only [hev, List.map_append, List.map_cons, hr]
      rw [hcur, himg, hring]
  · rcases ends_recreateSwapChain b.recreate { s1 with framebufferResized := false } with h | h
    · exact Or.inl (hstatus.trans h)
    · obtain ⟨f, hf, hT⟩ := h
      exact Or.inr ⟨f, hstatus.trans hf, hT⟩
  · intro hs
    obtain ⟨hret, hhost, _⟩ := recreateSwapChain_succeeds hs
      { s1 with framebufferResized := false }
    refine ⟨hstatus.trans hret, ?_⟩
    rw [hret, hhost] at heq
    simp only [andThen_mk_returned, ret] at heq
    rw [heq]
    refine ⟨?_, rfl, rfl⟩
    show (s1.currFrameSync + 1) % 2 = (s.currFrameSync + 1) % 2
    rw [hcur]

/-- Counterexample to C17 as stated: on the host after two frames, a frame whose
presentation is out of date tears the swapchain down and rebuilds it before it
returns, and the next frame makes the eight frame calls only, without any recreation.
When the recreation fails to create the image chain, the frame that presented raises
"failed to create swap chain". -/
theorem stale_present_is_not_left_to_next_frame :
    (stalePresentFrame 2).presentResult = .VK_ERROR_OUT_OF_DATE_KHR ∧
    (drawFrame (stalePresentFrame 2) hostAfterTwoFrames).status = .returned ∧
    ((drawFrame (stalePresentFrame 2) hostAfterTwoFrames).ops.drop 7).take 4 =
      [.vkQueuePresentKHR (.renderFinished_forGPU 0) 2 .VK_ERROR_OUT_OF_DATE_KHR,
       .vkDeviceWaitIdle, .hostedAppReset, .vkDestroyFramebuffer 0] ∧
    Op.hostedAppCreate true ∈ (drawFrame (stalePresentFrame 2) hostAfterTwoFrames).ops ∧
    (drawFrame (nominalFrame 0)
      (drawFrame (stalePresentFrame 2) hostAfterTwoFrames).host).ops =
      [.vkWaitForFences 1 UINT64_MAX,
       .vkAcquireNextImageKHR UINT64_MAX (.availableForWriting 1) .VK_SUCCESS 0,
       .vkWaitForFences 0 UINT64_MAX,
       .vkBeginCommandBuffer 0 .VK_SUCCESS, .hostedDrawFrame 0 true,
       .vkEndCommandBuffer 0 .VK_SUCCESS, .vkResetFences 1,
       .vkQueueSubmit (.availableForWriting 1) 0 (.renderFinished_forGPU 1) 1 .VK_SUCCESS,
       .vkQueuePresentKHR (.renderFinished_forGPU 1) 0 .VK_SUCCESS] ∧
    (drawFrame (stalePresentLosingSurface 2) hostAfterTwoFrames).status
      = .thrown .createSwapChain := by
  decide

/-- Witness for C17 (amended): on the host after two frames, a frame whose
presentation is out of date, followed by a successful frame. -/
theorem stale_present_recreates_in_same_call_witness :
    (stalePresentFrame 2).presentResult = .VK_ERROR_OUT_OF_DATE_KHR ∧
    (∃ e ∈ (drawFrame (stalePresentFrame 2) hostAfterTwoFrames).events,
      e.op.isPresent = true) ∧
    (drawFrame (stalePresentFrame 2) hostAfterTwoFrames).status = .returned ∧
    (drawFrame (stalePresentFrame 2) hostAfterTwoFrames).host.currFrameSync
      = (hostAfterTwoFrames.currFrameSync + 1) % 2 ∧
    (∀ e ∈ (drawFrame (nominalFrame 0)
      (drawFrame (stalePresentFrame 2) hostAfterTwoFrames).host).events,
      e.op.isFrameOp = true) :=
  have hs : ({} : RecreateBackend).Succeeds :=
    ⟨rfl, rfl, fun _ => rfl, fun _ => rfl, fun _ => rfl, fun _ => rfl, fun _ => rfl, rfl⟩
  have h := stale_present_recreates_in_same_call (stalePresentFrame 2) hostAfterTwoFrames
    (Or.inl rfl) (by decide) (nominalFrame 0)
    (drawFrame (stalePresentFrame 2) hostAfterTwoFrames).host (by decide) (by decide)
    (by decide)
  ⟨rfl, by decide, (h.2.2.1 hs).1, (h.2.2.1 hs).2.1, h.2.2.2⟩

/-! ## C18: the tracking entries of the presentable images -/

theorem sat_presentFrame_images (b : FrameBackend) (s : ApplicationHost) :
    (presentFrame b s).Sat (fun _ => True) fun s2 =>
      s2.swapchainImages =
        if b.presentResult = .VK_ERROR_OUT_OF_DATE_KHR ∨ b.presentResult = .VK_SUBOPTIMAL_KHR
            ∨ s.framebufferResized = true then
          resizeImages b.recreate.imageCount s.swapchainImages
        else s.swapchainImages := by
  rw [presentFrame_eq]
  refine ⟨fun _ _ => trivial, ?_⟩
  split
  · intro hret
    have h := (lifecycle_recreateSwapChain b.recreate { s with framebufferResized := false }).2
      hret
    show (recreateSwapChain b.recreate { s with framebufferResized := false }).host.swapchainImages
      = _
    rw [h]
    rfl
  · intro _
    rfl

theorem sat_renderFrame_images (b : FrameBackend) (s : ApplicationHost) :
    (renderFrame b s).Sat (fun _ => True) fun s2 =>
      s2.swapchainImages =
        if b.presentResult = .VK_ERROR_OUT_OF_DATE_KHR ∨ b.presentResult = .VK_SUBOPTIMAL_KHR
            ∨ s.framebufferResized = true then
          resizeImages b.recreate.imageCount
            (s.swapchainImages.set b.imageIndex ⟨(s.currFrameSync : Int)⟩)
        else s.swapchainImages.set b.imageIndex ⟨(s.currFrameSync : Int)⟩ := by
  unfold renderFrame
  cases hi : s.swapchainImages[b.imageIndex]? with
  | none => exact ⟨by simp, by simp⟩
  | some im =>
    simp only []
    refine ((sat_waitImage_any b im.syncIdx s).mono (fun _ _ => trivial) fun _ h => h).andThen ?_
    intro s1 hp1
    refine ((sat_record_any b b.imageIndex _).mono (fun _ _ => trivial) fun _ h => h).andThen ?_
    intro s2 hs2
    have hsub : (submitFrame b b.imageIndex s2).Sat (fun _ => True) fun s3 =>
        s3.swapchainImages = s2.swapchainImages ∧
        s3.framebufferResized = s2.framebufferResized := by
      rw [submitFrame_eq]
      exact ⟨fun _ _ => trivial, fun _ => ⟨rfl, rfl⟩⟩
    refine hsub.andThen fun s3 hs3 => ?_
    refine (sat_presentFrame_images b s3).andThen fun s4 hs4 => sat_ret ?_
    show s4.swapchainImages = _
    rw [hs4, hs3.1, hs3.2, hs2]
    simp only [hp1.images, hp1.current, hp1.resized]

theorem sat_drawFrame_images (b : FrameBackend) (s : ApplicationHost) :
    (drawFrame b s).Sat (fun _ => True) fun s2 =>
      s2.swapchainImages =
        if b.acquireResult = .VK_ERROR_OUT_OF_DATE_KHR then
          resizeImages b.recreate.imageCount s.swapchainImages
        else if b.presentResult = .VK_ERROR_OUT_OF_DATE_KHR ∨
            b.presentResult = .VK_SUBOPTIMAL_KHR ∨ s.framebufferResized = true then
          resizeImages b.recreate.imageCount
            (s.swapchainImages.set b.imageIndex ⟨(s.currFrameSync : Int)⟩)
        else s.swapchainImages.set b.imageIndex ⟨(s.currFrameSync : Int)⟩ := by
  unfold drawFrame
  refine ((sat_wait_any _ _ s).mono (fun _ _ => trivial) fun _ h => h.1).andThen ?_
  intro s1 hp1
  refine (sat_call_same _ trivial).andThen fun s2 hs2 => ?_
  subst hs2
  by_cases ha : b.acquireResult = .VK_ERROR_OUT_OF_DATE_KHR
  · rw [if_pos ha, if_pos ha]
    refine (lifecycle_recreateSwapChain b.recreate s2).mono (fun _ _ => trivial) ?_
    intro s3 hs3
    rw [hs3]
    simp only [recreated, hp1.images]
  · rw [if_neg ha, if_neg ha]
    split
    · exact sat_raise _
    · refine (sat_renderFrame_images b s2).mono (fun _ h => h) ?_
      intro s3 hs3
      rw [hs3]
      simp only [hp1.images, hp1.current, hp1.resized]

theorem resizeImages_getElem_kept (n : Nat) (imgs : List SwapChainImage) (i : Nat)
    (h1 : i < n) (h2 : i < imgs.length) : (resizeImages n imgs)[i]? = imgs[i]? := by
  unfold resizeImages
  rw [List.getElem?_append_left (by rw [List.length_take]; omega)]
  rw [List.getElem?_take, if_pos h1]

theorem resizeImages_getElem_new (n : Nat) (imgs : List SwapChainImage) (i : Nat)
    (h1 : i < n) (h2 : imgs.length ≤ i) : (resizeImages n imgs)[i]? = some ⟨-1⟩ := by
  unfold resizeImages
  rw [List.getElem?_append_right (by rw [List.length_take]; omega)]
  rw [List.getElem?_replicate]
  rw [if_pos (by rw [List.length_take]; omega)]

theorem resizeImages_same_count (imgs : List SwapChainImage) :
    resizeImages imgs.length imgs = imgs := by
  simp [resizeImages]

/-- C18, as amended. A `drawFrame` that returns leaves the tracking entries as
follows. If the acquisition was out of date, no entry is set. Otherwise the entry of
the acquired image is set to the slot index that was current, and no other entry is
changed. In either case, if the call recreated the swapchain, the image vector is
afterwards resized to the new image count. A recreation does not clear the entries:
`recreateSwapChain` resizes the vector, so every image index that exists before and
after keeps its entry, all of them when the image count is unchanged, and only the
indices beyond the old count start at `-1`. The entries are all `-1` right after
construction. After a recreation the fences of both slots are signaled, so a wait on
a kept entry returns at once. -/
theorem tracking_entries_survive_recreation (b : FrameBackend) (s : ApplicationHost)
    (hret : (drawFrame b s).status = .returned)
    (r : RecreateBackend) (s0 : ApplicationHost)
    (hrec : (recreateSwapChain r s0).status = .returned) (c : RecreateBackend)
    (hcons : (ApplicationHost.construct c).status = .returned) :
    (drawFrame b s).host.swapchainImages =
      (if b.acquireResult = .VK_ERROR_OUT_OF_DATE_KHR then
        resizeImages b.recreate.imageCount s.swapchainImages
      else if b.presentResult = .VK_ERROR_OUT_OF_DATE_KHR ∨
          b.presentResult = .VK_SUBOPTIMAL_KHR ∨ s.framebufferResized = true then
        resizeImages b.recreate.imageCount
          (s.swapchainImages.set b.imageIndex ⟨(s.currFrameSync : Int)⟩)
      else s.swapchainImages.set b.imageIndex ⟨(s.currFrameSync : Int)⟩) ∧
    (recreateSwapChain r s0).host.swapchainImages
      = resizeImages r.imageCount s0.swapchainImages ∧
    (∀ i, i < r.imageCount → i < s0.swapchainImages.length →
      (recreateSwapChain r s0).host.swapchainImages[i]? = s0.swapchainImages[i]?) ∧
    (∀ i, i < r.imageCount → s0.swapchainImages.length ≤ i →
      (recreateSwapChain r s0).host.swapchainImages[i]? = some ⟨-1⟩) ∧
    (r.imageCount = s0.swapchainImages.length →
      (recreateSwapChain r s0).host.swapchainImages = s0.swapchainImages) ∧
    (∀ k, k < 2 → fenceSignaled k (recreateSwapChain r s0).host = true) ∧
    (∀ im ∈ (ApplicationHost.construct c).host.swapchainImages, im.syncIdx = -1) := by
  have hhost := (lifecycle_recreateSwapChain r s0).2 hrec
  have himg : (recreateSwapChain r s0).host.swapchainImages
      = resizeImages r.imageCount s0.swapchainImages := by
    rw [hhost]; rfl
  refine ⟨(sat_drawFrame_images b s).2 hret, himg, ?_, ?_, ?_, ?_, ?_⟩
  · intro i h1 h2
    rw [himg]
    exact resizeImages_getElem_kept _ _ i h1 h2
  · intro i h1 h2
    rw [himg]
    exact resizeImages_getElem_new _ _ i h1 h2
  · intro h
    rw [himg, h]
    exact resizeImages_same_count _
  · intro k hk
    rw [hhost]
    have hk2 : k = 0 ∨ k = 1 := by omega
    rcases hk2 with rfl | rfl <;> rfl
  · intro im him
    have h := (lifecycle_recreateSwapChain c {}).2 hcons
    have h2 : (ApplicationHost.construct c).host = recreated c {} := h
    rw [h2] at him
    simp only [recreated, resizeImages, List.take_nil, List.nil_append, List.length_nil,
      Nat.sub_zero] at him
    rw [(List.mem_replicate.mp him).2]

/-- Counterexample to C18 as stated: the host after two frames has the entries
`[0, 1, -1]`; a recreation with the same number of images returns and leaves them
`[0, 1, -1]`, not all `-1`. -/
theorem recreation_keeps_tracking_entries :
    hostAfterTwoFrames.swapchainImages = [⟨0⟩, ⟨1⟩, ⟨-1⟩] ∧
    (recreateSwapChain {} hostAfterTwoFrames).status = .returned ∧
    (recreateSwapChain {} hostAfterTwoFrames).host.swapchainImages = [⟨0⟩, ⟨1⟩, ⟨-1⟩] ∧
    ¬ ∀ im ∈ (recreateSwapChain {} hostAfterTwoFrames).host.swapchainImages,
      im.syncIdx = -1 := by
  decide

/-- Witness for C18 (amended): the third frame of a session, on image 2, and a
recreation of the host after two frames. -/
theorem tracking_entries_survive_recreation_witness :
    (drawFrame (nominalFrame 2) hostAfterTwoFrames).status = .returned ∧
    (recreateSwapChain {} hostAfterTwoFrames).status = .returned ∧
    (ApplicationHost.construct {}).status = .returned ∧
    (drawFrame (nominalFrame 2) hostAfterTwoFrames).host.swapchainImages
      = [⟨0⟩, ⟨1⟩, ⟨0⟩] ∧
    (recreateSwapChain {} hostAfterTwoFrames).host.swapchainImages
      = resizeImages 3 hostAfterTwoFrames.swapchainImages ∧
    (ApplicationHost.construct {}).host.swapchainImages = [⟨-1⟩, ⟨-1⟩, ⟨-1⟩] :=
  have h := tracking_entries_survive_recreation (nominalFrame 2) hostAfterTwoFrames
    (by decide) {} hostAfterTwoFrames (by decide) {} (by decide)
  ⟨by decide, by decide, by decide, h.1.trans (by decide), h.2.1, by decide⟩

/-! ## C20: the renderer named on the command line -/

theorem lookup_filter_ne {F : Type} (k n : String) (h : (k == n) = false)
    (registry : List (String × F)) :
    (registry.filter (fun entry => entry.1 != n)).lookup k = registry.lookup k := by
  induction registry with
  | nil => rfl
  | cons e es ih =>
    obtain ⟨m, g⟩ := e
    by_cases hm : m = n
    · subst hm
      simp [List.lookup_cons, h, ih]
    · have hmn : (m != n) = true := by simpa using hm
      simp only [List.filter_cons, hmn, if_true, List.lookup_cons, ih]

theorem registerApp_lookup {F : Type} (k n : String) (f : F) (registry : List (String × F)) :
    (registerApp n f registry).1.lookup k = if k == n then some f else registry.lookup k := by
  unfold registerApp
  simp only [List.lookup_cons]
  cases h : k == n with
  | true => simp
  | false => simp [lookup_filter_ne k n h]

theorem staticInitFrom_lookup {F : Type} (k : String) (registrations : List (String × F)) :
    ∀ state : List (String × F) × List Output,
    (staticInitFrom state registrations).1.lookup k
      = (registrations.reverse.lookup k).or (state.1.lookup k) := by
  induction registrations with
  | nil => intro state; simp [staticInitFrom]
  | cons r rs ih =>
    intro state
    obtain ⟨n, f⟩ := r
    rw [staticInitFrom, ih, List.reverse_cons, List.lookup_append]
    simp only [registerApp_lookup, List.lookup_cons, List.lookup_nil]
    cases h : k == n <;> cases rs.reverse.lookup k <;> simp

theorem staticInitFrom_output {F : Type} (registrations : List (String × F)) :
    ∀ state : List (String × F) × List Output,
    (staticInitFrom state registrations).2
      = state.2 ++ registrations.map (fun r => Output.stdout ("Registered: '" ++ r.1 ++ "'")) := by
  induction registrations with
  | nil => intro state; simp [staticInitFrom]
  | cons r rs ih =>
    intro state
    obtain ⟨n, f⟩ := r
    rw [staticInitFrom, ih]
    simp [registerApp]

/-- C20. The process prints one line `Registered: '<name>'` for every registered
renderer, by `registerApp` during static initialisation, before `main` runs, and the
registry then holds for each name the factory of its last registration. `main` looks
up `argv[1]`, or `"HelloCube"` when no argument is given. When that name is not the
name of a registered renderer, the process has printed the lines of all registered
names, then `main` prints `App not found: '<name>'`, constructs no application host
(hence no window and no device) and returns 1. When the name is registered, `main`
constructs the application host with that name's factory; it returns 0 when the
session ends normally and 1, after `Fatal: <reason>`, when it raises. -/
theorem unknown_renderer_exits_nonzero {F : Type} (registrations : List (String × F))
    (argv : List String) (run : String → F → HostOutcome) :
    (staticInit registrations).2
      = registrations.map (fun r => Output.stdout ("Registered: '" ++ r.1 ++ "'")) ∧
    (∀ name, (staticInit registrations).1.lookup name = registrations.reverse.lookup name) ∧
    ((∀ creationFunc, (appName argv, creationFunc) ∉ registrations) →
      runProcess registrations argv run =
        ⟨1, registrations.map (fun r => Output.stdout ("Registered: '" ++ r.1 ++ "'"))
          ++ [.stderr ("App not found: '" ++ appName argv ++ "'")], none⟩) ∧
    (∀ creationFunc, registrations.reverse.lookup (appName argv) = some creationFunc →
      (runProcess registrations argv run).host = some (appName argv, creationFunc) ∧
      (runProcess registrations argv run).exitCode =
        (match run (appName argv) creationFunc with
          | .ran => 0
          | .threw _ => 1) ∧
      (main argv (staticInit registrations).1 run).output =
        (match run (appName argv) creationFunc with
          | .ran => []
          | .threw what => [.stderr ("Fatal: " ++ what)])) := by
  have hout : (staticInit registrations).2
      = registrations.map (fun r => Output.stdout ("Registered: '" ++ r.1 ++ "'")) := by
    unfold staticInit
    rw [staticInitFrom_output]
    rfl
  have hreg : ∀ name, (staticInit registrations).1.lookup name
      = registrations.reverse.lookup name := by
    intro name
    unfold staticInit
    rw [staticInitFrom_lookup]
    simp
  refine ⟨hout, hreg, ?_, ?_⟩
  · intro hnot
    have hnone : (staticInit registrations).1.lookup (appName argv) = none := by
      rw [hreg, List.lookup_eq_none_iff]
      intro p hp
      obtain ⟨n, f⟩ := p
      have hmem : (n, f) ∈ registrations := List.mem_reverse.mp hp
      simp only [bne_iff_ne, ne_eq]
      intro heq
      exact hnot f (heq ▸ hmem)
    unfold runProcess main
    rw [hnone, hout]
  · intro creationFunc hsome
    have hs : (staticInit registrations).1.lookup (appName argv) = some creationFunc := by
      rw [hreg, hsome]
    have hmain : main argv (staticInit registrations).1 run =
        (match run (appName argv) creationFunc with
          | .ran => ⟨0, [], some (appName argv, creationFunc)⟩
          | .threw what =>
            ⟨1, [.stderr ("Fatal: " ++ what)], some (appName argv, creationFunc)⟩) := by
      unfold main
      rw [hs]
    unfold runProcess
    rw [hmain]
    cases hrun : run (appName argv) creationFunc <;> exact ⟨rfl, rfl, rfl⟩

/-- Witness for C20: the five renderers of the repository registered, with factories
numbered 1 to 5. `Nope` is not found; no argument looks up `HelloCube`, which is not
registered either; `FullDemo` is run with factory 5. -/
theorem unknown_renderer_exits_nonzero_witness :
    runProcess [("Bloom", 1), ("Texturing", 2), ("ShadowMap", 3), ("DescriptorSets", 4),
        ("FullDemo", 5)] ["vulkanisch", "Nope"] (fun _ _ => .ran) =
      ⟨1, [.stdout "Registered: 'Bloom'", .stdout "Registered: 'Texturing'",
        .stdout "Registered: 'ShadowMap'", .stdout "Registered: 'DescriptorSets'",
        .stdout "Registered: 'FullDemo'", .stderr "App not found: 'Nope'"], none⟩ ∧
    (runProcess [("Bloom", 1), ("Texturing", 2), ("ShadowMap", 3), ("DescriptorSets", 4),
        ("FullDemo", 5)] ["vulkanisch"] (fun _ _ => .ran)).exitCode = 1 ∧
    (runProcess [("Bloom", 1), ("Texturing", 2), ("ShadowMap", 3), ("DescriptorSets", 4),
        ("FullDemo", 5)] ["vulkanisch", "FullDemo"] (fun _ _ => .ran)).host
      = some ("FullDemo", 5) :=
  have h := unknown_renderer_exits_nonzero
    [("Bloom", 1), ("Texturing", 2), ("ShadowMap", 3), ("DescriptorSets", 4), ("FullDemo", 5)]
    ["vulkanisch", "Nope"] (fun _ _ => .ran)
  ⟨(h.2.2.1 (by
      intro creationFunc hmem
      simp [appName] at hmem)).trans (by decide), by decide, by decide⟩

/-! ## C21: choosing the physical device -/

theorem find?_first_match {α : Type} (p : α → Bool) (before after : List α) (a : α)
    (hbefore : ∀ x ∈ before, p x = false) (ha : p a = true) :
    (before ++ a :: after).find? p = some a := by
  induction before with
  | nil => simp [List.find?, ha]
  | cons x xs ih =>
    have hx : p x = false := hbefore x (List.mem_cons_self x xs)
    have hxs : ∀ y ∈ xs, p y = false := fun y hy => hbefore y (List.mem_cons_of_mem x hy)
    simp [List.find?, hx, ih hxs]

/-- A device is suitable exactly when its queue families are complete, the
required extensions are available, and the surface has a format and a present
mode. -/
theorem isDeviceSuitable_iff (device : PhysicalDevice) :
    isDeviceSuitable device = true ↔
      (findQueueFamilies device).isComplete = true ∧
      checkDeviceExtensionSupport device = true ∧
      device.formatCount ≠ 0 ∧ device.presentModeCount ≠ 0 := by
  unfold isDeviceSuitable
  cases (findQueueFamilies device).isComplete <;>
    cases checkDeviceExtensionSupport device <;> simp

/-- With devices enumerated but none suitable, the value returned or the error
raised depends on what the uninitialised local happens to hold. -/
theorem pickPhysicalDevice_reads_indeterminate :
    isDeviceSuitable (computeOnlyGpu 1) = false ∧
    pickPhysicalDevice 7 [computeOnlyGpu 1] = .ok 7 ∧
    pickPhysicalDevice 0 [computeOnlyGpu 1] = .error "failed to find a suitable GPU" := by
  refine ⟨by decide, ?_, ?_⟩ <;> rfl

/-- Counterexample to C21 as stated: with no physical device enumerated at
all, no device is suitable, yet the error raised is "failed to find a GPU with
Vulkan support", not "failed to find a suitable GPU". -/
theorem no_device_raises_another_error :
    (∀ device ∈ ([] : List PhysicalDevice), isDeviceSuitable device = false) ∧
    pickPhysicalDevice 0 [] = .error "failed to find a GPU with Vulkan support" ∧
    pickPhysicalDevice 0 [] ≠ .error "failed to find a suitable GPU" := by
  refine ⟨by simp, rfl, ?_⟩
  intro h
  simp [pickPhysicalDevice] at h

/-- C21, as amended. When no physical device is enumerated,
`pickPhysicalDevice` raises "failed to find a GPU with Vulkan support"; when at
least one enumerated device is suitable, it returns the first suitable device
in enumeration order (device handles are not `VK_NULL_HANDLE`). In both cases
the outcome does not depend on the uninitialised local. -/
theorem pickPhysicalDevice_returns_first_suitable :
    (∀ indeterminate : Nat,
      pickPhysicalDevice indeterminate [] =
        .error "failed to find a GPU with Vulkan support") ∧
    (∀ (indeterminate : Nat) (before after : List PhysicalDevice) (device : PhysicalDevice),
      (∀ earlier ∈ before, isDeviceSuitable earlier = false) →
      isDeviceSuitable device = true →
      device.handle ≠ VK_NULL_HANDLE →
      pickPhysicalDevice indeterminate (before ++ device :: after) = .ok device.handle) := by
  refine ⟨fun _ => rfl, ?_⟩
  intro indeterminate before after device hbefore hdevice hhandle
  have hfind := find?_first_match isDeviceSuitable before after device hbefore hdevice
  unfold pickPhysicalDevice
  rw [hfind]
  simp [hhandle]

/-- The amended statement at a concrete enumeration: an unsuitable device first,
then two suitable ones; the second device of the list is returned. -/
theorem pickPhysicalDevice_skips_unsuitable :
    pickPhysicalDevice 0 [computeOnlyGpu 1, suitableGpu 2, suitableGpu 3] = .ok 2 := by
  rfl


/-! ## C22: the one-shot upload helper and the transfer it submits -/

/-- A concrete call in which nothing fails: the helper makes its twelve calls,
with the queue family index -1 passed as 4294967295, and returns after the
device has executed the transfer. -/
theorem oneShot_nominal_run :
    (OneShot.executeOneShotCommandBufferOnQueue OneShot.nominalBackend (-1) {}).outcome =
      .returned ∧
    (OneShot.executeOneShotCommandBufferOnQueue OneShot.nominalBackend (-1) {}).ops =
      [.vkCreateCommandPool 4294967295 .VK_SUCCESS, .vkAllocateCommandBuffers .VK_SUCCESS,
       .vkCreateFence 0 .VK_SUCCESS, .vkBeginCommandBuffer .VK_SUCCESS, .func,
       .vkEndCommandBuffer .VK_SUCCESS, .vkGetDeviceQueue 4294967295 0,
       .vkQueueSubmit .VK_SUCCESS, .vkWaitForFences UINT64_MAX .VK_SUCCESS, .vkDestroyFence,
       .vkFreeCommandBuffers, .vkDestroyCommandPool] ∧
    (OneShot.executeOneShotCommandBufferOnQueue OneShot.nominalBackend (-1) {}).device =
      { completed := true, fenceSignaled := true } := by
  decide

/-- What the unchecked result of `vkQueueSubmit` leads to. When the queue
rejects the submission and the wait does not fail, the helper never returns;
when the wait reports the lost device, the helper returns with nothing
transferred. -/
theorem oneShot_rejected_submit :
    (OneShot.executeOneShotCommandBufferOnQueue OneShot.rejectedSubmit 0 {}).outcome =
      .blocked ∧
    (OneShot.executeOneShotCommandBufferOnQueue OneShot.rejectedOnLostDevice 0 {}).outcome =
      .returned ∧
    (OneShot.executeOneShotCommandBufferOnQueue OneShot.rejectedOnLostDevice 0
      {}).device.completed = false := by
  decide

/-- Counterexample to C22 as stated: every call succeeds and the queue accepts
the submission, then the wait reports `VK_ERROR_DEVICE_LOST`. The helper does
not look at that result: it destroys the fence, the command buffer and the
pool and returns, while the transfer it submitted is still unfinished. -/
theorem one_shot_returns_after_failed_wait :
    (OneShot.executeOneShotCommandBufferOnQueue OneShot.lostWhileWaiting 0 {}).outcome =
      .returned ∧
    (OneShot.executeOneShotCommandBufferOnQueue OneShot.lostWhileWaiting 0 {}).ops =
      OneShot.programOrder OneShot.lostWhileWaiting 0 ∧
    (OneShot.executeOneShotCommandBufferOnQueue OneShot.lostWhileWaiting 0
      {}).device.completed = false ∧
    (OneShot.executeOneShotCommandBufferOnQueue OneShot.lostWhileWaiting 0
      {}).device.pending = true := by
  decide

/-- C22, as amended. For every user function, every behaviour of the backend and
every queue index, the calls of `executeOneShotCommandBufferOnQueue` are its
program order cut where the helper stops. A failure of `vkCreateCommandPool`,
`vkAllocateCommandBuffers`, `vkCreateFence` or `vkBeginCommandBuffer` makes the
helper throw at that call, before the user function. Otherwise the user
function is invoked exactly once, right after the successful
`vkBeginCommandBuffer`; if it throws the helper throws with it, and if
`vkEndCommandBuffer` fails the helper throws there. Otherwise the helper goes
on to `vkGetDeviceQueue`, `vkQueueSubmit` with the fence, which is unsignaled
at that point, and `vkWaitForFences` on that fence without timeout; no
destruction is called before that wait. When the queue accepts the submission,
the helper returns, having destroyed the fence, the command buffer and the
pool after the wait, in that order; and when moreover the wait reports
`VK_SUCCESS`, the device has executed the transfer before each destruction and
before the return. -/
theorem one_shot_upload_waits_for_its_transfer (b : OneShot.Backend) (queueIndex : Int) :
    (∃ n, (OneShot.executeOneShotCommandBufferOnQueue b queueIndex {}).ops =
      (OneShot.programOrder b queueIndex).take n) ∧
    (b.createCommandPoolResult ≠ .VK_SUCCESS →
      (OneShot.executeOneShotCommandBufferOnQueue b queueIndex {}).outcome =
          .thrown "failed to create command pool" ∧
        (OneShot.executeOneShotCommandBufferOnQueue b queueIndex {}).ops =
          (OneShot.programOrder b queueIndex).take 1) ∧
    (b.createCommandPoolResult = .VK_SUCCESS → b.allocateResult ≠ .VK_SUCCESS →
      (OneShot.executeOneShotCommandBufferOnQueue b queueIndex {}).outcome =
          .thrown "failed to allocate command buffers" ∧
        (OneShot.executeOneShotCommandBufferOnQueue b queueIndex {}).ops =
          (OneShot.programOrder b queueIndex).take 2) ∧
    (b.createCommandPoolResult = .VK_SUCCESS → b.allocateResult = .VK_SUCCESS →
      b.createFenceResult ≠ .VK_SUCCESS →
      (OneShot.executeOneShotCommandBufferOnQueue b queueIndex {}).outcome =
          .thrown "failed to create synchronization objects for a frame" ∧
        (OneShot.executeOneShotCommandBufferOnQueue b queueIndex {}).ops =
          (OneShot.programOrder b queueIndex).take 3) ∧
    (b.createCommandPoolResult = .VK_SUCCESS → b.allocateResult = .VK_SUCCESS →
      b.createFenceResult = .VK_SUCCESS → b.beginResult ≠ .VK_SUCCESS →
      (OneShot.executeOneShotCommandBufferOnQueue b queueIndex {}).outcome =
          .thrown "failed to begin recording command buffer" ∧
        (OneShot.executeOneShotCommandBufferOnQueue b queueIndex {}).ops =
          (OneShot.programOrder b queueIndex).take 4) ∧
    (b.createCommandPoolResult = .VK_SUCCESS → b.allocateResult = .VK_SUCCESS →
      b.createFenceResult = .VK_SUCCESS → b.beginResult = .VK_SUCCESS →
      ∀ what, b.funcThrows = some what →
      (OneShot.executeOneShotCommandBufferOnQueue b queueIndex {}).outcome = .thrown what ∧
        (OneShot.executeOneShotCommandBufferOnQueue b queueIndex {}).ops =
          (OneShot.programOrder b queueIndex).take 5) ∧
    (b.createCommandPoolResult = .VK_SUCCESS → b.allocateResult = .VK_SUCCESS →
      b.createFenceResult = .VK_SUCCESS → b.beginResult = .VK_SUCCESS →
      b.funcThrows = none → b.endResult ≠ .VK_SUCCESS →
      (OneShot.executeOneShotCommandBufferOnQueue b queueIndex {}).outcome =
          .thrown "failed to record command buffer" ∧
        (OneShot.executeOneShotCommandBufferOnQueue b queueIndex {}).ops =
          (OneShot.programOrder b queueIndex).take 6) ∧
    (b.ReachesSubmit →
      (OneShot.executeOneShotCommandBufferOnQueue b queueIndex {}).ops.take 9 =
          (OneShot.programOrder b queueIndex).take 9 ∧
        (∀ e ∈ (OneShot.executeOneShotCommandBufferOnQueue b queueIndex {}).trace,
          e.1 = .vkQueueSubmit b.submitResult → e.2.fenceSignaled = false) ∧
        (b.submitResult = .VK_SUCCESS →
          (OneShot.executeOneShotCommandBufferOnQueue b queueIndex {}).outcome = .returned ∧
          (OneShot.executeOneShotCommandBufferOnQueue b queueIndex {}).ops =
            OneShot.programOrder b queueIndex ∧
          (b.waitResult = .VK_SUCCESS →
            (OneShot.executeOneShotCommandBufferOnQueue b queueIndex {}).device.completed =
                true ∧
              ∀ e ∈ (OneShot.executeOneShotCommandBufferOnQueue b queueIndex {}).trace,
                e.1.isDestroy = true → e.2.completed = true))) := by
  rcases b with ⟨r1, r2, r3, r4, ft, r5, r6, r7⟩
  by_cases h1 : r1 = .VK_SUCCESS
  swap
  · refine ⟨⟨1, ?_⟩, ?_, ?_, ?_, ?_, ?_, ?_, ?_⟩ <;>
      simp [OneShot.executeOneShotCommandBufferOnQueue, OneShot.call, OneShot.raise,
        OneShot.Backend.ReachesSubmit, h1, OneShot.Run.andThen, OneShot.Run.ops,
        OneShot.programOrder]
  by_cases h2 : r2 = .VK_SUCCESS
  swap
  · refine ⟨⟨2, ?_⟩, ?_, ?_, ?_, ?_, ?_, ?_, ?_⟩ <;>
      simp [OneShot.executeOneShotCommandBufferOnQueue, OneShot.call, OneShot.raise,
        OneShot.Backend.ReachesSubmit, h1, h2, OneShot.Run.andThen, OneShot.Run.ops,
        OneShot.programOrder]
  by_cases h3 : r3 = .VK_SUCCESS
  swap
  · refine ⟨⟨3, ?_⟩, ?_, ?_, ?_, ?_, ?_, ?_, ?_⟩ <;>
      simp [OneShot.executeOneShotCommandBufferOnQueue, OneShot.call, OneShot.raise,
        OneShot.Backend.ReachesSubmit, h1, h2, h3, OneShot.Run.andThen, OneShot.Run.ops,
        OneShot.programOrder]
  by_cases h4 : r4 = .VK_SUCCESS
  swap
  · refine ⟨⟨4, ?_⟩, ?_, ?_, ?_, ?_, ?_, ?_, ?_⟩ <;>
      simp [OneShot.executeOneShotCommandBufferOnQueue, OneShot.call, OneShot.raise,
        OneShot.Backend.ReachesSubmit, h1, h2, h3, h4, OneShot.Run.andThen, OneShot.Run.ops,
        OneShot.programOrder]
  cases ft with
  | some what =>
    refine ⟨⟨5, ?_⟩, ?_, ?_, ?_, ?_, ?_, ?_, ?_⟩ <;>
      simp [OneShot.executeOneShotCommandBufferOnQueue, OneShot.call, OneShot.raise,
        OneShot.Backend.ReachesSubmit, h1, h2, h3, h4, OneShot.Run.andThen, OneShot.Run.ops,
        OneShot.programOrder]
  | none =>
    by_cases h5 : r5 = .VK_SUCCESS
    swap
    · refine ⟨⟨6, ?_⟩, ?_, ?_, ?_, ?_, ?_, ?_, ?_⟩ <;>
        simp [OneShot.executeOneShotCommandBufferOnQueue, OneShot.call, OneShot.raise,
          OneShot.Backend.ReachesSubmit, h1, h2, h3, h4, h5, OneShot.Run.andThen,
          OneShot.Run.ops, OneShot.programOrder]
    subst h1 h2 h3 h4 h5
    by_cases h6 : r6 = .VK_SUCCESS
    · by_cases h7 : r7 = .VK_SUCCESS
      · subst h6 h7
        refine ⟨⟨12, ?_⟩, ?_, ?_, ?_, ?_, ?_, ?_, ?_⟩ <;>
          simp [OneShot.executeOneShotCommandBufferOnQueue, OneShot.vkQueueSubmit,
            OneShot.vkWaitForFences, OneShot.call, OneShot.Op.isDestroy,
            OneShot.Backend.ReachesSubmit, OneShot.Run.andThen, OneShot.Run.ops,
            OneShot.programOrder]
      · subst h6
        refine ⟨⟨12, ?_⟩, ?_, ?_, ?_, ?_, ?_, ?_, ?_⟩ <;>
          simp [OneShot.executeOneShotCommandBufferOnQueue, OneShot.vkQueueSubmit,
            OneShot.vkWaitForFences, OneShot.call, OneShot.Op.isDestroy, h7,
            OneShot.Backend.ReachesSubmit, OneShot.Run.andThen, OneShot.Run.ops,
            OneShot.programOrder]
    · by_cases h7 : r7 = .VK_SUCCESS
      · subst h7
        refine ⟨⟨9, ?_⟩, ?_, ?_, ?_, ?_, ?_, ?_, ?_⟩ <;>
          simp [OneShot.executeOneShotCommandBufferOnQueue, OneShot.vkQueueSubmit,
            OneShot.vkWaitForFences, OneShot.call, OneShot.Op.isDestroy, h6,
            OneShot.Backend.ReachesSubmit, OneShot.Run.andThen, OneShot.Run.ops,
            OneShot.programOrder]
      · refine ⟨⟨12, ?_⟩, ?_, ?_, ?_, ?_, ?_, ?_, ?_⟩ <;>
          simp [OneShot.executeOneShotCommandBufferOnQueue, OneShot.vkQueueSubmit,
            OneShot.vkWaitForFences, OneShot.call, OneShot.Op.isDestroy, h6, h7,
            OneShot.Backend.ReachesSubmit, OneShot.Run.andThen, OneShot.Run.ops,
            OneShot.programOrder]

/-- Witness for C22 (amended): a call in which nothing fails returns after its
twelve calls, with the transfer executed. -/
theorem one_shot_upload_waits_for_its_transfer_witness :
    OneShot.nominalBackend.ReachesSubmit ∧
    (OneShot.executeOneShotCommandBufferOnQueue OneShot.nominalBackend 0 {}).outcome =
      .returned ∧
    (OneShot.executeOneShotCommandBufferOnQueue OneShot.nominalBackend 0 {}).ops =
      OneShot.programOrder OneShot.nominalBackend 0 ∧
    (OneShot.executeOneShotCommandBufferOnQueue OneShot.nominalBackend 0 {}).device.completed =
      true :=
  have hreach : OneShot.nominalBackend.ReachesSubmit := ⟨rfl, rfl, rfl, rfl, rfl, rfl⟩
  have h := ((one_shot_upload_waits_for_its_transfer OneShot.nominalBackend 0).2.2.2.2.2.2.2
    hreach).2.2 rfl
  ⟨hreach, h.1, h.2.1, (h.2.2 rfl).1⟩

/-! ## C26: `findMemoryType` -/

theorem memoryType_test_iff (typeFilter properties propertyFlags i : Nat) (hi : i < 32) :
    (typeFilter &&& ((1 <<< i) % 2 ^ 32) ≠ 0 ∧ propertyFlags &&& properties = properties) ↔
      (typeFilter.testBit i = true ∧ IncludesFlags propertyFlags properties) := by
  have hpow : (1 <<< i) % 2 ^ 32 = 2 ^ i := by
    rw [Nat.one_shiftLeft]
    exact Nat.mod_eq_of_lt (Nat.pow_lt_pow_right (by norm_num) hi)
  rw [hpow, Nat.and_two_pow]
  constructor
  · rintro ⟨h1, h2⟩
    refine ⟨?_, ?_⟩
    · cases h : typeFilter.testBit i <;> simp [h] at h1 ⊢
    · intro k hk
      have h3 := congrArg (fun n => n.testBit k) h2
      simp only [Nat.testBit_and, hk, Bool.and_true] at h3
      exact h3
  · rintro ⟨h1, h2⟩
    refine ⟨by simp [h1], ?_⟩
    apply Nat.eq_of_testBit_eq
    intro k
    rw [Nat.testBit_and]
    cases hk : properties.testBit k
    · simp
    · simp [h2 k hk]

theorem findMemoryTypeFrom_ok_iff (typeFilter properties : Nat) (rest : List Nat) :
    ∀ i r, i + rest.length ≤ 32 →
    (findMemoryTypeFrom typeFilter properties i rest = .ok r ↔
      ∃ k propertyFlags, r = i + k ∧ rest[k]? = some propertyFlags ∧
        typeFilter.testBit (i + k) = true ∧ IncludesFlags propertyFlags properties ∧
        ∀ j < k, ∀ flags, rest[j]? = some flags →
          ¬ (typeFilter.testBit (i + j) = true ∧ IncludesFlags flags properties)) := by
  induction rest with
  | nil =>
    intro i r _
    simp [findMemoryTypeFrom]
  | cons flags0 rest ih =>
    intro i r hlen
    have hi : i < 32 := by simp at hlen; omega
    have hrest : i + 1 + rest.length ≤ 32 := by simp at hlen; omega
    have htest := memoryType_test_iff typeFilter properties flags0 i hi
    unfold findMemoryTypeFrom
    by_cases hc : typeFilter &&& ((1 <<< i) % 2 ^ 32) ≠ 0 ∧ flags0 &&& properties = properties
    · rw [if_pos hc]
      have hgood := htest.1 hc
      constructor
      · intro h
        have hr : r = i := by
          injection h with h
          exact h.symm
        exact ⟨0, flags0, by simpa using hr, by simp, by simpa using hgood.1, hgood.2,
          fun j hj => absurd hj (Nat.not_lt_zero j)⟩
      · rintro ⟨k, fl, hr, hk, hbit, hinc, hmin⟩
        cases k with
        | zero => simp at hr; rw [hr]
        | succ k =>
          exact absurd (by simpa using hgood) (hmin 0 (Nat.succ_pos k) flags0 (by simp))
    · rw [if_neg hc, ih (i + 1) r hrest]
      have hbad : ¬ (typeFilter.testBit i = true ∧ IncludesFlags flags0 properties) :=
        fun h => hc (htest.2 h)
      constructor
      · rintro ⟨k, fl, hr, hk, hbit, hinc, hmin⟩
        refine ⟨k + 1, fl, by omega, by simpa using hk, ?_, hinc, ?_⟩
        · rw [show i + (k + 1) = i + 1 + k by omega]
          exact hbit
        · intro j hj fl2 hfl2
          cases j with
          | zero =>
            simp at hfl2
            rw [← hfl2]
            simpa using hbad
          | succ j =>
            rw [show i + (j + 1) = i + 1 + j by omega]
            exact hmin j (by omega) fl2 (by simpa using hfl2)
      · rintro ⟨k, fl, hr, hk, hbit, hinc, hmin⟩
        cases k with
        | zero =>
          simp at hk
          rw [← hk] at hinc
          exact absurd ⟨by simpa using hbit, hinc⟩ hbad
        | succ k =>
          refine ⟨k, fl, by omega, by simpa using hk, ?_, hinc, ?_⟩
          · rw [show i + 1 + k = i + (k + 1) by omega]
            exact hbit
          · intro j hj fl2 hfl2
            rw [show i + 1 + j = i + (j + 1) by omega]
            exact hmin (j + 1) (by omega) fl2 (by simpa using hfl2)

theorem findMemoryTypeFrom_total (typeFilter properties : Nat) (rest : List Nat) :
    ∀ i, (∃ r, findMemoryTypeFrom typeFilter properties i rest = .ok r) ∨
      findMemoryTypeFrom typeFilter properties i rest =
        .error "failed to find suitable memory type" := by
  induction rest with
  | nil => intro i; exact Or.inr rfl
  | cons flags0 rest ih =>
    intro i
    unfold findMemoryTypeFrom
    split
    · exact Or.inl ⟨i, rfl⟩
    · exact ih (i + 1)

/-- C26. For every table of at most 32 memory types (the size of
`memoryTypes`), every type filter and all required property flags,
`findMemoryType` returns `i` exactly when `i` is the smallest index below
`memoryTypeCount` whose bit is set in the type filter and whose property flags
include all required flags; it raises "failed to find suitable memory type"
exactly when no such index exists, and it does nothing else. -/
theorem findMemoryType_returns_smallest_suitable (memoryTypes : List Nat)
    (typeFilter properties : Nat) (hcount : memoryTypes.length ≤ 32) :
    (∀ i, findMemoryType memoryTypes typeFilter properties = .ok i ↔
      SuitableMemoryType memoryTypes typeFilter properties i ∧
      ∀ j < i, ¬ SuitableMemoryType memoryTypes typeFilter properties j) ∧
    (findMemoryType memoryTypes typeFilter properties =
        .error "failed to find suitable memory type" ↔
      ∀ i, ¬ SuitableMemoryType memoryTypes typeFilter properties i) ∧
    ((∃ i, findMemoryType memoryTypes typeFilter properties = .ok i) ∨
      findMemoryType memoryTypes typeFilter properties =
        .error "failed to find suitable memory type") := by
  have hok : ∀ i, findMemoryType memoryTypes typeFilter properties = .ok i ↔
      SuitableMemoryType memoryTypes typeFilter properties i ∧
      ∀ j < i, ¬ SuitableMemoryType memoryTypes typeFilter properties j := by
    intro i
    unfold findMemoryType
    rw [findMemoryTypeFrom_ok_iff typeFilter properties memoryTypes 0 i (by omega)]
    constructor
    · rintro ⟨k, fl, hr, hk, hbit, hinc, hmin⟩
      have hik : i = k := by omega
      subst hik
      refine ⟨⟨fl, hk, by simpa using hbit, hinc⟩, ?_⟩
      rintro j hj ⟨fl2, hfl2, hbit2, hinc2⟩
      exact hmin j hj fl2 hfl2 ⟨by simpa using hbit2, hinc2⟩
    · rintro ⟨⟨fl, hk, hbit, hinc⟩, hmin⟩
      refine ⟨i, fl, by omega, hk, by simpa using hbit, hinc, ?_⟩
      rintro j hj fl2 hfl2 ⟨hbit2, hinc2⟩
      exact hmin j hj ⟨fl2, hfl2, by simpa using hbit2, hinc2⟩
  have htotal := findMemoryTypeFrom_total typeFilter properties memoryTypes 0
  refine ⟨hok, ?_, htotal⟩
  constructor
  · intro herr i hi
    have hfirst : ∃ m, SuitableMemoryType memoryTypes typeFilter properties m ∧
        ∀ j < m, ¬ SuitableMemoryType memoryTypes typeFilter properties j := by
      classical
      exact ⟨Nat.find ⟨i, hi⟩, Nat.find_spec ⟨i, hi⟩, fun j hj => Nat.find_min ⟨i, hi⟩ hj⟩
    obtain ⟨m, hm⟩ := hfirst
    have := (hok m).2 hm
    rw [herr] at this
    cases this
  · intro hnone
    rcases htotal with ⟨r, hr⟩ | herr
    · exact absurd ((hok r).1 hr).1 (hnone r)
    · exact herr

/-- Witness for C26: a table of three memory types of which the last two
qualify: index 1 is returned. -/
theorem findMemoryType_returns_smallest_suitable_witness :
    ([1, 6, 6] : List Nat).length ≤ 32 ∧ findMemoryType [1, 6, 6] 6 6 = .ok 1 ∧
    SuitableMemoryType [1, 6, 6] 6 6 1 :=
  ⟨by decide, rfl,
    (((findMemoryType_returns_smallest_suitable [1, 6, 6] 6 6 (by decide)).1 1).1 rfl).1⟩


/-! ## C27: `chooseSwapExtent` and `clamp` -/

theorem clamp_mem_range {T : Type} [LinearOrder T] (val min max : T) (h : min ≤ max) :
    min ≤ clamp val min max ∧ clamp val min max ≤ max := by
  unfold clamp
  split_ifs with h1 h2
  · exact ⟨le_refl min, h⟩
  · exact ⟨h, le_refl max⟩
  · exact ⟨not_lt.1 h1, not_lt.1 h2⟩

theorem clamp_of_mem_range {T : Type} [LinearOrder T] (val min max : T) (h1 : min ≤ val)
    (h2 : val ≤ max) : clamp val min max = val := by
  unfold clamp
  rw [if_neg (not_lt.2 h1), if_neg (not_lt.2 h2)]

/-- Counterexample to C27 as stated: `clamp` is not idempotent when its bounds
are crossed: `clamp(0, 5, 3)` is 5 and `clamp(5, 5, 3)` is 3. -/
theorem clamp_not_idempotent_on_crossed_bounds :
    clamp (0 : Nat) 5 3 = 5 ∧ clamp (clamp (0 : Nat) 5 3) 5 3 = 3 ∧
    clamp (clamp (0 : Nat) 5 3) 5 3 ≠ clamp (0 : Nat) 5 3 := by
  decide

/-- C27, as amended. For all surface capabilities and drawable sizes,
`chooseSwapExtent` returns `capabilities.currentExtent` unchanged when
`currentExtent.width` is not `UINT32_MAX`; otherwise it returns the drawable size
(as 32-bit unsigned values) with each dimension clamped, so that, given
`minImageExtent ≤ maxImageExtent` componentwise, width and height each lie
within `[minImageExtent, maxImageExtent]`. `clamp(v, lo, hi)` returns `v` when
`lo ≤ v ≤ hi` and, when `lo ≤ hi`, is idempotent. -/
theorem chooseSwapExtent_clamps_drawable_size :
    (∀ (width height : Int) (capabilities : VkSurfaceCapabilitiesKHR),
      capabilities.currentExtent.width ≠ UINT32_MAX →
      chooseSwapExtent width height capabilities = capabilities.currentExtent) ∧
    (∀ (width height : Int) (capabilities : VkSurfaceCapabilitiesKHR),
      capabilities.currentExtent.width = UINT32_MAX →
      chooseSwapExtent width height capabilities =
        ⟨clamp (toUint32 width) capabilities.minImageExtent.width
            capabilities.maxImageExtent.width,
          clamp (toUint32 height) capabilities.minImageExtent.height
            capabilities.maxImageExtent.height⟩) ∧
    (∀ (width height : Int) (capabilities : VkSurfaceCapabilitiesKHR),
      capabilities.currentExtent.width = UINT32_MAX →
      capabilities.minImageExtent.width ≤ capabilities.maxImageExtent.width →
      capabilities.minImageExtent.height ≤ capabilities.maxImageExtent.height →
      capabilities.minImageExtent.width ≤ (chooseSwapExtent width height capabilities).width ∧
      (chooseSwapExtent width height capabilities).width ≤ capabilities.maxImageExtent.width ∧
      capabilities.minImageExtent.height ≤
        (chooseSwapExtent width height capabilities).height ∧
      (chooseSwapExtent width height capabilities).height ≤
        capabilities.maxImageExtent.height) ∧
    (∀ v lo hi : Nat, lo ≤ v → v ≤ hi → clamp v lo hi = v) ∧
    (∀ v lo hi : Nat, lo ≤ hi → clamp (clamp v lo hi) lo hi = clamp v lo hi) := by
  have hclamped : ∀ (width height : Int) (capabilities : VkSurfaceCapabilitiesKHR),
      capabilities.currentExtent.width = UINT32_MAX →
      chooseSwapExtent width height capabilities =
        ⟨clamp (toUint32 width) capabilities.minImageExtent.width
            capabilities.maxImageExtent.width,
          clamp (toUint32 height) capabilities.minImageExtent.height
            capabilities.maxImageExtent.height⟩ := by
    intro width height capabilities h
    unfold chooseSwapExtent
    rw [if_neg (not_not.2 h)]
  refine ⟨?_, hclamped, ?_, fun v lo hi h1 h2 => clamp_of_mem_range v lo hi h1 h2, ?_⟩
  · intro width height capabilities h
    unfold chooseSwapExtent
    rw [if_pos h]
  · intro width height capabilities h hw hh
    rw [hclamped width height capabilities h]
    exact ⟨(clamp_mem_range _ _ _ hw).1, (clamp_mem_range _ _ _ hw).2,
      (clamp_mem_range _ _ _ hh).1, (clamp_mem_range _ _ _ hh).2⟩
  · intro v lo hi h
    exact clamp_of_mem_range _ lo hi (clamp_mem_range v lo hi h).1 (clamp_mem_range v lo hi h).2

/-- The amended statement at concrete inputs: a surface that leaves the extent to
the application, a drawable size of 5000 x 10, and bounds 100..4096 in both
dimensions. -/
theorem chooseSwapExtent_concrete :
    chooseSwapExtent 5000 10 ⟨⟨UINT32_MAX, UINT32_MAX⟩, ⟨100, 100⟩, ⟨4096, 4096⟩⟩ =
      ⟨4096, 100⟩ ∧
    chooseSwapExtent 5000 10 ⟨⟨800, 600⟩, ⟨100, 100⟩, ⟨4096, 4096⟩⟩ = ⟨800, 600⟩ := by
  decide

/-! ## C28: `findTransferQueue` -/

theorem findTransferQueueFrom_zero (queueFamilies : List VkQueueFamilyProperties) :
    findTransferQueueFrom 0 queueFamilies = 0 := by
  induction queueFamilies with
  | nil => rfl
  | cons queueFamily rest ih =>
    unfold findTransferQueueFrom
    split
    · rfl
    · exact ih

/-- Whatever the device reports, `findTransferQueue` answers 0: the counter it
returns is never incremented. -/
theorem findTransferQueue_eq_zero (queueFamilies : List VkQueueFamilyProperties) :
    findTransferQueue queueFamilies = 0 :=
  findTransferQueueFrom_zero queueFamilies

/-- C28, the code at the failing input. For a device whose family 0 has the
graphics and compute bits only and whose family 1 has the transfer bit, the
first transfer-capable family is family 1, family 0 is not transfer-capable, and
`findTransferQueue` returns 0. -/
theorem findTransferQueue_returns_zero_for_later_family :
    firstTransferFamily [⟨3⟩, ⟨VK_QUEUE_TRANSFER_BIT⟩] = some 1 ∧
    (3 : Nat) &&& VK_QUEUE_TRANSFER_BIT = 0 ∧
    findTransferQueue [⟨3⟩, ⟨VK_QUEUE_TRANSFER_BIT⟩] = 0 := by
  decide


/-! ## C23: `invertStandardMatrix` -/

theorem Matrix4f.ext_data {R : Type} (A B : Matrix4f R)
    (h : ∀ row col, A.data row col = B.data row col) : A = B := by
  cases A with
  | mk a =>
    cases B with
    | mk b =>
      congr
      funext row col
      exact h row col

/-- What `invertStandardMatrix(m) * m` is for a matrix `m` with bottom row
`(0, 0, 0, 1)`: the upper-left block holds the dot products of the columns
`u`, `v`, `w` of `m` with each other, and the last column is `(0, 0, 0, 1)`. -/
theorem invertStandardMatrix_mul_self {R : Type} [CommRing R] (m : Matrix4f R)
    (hm : m.HasStandardBottomRow) (row col : Fin 4) :
    ((invertStandardMatrix m).mul m).data row col =
      if row = 3 ∨ col = 3 then (if row = col then 1 else 0)
      else dotProduct (m.column row) (m.column col) := by
  obtain ⟨h0, h1, h2, h3⟩ := hm
  fin_cases row <;> fin_cases col <;>
    simp [invertStandardMatrix, Matrix4f.mul, Matrix4f.set, Matrix4f.init, dotProduct,
      Matrix4f.column, h0, h1, h2, h3] <;> ring

/-- On translations composed with a rotation, `invertStandardMatrix` does give
the inverse. -/
theorem invertStandardMatrix_rigid {R : Type} [CommRing R] (t : Vec3f R) (c s : R)
    (hcs : c * c + s * s = 1) :
    (invertStandardMatrix ((translate t).mul (rotateZ c s))).mul
      ((translate t).mul (rotateZ c s)) = Matrix4f.identity := by
  have hm : ((translate t).mul (rotateZ c s)).HasStandardBottomRow := by
    simp [Matrix4f.HasStandardBottomRow, Matrix4f.mul, translate, rotateZ, Matrix4f.set,
      Matrix4f.init]
  apply Matrix4f.ext_data
  intro row col
  rw [invertStandardMatrix_mul_self _ hm]
  fin_cases row <;> fin_cases col <;>
    simp [Matrix4f.mul, Matrix4f.set, Matrix4f.init, dotProduct, Matrix4f.column,
      translate, rotateZ, Matrix4f.identity] <;>
    first | linear_combination hcs | ring

/-- C23, the code at the failing input. The scaling by 2 along every axis is
a matrix with bottom row `(0, 0, 0, 1)`; `invertStandardMatrix` maps it to
itself, and the product with the scaling has 4 on the diagonal, not 1. -/
theorem invertStandardMatrix_fails_on_scaling :
    (scale (⟨2, 2, 2⟩ : Vec3f ℚ)).HasStandardBottomRow ∧
    invertStandardMatrix (scale (⟨2, 2, 2⟩ : Vec3f ℚ)) = scale ⟨2, 2, 2⟩ ∧
    ((invertStandardMatrix (scale (⟨2, 2, 2⟩ : Vec3f ℚ))).mul (scale ⟨2, 2, 2⟩)).data 0 0 = 4 ∧
    (invertStandardMatrix (scale (⟨2, 2, 2⟩ : Vec3f ℚ))).mul (scale ⟨2, 2, 2⟩) ≠
      Matrix4f.identity := by
  have h00 : ((invertStandardMatrix (scale (⟨2, 2, 2⟩ : Vec3f ℚ))).mul
      (scale ⟨2, 2, 2⟩)).data 0 0 = 4 := by
    simp [invertStandardMatrix, Matrix4f.mul, Matrix4f.set, Matrix4f.init, dotProduct, scale]
    norm_num
  refine ⟨?_, ?_, h00, ?_⟩
  · simp [Matrix4f.HasStandardBottomRow, scale, Matrix4f.set, Matrix4f.init]
  · apply Matrix4f.ext_data
    intro row col
    fin_cases row <;> fin_cases col <;>
      simp [invertStandardMatrix, Matrix4f.set, Matrix4f.init, dotProduct, scale]
  · intro h
    rw [h] at h00
    simp [Matrix4f.identity] at h00


/-! ## C29: `lookAt` maps the eye to the origin -/

/-- C29. For all vectors `eye`, `center` and `up` with `center ≠ eye` and
`up` not parallel to `center - eye`, in exact arithmetic over any field and for
any square-root function, `lookAt(eye, center, up) * (eye.x, eye.y, eye.z, 1)`
is `(0, 0, 0, 1)`, and the bottom row of the matrix is `(0, 0, 0, 1)`. -/
theorem lookAt_maps_eye_to_origin {R : Type} [Field R] (sqrt : R → R)
    (eye center up : Vec3f R) :
    center ≠ eye → crossProduct (center.sub eye) up ≠ ⟨0, 0, 0⟩ →
    (lookAt sqrt eye center up).mulVec ⟨eye.x, eye.y, eye.z, 1⟩ = ⟨0, 0, 0, 1⟩ ∧
    (lookAt sqrt eye center up).HasStandardBottomRow := by
  intro _ _
  constructor
  · simp only [lookAt, Matrix4f.mulVec, Matrix4f.set, Matrix4f.init, dotProduct]
    simp
    refine ⟨?_, ?_, ?_⟩ <;> ring
  · simp [Matrix4f.HasStandardBottomRow, lookAt, Matrix4f.set, Matrix4f.init]

/-- Witness for C29: a camera at `(0, 0, 5)` looking at the origin with
`up = (0, 1, 0)`. -/
theorem lookAt_maps_eye_to_origin_witness :
    (⟨0, 0, 0⟩ : Vec3f ℚ) ≠ ⟨0, 0, 5⟩ ∧
    crossProduct ((⟨0, 0, 0⟩ : Vec3f ℚ).sub ⟨0, 0, 5⟩) ⟨0, 1, 0⟩ ≠ ⟨0, 0, 0⟩ ∧
    (lookAt rationalSqrt (⟨0, 0, 5⟩ : Vec3f ℚ) ⟨0, 0, 0⟩ ⟨0, 1, 0⟩).mulVec ⟨0, 0, 5, 1⟩ =
      ⟨0, 0, 0, 1⟩ :=
  have h1 : (⟨0, 0, 0⟩ : Vec3f ℚ) ≠ ⟨0, 0, 5⟩ := by
    intro h
    have hz := congrArg Vec3f.z h
    norm_num at hz
  have h2 : crossProduct ((⟨0, 0, 0⟩ : Vec3f ℚ).sub ⟨0, 0, 5⟩) ⟨0, 1, 0⟩ ≠ ⟨0, 0, 0⟩ := by
    intro h
    have hx := congrArg Vec3f.x h
    norm_num [crossProduct, Vec3f.sub] at hx
  ⟨h1, h2, (lookAt_maps_eye_to_origin rationalSqrt ⟨0, 0, 5⟩ ⟨0, 0, 0⟩ ⟨0, 1, 0⟩ h1 h2).1⟩


/-! ## C30: the line loops of the OBJ loader terminate -/

/-- What the character loop of `parseLine` and `parseWord` does when it is given
as many iterations as `input.len` says: it advances over `k` characters that
all satisfy the condition, and stops where the loop condition fails. -/
theorem skipWhile_spec (contents : List Char) (cond : Option Char → Bool) :
    ∀ (fuel : Nat) (input : ObjLoader.Stream), input.len.toNat ≤ fuel →
    ∃ k : Nat, ObjLoader.skipWhile contents cond fuel input = ⟨input.ptr + k, input.len - k⟩ ∧
      k ≤ input.len.toNat ∧
      (∀ j < k, cond contents[input.ptr + j]? = true) ∧
      ¬ (0 < input.len - (k : Int) ∧ cond contents[input.ptr + k]? = true) := by
  intro fuel
  induction fuel with
  | zero =>
    intro input hfuel
    refine ⟨0, ?_, Nat.zero_le _, fun j hj => absurd hj (Nat.not_lt_zero j), ?_⟩
    · simp [ObjLoader.skipWhile]
    · have : input.len ≤ 0 := by omega
      simp only [Nat.cast_zero, sub_zero, not_and]
      intro h
      omega
  | succ fuel ih =>
    intro input hfuel
    unfold ObjLoader.skipWhile
    by_cases hc : 0 < input.len ∧ cond contents[input.ptr]? = true
    · rw [if_pos hc]
      obtain ⟨k, hk, hle, hall, hstop⟩ := ih (input.advance 1) (by
        simp only [ObjLoader.Stream.advance]
        omega)
      simp only [ObjLoader.Stream.advance] at hk hle hall hstop
      refine ⟨k + 1, ?_, by omega, ?_, ?_⟩
      · simp only [ObjLoader.Stream.advance]
        rw [hk]
        congr 1
        · omega
        · push_cast
          ring
      · intro j hj
        cases j with
        | zero => simpa using hc.2
        | succ j =>
          have := hall j (by omega)
          rw [show input.ptr + (j + 1) = input.ptr + 1 + j by omega]
          exact this
      · rw [show input.ptr + (k + 1) = input.ptr + 1 + k by omega]
        rw [show input.len - ((k + 1 : Nat) : Int) = input.len - ((1 : Nat) : Int) - (k : Int) by
          push_cast
          ring]
        exact hstop
    · rw [if_neg hc]
      refine ⟨0, by simp, Nat.zero_le _, fun j hj => absurd hj (Nat.not_lt_zero j), ?_⟩
      simpa using hc

theorem takeWhile_eq_take {α : Type} (p : α → Bool) :
    ∀ (l : List α) (k : Nat), (∀ j < k, ∃ c, l[j]? = some c ∧ p c = true) →
      (l[k]? = none ∨ ∃ c, l[k]? = some c ∧ p c = false) → l.takeWhile p = l.take k := by
  intro l
  induction l with
  | nil => intro k _ _; simp
  | cons a l ih =>
    intro k hall hstop
    cases k with
    | zero =>
      rcases hstop with h | ⟨c, hc, hp⟩
      · simp at h
      · simp at hc
        subst hc
        simp [List.takeWhile, hp]
    | succ k =>
      obtain ⟨c, hc, hp⟩ := hall 0 (Nat.succ_pos k)
      simp at hc
      subst hc
      have hrest : l.takeWhile p = l.take k := by
        apply ih k
        · intro j hj
          have := hall (j + 1) (by omega)
          simpa using this
        · simpa using hstop
      simp [List.takeWhile, hp, hrest]

/-- The line `parseLine` returns and the stream it leaves, for any stream: the
line starts where the stream did and has some length `k` that is at most the
remaining length; the stream is left `k + 1` characters further; none of the
`k` characters is a newline; and either nothing remains after them or the next
character is a newline. -/
theorem parseLine_spec (contents : List Char) (input : ObjLoader.Stream) :
    ∃ k : Nat, (ObjLoader.parseLine contents input).1 = ⟨input.ptr, (k : Int)⟩ ∧
      (ObjLoader.parseLine contents input).2 = ⟨input.ptr + k + 1, input.len - k - 1⟩ ∧
      k ≤ input.len.toNat ∧
      (∀ j < k, contents[input.ptr + j]? ≠ some '\n') ∧
      ((k : Int) < input.len → contents[input.ptr + k]? = some '\n') := by
  obtain ⟨k, hk, hle, hall, hstop⟩ :=
    skipWhile_spec contents (fun c => c != some '\n') input.len.toNat input (le_refl _)
  refine ⟨k, ?_, ?_, hle, ?_, ?_⟩
  · simp only [ObjLoader.parseLine, hk]
    congr 1
    push_cast
    ring
  · simp [ObjLoader.parseLine, hk, ObjLoader.Stream.advance]
  · intro j hj
    simpa using hall j hj
  · intro hlt
    by_contra hne
    exact hstop ⟨by omega, by simpa using hne⟩

/-- `parseLine` always leaves the stream shorter than it found it. -/
theorem parseLine_len_lt (contents : List Char) (input : ObjLoader.Stream) :
    (ObjLoader.parseLine contents input).2.len < input.len := by
  obtain ⟨k, _, h2, _, _, _⟩ := parseLine_spec contents input
  rw [h2]
  show input.len - (k : Int) - 1 < input.len
  omega

/-- On a stream that lies within its buffer, the text of the line `parseLine`
returns is the text of the stream up to its first newline. -/
theorem parseLine_text (contents : List Char) (input : ObjLoader.Stream)
    (hvalid : input.ptr + input.len.toNat ≤ contents.length) :
    (ObjLoader.parseLine contents input).1.text contents =
      (input.text contents).takeWhile (fun c => c != '\n') := by
  obtain ⟨k, h1, _, hle, hall, hstop⟩ := parseLine_spec contents input
  have hget : ∀ j, j < input.len.toNat →
      (input.text contents)[j]? = contents[input.ptr + j]? := by
    intro j hj
    simp only [ObjLoader.Stream.text]
    rw [List.getElem?_take, if_pos hj, List.getElem?_drop]
  have htake : (ObjLoader.parseLine contents input).1.text contents =
      (input.text contents).take k := by
    rw [h1]
    simp only [ObjLoader.Stream.text, Int.toNat_ofNat, List.take_take]
    rw [Nat.min_eq_left hle]
  rw [htake]
  symm
  apply takeWhile_eq_take
  · intro j hj
    have hj2 : j < input.len.toNat := by omega
    have hin : input.ptr + j < contents.length := by omega
    refine ⟨contents[input.ptr + j], ?_, ?_⟩
    · rw [hget j hj2]
      exact List.getElem?_eq_getElem hin
    · have := hall j hj
      rw [List.getElem?_eq_getElem hin] at this
      simpa using this
  · by_cases hk : k < input.len.toNat
    · right
      refine ⟨'\n', ?_, by simp⟩
      rw [hget k hk]
      exact hstop (by omega)
    · left
      have hlen : (input.text contents).length ≤ k := by
        simp only [ObjLoader.Stream.text, List.length_take, List.length_drop]
        omega
      exact List.getElem?_eq_none hlen

theorem whileRemaining_succ {σ : Type}
    (body : ObjLoader.Stream → σ → Except ObjLoader.LoadFailure (ObjLoader.Stream × σ × Bool))
    (fuel : Nat) (s : ObjLoader.Stream) (state : σ) (h : 0 < s.len) :
    ObjLoader.whileRemaining body (fuel + 1) s state =
      match body s state with
      | .error failure => .error failure
      | .ok (s1, state1, true) => .ok (s1, state1)
      | .ok (s1, state1, false) => ObjLoader.whileRemaining body fuel s1 state1 := by
  rw [ObjLoader.whileRemaining, if_pos h]

theorem whileRemaining_done {σ : Type}
    (body : ObjLoader.Stream → σ → Except ObjLoader.LoadFailure (ObjLoader.Stream × σ × Bool))
    (fuel : Nat) (s : ObjLoader.Stream) (state : σ) (h : ¬ 0 < s.len) :
    ObjLoader.whileRemaining body fuel s state = .ok (s, state) := by
  cases fuel with
  | zero => rw [ObjLoader.whileRemaining, if_neg h]
  | succ fuel => rw [ObjLoader.whileRemaining, if_neg h]

/-- A loop over the stream whose body always shortens the stream fails only
with a failure of its body, when it is allowed as many iterations as there are
characters left. -/
theorem whileRemaining_error {σ : Type}
    (body : ObjLoader.Stream → σ → Except ObjLoader.LoadFailure (ObjLoader.Stream × σ × Bool))
    (hdec : ∀ s state s1 state1 brk, body s state = .ok (s1, state1, brk) → s1.len < s.len) :
    ∀ (fuel : Nat) (s : ObjLoader.Stream) (state : σ) (failure : ObjLoader.LoadFailure),
      s.len.toNat ≤ fuel → ObjLoader.whileRemaining body fuel s state = .error failure →
      ∃ s0 state0, body s0 state0 = .error failure := by
  intro fuel
  induction fuel with
  | zero =>
    intro s state failure hfuel h
    rw [whileRemaining_done body 0 s state (by omega)] at h
    cases h
  | succ fuel ih =>
    intro s state failure hfuel h
    by_cases hlen : 0 < s.len
    · rw [whileRemaining_succ body fuel s state hlen] at h
      cases hb : body s state with
      | error f =>
        rw [hb] at h
        simp only [Except.error.injEq] at h
        exact ⟨s, state, by rw [hb, h]⟩
      | ok r =>
        obtain ⟨s1, state1, brk⟩ := r
        rw [hb] at h
        have hlt := hdec s state s1 state1 brk hb
        cases brk with
        | true => cases h
        | false => exact ih s1 state1 failure (by omega) h
    · rw [whileRemaining_done body (fuel + 1) s state hlen] at h
      cases h

/-- A loop over the stream never leaves the stream longer than it found it. -/
theorem whileRemaining_len_le {σ : Type}
    (body : ObjLoader.Stream → σ → Except ObjLoader.LoadFailure (ObjLoader.Stream × σ × Bool))
    (hdec : ∀ s state s1 state1 brk, body s state = .ok (s1, state1, brk) → s1.len < s.len) :
    ∀ (fuel : Nat) (s : ObjLoader.Stream) (state : σ) (s2 : ObjLoader.Stream) (state2 : σ),
      ObjLoader.whileRemaining body fuel s state = .ok (s2, state2) → s2.len ≤ s.len := by
  intro fuel
  induction fuel with
  | zero =>
    intro s state s2 state2 h
    by_cases hlen : 0 < s.len
    · rw [ObjLoader.whileRemaining, if_pos hlen] at h
      cases h
    · rw [whileRemaining_done body 0 s state hlen] at h
      cases h
      exact le_refl _
  | succ fuel ih =>
    intro s state s2 state2 h
    by_cases hlen : 0 < s.len
    · rw [whileRemaining_succ body fuel s state hlen] at h
      cases hb : body s state with
      | error f =>
        rw [hb] at h
        cases h
      | ok r =>
        obtain ⟨s1, state1, brk⟩ := r
        rw [hb] at h
        have hlt := hdec s state s1 state1 brk hb
        cases brk with
        | true =>
          cases h
          omega
        | false =>
          have := ih s1 state1 s2 state2 h
          omega
    · rw [whileRemaining_done body (fuel + 1) s state hlen] at h
      cases h
      exact le_refl _

/-- What holds of the state before a loop over the stream and is kept by its
body holds of the state the loop leaves. -/
theorem whileRemaining_invariant {σ : Type}
    (body : ObjLoader.Stream → σ → Except ObjLoader.LoadFailure (ObjLoader.Stream × σ × Bool))
    (P : σ → Prop)
    (hbody : ∀ s state s1 state1 brk, P state → body s state = .ok (s1, state1, brk) → P state1) :
    ∀ (fuel : Nat) (s : ObjLoader.Stream) (state : σ) (s2 : ObjLoader.Stream) (state2 : σ),
      P state → ObjLoader.whileRemaining body fuel s state = .ok (s2, state2) → P state2 := by
  intro fuel
  induction fuel with
  | zero =>
    intro s state s2 state2 hP h
    by_cases hlen : 0 < s.len
    · rw [ObjLoader.whileRemaining, if_pos hlen] at h
      cases h
    · rw [whileRemaining_done body 0 s state hlen] at h
      cases h
      exact hP
  | succ fuel ih =>
    intro s state s2 state2 hP h
    by_cases hlen : 0 < s.len
    · rw [whileRemaining_succ body fuel s state hlen] at h
      cases hb : body s state with
      | error f =>
        rw [hb] at h
        cases h
      | ok r =>
        obtain ⟨s1, state1, brk⟩ := r
        rw [hb] at h
        have hP1 := hbody s state s1 state1 brk hP hb
        cases brk with
        | true =>
          cases h
          exact hP1
        | false => exact ih s1 state1 s2 state2 hP1 h
    · rw [whileRemaining_done body (fuel + 1) s state hlen] at h
      cases h
      exact hP

theorem parseMaterialLine_ok {F : Type} (libc : ObjLoader.Libc F) (contents : List Char)
    (s : ObjLoader.Stream) (result : ObjLoader.Material F) :
    ∃ result1 brk, ObjLoader.parseMaterialLine libc contents s result =
      .ok ((ObjLoader.parseLine contents s).2, result1, brk) := by
  unfold ObjLoader.parseMaterialLine
  simp only []
  split_ifs <;> exact ⟨_, _, rfl⟩

theorem parseMaterialLine_len_lt {F : Type} (libc : ObjLoader.Libc F) (contents : List Char)
    (s : ObjLoader.Stream) (result : ObjLoader.Material F) (s1 : ObjLoader.Stream)
    (result1 : ObjLoader.Material F) (brk : Bool)
    (h : ObjLoader.parseMaterialLine libc contents s result = .ok (s1, result1, brk)) :
    s1.len < s.len := by
  obtain ⟨r, b, hok⟩ := parseMaterialLine_ok libc contents s result
  rw [hok] at h
  cases h
  exact parseLine_len_lt contents s

/-- `parseMaterial` returns, for every stream. -/
theorem parseMaterial_returns {F : Type} [Zero F] (libc : ObjLoader.Libc F)
    (contents : List Char) (s : ObjLoader.Stream) :
    ∃ s1 material, ObjLoader.parseMaterial libc contents s = .ok (s1, material) ∧
      s1.len ≤ s.len := by
  cases h : ObjLoader.parseMaterial libc contents s with
  | error failure =>
    obtain ⟨s0, r0, hbody⟩ := whileRemaining_error (ObjLoader.parseMaterialLine libc contents)
      (parseMaterialLine_len_lt libc contents) s.len.toNat s _ failure (le_refl _) h
    obtain ⟨r, b, hok⟩ := parseMaterialLine_ok libc contents s0 r0
    rw [hok] at hbody
    cases hbody
  | ok r =>
    obtain ⟨s1, material⟩ := r
    exact ⟨s1, material, rfl, whileRemaining_len_le (ObjLoader.parseMaterialLine libc contents)
      (parseMaterialLine_len_lt libc contents) s.len.toNat s _ s1 material h⟩

theorem loadMaterialLibLine_ok {F : Type} [Zero F] (libc : ObjLoader.Libc F)
    (contents : List Char) (s : ObjLoader.Stream)
    (result : List (String × ObjLoader.Material F)) :
    ∃ s1 result1, ObjLoader.loadMaterialLibLine libc contents s result =
      .ok (s1, result1, false) ∧ s1.len < s.len := by
  unfold ObjLoader.loadMaterialLibLine
  simp only []
  split_ifs
  · obtain ⟨s1, material, hok, hle⟩ :=
      parseMaterial_returns libc contents (ObjLoader.parseLine contents s).2
    rw [hok]
    have := parseLine_len_lt contents s
    exact ⟨s1, _, rfl, by omega⟩
  · exact ⟨_, _, rfl, parseLine_len_lt contents s⟩

/-- `loadMaterialLib` returns a map, for every library file. -/
theorem loadMaterialLib_returns {F : Type} [Zero F] (libc : ObjLoader.Libc F)
    (contents : List Char) :
    ∃ library, ObjLoader.loadMaterialLib libc contents = .ok library := by
  unfold ObjLoader.loadMaterialLib
  cases h : ObjLoader.whileRemaining (ObjLoader.loadMaterialLibLine libc contents)
      contents.length ⟨0, contents.length⟩ [] with
  | error failure =>
    obtain ⟨s0, r0, hbody⟩ := whileRemaining_error (ObjLoader.loadMaterialLibLine libc contents)
      (by
        intro s state s1 state1 brk hb
        obtain ⟨s2, r2, hok, hlt⟩ := loadMaterialLibLine_ok libc contents s state
        rw [hok] at hb
        cases hb
        exact hlt)
      contents.length ⟨0, contents.length⟩ [] failure (by simp) h
    obtain ⟨s2, r2, hok, _⟩ := loadMaterialLibLine_ok libc contents s0 r0
    rw [hok] at hbody
    cases hbody
  | ok r => exact ⟨r.2, rfl⟩

theorem loadObjLine_terminates {F : Type} [Zero F] (libc : ObjLoader.Libc F)
    (contents : List Char) (line : ObjLoader.Stream) (state : ObjLoader.LoadState F) :
    ObjLoader.loadObjLine libc contents line state ≠ .error .notTerminated := by
  intro h
  unfold ObjLoader.loadObjLine at h
  simp only [] at h
  obtain ⟨library, hlib⟩ := loadMaterialLib_returns libc
    (libc.loadLibrary (ObjLoader.Stream.text contents (ObjLoader.parseWord contents line).2))
  rw [hlib] at h
  split_ifs at h
  all_goals first
    | cases h
    | (split at h <;> cases h)

/-- `loadObj` does not run for ever, whatever the file holds. -/
theorem loadObj_terminates {F : Type} [Zero F] (libc : ObjLoader.Libc F)
    (contents : List Char) :
    ObjLoader.loadObj libc contents ≠ .error .notTerminated := by
  intro h
  unfold ObjLoader.loadObj ObjLoader.loadObjRun at h
  cases hloop : ObjLoader.loadObjLoop libc contents contents.length ⟨0, contents.length⟩
      ⟨[], [], "", ⟨[], []⟩, [], [], [], []⟩ with
  | ok r =>
    rw [hloop] at h
    cases h
  | error failure =>
    rw [hloop] at h
    have hf : failure = .notTerminated := by
      injection h
    subst hf
    obtain ⟨s0, state0, hbody⟩ := whileRemaining_error _
      (by
        intro s state s1 state1 brk hb
        split at hb
        · cases hb
        · cases hb
          exact parseLine_len_lt contents s)
      contents.length ⟨0, contents.length⟩ _ .notTerminated (by simp) hloop
    split at hbody
    · rename_i failure hline
      cases hbody
      exact loadObjLine_terminates libc contents _ state0 hline
    · cases hbody

/-- The first line of a two-line buffer, and the last line of a buffer that does
not end in a newline: the stream is left with length -1. -/
theorem parseLine_concrete :
    ObjLoader.parseLine "ab\ncd".toList ⟨0, 5⟩ = (⟨0, 2⟩, ⟨3, 2⟩) ∧
    ObjLoader.parseLine "ab\ncd".toList ⟨3, 2⟩ = (⟨3, 2⟩, ⟨6, -1⟩) := by
  decide

/-- C30. For every buffer and every stream within it with remaining length
above 0, `parseLine` returns exactly the characters of the stream before its
first newline (all of them when there is none), and it leaves the stream
shorter by the returned length plus one, so strictly shorter. Consequently the
line loops terminate for every file content: `loadObj` never runs for ever
(it returns a scene, or stops on its assertion or on an index out of range),
and `loadMaterialLib` and `parseMaterial` always return. -/
theorem obj_line_loops_terminate :
    (∀ (contents : List Char) (input : ObjLoader.Stream), 0 < input.len →
      input.ptr + input.len.toNat ≤ contents.length →
      (ObjLoader.parseLine contents input).1.text contents =
        (input.text contents).takeWhile (fun c => c != '\n') ∧
      0 ≤ (ObjLoader.parseLine contents input).1.len ∧
      (ObjLoader.parseLine contents input).2.len =
        input.len - ((ObjLoader.parseLine contents input).1.len + 1) ∧
      (ObjLoader.parseLine contents input).2.len < input.len) ∧
    (∀ (F : Type) [Zero F] (libc : ObjLoader.Libc F) (contents : List Char),
      ObjLoader.loadObj libc contents ≠ .error .notTerminated) ∧
    (∀ (F : Type) [Zero F] (libc : ObjLoader.Libc F) (contents : List Char),
      ∃ library, ObjLoader.loadMaterialLib libc contents = .ok library) ∧
    (∀ (F : Type) [Zero F] (libc : ObjLoader.Libc F) (contents : List Char)
      (s : ObjLoader.Stream),
      ∃ s1 material, ObjLoader.parseMaterial libc contents s = .ok (s1, material)) := by
  refine ⟨?_, fun F _ libc contents => loadObj_terminates libc contents,
    fun F _ libc contents => loadMaterialLib_returns libc contents, ?_⟩
  · intro contents input _ hvalid
    obtain ⟨k, h1, h2, _, _, _⟩ := parseLine_spec contents input
    refine ⟨parseLine_text contents input hvalid, ?_, ?_, parseLine_len_lt contents input⟩
    · rw [h1]
      exact Int.natCast_nonneg k
    · rw [h1, h2]
      show input.len - (k : Int) - 1 = input.len - ((k : Int) + 1)
      omega
  · intro F _ libc contents s
    obtain ⟨s1, material, h, _⟩ := parseMaterial_returns libc contents s
    exact ⟨s1, material, h⟩


/-! ## C24: `loadObj` merges meshes by material -/

theorem resizeMeshes_getElem? {F : Type} (n : Nat) (plainMeshes : List (ObjLoader.PlainMesh F))
    (j : Nat) :
    (ObjLoader.resizeMeshes n plainMeshes)[j]? =
      if j < plainMeshes.length then plainMeshes[j]?
      else if j < n then some ⟨0, []⟩ else none := by
  unfold ObjLoader.resizeMeshes
  by_cases h : j < plainMeshes.length
  · rw [if_pos h, List.getElem?_append_left h]
  · rw [if_neg h, List.getElem?_append_right (by omega), List.getElem?_replicate]
    by_cases h2 : j < n
    · rw [if_pos (by omega), if_pos h2]
    · rw [if_neg (by omega), if_neg h2]

/-- The plain meshes after `flushFaces` with faces pending: mesh `material`
holds what it held, then the pending faces, and carries `material`; the other
meshes are as before, and the meshes the `resize` added are empty. -/
theorem flushFaces_getElem? {F : Type} (state : ObjLoader.LoadState F)
    (hfaces : state.faces ≠ []) (j : Nat) :
    (ObjLoader.flushFaces state).result.plainMeshes[j]? =
      if j = ObjLoader.currentMaterialId state then
        some ⟨ObjLoader.currentMaterialId state,
          ObjLoader.verticesOf state.result.plainMeshes (ObjLoader.currentMaterialId state) ++
            state.faces⟩
      else if j < state.result.plainMeshes.length then state.result.plainMeshes[j]?
      else if j < ObjLoader.currentMaterialId state then some ⟨0, []⟩ else none := by
  have hempty : state.faces.isEmpty = false := by
    cases hf : state.faces with
    | nil => exact absurd hf hfaces
    | cons a l => rfl
  unfold ObjLoader.flushFaces
  rw [hempty]
  simp only [Bool.false_eq_true, if_false]
  show (match (if ObjLoader.currentMaterialId state ≥ state.result.plainMeshes.length then
        ObjLoader.resizeMeshes (ObjLoader.currentMaterialId state + 1) state.result.plainMeshes
      else state.result.plainMeshes)[ObjLoader.currentMaterialId state]? with
    | some plainMesh =>
      (if ObjLoader.currentMaterialId state ≥ state.result.plainMeshes.length then
        ObjLoader.resizeMeshes (ObjLoader.currentMaterialId state + 1) state.result.plainMeshes
      else state.result.plainMeshes).set (ObjLoader.currentMaterialId state)
        ⟨ObjLoader.currentMaterialId state, plainMesh.vertices ++ state.faces⟩
    | none =>
      (if ObjLoader.currentMaterialId state ≥ state.result.plainMeshes.length then
        ObjLoader.resizeMeshes (ObjLoader.currentMaterialId state + 1) state.result.plainMeshes
      else state.result.plainMeshes))[j]? = _
  generalize ObjLoader.currentMaterialId state = material
  by_cases hge : material ≥ state.result.plainMeshes.length
  · rw [if_pos hge]
    have hat : (ObjLoader.resizeMeshes (material + 1) state.result.plainMeshes)[material]? =
        some ⟨0, []⟩ := by
      rw [resizeMeshes_getElem?, if_neg (by omega), if_pos (by omega)]
    have hold : ObjLoader.verticesOf state.result.plainMeshes material = [] := by
      unfold ObjLoader.verticesOf
      rw [List.getElem?_eq_none (by omega)]
    rw [hat, hold]
    simp only []
    rw [List.getElem?_set]
    by_cases hj : j = material
    · subst hj
      have hlen : j < (ObjLoader.resizeMeshes (j + 1) state.result.plainMeshes).length := by
        simp [ObjLoader.resizeMeshes]
        omega
      simp [hlen]
    · rw [if_neg (fun h => hj h.symm), if_neg hj, resizeMeshes_getElem?]
      by_cases hlt : j < state.result.plainMeshes.length
      · rw [if_pos hlt, if_pos hlt]
      · rw [if_neg hlt, if_neg hlt]
        by_cases hjm : j < material
        · rw [if_pos (by omega), if_pos hjm]
        · rw [if_neg (by omega), if_neg hjm]
  · rw [if_neg hge]
    have hlt : material < state.result.plainMeshes.length := by omega
    have hat : state.result.plainMeshes[material]? = some state.result.plainMeshes[material] :=
      List.getElem?_eq_getElem hlt
    have hold : ObjLoader.verticesOf state.result.plainMeshes material =
        state.result.plainMeshes[material].vertices := by
      unfold ObjLoader.verticesOf
      rw [hat]
    rw [hat, hold]
    simp only []
    rw [List.getElem?_set]
    by_cases hj : j = material
    · subst hj
      simp [hlt]
    · rw [if_neg (fun h => hj h.symm), if_neg hj]
      by_cases hlt2 : j < state.result.plainMeshes.length
      · rw [if_pos hlt2]
      · rw [if_neg hlt2, if_neg (by omega)]
        exact List.getElem?_eq_none (by omega)

theorem flushFaces_idle {F : Type} (state : ObjLoader.LoadState F) (hfaces : state.faces = []) :
    ObjLoader.flushFaces state = state := by
  unfold ObjLoader.flushFaces
  rw [hfaces]
  rfl

theorem flushFaces_fields {F : Type} (state : ObjLoader.LoadState F)
    (hfaces : state.faces ≠ []) :
    (ObjLoader.flushFaces state).flushed =
        state.flushed ++ [(ObjLoader.currentMaterialId state, state.faces)] ∧
      (ObjLoader.flushFaces state).faces = [] ∧
      (ObjLoader.flushFaces state).pushed = state.pushed := by
  have hempty : state.faces.isEmpty = false := by
    cases hf : state.faces with
    | nil => exact absurd hf hfaces
    | cons a l => rfl
  unfold ObjLoader.flushFaces
  rw [hempty]
  exact ⟨rfl, rfl, rfl⟩

/-- The vertices of each plain mesh after `flushFaces` with faces pending: the
mesh of the current material id gains the pending vertices at its end, every
other mesh holds what it held. -/
theorem flushFaces_verticesOf {F : Type} (state : ObjLoader.LoadState F)
    (hfaces : state.faces ≠ []) (i : Nat) :
    ObjLoader.verticesOf (ObjLoader.flushFaces state).result.plainMeshes i =
      ObjLoader.verticesOf state.result.plainMeshes i ++
        (if ObjLoader.currentMaterialId state = i then state.faces else []) := by
  by_cases hi : i = ObjLoader.currentMaterialId state
  · subst hi
    rw [if_pos rfl]
    unfold ObjLoader.verticesOf
    rw [flushFaces_getElem? state hfaces, if_pos rfl]
    rfl
  · rw [if_neg (fun h => hi h.symm), List.append_nil]
    unfold ObjLoader.verticesOf
    rw [flushFaces_getElem? state hfaces, if_neg hi]
    by_cases h2 : i < state.result.plainMeshes.length
    · rw [if_pos h2]
    · rw [if_neg h2, List.getElem?_eq_none (by omega)]
      by_cases h3 : i < ObjLoader.currentMaterialId state
      · rw [if_pos h3]
      · rw [if_neg h3]

theorem flushedUnder_append {F : Type} (flushed : List (Nat × List (ObjLoader.Vertex F)))
    (material : Nat) (faces : List (ObjLoader.Vertex F)) (i : Nat) :
    ObjLoader.flushedUnder (flushed ++ [(material, faces)]) i =
      ObjLoader.flushedUnder flushed i ++ (if material = i then faces else []) := by
  unfold ObjLoader.flushedUnder
  rw [List.filter_append, List.flatMap_append]
  by_cases h : material = i
  · simp [List.filter, h]
  · simp [List.filter, h]

theorem flushFaces_merged {F : Type} (state : ObjLoader.LoadState F)
    (h : ObjLoader.MergedByMaterial state.result.plainMeshes) :
    ObjLoader.MergedByMaterial (ObjLoader.flushFaces state).result.plainMeshes := by
  by_cases hfaces : state.faces = []
  · rw [flushFaces_idle state hfaces]
    exact h
  · intro i plainMesh hi hne
    rw [flushFaces_getElem? state hfaces] at hi
    by_cases h1 : i = ObjLoader.currentMaterialId state
    · rw [if_pos h1] at hi
      cases hi
      exact h1.symm
    · rw [if_neg h1] at hi
      by_cases h2 : i < state.result.plainMeshes.length
      · rw [if_pos h2] at hi
        exact h i plainMesh hi hne
      · rw [if_neg h2] at hi
        by_cases h3 : i < ObjLoader.currentMaterialId state
        · rw [if_pos h3] at hi
          cases hi
          exact absurd rfl hne
        · rw [if_neg h3] at hi
          cases hi

/-- `flushFaces` keeps the plain meshes in step with what has been flushed. -/
theorem flushFaces_inv {F : Type} (state : ObjLoader.LoadState F)
    (h : ObjLoader.FlushedIntoMeshes state) :
    ObjLoader.FlushedIntoMeshes (ObjLoader.flushFaces state) := by
  by_cases hfaces : state.faces = []
  · rw [flushFaces_idle state hfaces]
    exact h
  · obtain ⟨hflushed, hnone, hpushed⟩ := flushFaces_fields state hfaces
    refine ⟨flushFaces_merged state h.1, ?_, ?_⟩
    · intro i
      rw [flushFaces_verticesOf state hfaces i, hflushed, flushedUnder_append, h.2.1 i]
    · rw [hflushed, hnone, hpushed, List.flatMap_append, List.append_nil, ← h.2.2]
      simp [List.flatMap]

theorem addMaterials_inv {F : Type} (library : List (String × ObjLoader.Material F)) :
    ∀ state : ObjLoader.LoadState F, ObjLoader.FlushedIntoMeshes state →
      ObjLoader.FlushedIntoMeshes (ObjLoader.addMaterials state library) := by
  induction library with
  | nil => intro state h; exact h
  | cons entry rest ih =>
    intro state h
    obtain ⟨name, material⟩ := entry
    unfold ObjLoader.addMaterials
    exact ih _ h

theorem addMaterials_plainMeshes {F : Type} (library : List (String × ObjLoader.Material F)) :
    ∀ state : ObjLoader.LoadState F,
      (ObjLoader.addMaterials state library).result.plainMeshes = state.result.plainMeshes := by
  induction library with
  | nil => intro state; rfl
  | cons entry rest ih =>
    intro state
    obtain ⟨name, material⟩ := entry
    unfold ObjLoader.addMaterials
    rw [ih]

/-- One line of the file changes the plain meshes only through `flushFaces`. -/
theorem loadObjLine_plainMeshes {F : Type} [Zero F] (libc : ObjLoader.Libc F)
    (contents : List Char) (line : ObjLoader.Stream) (state state1 : ObjLoader.LoadState F)
    (h : ObjLoader.loadObjLine libc contents line state = .ok state1) :
    state1.result.plainMeshes = state.result.plainMeshes ∨
      state1.result.plainMeshes = (ObjLoader.flushFaces state).result.plainMeshes := by
  unfold ObjLoader.loadObjLine at h
  simp only [] at h
  split_ifs at h
  all_goals first
    | (cases h; exact Or.inl rfl)
    | (cases h; exact Or.inr rfl)
    | (split at h
       all_goals first
         | (cases h; done)
         | (cases h; exact Or.inl rfl)
         | (cases h; exact Or.inl (addMaterials_plainMeshes _ _)))

/-- One line of the file keeps the plain meshes in step with what has been
flushed: a face line pushes its three vertices to the pending faces, and the
other lines flush or leave faces and meshes alone. -/
theorem loadObjLine_inv {F : Type} [Zero F] (libc : ObjLoader.Libc F)
    (contents : List Char) (line : ObjLoader.Stream) (state state1 : ObjLoader.LoadState F)
    (hinv : ObjLoader.FlushedIntoMeshes state)
    (h : ObjLoader.loadObjLine libc contents line state = .ok state1) :
    ObjLoader.FlushedIntoMeshes state1 := by
  have hpush : ∀ vs : List (ObjLoader.Vertex F),
      ObjLoader.FlushedIntoMeshes
        { state with faces := state.faces ++ vs, pushed := state.pushed ++ vs } := by
    intro vs
    refine ⟨hinv.1, hinv.2.1, ?_⟩
    show state.flushed.flatMap Prod.snd ++ (state.faces ++ vs) = state.pushed ++ vs
    rw [← List.append_assoc, hinv.2.2]
  unfold ObjLoader.loadObjLine at h
  simp only [] at h
  split_ifs at h
  all_goals first
    | (cases h; exact hinv)
    | (cases h; exact flushFaces_inv state hinv)
    | (split at h
       all_goals first
         | (cases h; done)
         | (cases h; exact hpush _)
         | (cases h; exact addMaterials_inv _ _ hinv))

/-- When the loop of `loadObj` has ended, the plain meshes hold exactly what
was flushed. -/
theorem loadObjRun_inv {F : Type} [Zero F] (libc : ObjLoader.Libc F) (contents : List Char)
    (state : ObjLoader.LoadState F) (h : ObjLoader.loadObjRun libc contents = .ok state) :
    ObjLoader.FlushedIntoMeshes state := by
  unfold ObjLoader.loadObjRun at h
  cases hloop : ObjLoader.loadObjLoop libc contents contents.length ⟨0, contents.length⟩
      ⟨[], [], "", ⟨[], []⟩, [], [], [], []⟩ with
  | error failure =>
    rw [hloop] at h
    cases h
  | ok r =>
    obtain ⟨s2, state2⟩ := r
    rw [hloop] at h
    cases h
    refine whileRemaining_invariant _
      (fun state : ObjLoader.LoadState F => ObjLoader.FlushedIntoMeshes state)
      ?_ contents.length ⟨0, contents.length⟩ _ s2 state2 ?_ hloop
    · intro s state state3 state1 brk hP hb
      split at hb
      · cases hb
      · rename_i state4 hline
        cases hb
        exact loadObjLine_inv libc contents _ state state1 hP hline
    · refine ⟨?_, ?_, rfl⟩
      · intro i plainMesh hi
        simp at hi
      · intro i
        rfl

/-- Every scene `loadObj` returns is the `result` its loop has left. -/
theorem loadObj_eq_ok {F : Type} [Zero F] (libc : ObjLoader.Libc F) (contents : List Char)
    (scene : ObjLoader.Scene F) :
    ObjLoader.loadObj libc contents = .ok scene ↔
      ∃ state, ObjLoader.loadObjRun libc contents = .ok state ∧ state.result = scene := by
  unfold ObjLoader.loadObj
  cases hrun : ObjLoader.loadObjRun libc contents with
  | error failure =>
    constructor
    · intro h
      cases h
    · rintro ⟨state, h, _⟩
      cases h
  | ok state =>
    constructor
    · intro h
      cases h
      exact ⟨state, rfl, rfl⟩
    · rintro ⟨state1, h, hscene⟩
      cases h
      rw [← hscene]
      rfl

/-- A file whose face is flushed by a later `v` line: the scene has one plain
mesh, of material 0, with the three vertices of the face. -/
theorem loadObj_flushed_face :
    (ObjLoader.loadObj ObjLoader.plainLibc ObjLoader.oneTriangleThenVertex).map
      (fun scene => scene.plainMeshes.map fun plainMesh =>
        (plainMesh.material, plainMesh.vertices.length)) = .ok [(0, 3)] := by
  rfl

/-- C24. For every OBJ input on which the loop of `loadObj` ends, the scene
returned is the `result` the loop leaves, and in it: every plain mesh that
holds a vertex carries its own index as material; for every index `i`, the
vertices of `plainMeshes[i]` are exactly the vertices of the flushes made while
material id `i` was current, in the order of the flushes, and no mesh holds
vertices of a flush made under another id; and the flushed vertices, in flush
order, followed by the faces still pending, are the vertices the face lines
pushed, in file order. A flush with faces pending is recorded under
`materialNameToId[currMaterial]`, appends the pending vertices to the plain
mesh of that id, leaves the vertices of every other mesh as they were and
empties the pending faces; and the plain meshes change only in `flushFaces`. -/
theorem loadObj_merges_meshes_by_material {F : Type} [Zero F] (libc : ObjLoader.Libc F)
    (contents : List Char) (state : ObjLoader.LoadState F)
    (hrun : ObjLoader.loadObjRun libc contents = .ok state) :
    ObjLoader.loadObj libc contents = .ok state.result ∧
    (∀ (i : Nat) (plainMesh : ObjLoader.PlainMesh F),
      state.result.plainMeshes[i]? = some plainMesh → plainMesh.vertices ≠ [] →
      plainMesh.material = i) ∧
    (∀ i, ObjLoader.verticesOf state.result.plainMeshes i =
      ObjLoader.flushedUnder state.flushed i) ∧
    state.flushed.flatMap Prod.snd ++ state.faces = state.pushed ∧
    (∀ before : ObjLoader.LoadState F, before.faces ≠ [] →
      (ObjLoader.flushFaces before).flushed =
        before.flushed ++ [(ObjLoader.currentMaterialId before, before.faces)] ∧
      ObjLoader.verticesOf (ObjLoader.flushFaces before).result.plainMeshes
          (ObjLoader.currentMaterialId before) =
        ObjLoader.verticesOf before.result.plainMeshes (ObjLoader.currentMaterialId before) ++
          before.faces ∧
      (∀ j, j ≠ ObjLoader.currentMaterialId before →
        ObjLoader.verticesOf (ObjLoader.flushFaces before).result.plainMeshes j =
          ObjLoader.verticesOf before.result.plainMeshes j) ∧
      (ObjLoader.flushFaces before).faces = []) ∧
    (∀ (line : ObjLoader.Stream) (before after : ObjLoader.LoadState F),
      ObjLoader.loadObjLine libc contents line before = .ok after →
      after.result.plainMeshes = before.result.plainMeshes ∨
        after.result.plainMeshes = (ObjLoader.flushFaces before).result.plainMeshes) := by
  have hinv := loadObjRun_inv libc contents state hrun
  refine ⟨?_, hinv.1, hinv.2.1, hinv.2.2, ?_,
    fun line before after h => loadObjLine_plainMeshes libc contents line before after h⟩
  · unfold ObjLoader.loadObj
    rw [hrun]
    rfl
  · intro before hfaces
    obtain ⟨hflushed, hnone, _⟩ := flushFaces_fields before hfaces
    refine ⟨hflushed, ?_, ?_, hnone⟩
    · rw [flushFaces_verticesOf before hfaces, if_pos rfl]
    · intro j hj
      rw [flushFaces_verticesOf before hfaces, if_neg (fun h => hj h.symm), List.append_nil]

/-- Witness for C24: the file with one face and a later `v` line. The loop ends
with the face flushed under material id 0, and plain mesh 0 of the returned
scene holds its three vertices. -/
theorem loadObj_merges_meshes_by_material_witness :
    ObjLoader.loadObjRun ObjLoader.plainLibc ObjLoader.oneTriangleThenVertex =
      .ok ObjLoader.oneTriangleThenVertexRun ∧
    ObjLoader.loadObj ObjLoader.plainLibc ObjLoader.oneTriangleThenVertex =
      .ok ObjLoader.oneTriangleThenVertexRun.result ∧
    ObjLoader.verticesOf ObjLoader.oneTriangleThenVertexRun.result.plainMeshes 0 =
      ObjLoader.flushedUnder ObjLoader.oneTriangleThenVertexRun.flushed 0 ∧
    (ObjLoader.verticesOf ObjLoader.oneTriangleThenVertexRun.result.plainMeshes 0).length = 3 :=
  have hrun : ObjLoader.loadObjRun ObjLoader.plainLibc ObjLoader.oneTriangleThenVertex =
      .ok ObjLoader.oneTriangleThenVertexRun := rfl
  ⟨hrun,
    (loadObj_merges_meshes_by_material ObjLoader.plainLibc ObjLoader.oneTriangleThenVertex
      ObjLoader.oneTriangleThenVertexRun hrun).1,
    (loadObj_merges_meshes_by_material ObjLoader.plainLibc ObjLoader.oneTriangleThenVertex
      ObjLoader.oneTriangleThenVertexRun hrun).2.2.1 0,
    rfl⟩

/-! ## C25: every face line contributes its three vertices -/

/-- C25, the code at the failing input. The file `v 0 0 0`, `vn 0 0 1`,
`f 1//1 1//1 1//1` is well formed and has one face line, yet the scene
`loadObj` returns for it holds no vertex at all: the face is still pending in
`faces` when the loop ends, and nothing flushes it. With one more `v` line
after the face, the same face does reach the scene. -/
theorem loadObj_drops_trailing_faces :
    ObjLoader.faceLines ObjLoader.oneTriangle = 1 ∧
    (ObjLoader.loadObj ObjLoader.plainLibc ObjLoader.oneTriangle).map
      ObjLoader.Scene.vertexCount = .ok 0 ∧
    ObjLoader.faceLines ObjLoader.oneTriangleThenVertex = 1 ∧
    (ObjLoader.loadObj ObjLoader.plainLibc ObjLoader.oneTriangleThenVertex).map
      ObjLoader.Scene.vertexCount = .ok 3 := by
  refine ⟨?_, ?_, ?_, ?_⟩ <;> rfl


end Vulkanisch
